import Mathlib

/-!
LE Audio device group: the CIS identifier lifecycle, the sink strategy, the
selection and the activation of a configuration, and the presentation delay.

A shallow embedding of `system/bta/le_audio/device_groups.cc`, with
`decode_max_power_values` of `system/stack/btm/btm_vendor.cc` and the trimming
of advertising data of `system/gd/hci` at the end of the definitions.

* Pointers to ASEs are indexes into the owning device's `ases_` vector, and
  pointers to devices are indexes into the member list of the group.
* A `std::weak_ptr<LeAudioDevice>` held by a group is an `Option LeAudioDevice`:
  `none` is an expired reference.
* `uint8_t` values are natural numbers reduced `% 256` where they are stored.
* A result of type `Option` is `none` where the C++ dereferences a null pointer,
  indexes a vector out of bounds or fails an `ASSERT_LOG`, and where a loop of
  the embedding runs out of fuel; the theorems show when that does not happen.
* The methods of `LeAudioDevice` (`devices.cc`) used by the group are modelled
  by what their names and the way they are used say.
* A `std::shared_ptr` to a configuration is an `Option` of the address held and
  the configuration stored there; `none` is the null pointer.
* A function that returns `bool` and writes to the group returns the pair of
  its result and the group afterwards.
-/

namespace LeAudio

/-! ## Types declared in headers (`le_audio_types.h`, `raw_address.h`, `devices.h`) -/

/-- Bluetooth device address: the six address bytes packed into one number;
`RawAddress::kEmpty` is the all-zero address. -/
structure RawAddress where
  address : Nat
deriving DecidableEq

/-- The all-zero address `RawAddress::kEmpty`. -/
def RawAddress.kEmpty : RawAddress := ⟨0⟩

/-- The function `RawAddress::IsEmpty`: equality with `kEmpty`. -/
def RawAddress.IsEmpty (a : RawAddress) : Bool := decide (a = RawAddress.kEmpty)

/-- The type `types::CisType`. -/
inductive CisType where
  | CIS_TYPE_BIDIRECTIONAL
  | CIS_TYPE_UNIDIRECTIONAL_SINK
  | CIS_TYPE_UNIDIRECTIONAL_SOURCE
deriving DecidableEq

/-- The type `types::CisState`. -/
inductive CisState where
  | IDLE
  | ASSIGNED
  | CONNECTING
  | CONNECTED
  | DISCONNECTING
deriving DecidableEq

/-- The type `types::DataPathState`. -/
inductive DataPathState where
  | IDLE
  | CONFIGURING
  | CONFIGURED
  | REMOVING
deriving DecidableEq

/-- Direction of an ASE: `types::kLeAudioDirectionSink` or
`types::kLeAudioDirectionSource`. An ASE is created from a sink-ASE or a
source-ASE characteristic, so no third value occurs and the
`ASSERT_LOG(ase->direction == types::kLeAudioDirectionSource, ...)` of
`AssignCisIds` holds by typing. -/
inductive Direction where
  | kLeAudioDirectionSink
  | kLeAudioDirectionSource
deriving DecidableEq

/-- The type `types::LeAudioConfigurationStrategy`. -/
inductive LeAudioConfigurationStrategy where
  | MONO_ONE_CIS_PER_DEVICE
  | STEREO_TWO_CISES_PER_DEVICE
  | STEREO_ONE_CIS_PER_DEVICE
  | RFU
deriving DecidableEq

/-- The type `DeviceConnectState`, reduced to whether the device is `CONNECTED`. -/
inductive DeviceConnectState where
  | CONNECTED
  | DISCONNECTED
deriving DecidableEq

/-- Modelled from the spec: the "invalid sentinel" of an ASE's `cis_id`,
`kInvalidCisId` of `le_audio_types.h` (absent); a `uint8_t`, all bits set. -/
def kInvalidCisId : Nat := 0xFF

/-- The type `types::BidirectionalPair<T>`. -/
structure BidirectionalPair (α : Type) where
  sink : α
  source : α
deriving DecidableEq

/-- The function `BidirectionalPair<T>::get(direction)`. -/
def BidirectionalPair.get {α : Type} (p : BidirectionalPair α) (direction : Direction) : α :=
  match direction with
  | Direction.kLeAudioDirectionSink => p.sink
  | Direction.kLeAudioDirectionSource => p.source

/-- The type `types::AseState`, the stream state of a group. -/
inductive AseState where
  | BTA_LE_AUDIO_ASE_STATE_IDLE
  | BTA_LE_AUDIO_ASE_STATE_CODEC_CONFIGURED
  | BTA_LE_AUDIO_ASE_STATE_QOS_CONFIGURED
  | BTA_LE_AUDIO_ASE_STATE_ENABLING
  | BTA_LE_AUDIO_ASE_STATE_STREAMING
  | BTA_LE_AUDIO_ASE_STATE_DISABLING
  | BTA_LE_AUDIO_ASE_STATE_RELEASING
deriving DecidableEq

/-- The type `set_configurations::AseConfiguration`, one ASE requirement of a
configuration: `codec` stands for the codec description handed to
`GetCodecConfigurationSupportedPac` (with the vendor metadata), and
`channel_count_per_iso_stream` is the `uint8_t` value of
`codec.params.GetAsCoreCodecConfig().GetChannelCountPerIsoStream()`. -/
structure AseConfiguration where
  codec : Nat := 0
  channel_count_per_iso_stream : Nat := 1
deriving DecidableEq

/-- The member `topology_info` of a configuration: per direction the `uint8_t`
number of devices and the strategy the configuration is declared for. -/
structure TopologyInfo where
  device_count : BidirectionalPair Nat
  strategy : BidirectionalPair LeAudioConfigurationStrategy
deriving DecidableEq

/-- The type `set_configurations::AudioSetConfiguration`: an entry of the
configuration catalogue. -/
structure AudioSetConfiguration where
  name : String := ""
  confs : BidirectionalPair (List AseConfiguration) := ⟨[], []⟩
  topology_info : Option TopologyInfo := none
deriving DecidableEq

/-- A non-null `std::shared_ptr<const AudioSetConfiguration>`: the address held,
which is what `get()` compares, and the configuration stored there. -/
structure AudioSetConfigurationPtr where
  address : Nat
  conf : AudioSetConfiguration
deriving DecidableEq

/-- The type `struct types::cis`: one slot of the CIS table. -/
structure cis where
  id : Nat
  type : CisType
  conn_handle : Nat
  addr : RawAddress
deriving DecidableEq

/-- The member `qos_preferences` of `struct types::ase`, restricted to its four
`uint32_t` presentation-delay members and the `uint8_t` bitmask
`preferred_phy`. -/
structure AseQosPreferences where
  pres_delay_min : Nat := 0
  pres_delay_max : Nat := 0
  preferred_pres_delay_min : Nat := 0
  preferred_pres_delay_max : Nat := 0
  preferred_phy : Nat := 0
deriving DecidableEq

/-- The member `qos_config` of `struct types::ase`, restricted to its `uint16_t`
member `max_transport_latency`. -/
structure AseQosConfig where
  max_transport_latency : Nat := 0
deriving DecidableEq

/-- The type `struct types::ase`, restricted to the fields read or written by the
functions embedded here; `channel_count_per_iso_stream` is the `uint8_t` value
of `codec_config.GetAsCoreCodecConfig().GetChannelCountPerIsoStream()`. -/
structure ase where
  id : Nat := 0
  direction : Direction := Direction.kLeAudioDirectionSink
  active : Bool := false
  reconfigure : Nat := 0
  cis_id : Nat := kInvalidCisId
  cis_conn_hdl : Nat := 0
  cis_state : CisState := CisState.IDLE
  data_path_state : DataPathState := DataPathState.IDLE
  qos_preferences : AseQosPreferences := {}
  qos_config : AseQosConfig := {}
  channel_count_per_iso_stream : Nat := 1
deriving DecidableEq

/-- The type `LeAudioDevice`, restricted to the members read or written by the functions
embedded here. `snk_channel_counts_` and `src_channel_counts_` are what
`GetSupportedAudioChannelCounts(direction)` returns (a `uint8_t` bitmap),
`avail_contexts_` what `GetAvailableContexts(direction)` returns and
`supp_contexts_` what `GetSupportedContexts(direction)` returns. -/
structure LeAudioDevice where
  address_ : RawAddress := RawAddress.kEmpty
  connection_state_ : DeviceConnectState := DeviceConnectState.CONNECTED
  ases_ : List ase := []
  snk_audio_locations_ : Nat := 0
  src_audio_locations_ : Nat := 0
  snk_channel_counts_ : Nat := 0
  avail_contexts_ : BidirectionalPair Nat := ⟨0, 0⟩
  src_channel_counts_ : Nat := 0
  supp_contexts_ : BidirectionalPair Nat := ⟨0, 0⟩
  conn_id_ : Nat := 0
  group_id_ : Int := 0
deriving DecidableEq

/-- The type `types::stream_parameters`, restricted to the members read or
written by the functions embedded here: the `int` number of devices, the
`uint8_t` number of channels, the `uint32_t` channel allocation and the vector
of `(cis_handle, audio location)` pairs. -/
structure stream_parameters where
  num_of_devices : Int := 0
  num_of_channels : Nat := 0
  audio_channel_allocation : Nat := 0
  stream_locations : List (Nat × Nat) := []
deriving DecidableEq

/-- The type `LeAudioDeviceGroup::CigConfiguration`: the CIS table. -/
structure CigConfiguration where
  cises : List cis := []
deriving DecidableEq

/-- The type `LeAudioDeviceGroup`, restricted to the members read or written by the
functions embedded here. The `std::map` `context_to_configuration_cache_map`
is the list of its `(key, (is_valid, configuration))` entries, and
`stream_conf_conf` is the member `stream_conf.conf`, with a null `shared_ptr`
as `none`, and `stream_conf_stream_params` the member
`stream_conf.stream_params`. The two transport latencies are `uint32_t`
members, 0 until they are set. -/
structure LeAudioDeviceGroup where
  group_id_ : Int := 0
  leAudioDevices_ : List (Option LeAudioDevice) := []
  strategy_ : Option LeAudioConfigurationStrategy := none
  snk_audio_locations_ : Nat := 0
  src_audio_locations_ : Nat := 0
  cig : CigConfiguration := {}
  current_state_ : AseState := AseState.BTA_LE_AUDIO_ASE_STATE_IDLE
  configuration_context_type_ : Nat := 0
  metadata_context_type_ : BidirectionalPair Nat := ⟨0, 0⟩
  context_to_configuration_cache_map :
    List (Nat × Bool × Option AudioSetConfigurationPtr) := []
  stream_conf_conf : Option AudioSetConfigurationPtr := none
  stream_conf_stream_params : BidirectionalPair stream_parameters := ⟨{}, {}⟩
  transport_latency_mtos_us_ : Nat := 0
  transport_latency_stom_us_ : Nat := 0
deriving DecidableEq

/-- Collaborators that live outside `device_groups.cc`: the coordinated-set
service, the CIS-count heuristic and the audio-location masks. -/
structure Env where
  /-- The value of `CsisClient::Get()->GetDesiredSize(group_id)`, or `none` when
  `CsisClient::IsCsisClientRunning()` is false. -/
  GetDesiredSize : Int → Option Int
  /-- The three out-parameters of `set_configurations::get_cis_count`
  (bidirectional, unidirectional sink, unidirectional source) for
  `(context_type, group_size, strategy, sink ASE count, source ASE count,
  available contexts)`. -/
  get_cis_count : Nat → Int → LeAudioConfigurationStrategy → Int → Int →
    BidirectionalPair Nat → Nat × Nat × Nat
  /-- The mask `codec_spec_conf::kLeAudioLocationAnyLeft`. -/
  kLeAudioLocationAnyLeft : Nat
  /-- The mask `codec_spec_conf::kLeAudioLocationAnyRight`. -/
  kLeAudioLocationAnyRight : Nat
  /-- The method `LeAudioDevice::ActivateConfiguredAses(context_type,
  metadata_context_types, ccid_lists)` of `devices.cc`: whether the device was
  activated, and the device afterwards. -/
  ActivateConfiguredAses : LeAudioDevice → Nat → BidirectionalPair Nat →
    BidirectionalPair (List Nat) → Bool × LeAudioDevice
  /-- The value `GATT_INVALID_CONN_ID`. -/
  GATT_INVALID_CONN_ID : Nat
  /-- The value `LeAudioContextType::RFU`, the default argument of
  `NumOfConnected`. -/
  RFU : Nat
  /-- The value `LeAudioContextType::UNINITIALIZED`. -/
  UNINITIALIZED : Nat
  /-- The value `codec_spec_conf::kLeAudioLocationNotAllowed`. -/
  kLeAudioLocationNotAllowed : Nat
  /-- The value `bluetooth::groups::kGroupUnknown`. -/
  kGroupUnknown : Int
  /-- The value `types::kPresDelayNoPreference`. -/
  kPresDelayNoPreference : Nat
  /-- The function `set_configurations::check_if_may_cover_scenario(audio_set_conf,
  group_size)` for one configuration, on the `int` it is called with. -/
  check_if_may_cover_scenario : AudioSetConfiguration → Int → Bool
  /-- The function `set_configurations::check_if_may_cover_scenario(confs,
  group_size)` for a catalogue, on the `int` it is called with. -/
  check_if_may_cover_scenario_confs : List AudioSetConfiguration → Int → Bool
  /-- Whether `LeAudioDevice::GetCodecConfigurationSupportedPac(context_type,
  direction, ent.codec, ent.vendor_metadata)` returns a PAC record. -/
  GetCodecConfigurationSupportedPac : LeAudioDevice → Nat → Direction →
    AseConfiguration → Bool
  /-- The value of `CodecManager::GetInstance()->IsDualBiDirSwbSupported()`. -/
  IsDualBiDirSwbSupported : Bool
  /-- The function `CodecManager::CheckCodecConfigIsBiDirSwb`. -/
  CheckCodecConfigIsBiDirSwb : AudioSetConfiguration → Bool
  /-- The method `LeAudioDevice::ConfigureAses(audio_set_conf, direction,
  context_type, &active_ase_cnt, group_audio_locations_memo,
  metadata_context_types, ccid_lists, reuse_cis_id)` of `devices.cc`: its
  result, the ASEs of the device afterwards, and the two in-out arguments
  afterwards; the method writes nothing else of the device. -/
  ConfigureAses : LeAudioDevice → AudioSetConfiguration → Direction → Nat → Nat →
    BidirectionalPair Nat → BidirectionalPair Nat → BidirectionalPair (List Nat) → Bool →
    Bool × List ase × Nat × BidirectionalPair Nat
  /-- The call `CodecManager::GetInstance()->GetCodecConfig(ctx_type, verifier)`
  with the verifier `FindFirstSupportedConfiguration` bound to the group in the
  given state: the pointer returned (`none` for null), and what the calls of
  the verifier leave in the `mutable strategy_` member of a group that had no
  cached strategy. -/
  GetCodecConfig : Nat → LeAudioDeviceGroup →
    Option AudioSetConfigurationPtr × Option LeAudioConfigurationStrategy
  /-- The value `types::kMaxTransportLatencyMin`. -/
  kMaxTransportLatencyMin : Nat
  /-- The value `types::kMaxTransportLatencyMax`. -/
  kMaxTransportLatencyMax : Nat
  /-- The value `bluetooth::hci::iso_manager::kIsoSca0To20Ppm`. -/
  kIsoSca0To20Ppm : Nat
  /-- The `uint8_t` value of `BTM_GetPeerSCA(address, BT_TRANSPORT_LE)`. -/
  BTM_GetPeerSCA : RawAddress → Nat
  /-- The value `bluetooth::hci::kIsoCigPhy1M`. -/
  kIsoCigPhy1M : Nat
  /-- The value `bluetooth::hci::kIsoCigPhy2M`. -/
  kIsoCigPhy2M : Nat
  /-- The value of `bluetooth::shim::GetController()->SupportsBle2mPhy()`. -/
  SupportsBle2mPhy : Bool
  /-- The `uint8_t` value of `LeAudioDevice::GetPhyBitmask()` of `devices.cc`. -/
  GetPhyBitmaskOfDevice : LeAudioDevice → Nat
  /-- The `uint8_t` value `types::kLeAudioDirectionSink`. -/
  kLeAudioDirectionSink : Nat
  /-- The `uint8_t` value `types::kLeAudioDirectionSource`. -/
  kLeAudioDirectionSource : Nat

/-! ## Group queries used by `GenerateCisIds` -/

/-- The function `LeAudioDeviceGroup::Size`. -/
def LeAudioDeviceGroup.Size (g : LeAudioDeviceGroup) : Int := g.leAudioDevices_.length

/-- The function `LeAudioDeviceGroup::GetFirstDevice`: the first non-expired member. -/
def LeAudioDeviceGroup.GetFirstDevice (g : LeAudioDeviceGroup) : Option LeAudioDevice :=
  match g.leAudioDevices_.find? (fun d => d.isSome) with
  | some d => d
  | none => none

/-- The function `LeAudioDeviceGroup::GetGroupSinkStrategyFromPacs`; `none` when
`GetFirstDevice()` is null and is dereferenced. -/
def LeAudioDeviceGroup.GetGroupSinkStrategyFromPacs (env : Env) (g : LeAudioDeviceGroup)
    (expected_group_size : Int) : Option LeAudioConfigurationStrategy :=
  if expected_group_size > 1 then
    some LeAudioConfigurationStrategy.MONO_ONE_CIS_PER_DEVICE
  else if (g.snk_audio_locations_ &&& env.kLeAudioLocationAnyLeft) = 0 ∨
      (g.snk_audio_locations_ &&& env.kLeAudioLocationAnyRight) = 0 then
    some LeAudioConfigurationStrategy.MONO_ONE_CIS_PER_DEVICE
  else
    match g.GetFirstDevice with
    | none => none
    | some device =>
      let channel_count_bitmap := device.snk_channel_counts_
      if channel_count_bitmap = 1 then
        some LeAudioConfigurationStrategy.STEREO_TWO_CISES_PER_DEVICE
      else
        some LeAudioConfigurationStrategy.STEREO_ONE_CIS_PER_DEVICE

/-- The function `LeAudioDeviceGroup::GetGroupSinkStrategy`: returns the strategy and the
group with the `mutable strategy_` member filled in. -/
def LeAudioDeviceGroup.GetGroupSinkStrategy (env : Env) (g : LeAudioDeviceGroup) :
    Option (LeAudioConfigurationStrategy × LeAudioDeviceGroup) :=
  match g.strategy_ with
  | some s => some (s, g)
  | none =>
    let expected_group_size := g.Size
    match g.GetGroupSinkStrategyFromPacs env expected_group_size with
    | none => none
    | some s => some (s, { g with strategy_ := some s })

/-- Modelled from the spec: `LeAudioDevice::GetAseCount(direction)` of
`devices.cc` (absent), the "per-direction ASE count" of one device. -/
def LeAudioDevice.GetAseCount (d : LeAudioDevice) (direction : Direction) : Int :=
  (d.ases_.filter (fun a => decide (a.direction = direction))).length

/-- The loop of `LeAudioDeviceGroup::GetAseCount` over a list of weak
references; `device_iter.lock()` is dereferenced without a check, so an expired
reference gives `none`. -/
def GetAseCountLoop (direction : Direction) : List (Option LeAudioDevice) → Int → Option Int
  | [], result => some result
  | none :: _, _ => none
  | some d :: rest, result => GetAseCountLoop direction rest (result + d.GetAseCount direction)

/-- The function `LeAudioDeviceGroup::GetAseCount`. -/
def LeAudioDeviceGroup.GetAseCount (g : LeAudioDeviceGroup) (direction : Direction) :
    Option Int :=
  GetAseCountLoop direction g.leAudioDevices_ 0

/-- The function `LeAudioDeviceGroup::GetLatestAvailableContexts`: the union of the available
contexts of the connected, non-expired members. -/
def LeAudioDeviceGroup.GetLatestAvailableContexts (g : LeAudioDeviceGroup) :
    BidirectionalPair Nat :=
  g.leAudioDevices_.foldl
    (fun contexts device =>
      match device with
      | some d =>
        if d.connection_state_ = DeviceConnectState.CONNECTED then
          ⟨contexts.sink ||| d.avail_contexts_.sink,
           contexts.source ||| d.avail_contexts_.source⟩
        else contexts
      | none => contexts)
    ⟨0, 0⟩

/-! ## `CigConfiguration::GenerateCisIds` -/

/-- One of the three `while (count > 0)` loops of `GenerateCisIds`: appends
`count` entries of the given type with ids `idx`, `idx + 1`, ... (`idx` is a
`uint8_t`), and returns the new `idx` with the table. -/
def pushCisEntries : Nat → CisType → Nat → List cis → Nat × List cis
  | 0, _, idx, cises => (idx, cises)
  | count + 1, type, idx, cises =>
    pushCisEntries count type ((idx + 1) % 256)
      (cises ++ [{ id := idx, type := type, conn_handle := 0, addr := RawAddress.kEmpty }])

/-- The arguments handed to `get_cis_count` by `GenerateCisIds`: group size,
sink strategy, the two ASE counts and the available contexts, with the group
after `GetGroupSinkStrategy()`. -/
def cisCountArguments (env : Env) (g : LeAudioDeviceGroup) :
    Option ((Int × LeAudioConfigurationStrategy × Int × Int × BidirectionalPair Nat) ×
      LeAudioDeviceGroup) :=
  let csis_group_size : Int :=
    match env.GetDesiredSize g.group_id_ with
    | some n => n
    | none => 0
  let group_size : Int := if csis_group_size > 0 then csis_group_size else 1
  match g.GetGroupSinkStrategy env with
  | none => none
  | some (strategy, g1) =>
    match g1.GetAseCount Direction.kLeAudioDirectionSink,
          g1.GetAseCount Direction.kLeAudioDirectionSource with
    | some snk, some src =>
      some ((group_size, strategy, snk, src, g1.GetLatestAvailableContexts), g1)
    | _, _ => none

/-- The function `CigConfiguration::GenerateCisIds(context_type)` on the owning group. -/
def GenerateCisIds (env : Env) (context_type : Nat) (g : LeAudioDeviceGroup) :
    Option LeAudioDeviceGroup :=
  if g.cig.cises.length > 0 then
    some g
  else
    match cisCountArguments env g with
    | none => none
    | some ((group_size, strategy, snk, src, avail), g1) =>
      let counts := env.get_cis_count context_type group_size strategy snk src avail
      let cis_count_bidir := counts.1 % 256
      let cis_count_unidir_sink := counts.2.1 % 256
      let cis_count_unidir_source := counts.2.2 % 256
      let r1 := pushCisEntries cis_count_bidir CisType.CIS_TYPE_BIDIRECTIONAL 0 g1.cig.cises
      let r2 := pushCisEntries cis_count_unidir_sink CisType.CIS_TYPE_UNIDIRECTIONAL_SINK
        r1.1 r1.2
      let r3 := pushCisEntries cis_count_unidir_source CisType.CIS_TYPE_UNIDIRECTIONAL_SOURCE
        r2.1 r2.2
      some { g1 with cig := { cises := r3.2 } }

/-! ## Traversal of a device's ASEs (`devices.cc`) -/

/-- The search `std::find_if(first + start, last, p)` over a vector: the least
index `i` with `start ≤ i` whose element satisfies `p`, or `none` for `last`. -/
def findIfFrom {α : Type} (p : α → Bool) (l : List α) (start : Nat) : Option Nat :=
  (List.range l.length).find? (fun i => decide (start ≤ i) && (l[i]?).any p)

/-- Modelled from the spec: `LeAudioDevice::GetFirstActiveAse` of `devices.cc`
(absent): the first ASE of the device "in its native order" that is active. -/
def LeAudioDevice.GetFirstActiveAse (d : LeAudioDevice) : Option Nat :=
  findIfFrom (fun a => a.active) d.ases_ 0

/-- Modelled from the spec: `LeAudioDevice::GetNextActiveAse(base_ase)` of
`devices.cc` (absent): the next active ASE after `base_ase` "in its native
order". -/
def LeAudioDevice.GetNextActiveAse (d : LeAudioDevice) (base_ase : Nat) : Option Nat :=
  findIfFrom (fun a => a.active) d.ases_ (base_ase + 1)

/-- Modelled from the spec: `LeAudioDevice::GetNextActiveAseWithDifferentDirection`
of `devices.cc` (absent): "an active ASE of the opposite direction on the same
device", the next one after `base_ase` as the name says. -/
def LeAudioDevice.GetNextActiveAseWithDifferentDirection (d : LeAudioDevice)
    (base_ase : Nat) : Option Nat :=
  match d.ases_[base_ase]? with
  | none => none
  | some b => findIfFrom (fun a => a.active && decide (a.direction ≠ b.direction)) d.ases_
      (base_ase + 1)

/-- Modelled from the spec: `LeAudioDevice::GetNextActiveAseWithSameDirection`
of `devices.cc` (absent): the next active ASE after `base_ase` with the
direction of `base_ase`. -/
def LeAudioDevice.GetNextActiveAseWithSameDirection (d : LeAudioDevice)
    (base_ase : Nat) : Option Nat :=
  match d.ases_[base_ase]? with
  | none => none
  | some b => findIfFrom (fun a => a.active && decide (a.direction = b.direction)) d.ases_
      (base_ase + 1)

/-- Modelled from the spec: `LeAudioDevice::HaveActiveAse` of `devices.cc`
(absent): whether some ASE of the device is active. -/
def LeAudioDevice.HaveActiveAse (d : LeAudioDevice) : Bool :=
  d.ases_.any (fun a => a.active)

/-- Modelled from the spec: `LeAudioDevice::GetFirstActiveAseByCisAndDataPathState`
of `devices.cc` (absent): the first "active ASE whose CIS/data-path state" is
the given pair. -/
def LeAudioDevice.GetFirstActiveAseByCisAndDataPathState (d : LeAudioDevice)
    (cis_state : CisState) (data_path_state : DataPathState) : Option Nat :=
  findIfFrom
    (fun a => a.active && decide (a.data_path_state = data_path_state) &&
      decide (a.cis_state = cis_state))
    d.ases_ 0

/-- A loop over a whole vector that overwrites its result at every element
satisfying `p`: `i` is the index of the head of the list, `r` the result so
far. -/
def findLastLoop {α : Type} (p : α → Bool) : List α → Nat → Option Nat → Option Nat
  | [], _, r => r
  | a :: rest, i, r => findLastLoop p rest (i + 1) (if p a then some i else r)

/-- The last index of `l` whose element satisfies `p`. -/
def findLast {α : Type} (p : α → Bool) (l : List α) : Option Nat :=
  findLastLoop p l 0 none

/-- Modelled from the spec: `LeAudioDevice::GetAsesByCisId(cis_id)` of
`devices.cc` (absent): the sink ASE and the source ASE of the device that hold
`cis_id`; the loop runs over all ASEs, so the last hit of a direction wins. -/
def LeAudioDevice.GetAsesByCisId (d : LeAudioDevice) (cis_id : Nat) :
    BidirectionalPair (Option Nat) :=
  { sink := findLast
      (fun a => decide (a.cis_id = cis_id) &&
        decide (a.direction = Direction.kLeAudioDirectionSink)) d.ases_
    source := findLast
      (fun a => decide (a.cis_id = cis_id) &&
        decide (a.direction ≠ Direction.kLeAudioDirectionSink)) d.ases_ }

/-! ## `CigConfiguration::GetFirstFreeCisId` and `AssignCisIds` -/

/-- The function `CigConfiguration::GetFirstFreeCisId(cis_type)`: the index of the first
slot without a bound device and of the given type, returned as a `uint8_t`;
`kInvalidCisId` when there is none. -/
def GetFirstFreeCisId (cises : List cis) (cis_type : CisType) : Nat :=
  match findIfFrom (fun c => c.addr.IsEmpty && decide (c.type = cis_type)) cises 0 with
  | some id => id % 256
  | none => kInvalidCisId

/-- The write `ase->cis_id = cis_id` through a pointer to the ASE at `i`. -/
def LeAudioDevice.setAseCisId (d : LeAudioDevice) (i : Nat) (cis_id : Nat) : LeAudioDevice :=
  { d with ases_ := d.ases_.modify (fun a => { a with cis_id := cis_id }) i }

/-- The write `cises[cis_id].addr = addr`; `none` when `cis_id` is out of
bounds. -/
def setCisAddr (cises : List cis) (cis_id : Nat) (addr : RawAddress) : Option (List cis) :=
  if cis_id < cises.length then
    some (cises.modify (fun c => { c with addr := addr }) cis_id)
  else none

/-- The block "CIS ID already set" of `AssignCisIds` for the ASE `a`:
`some none` for its `continue`, otherwise `some (some cis_id)` with the value
of the local `cis_id` after the block; `none` when `cises[ase->cis_id]` is out
of bounds. -/
def existingCisId (a : ase) (cises : List cis) : Option (Option Nat) :=
  if a.cis_id ≠ kInvalidCisId then
    match cises[a.cis_id]? with
    | none => none
    | some c => if !c.addr.IsEmpty then some none else some (some a.cis_id)
  else some (some kInvalidCisId)

/-- The inner `for` loop of `AssignCisIds` over `matching_bidir_ase`: skips the
candidates that hold another CIS id. The fuel bounds the number of candidates
and `none` is returned when it runs out. -/
def matchingBidirAseLoop (d : LeAudioDevice) (cis_id : Nat) :
    Nat → Option Nat → Option (Option Nat)
  | _, none => some none
  | 0, some _ => none
  | fuel + 1, some m =>
    match d.ases_[m]? with
    | none => none
    | some matching_bidir_ase =>
      if matching_bidir_ase.cis_id ≠ kInvalidCisId ∧ matching_bidir_ase.cis_id ≠ cis_id then
        matchingBidirAseLoop d cis_id fuel (d.GetNextActiveAseWithSameDirection m)
      else some (some m)

/-- The two unidirectional blocks of `AssignCisIds` (the sink block with
`CIS_TYPE_UNIDIRECTIONAL_SINK`, the source block with
`CIS_TYPE_UNIDIRECTIONAL_SOURCE`): the Boolean is `false` for `return false`. -/
def assignUnidirectional (d : LeAudioDevice) (cises : List cis) (i : Nat) (cis_id : Nat)
    (cis_type : CisType) : Option (Bool × LeAudioDevice × List cis) :=
  let cis_id1 := if cis_id = kInvalidCisId then GetFirstFreeCisId cises cis_type else cis_id
  if cis_id1 = kInvalidCisId then
    let cis_id2 := GetFirstFreeCisId cises CisType.CIS_TYPE_BIDIRECTIONAL
    if cis_id2 = kInvalidCisId then
      some (false, d, cises)
    else
      match setCisAddr cises cis_id2 d.address_ with
      | none => none
      | some cises1 => some (true, d.setAseCisId i cis_id2, cises1)
  else
    match setCisAddr cises cis_id1 d.address_ with
    | none => none
    | some cises1 => some (true, d.setAseCisId i cis_id1, cises1)

/-- The body of the outer `for` loop of `AssignCisIds` for the ASE at index
`i`: `some (true, ..)` when the loop goes on, `some (false, ..)` for
`return false`. -/
def assignCisIdBody (d : LeAudioDevice) (cises : List cis) (i : Nat) :
    Option (Bool × LeAudioDevice × List cis) :=
  match d.ases_[i]? with
  | none => none
  | some a =>
    match existingCisId a cises with
    | none => none
    | some none => some (true, d, cises)
    | some (some cis_id) =>
      match matchingBidirAseLoop d cis_id d.ases_.length
          (d.GetNextActiveAseWithDifferentDirection i) with
      | none => none
      | some (some m) =>
        let cis_id1 :=
          if cis_id = kInvalidCisId then
            GetFirstFreeCisId cises CisType.CIS_TYPE_BIDIRECTIONAL
          else cis_id
        if cis_id1 ≠ kInvalidCisId then
          match setCisAddr cises cis_id1 d.address_ with
          | none => none
          | some cises1 => some (true, (d.setAseCisId i cis_id1).setAseCisId m cis_id1, cises1)
        else if a.direction = Direction.kLeAudioDirectionSink then
          assignUnidirectional d cises i cis_id1 CisType.CIS_TYPE_UNIDIRECTIONAL_SINK
        else
          assignUnidirectional d cises i cis_id1 CisType.CIS_TYPE_UNIDIRECTIONAL_SOURCE
      | some none =>
        if a.direction = Direction.kLeAudioDirectionSink then
          assignUnidirectional d cises i cis_id CisType.CIS_TYPE_UNIDIRECTIONAL_SINK
        else
          assignUnidirectional d cises i cis_id CisType.CIS_TYPE_UNIDIRECTIONAL_SOURCE

/-- The outer `for (; ase != nullptr; ase = GetNextActiveAse(ase))` loop of
`AssignCisIds`. The fuel bounds the number of ASEs visited and `none` is
returned when it runs out. -/
def assignCisIdsLoop : Nat → Option Nat → LeAudioDevice → List cis →
    Option (Bool × LeAudioDevice × List cis)
  | _, none, d, cises => some (true, d, cises)
  | 0, some _, _, _ => none
  | fuel + 1, some i, d, cises =>
    match assignCisIdBody d cises i with
    | none => none
    | some (false, d1, cises1) => some (false, d1, cises1)
    | some (true, d1, cises1) => assignCisIdsLoop fuel (d1.GetNextActiveAse i) d1 cises1

/-- The function `CigConfiguration::AssignCisIds(leAudioDevice)`: the returned Boolean with
the device and the table afterwards. -/
def AssignCisIds (cig : CigConfiguration) (leAudioDevice : LeAudioDevice) :
    Option (Bool × LeAudioDevice × CigConfiguration) :=
  match leAudioDevice.GetFirstActiveAse with
  | none => some (false, leAudioDevice, cig)
  | some i =>
    match assignCisIdsLoop leAudioDevice.ases_.length (some i) leAudioDevice cig.cises with
    | none => none
    | some (r, d1, cises1) => some (r, d1, { cises := cises1 })

/-! ## `LeAudioDeviceGroup::Activate` -/

/-- The loop of `Activate` over the members: `done` are the members already
visited, in order. -/
def activateLoop (env : Env) (context_type : Nat)
    (metadata_context_types : BidirectionalPair Nat)
    (ccid_lists : BidirectionalPair (List Nat)) :
    List (Option LeAudioDevice) → List (Option LeAudioDevice) → CigConfiguration → Bool →
    Option (Bool × List (Option LeAudioDevice) × CigConfiguration)
  | [], done, cig, is_activate => some (is_activate, done, cig)
  | none :: rest, done, cig, is_activate =>
    activateLoop env context_type metadata_context_types ccid_lists rest (done ++ [none]) cig
      is_activate
  | some leAudioDevice :: rest, done, cig, is_activate =>
    let r := env.ActivateConfiguredAses leAudioDevice context_type metadata_context_types
      ccid_lists
    if r.1 then
      match AssignCisIds cig r.2 with
      | none => none
      | some (false, d1, cig1) => some (false, done ++ some d1 :: rest, cig1)
      | some (true, d1, cig1) =>
        activateLoop env context_type metadata_context_types ccid_lists rest
          (done ++ [some d1]) cig1 true
    else
      activateLoop env context_type metadata_context_types ccid_lists rest
        (done ++ [some r.2]) cig is_activate

/-- The function `LeAudioDeviceGroup::Activate`. -/
def LeAudioDeviceGroup.Activate (env : Env) (g : LeAudioDeviceGroup) (context_type : Nat)
    (metadata_context_types : BidirectionalPair Nat)
    (ccid_lists : BidirectionalPair (List Nat)) : Option (Bool × LeAudioDeviceGroup) :=
  match activateLoop env context_type metadata_context_types ccid_lists g.leAudioDevices_ []
      g.cig false with
  | none => none
  | some (r, devices, cig1) => some (r, { g with leAudioDevices_ := devices, cig := cig1 })

/-! ## Connection handles -/

/-- The loop of `AssignCisConnHandles` from slot `i` on: `none` when
`conn_handles[i]` is read out of bounds. -/
def assignCisConnHandlesLoop (conn_handles : List Nat) : List cis → Nat → Option (List cis)
  | [], _ => some []
  | c :: rest, i =>
    match conn_handles[i]? with
    | none => none
    | some h =>
      match assignCisConnHandlesLoop conn_handles rest (i + 1) with
      | none => none
      | some rest1 => some ({ c with conn_handle := h } :: rest1)

/-- The function `CigConfiguration::AssignCisConnHandles(conn_handles)`. -/
def AssignCisConnHandles (cig : CigConfiguration) (conn_handles : List Nat) :
    Option CigConfiguration :=
  match assignCisConnHandlesLoop conn_handles cig.cises 0 with
  | none => none
  | some cises1 => some { cises := cises1 }

/-- The two writes `x->cis_conn_hdl = hdl; x->cis_state = CisState::ASSIGNED`
through a pointer to the ASE at `i`. -/
def LeAudioDevice.setAseCisConnHdl (d : LeAudioDevice) (i : Nat) (hdl : Nat) : LeAudioDevice :=
  let write := fun (a : ase) => { a with cis_conn_hdl := hdl, cis_state := CisState.ASSIGNED }
  { d with ases_ := d.ases_.modify write i }

/-- One `if (ases_pair.x && ases_pair.x->active)` block of
`AssignCisConnHandlesToAses(leAudioDevice)`; `none` when `cig.cises[cis_id]` is
read out of bounds. -/
def assignHandleToPairMember (cises : List cis) (d : LeAudioDevice) (member : Option Nat)
    (cis_id : Nat) : Option LeAudioDevice :=
  match member with
  | none => some d
  | some j =>
    match d.ases_[j]? with
    | none => none
    | some x =>
      if x.active then
        match cises[cis_id]? with
        | none => none
        | some c => some (d.setAseCisConnHdl j c.conn_handle)
      else some d

/-- The body of the loop of `AssignCisConnHandlesToAses(leAudioDevice)` for the
ASE at index `i`. -/
def assignCisConnHandlesToAsesBody (cises : List cis) (d : LeAudioDevice) (i : Nat) :
    Option LeAudioDevice :=
  match d.ases_[i]? with
  | none => none
  | some a =>
    let ases_pair := d.GetAsesByCisId a.cis_id
    match assignHandleToPairMember cises d ases_pair.sink a.cis_id with
    | none => none
    | some d1 => assignHandleToPairMember cises d1 ases_pair.source a.cis_id

/-- The loop of `AssignCisConnHandlesToAses(leAudioDevice)`: runs while the
device has an active ASE with CIS and data-path state `IDLE`. `none` is
returned when the fuel runs out. -/
def assignCisConnHandlesToAsesLoop (cises : List cis) : Nat → LeAudioDevice →
    Option LeAudioDevice
  | fuel, d =>
    match d.GetFirstActiveAseByCisAndDataPathState CisState.IDLE DataPathState.IDLE with
    | none => some d
    | some i =>
      match fuel with
      | 0 => none
      | fuel1 + 1 =>
        match assignCisConnHandlesToAsesBody cises d i with
        | none => none
        | some d1 => assignCisConnHandlesToAsesLoop cises fuel1 d1

/-- The function `LeAudioDeviceGroup::AssignCisConnHandlesToAses(leAudioDevice)`. -/
def AssignCisConnHandlesToAsesOfDevice (cig : CigConfiguration) (leAudioDevice : LeAudioDevice) :
    Option LeAudioDevice :=
  assignCisConnHandlesToAsesLoop cig.cises leAudioDevice.ases_.length leAudioDevice

/-- Whether the member at index `k` is a non-expired device with an active
ASE: the predicate of `GetFirstActiveDevice` and `GetNextActiveDevice`. -/
def isActiveMember (d : Option LeAudioDevice) : Bool :=
  match d with
  | none => false
  | some dev => dev.HaveActiveAse

/-- The function `LeAudioDeviceGroup::GetFirstActiveDevice`, as an index into the member
list. -/
def LeAudioDeviceGroup.GetFirstActiveDevice (g : LeAudioDeviceGroup) : Option Nat :=
  findIfFrom isActiveMember g.leAudioDevices_ 0

/-- The function `LeAudioDeviceGroup::GetNextActiveDevice(leAudioDevice)` for the member at
index `k`. -/
def LeAudioDeviceGroup.GetNextActiveDevice (g : LeAudioDeviceGroup) (k : Nat) : Option Nat :=
  findIfFrom isActiveMember g.leAudioDevices_ (k + 1)

/-- The loop of `LeAudioDeviceGroup::AssignCisConnHandlesToAses(void)` over the
active members. `none` is returned when the fuel runs out. -/
def assignCisConnHandlesToAsesGroupLoop : Nat → Option Nat → LeAudioDeviceGroup →
    Option LeAudioDeviceGroup
  | _, none, g => some g
  | 0, some _, _ => none
  | fuel + 1, some k, g =>
    match g.leAudioDevices_[k]? with
    | some (some d) =>
      match AssignCisConnHandlesToAsesOfDevice g.cig d with
      | none => none
      | some d1 =>
        let g1 := { g with leAudioDevices_ := g.leAudioDevices_.set k (some d1) }
        assignCisConnHandlesToAsesGroupLoop fuel (g1.GetNextActiveDevice k) g1
    | _ => none

/-- The function `LeAudioDeviceGroup::AssignCisConnHandlesToAses(void)`; `none` when the
`ASSERT_LOG` on the first active device fails. -/
def LeAudioDeviceGroup.AssignCisConnHandlesToAses (g : LeAudioDeviceGroup) :
    Option LeAudioDeviceGroup :=
  match g.GetFirstActiveDevice with
  | none => none
  | some k => assignCisConnHandlesToAsesGroupLoop g.leAudioDevices_.length (some k) g

/-! ## `CigConfiguration::UnassignCis` -/

/-- The function `CigConfiguration::UnassignCis(leAudioDevice)`. -/
def UnassignCis (cig : CigConfiguration) (leAudioDevice : LeAudioDevice) : CigConfiguration :=
  { cises := cig.cises.map (fun cis_entry =>
      if cis_entry.addr = leAudioDevice.address_ then
        { cis_entry with addr := RawAddress.kEmpty }
      else cis_entry) }

/-- The function `LeAudioDeviceGroup::ClearAllCises`, as far as the CIS table goes. -/
def LeAudioDeviceGroup.ClearAllCises (g : LeAudioDeviceGroup) : LeAudioDeviceGroup :=
  { g with cig := { cises := [] } }

/-! ## Vocabulary of the statements -/

/-- The type of the slot at index `i` of a table generated for the counts
`(b, s, r)`: bidirectional first, then sink, then source. -/
def slotType (b s i : Nat) : CisType :=
  if i < b then CisType.CIS_TYPE_BIDIRECTIONAL
  else if i < b + s then CisType.CIS_TYPE_UNIDIRECTIONAL_SINK
  else CisType.CIS_TYPE_UNIDIRECTIONAL_SOURCE

/-- The unidirectional CIS type of an ASE direction. -/
def uniType (direction : Direction) : CisType :=
  match direction with
  | Direction.kLeAudioDirectionSink => CisType.CIS_TYPE_UNIDIRECTIONAL_SINK
  | Direction.kLeAudioDirectionSource => CisType.CIS_TYPE_UNIDIRECTIONAL_SOURCE

/-- The table after the write `cises[cis_id].addr = addr`. -/
def bindCis (cises : List cis) (cis_id : Nat) (addr : RawAddress) : List cis :=
  cises.modify (fun c => { c with addr := addr }) cis_id

/-- What a pass of the body leaves alone in the device: the address, and of
every ASE everything but its `cis_id`. -/
def sameButCisId (d d1 : LeAudioDevice) : Prop :=
  d1.address_ = d.address_ ∧
    ∀ n : Nat, (d1.ases_[n]?).map (fun a => { a with cis_id := 0 }) =
      (d.ases_[n]?).map (fun a => { a with cis_id := 0 })

/-- Every CIS id held by an ASE of the device indexes a slot that is free or
bound to the device. -/
def heldSlotsOwn (d : LeAudioDevice) (cises : List cis) : Prop :=
  ∀ (n : Nat) (a : ase), d.ases_[n]? = some a → a.cis_id ≠ kInvalidCisId →
    ∃ c, cises[a.cis_id]? = some c ∧ (c.addr = RawAddress.kEmpty ∨ c.addr = d.address_)

/-- The ASE at `n` holds a valid CIS id whose slot is bound to the device. -/
def aseBound (n : Nat) (d : LeAudioDevice) (cises : List cis) : Prop :=
  ∀ a, d.ases_[n]? = some a →
    a.cis_id ≠ kInvalidCisId ∧ a.cis_id < cises.length ∧
      ∃ c, cises[a.cis_id]? = some c ∧ c.addr = d.address_

/-- Every CIS id held by an ASE of the device indexes the table. -/
def cisIdsInTable (d : LeAudioDevice) (cises : List cis) : Prop :=
  ∀ (n : Nat) (a : ase), d.ases_[n]? = some a → a.cis_id ≠ kInvalidCisId →
    a.cis_id < cises.length

/-- No free slot of the table is usable for an ASE of the given direction:
neither one of its unidirectional type nor a bidirectional one. -/
def noUsableSlot (direction : Direction) (cises : List cis) : Prop :=
  ∀ (j : Nat) (c : cis), cises[j]? = some c → c.addr = RawAddress.kEmpty →
    c.type ≠ uniType direction ∧ c.type ≠ CisType.CIS_TYPE_BIDIRECTIONAL

/-- The loop of `Activate` gets through the members `members` without a failure
of `AssignCisIds`, turning them into `visited` and the table `cig` into `cig1`:
every member is handed to `ActivateConfiguredAses`, and every activated member
to `AssignCisIds`, which returns `true`. -/
def activatedAll (env : Env) (context_type : Nat)
    (metadata_context_types : BidirectionalPair Nat)
    (ccid_lists : BidirectionalPair (List Nat)) :
    List (Option LeAudioDevice) → CigConfiguration → List (Option LeAudioDevice) →
      CigConfiguration → Prop
  | [], cig, visited, cig1 => visited = [] ∧ cig1 = cig
  | none :: rest, cig, visited, cig1 =>
    ∃ t, visited = none :: t ∧
      activatedAll env context_type metadata_context_types ccid_lists rest cig t cig1
  | some dev :: rest, cig, visited, cig1 =>
    if (env.ActivateConfiguredAses dev context_type metadata_context_types ccid_lists).1 then
      ∃ d1 cig0 t,
        AssignCisIds cig
          (env.ActivateConfiguredAses dev context_type metadata_context_types ccid_lists).2 =
          some (true, d1, cig0) ∧
        visited = some d1 :: t ∧
        activatedAll env context_type metadata_context_types ccid_lists rest cig0 t cig1
    else
      ∃ t, visited =
          some (env.ActivateConfiguredAses dev context_type metadata_context_types
            ccid_lists).2 :: t ∧
        activatedAll env context_type metadata_context_types ccid_lists rest cig t cig1

/-- The ASE `x` after the two writes of `AssignCisConnHandlesToAses`, with the
handle of the slot its CIS id indexes. -/
def assignedAse (cises : List cis) (x : ase) : Option ase :=
  (cises[x.cis_id]?).map
    (fun c => { x with cis_conn_hdl := c.conn_handle, cis_state := CisState.ASSIGNED })

/-- The device `d1` is `d` with some of its active ASEs given the handle of
their slot and the CIS state `ASSIGNED`. -/
def handlesGiven (cises : List cis) (d d1 : LeAudioDevice) : Prop :=
  d1 = { d with ases_ := d1.ases_ } ∧ d1.ases_.length = d.ases_.length ∧
    ∀ (n : Nat) (x : ase), d.ases_[n]? = some x →
      d1.ases_[n]? = some x ∨
        (x.active = true ∧ ∃ y, assignedAse cises x = some y ∧ d1.ases_[n]? = some y)

/-- No other ASE of the device has the direction and the CIS id of an active
ASE. -/
def pairUnique (d : LeAudioDevice) : Prop :=
  ∀ (i j : Nat) (a b : ase), d.ases_[i]? = some a → d.ases_[j]? = some b →
    a.active = true → b.cis_id = a.cis_id → b.direction = a.direction → j = i

/-- The CIS id of every active ASE of the device indexes a table of `size`
slots. -/
def activeInTable (d : LeAudioDevice) (size : Nat) : Prop :=
  ∀ (n : Nat) (a : ase), d.ases_[n]? = some a → a.active = true → a.cis_id < size

/-- The filter of `GetFirstActiveAseByCisAndDataPathState(IDLE, IDLE)`. -/
def idleActive (a : ase) : Bool :=
  a.active && decide (a.data_path_state = DataPathState.IDLE) &&
    decide (a.cis_state = CisState.IDLE)

/-- Some active ASE of the device with CIS and data-path state `IDLE` holds the
CIS id of the ASE `x`. -/
def sharesCisIdWithIdle (d : LeAudioDevice) (x : ase) : Bool :=
  d.ases_.any (fun y => idleActive y && decide (y.cis_id = x.cis_id))

/-- The ASE `x` after the passes of the loop of `AssignCisConnHandlesToAses`
for the CIS ids of `served`: given the handle of its slot when it is active and
holds one of these CIS ids, as it was otherwise. -/
def servedFor (cises : List cis) (served : List Nat) (x : ase) : Option ase :=
  if x.active = true ∧ x.cis_id ∈ served then assignedAse cises x else some x

/-- The ASE `x` of the device `d` after `AssignCisConnHandlesToAses(d)`: given
the handle of its slot and the CIS state `ASSIGNED` when it is active and
shares its CIS id with an active ASE of `d` with CIS and data-path state
`IDLE` (which it may be itself), as it was otherwise. -/
def servedAse (cises : List cis) (d : LeAudioDevice) (x : ase) : Option ase :=
  if x.active = true ∧ sharesCisIdWithIdle d x = true then assignedAse cises x else some x

/-- The member `m` is the member `m0` after `AssignCisConnHandlesToAses`: an
expired reference stays expired, and a device has its active ASEs with CIS and
data-path state `IDLE` given their handle; each of its ASEs is as `servedAse`
says. -/
def memberServed (cises : List cis) (m0 m : Option LeAudioDevice) : Prop :=
  match m0, m with
  | none, none => True
  | some d, some d2 =>
    handlesGiven cises d d2 ∧
      (∀ (n : Nat) (x : ase), d.ases_[n]? = some x → idleActive x = true →
        ∃ y, assignedAse cises x = some y ∧ d2.ases_[n]? = some y) ∧
      ∀ (n : Nat) (x : ase), d.ases_[n]? = some x → d2.ases_[n]? = servedAse cises d x
  | _, _ => False

/-! ## Concrete inputs used to exercise the embedding -/

/-- A collaborator set: a coordinated set of two, a heuristic asking for one
bidirectional CIS and one sink CIS per set member, left = bit 0, right = bit 1,
and an activation that reports whether the device has an active ASE. A
scenario is covered by a non-zero device count (and a non-empty catalogue),
every codec is supported, a device is configured for a direction when it has an
ASE of that direction, all of which become active, and the codec manager has
no configuration to offer. The transport latency is kept between 5 and 4000,
the sleep clock accuracy of a peer is the low byte of its address, and the
controller and every device support the 1M and the 2M PHY, bits 0 and 1. The
sink direction is the value 1 and the source direction the value 2. -/
def exampleEnv : Env :=
  { GetDesiredSize := fun _ => some 2
    get_cis_count := fun _ group_size _ _ _ _ => (1, group_size.toNat, 0)
    kLeAudioLocationAnyLeft := 1
    kLeAudioLocationAnyRight := 2
    ActivateConfiguredAses := fun d _ _ _ => (d.HaveActiveAse, d)
    GATT_INVALID_CONN_ID := 0xFFFF
    RFU := 0x1000
    UNINITIALIZED := 0
    kLeAudioLocationNotAllowed := 0
    kGroupUnknown := -1
    kPresDelayNoPreference := 0
    check_if_may_cover_scenario := fun _ group_size => decide (group_size > 0)
    check_if_may_cover_scenario_confs := fun confs group_size =>
      decide (group_size > 0) && !confs.isEmpty
    GetCodecConfigurationSupportedPac := fun _ _ _ _ => true
    IsDualBiDirSwbSupported := true
    CheckCodecConfigIsBiDirSwb := fun _ => false
    ConfigureAses := fun d _ direction _ active_ase_cnt memo _ _ _ =>
      (d.ases_.any (fun a => decide (a.direction = direction)),
       d.ases_.map (fun a => if a.direction = direction then { a with active := true } else a),
       (active_ase_cnt + 1) % 256, memo)
    GetCodecConfig := fun _ g => (none, g.strategy_)
    kMaxTransportLatencyMin := 5
    kMaxTransportLatencyMax := 4000
    kIsoSca0To20Ppm := 7
    BTM_GetPeerSCA := fun address => address.address % 256
    kIsoCigPhy1M := 1
    kIsoCigPhy2M := 2
    SupportsBle2mPhy := true
    GetPhyBitmaskOfDevice := fun _ => 3
    kLeAudioDirectionSink := 1
    kLeAudioDirectionSource := 2 }

/-- A collaborator set whose heuristic asks for 255 bidirectional and 2 sink
CISes. -/
def wideEnv : Env :=
  { exampleEnv with get_cis_count := fun _ _ _ _ _ _ => (255, 2, 0) }

/-- A free slot of the given type. -/
def freeCis (id : Nat) (type : CisType) : cis :=
  { id := id, type := type, conn_handle := 0, addr := RawAddress.kEmpty }

/-- A device at address 5 with an active sink ASE and an active source ASE,
neither with a CIS id. -/
def headsetDevice : LeAudioDevice :=
  { address_ := ⟨5⟩
    ases_ := [{ id := 1, active := true },
              { id := 2, active := true, direction := Direction.kLeAudioDirectionSource }] }

/-- A device at address 6 with one active sink ASE without a CIS id. -/
def earbudDevice : LeAudioDevice :=
  { address_ := ⟨6⟩, ases_ := [{ id := 1, active := true }] }

/-- A device at address 7 none of whose ASEs is active. -/
def idleDevice : LeAudioDevice :=
  { address_ := ⟨7⟩, ases_ := [{ id := 1 }] }

/-- A table of 256 slots: 255 unidirectional sink slots bound to the device at
address 9, then a free slot of the given type at index 255. -/
def fullTable (last : CisType) : CigConfiguration :=
  { cises := (List.range 255).map
      (fun i => { id := i, type := CisType.CIS_TYPE_UNIDIRECTIONAL_SINK, conn_handle := 0,
                  addr := ⟨9⟩ }) ++ [freeCis 255 last] }

/-- A device at address 8 with one active source ASE without a CIS id. -/
def micDevice : LeAudioDevice :=
  { address_ := ⟨8⟩
    ases_ := [{ id := 1, active := true, direction := Direction.kLeAudioDirectionSource }] }

/-- The second earbud of a pair: as `earbudDevice`, at address 7. -/
def secondEarbud : LeAudioDevice :=
  { earbudDevice with address_ := ⟨7⟩ }

/-- A group of two earbuds whose table has a single, free sink slot. -/
def earbudGroup : LeAudioDeviceGroup :=
  { leAudioDevices_ := [some earbudDevice, some secondEarbud]
    cig := { cises := [freeCis 0 CisType.CIS_TYPE_UNIDIRECTIONAL_SINK] } }

/-- The table of `earbudGroup` with its slot bound to the first earbud. -/
def earbudTableBound : CigConfiguration :=
  { cises := [{ freeCis 0 CisType.CIS_TYPE_UNIDIRECTIONAL_SINK with
                addr := earbudDevice.address_ }] }

/-- The first earbud with its ASE holding CIS id 0. -/
def boundEarbud : LeAudioDevice :=
  { address_ := ⟨6⟩, ases_ := [{ id := 1, active := true, cis_id := 0 }] }

/-- The first earbud with its ASE holding CIS id 0, the CIS being connected
already. -/
def connectedEarbud : LeAudioDevice :=
  { address_ := ⟨6⟩
    ases_ := [{ id := 1, active := true, cis_id := 0, cis_state := CisState.CONNECTED }] }

/-! ## Membership queries of the group -/

/-- Modelled from the spec: `AudioContexts::test_any` of `le_audio_types.h`
(absent), whether the context set "intersects the requested context" set. -/
def AudioContexts.test_any (contexts other : Nat) : Bool :=
  decide ((contexts &&& other) ≠ 0)

/-- Modelled from the spec: `AudioContexts::test` of `le_audio_types.h` (absent),
whether a device "advertises the requested context", whose value is its bit. -/
def AudioContexts.test (contexts context_type : Nat) : Bool :=
  decide ((contexts &&& context_type) ≠ 0)

/-- Modelled from the spec: `LeAudioDevice::GetSupportedContexts()` of
`devices.cc` (absent), the "supported-context set" of the device; without an
argument, over both directions. -/
def LeAudioDevice.GetSupportedContexts (d : LeAudioDevice) : Nat :=
  d.supp_contexts_.sink ||| d.supp_contexts_.source

/-- Modelled from the spec: `LeAudioDevice::GetAvailableContexts()` of
`devices.cc` (absent), the available contexts of the device; without an
argument, over both directions. -/
def LeAudioDevice.GetAvailableContexts (d : LeAudioDevice) : Nat :=
  d.avail_contexts_.sink ||| d.avail_contexts_.source

/-- Modelled from the spec: `LeAudioDevice::GetSupportedAudioChannelCounts(direction)`
of `devices.cc` (absent), the "supported-channel-count bitmap" of the device
for the direction. -/
def LeAudioDevice.GetSupportedAudioChannelCounts (d : LeAudioDevice)
    (direction : Direction) : Nat :=
  match direction with
  | Direction.kLeAudioDirectionSink => d.snk_channel_counts_
  | Direction.kLeAudioDirectionSource => d.src_channel_counts_

/-- The predicate counted by `NumOfConnected`. -/
def countsAsConnected (env : Env) (check_context_type : Bool) (type_set : Nat)
    (iter : Option LeAudioDevice) : Bool :=
  match iter with
  | some dev =>
    if dev.conn_id_ = env.GATT_INVALID_CONN_ID then false
    else if dev.connection_state_ ≠ DeviceConnectState.CONNECTED then false
    else if !check_context_type then true
    else AudioContexts.test_any dev.GetSupportedContexts type_set
  | none => false

/-- The function `LeAudioDeviceGroup::NumOfConnected(context_type)`; the call
without an argument is the call with `env.RFU`. -/
def LeAudioDeviceGroup.NumOfConnected (env : Env) (g : LeAudioDeviceGroup)
    (context_type : Nat) : Int :=
  if g.leAudioDevices_.isEmpty then 0
  else
    let check_context_type := decide (context_type ≠ env.RFU)
    let type_set := context_type
    ((g.leAudioDevices_.countP (countsAsConnected env check_context_type type_set) : Nat) : Int)

/-- The function `LeAudioDeviceGroup::GetFirstDevice`, as an index into the
member list. -/
def LeAudioDeviceGroup.GetFirstDeviceIndex (g : LeAudioDeviceGroup) : Option Nat :=
  findIfFrom (fun d => d.isSome) g.leAudioDevices_ 0

/-- The function `LeAudioDeviceGroup::GetNextDevice(leAudioDevice)` for the
member at index `k`: null when `k` is no live member, when it is the last
element, and when the element after it is expired. -/
def LeAudioDeviceGroup.GetNextDevice (g : LeAudioDeviceGroup) (k : Nat) : Option Nat :=
  match g.leAudioDevices_[k]? with
  | some (some _) =>
    match g.leAudioDevices_[k + 1]? with
    | none => none
    | some none => none
    | some (some _) => some (k + 1)
  | _ => none

/-- The predicate of the searches `GetFirstDeviceWithAvailableContext` and
`GetNextDeviceWithAvailableContext`. -/
def hasAvailableContext (context_type : Nat) (d : Option LeAudioDevice) : Bool :=
  match d with
  | none => false
  | some dev => AudioContexts.test dev.GetAvailableContexts context_type

/-- The function `LeAudioDeviceGroup::GetFirstDeviceWithAvailableContext`, as an
index into the member list. -/
def LeAudioDeviceGroup.GetFirstDeviceWithAvailableContext (g : LeAudioDeviceGroup)
    (context_type : Nat) : Option Nat :=
  findIfFrom (hasAvailableContext context_type) g.leAudioDevices_ 0

/-- The function `LeAudioDeviceGroup::GetNextDeviceWithAvailableContext` for the
member at index `k`. -/
def LeAudioDeviceGroup.GetNextDeviceWithAvailableContext (g : LeAudioDeviceGroup)
    (k : Nat) (context_type : Nat) : Option Nat :=
  match g.leAudioDevices_[k]? with
  | some (some _) => findIfFrom (hasAvailableContext context_type) g.leAudioDevices_ (k + 1)
  | _ => none

/-- The count the selection functions hand to the scenario-coverage check:
`NumOfConnected(context_type)`, replaced by `NumOfConnected()` when it is 0. -/
def LeAudioDeviceGroup.num_of_connected (env : Env) (g : LeAudioDeviceGroup)
    (context_type : Nat) : Int :=
  let num_of_connected := g.NumOfConnected env context_type
  if num_of_connected = 0 then g.NumOfConnected env env.RFU else num_of_connected

/-! ## Selection of a configuration -/

/-- The function `CheckIfStrategySupported`. The shift `1 << (n - 1)` of an `int`
is undefined for `n = 0` and for `n > 32`, which is `none`. -/
def CheckIfStrategySupported (env : Env) (strategy : LeAudioConfigurationStrategy)
    (conf : AseConfiguration) (direction : Direction) (device : LeAudioDevice) :
    Option Bool :=
  let audio_locations :=
    if direction = Direction.kLeAudioDirectionSink then device.snk_audio_locations_
    else device.src_audio_locations_
  match strategy with
  | LeAudioConfigurationStrategy.MONO_ONE_CIS_PER_DEVICE => some (decide (audio_locations ≠ 0))
  | LeAudioConfigurationStrategy.STEREO_TWO_CISES_PER_DEVICE =>
    if (audio_locations &&& env.kLeAudioLocationAnyLeft) ≠ 0 ∧
        (audio_locations &&& env.kLeAudioLocationAnyRight) ≠ 0 then some true
    else some false
  | LeAudioConfigurationStrategy.STEREO_ONE_CIS_PER_DEVICE =>
    if (audio_locations &&& env.kLeAudioLocationAnyLeft) = 0 ∨
        (audio_locations &&& env.kLeAudioLocationAnyRight) = 0 then some false
    else
      let channel_count_mask := device.GetSupportedAudioChannelCounts direction
      let requested_channel_count := conf.channel_count_per_iso_stream
      if requested_channel_count = 0 ∨ requested_channel_count > 32 then none
      else some (decide (((1 <<< (requested_channel_count - 1)) &&& channel_count_mask) ≠ 0))
  | LeAudioConfigurationStrategy.RFU => some false

/-- The conversion `static_cast<int>` of a `size_t` difference: the value
reduced into the range of a 32-bit `int`. -/
def static_cast_int (x : Int) : Int :=
  (x + 2147483648) % 4294967296 - 2147483648

/-- The loop `for (auto& ase : device->ases_)` of `IsAudioSetConfigurationSupported`:
counts the ASEs of the direction into the `uint8_t active_ase_cnt` and out of
`needed_ase_per_dev`, and leaves when the latter reaches 0. -/
def countMatchingAses (direction : Direction) : List ase → Nat → Int → Nat × Int
  | [], active_ase_cnt, needed_ase_per_dev => (active_ase_cnt, needed_ase_per_dev)
  | a :: rest, active_ase_cnt, needed_ase_per_dev =>
    if a.direction ≠ direction then
      countMatchingAses direction rest active_ase_cnt needed_ase_per_dev
    else if needed_ase_per_dev - 1 = 0 then
      ((active_ase_cnt + 1) % 256, needed_ase_per_dev - 1)
    else
      countMatchingAses direction rest ((active_ase_cnt + 1) % 256) (needed_ase_per_dev - 1)

/-- The loop `for (auto const& ent : ase_confs)` of
`IsAudioSetConfigurationSupported` for one device: every requirement the device
supports, by its PAC records and by the strategy, runs the loop over the ASEs. -/
def matchRequirements (env : Env) (g : LeAudioDeviceGroup)
    (strategy : LeAudioConfigurationStrategy) (direction : Direction)
    (device : LeAudioDevice) : List AseConfiguration → Nat → Int → Option (Nat × Int)
  | [], active_ase_cnt, needed_ase_per_dev => some (active_ase_cnt, needed_ase_per_dev)
  | ent :: rest, active_ase_cnt, needed_ase_per_dev =>
    if !env.GetCodecConfigurationSupportedPac device g.configuration_context_type_ direction
        ent then
      matchRequirements env g strategy direction device rest active_ase_cnt needed_ase_per_dev
    else
      match CheckIfStrategySupported env strategy ent direction device with
      | none => none
      | some false =>
        matchRequirements env g strategy direction device rest active_ase_cnt
          needed_ase_per_dev
      | some true =>
        let r := countMatchingAses direction device.ases_ active_ase_cnt needed_ase_per_dev
        matchRequirements env g strategy direction device rest r.1 r.2

/-- The initialiser of `uint8_t const max_required_ase_per_dev` in
`IsAudioSetConfigurationSupported`: `ase_cnt / device_cnt + (ase_cnt %
device_cnt)`, stored in a `uint8_t`. -/
def maxRequiredAsePerDev (ase_cnt device_cnt : Nat) : Nat :=
  (ase_cnt / device_cnt + ase_cnt % device_cnt) % 256

/-- The loop over the devices of `IsAudioSetConfigurationSupported` for one
direction, from the member at the given index: `some none` is the `return
false` of a device that cannot fill its quota, `some (some n)` the loop left
with `required_device_cnt = n`. `none` is returned when a device check is
undefined and when the fuel runs out. -/
def supportedDevicesLoop (env : Env) (g : LeAudioDeviceGroup)
    (strategy : LeAudioConfigurationStrategy) (direction : Direction)
    (ase_confs : List AseConfiguration) (max_required_ase_per_dev : Nat) :
    Nat → Option Nat → Nat → Nat → Option (Option Nat)
  | _, none, required_device_cnt, _ => some (some required_device_cnt)
  | 0, some _, _, _ => none
  | fuel + 1, some k, required_device_cnt, active_ase_cnt =>
    if required_device_cnt = 0 then some (some required_device_cnt)
    else
      match g.leAudioDevices_[k]? with
      | some (some device) =>
        if device.ases_.isEmpty then
          supportedDevicesLoop env g strategy direction ase_confs max_required_ase_per_dev
            fuel (g.GetNextDevice k) required_device_cnt active_ase_cnt
        else
          let needed_ase_per_dev : Int :=
            min (max_required_ase_per_dev : Int)
              (static_cast_int ((ase_confs.length : Int) - (active_ase_cnt : Int)))
          match matchRequirements env g strategy direction device ase_confs active_ase_cnt
              needed_ase_per_dev with
          | none => none
          | some (active_ase_cnt1, needed_ase_per_dev1) =>
            if needed_ase_per_dev1 > 0 then some none
            else
              supportedDevicesLoop env g strategy direction ase_confs max_required_ase_per_dev
                fuel (g.GetNextDevice k) (required_device_cnt - 1) active_ase_cnt1
      | _ => none

/-- One pass of the loop over the two directions in
`IsAudioSetConfigurationSupported`: `some true` when the loop goes on, `some
false` for a `return false`, `none` when the `ASSERT_LOG` on `topology_info`
fails or a device check is undefined. -/
def supportedForDirection (env : Env) (g : LeAudioDeviceGroup)
    (audio_set_conf : AudioSetConfiguration)
    (required_snk_strategy : LeAudioConfigurationStrategy) (direction : Direction) :
    Option Bool :=
  let ase_confs := audio_set_conf.confs.get direction
  match audio_set_conf.topology_info with
  | none => none
  | some topology_info =>
    let strategy := topology_info.strategy.get direction
    let device_cnt := topology_info.device_count.get direction
    let ase_cnt := ase_confs.length
    if ase_cnt = 0 then some true
    else if device_cnt = 0 then some true
    else
      let max_required_ase_per_dev := maxRequiredAsePerDev ase_cnt device_cnt
      let required_device_cnt := device_cnt
      if direction = Direction.kLeAudioDirectionSink ∧ strategy ≠ required_snk_strategy then
        some false
      else
        match supportedDevicesLoop env g strategy direction ase_confs max_required_ase_per_dev
            g.leAudioDevices_.length g.GetFirstDeviceIndex required_device_cnt 0 with
        | none => none
        | some none => some false
        | some (some required_device_cnt1) =>
          if required_device_cnt1 > 0 then some false else some true

/-- The function `LeAudioDeviceGroup::IsAudioSetConfigurationSupported`. -/
def LeAudioDeviceGroup.IsAudioSetConfigurationSupported (env : Env) (g : LeAudioDeviceGroup)
    (audio_set_conf : AudioSetConfiguration) (context_type : Nat)
    (required_snk_strategy : LeAudioConfigurationStrategy) : Option Bool :=
  let num_of_connected := g.num_of_connected env context_type
  if !env.check_if_may_cover_scenario audio_set_conf num_of_connected then some false
  else
    match supportedForDirection env g audio_set_conf required_snk_strategy
        Direction.kLeAudioDirectionSink with
    | none => none
    | some false => some false
    | some true =>
      match supportedForDirection env g audio_set_conf required_snk_strategy
          Direction.kLeAudioDirectionSource with
      | none => none
      | some false => some false
      | some true =>
        let dual_bidirection_swb_supported_ := env.IsDualBiDirSwbSupported
        if g.Size > 1 ∧ env.CheckCodecConfigIsBiDirSwb audio_set_conf = true then
          if !dual_bidirection_swb_supported_ then some false else some true
        else some true

/-- The loop `for (const auto& conf : *confs)` of
`FindFirstSupportedConfiguration`: the first entry the group supports, `some
none` for `nullptr`. -/
def findFirstSupportedLoop (env : Env) (g : LeAudioDeviceGroup) (context_type : Nat)
    (required_snk_strategy : LeAudioConfigurationStrategy) :
    List AudioSetConfiguration → Option (Option AudioSetConfiguration)
  | [] => some none
  | conf :: rest =>
    match g.IsAudioSetConfigurationSupported env conf context_type required_snk_strategy with
    | none => none
    | some true => some (some conf)
    | some false => findFirstSupportedLoop env g context_type required_snk_strategy rest

/-- The function `LeAudioDeviceGroup::FindFirstSupportedConfiguration(context_type,
confs)` on a catalogue of entries none of which is null: the entry returned
(`none` for `nullptr`) and the group, whose `mutable strategy_` member
`GetGroupSinkStrategy()` may have filled in. -/
def LeAudioDeviceGroup.FindFirstSupportedConfiguration (env : Env) (g : LeAudioDeviceGroup)
    (context_type : Nat) (confs : List AudioSetConfiguration) :
    Option (Option AudioSetConfiguration × LeAudioDeviceGroup) :=
  let num_of_connected := g.num_of_connected env context_type
  if !env.check_if_may_cover_scenario_confs confs num_of_connected then some (none, g)
  else
    match g.GetGroupSinkStrategy env with
    | none => none
    | some (required_snk_strategy, g1) =>
      match findFirstSupportedLoop env g1 context_type required_snk_strategy confs with
      | none => none
      | some r => some (r, g1)

/-! ## Changes of the membership and of the audio locations -/

/-- The function `LeAudioDeviceGroup::AddNode(leAudioDevice)`: the device gets the
group id and a reference to it is pushed to the back of the member list. -/
def LeAudioDeviceGroup.AddNode (g : LeAudioDeviceGroup) (leAudioDevice : LeAudioDevice) :
    LeAudioDeviceGroup :=
  { g with
    leAudioDevices_ :=
      g.leAudioDevices_ ++ [some { leAudioDevice with group_id_ := g.group_id_ }] }

/-- The loop `for (auto ase : leAudioDevice->ases_) { ase.active = false;
ase.cis_conn_hdl = 0; }` of `RemoveNode`: the loop variable is declared `auto`,
not `auto&`, so each round works on a copy of the element; the two writes go to
the copy, which is dropped at the end of the round, and the element of the
vector is kept. -/
def removeNodeAseLoop : List ase → List ase
  | [] => []
  | element :: rest =>
    let copy : ase := element
    let _dropped : ase := { copy with active := false, cis_conn_hdl := 0 }
    element :: removeNodeAseLoop rest

/-- The function `LeAudioDeviceGroup::RemoveNode(leAudioDevice)` for the member
at index `k`: the group and the device afterwards. The device gets the unknown
group id; the loop `for (auto ase : leAudioDevice->ases_)` writes to a copy of
each ASE, so the ASEs of the device stay as they are; `std::remove_if` erases
from the member list every reference that locks to the device, which is every
member that holds the device (a device that is referenced twice shows as two
equal members), and keeps the expired references. `none` when `k` is no live
member. -/
def LeAudioDeviceGroup.RemoveNode (env : Env) (g : LeAudioDeviceGroup) (k : Nat) :
    Option (LeAudioDeviceGroup × LeAudioDevice) :=
  match g.leAudioDevices_[k]? with
  | some (some leAudioDevice) =>
    some ({ g with
            leAudioDevices_ :=
              g.leAudioDevices_.filter (fun d => decide (d ≠ some leAudioDevice)) },
          { leAudioDevice with
            group_id_ := env.kGroupUnknown
            ases_ := removeNodeAseLoop leAudioDevice.ases_ })
  | _ => none

/-- The function `LeAudioDeviceGroup::ReloadAudioLocations`: whether the
locations changed, and the group afterwards. -/
def LeAudioDeviceGroup.ReloadAudioLocations (env : Env) (g : LeAudioDeviceGroup) :
    Bool × LeAudioDeviceGroup :=
  let updated := g.leAudioDevices_.foldl
    (fun (acc : Nat × Nat) device =>
      match device with
      | some d =>
        if d.connection_state_ ≠ DeviceConnectState.CONNECTED then acc
        else (acc.1 ||| d.snk_audio_locations_, acc.2 ||| d.src_audio_locations_)
      | none => acc)
    (env.kLeAudioLocationNotAllowed, env.kLeAudioLocationNotAllowed)
  if updated.1 = g.snk_audio_locations_ ∧ updated.2 = g.src_audio_locations_ then (false, g)
  else (true, { g with snk_audio_locations_ := updated.1, src_audio_locations_ := updated.2 })

/-- Modelled from the spec: the explicit invalidation of the "lazily-computed,
invalidatable sink strategy" (`InvalidateGroupStrategy` of `device_groups.h`,
absent): the cached strategy is emptied. -/
def LeAudioDeviceGroup.InvalidateGroupStrategy (g : LeAudioDeviceGroup) : LeAudioDeviceGroup :=
  { g with strategy_ := none }

/-! ## The configuration cache -/

/-- The lookup `context_to_configuration_cache_map.at(ctx_type)` of the
`std::map`, `none` when `count(ctx_type)` is 0. -/
def cacheAt (cache : List (Nat × Bool × Option AudioSetConfigurationPtr)) (ctx_type : Nat) :
    Option (Bool × Option AudioSetConfigurationPtr) :=
  (cache.find? (fun e => decide (e.1 = ctx_type))).map (fun e => e.2)

/-- The call `context_to_configuration_cache_map.erase(ctx_type)`. -/
def cacheErase (cache : List (Nat × Bool × Option AudioSetConfigurationPtr)) (ctx_type : Nat) :
    List (Nat × Bool × Option AudioSetConfigurationPtr) :=
  cache.filter (fun e => decide (e.1 ≠ ctx_type))

/-- The call `context_to_configuration_cache_map.insert(entry)` of the
`std::map`, which leaves the map alone when it holds the key already. -/
def cacheInsert (cache : List (Nat × Bool × Option AudioSetConfigurationPtr))
    (entry : Nat × Bool × Option AudioSetConfigurationPtr) :
    List (Nat × Bool × Option AudioSetConfigurationPtr) :=
  match cacheAt cache entry.1 with
  | some _ => cache
  | none => cache ++ [entry]

/-- The write `context_to_configuration_cache_map.at(ctx_type).first = true`. -/
def cacheMarkValid (cache : List (Nat × Bool × Option AudioSetConfigurationPtr))
    (ctx_type : Nat) : List (Nat × Bool × Option AudioSetConfigurationPtr) :=
  cache.map (fun e => if e.1 = ctx_type then (e.1, true, e.2.2) else e)

/-- The function `LeAudioDeviceGroup::UpdateAudioSetConfigurationCache(ctx_type)`:
its result and the group afterwards. The comparison of `new_conf.get()` with
`existing_conf.get()` compares the addresses held. The verifier handed to the
codec manager runs `GetGroupSinkStrategy()`, which fills in the `mutable
strategy_` member when that is empty. -/
def LeAudioDeviceGroup.UpdateAudioSetConfigurationCache (env : Env) (g : LeAudioDeviceGroup)
    (ctx_type : Nat) : Bool × LeAudioDeviceGroup :=
  let r := env.GetCodecConfig ctx_type g
  let new_conf := r.1
  let strategy :=
    match g.strategy_ with
    | some s => some s
    | none => r.2
  let g0 := { g with strategy_ := strategy }
  let replaced :=
    match new_conf with
    | some p =>
      cacheInsert (cacheErase g0.context_to_configuration_cache_map ctx_type)
        (ctx_type, true, some p)
    | none => cacheErase g0.context_to_configuration_cache_map ctx_type
  match cacheAt g0.context_to_configuration_cache_map ctx_type with
  | some (is_valid, existing_conf) =>
    let update_config :=
      decide (new_conf.map (fun p => p.address) ≠ existing_conf.map (fun p => p.address))
    if !update_config && !is_valid then
      (false, { g0 with
        context_to_configuration_cache_map :=
          cacheMarkValid g0.context_to_configuration_cache_map ctx_type })
    else if update_config then
      (true, { g0 with context_to_configuration_cache_map := replaced })
    else (update_config, g0)
  | none => (true, { g0 with context_to_configuration_cache_map := replaced })

/-- The function `LeAudioDeviceGroup::InvalidateCachedConfigurations`. -/
def LeAudioDeviceGroup.InvalidateCachedConfigurations (g : LeAudioDeviceGroup) :
    LeAudioDeviceGroup :=
  { g with context_to_configuration_cache_map := [] }

/-- The function `LeAudioDeviceGroup::GetCachedConfiguration(context_type)`. -/
def LeAudioDeviceGroup.GetCachedConfiguration (g : LeAudioDeviceGroup) (context_type : Nat) :
    Option AudioSetConfigurationPtr :=
  match cacheAt g.context_to_configuration_cache_map context_type with
  | some e => e.2
  | none => none

/-- The function `LeAudioDeviceGroup::GetActiveConfiguration`. -/
def LeAudioDeviceGroup.GetActiveConfiguration (g : LeAudioDeviceGroup) :
    Option AudioSetConfigurationPtr :=
  g.GetCachedConfiguration g.configuration_context_type_

/-- The function `LeAudioDeviceGroup::GetConfiguration(context_type)`: the pointer
returned and the group afterwards. -/
def LeAudioDeviceGroup.GetConfiguration (env : Env) (g : LeAudioDeviceGroup)
    (context_type : Nat) : Option AudioSetConfigurationPtr × LeAudioDeviceGroup :=
  if context_type = env.UNINITIALIZED then (none, g)
  else
    let valid_config_pair : Bool × Option AudioSetConfigurationPtr :=
      match cacheAt g.context_to_configuration_cache_map context_type with
      | some e => e
      | none => (false, none)
    let is_valid := valid_config_pair.1
    let conf := valid_config_pair.2
    let g1 :=
      if !is_valid || conf.isNone then (g.UpdateAudioSetConfigurationCache env context_type).2
      else g
    (g1.GetCachedConfiguration context_type, g1)

/-! ## `LeAudioDeviceGroup::Deactivate` -/

/-- The two writes of `Deactivate` to an ASE: `active = false` and
`reconfigure = 0`. -/
def deactivateAse (a : ase) : ase :=
  { a with active := false, reconfigure := 0 }

/-- The inner loop of `Deactivate` over the active ASEs of a device, from the
ASE at the given index. `none` is returned when the fuel runs out. -/
def deactivateAsesLoop : Nat → Option Nat → LeAudioDevice → Option LeAudioDevice
  | _, none, d => some d
  | 0, some _, _ => none
  | fuel + 1, some i, d =>
    let d1 := { d with ases_ := d.ases_.modify deactivateAse i }
    deactivateAsesLoop fuel (d1.GetNextActiveAse i) d1

/-- The outer loop of `Deactivate` over the active members, from the member at
the given index. `none` is returned when the fuel runs out. -/
def deactivateLoop : Nat → Option Nat → LeAudioDeviceGroup → Option LeAudioDeviceGroup
  | _, none, g => some g
  | 0, some _, _ => none
  | fuel + 1, some k, g =>
    match g.leAudioDevices_[k]? with
    | some (some leAudioDevice) =>
      match deactivateAsesLoop leAudioDevice.ases_.length leAudioDevice.GetFirstActiveAse
          leAudioDevice with
      | none => none
      | some d1 =>
        let g1 := { g with leAudioDevices_ := g.leAudioDevices_.set k (some d1) }
        deactivateLoop fuel (g1.GetNextActiveDevice k) g1
    | _ => none

/-- The function `LeAudioDeviceGroup::Deactivate`. -/
def LeAudioDeviceGroup.Deactivate (g : LeAudioDeviceGroup) : Option LeAudioDeviceGroup :=
  deactivateLoop g.leAudioDevices_.length g.GetFirstActiveDevice g

/-! ## `LeAudioDeviceGroup::ConfigureAses` and `Configure` -/

/-- The variables the `configuration_closure` of `ConfigureAses` captures by
reference, with the group it works on. -/
structure ConfigureState where
  g : LeAudioDeviceGroup
  required_device_cnt : Int
  active_ase_cnt : Nat
  group_audio_locations_memo : BidirectionalPair Nat
deriving DecidableEq

/-- The lambda `configuration_closure` of `ConfigureAses`, called on the member
at index `k`. -/
def configuration_closure (env : Env) (audio_set_conf : AudioSetConfiguration)
    (direction : Direction) (context_type : Nat)
    (metadata_context_types : BidirectionalPair Nat)
    (ccid_lists : BidirectionalPair (List Nat)) (reuse_cis_id : Bool)
    (st : ConfigureState) (k : Nat) : Option ConfigureState :=
  match st.g.leAudioDevices_[k]? with
  | some (some dev) =>
    if dev.connection_state_ ≠ DeviceConnectState.CONNECTED then some st
    else
      let r := env.ConfigureAses dev audio_set_conf direction context_type st.active_ase_cnt
        st.group_audio_locations_memo metadata_context_types ccid_lists reuse_cis_id
      let dev1 := { dev with ases_ := r.2.1 }
      let st1 : ConfigureState :=
        { g := { st.g with leAudioDevices_ := st.g.leAudioDevices_.set k (some dev1) }
          required_device_cnt := st.required_device_cnt
          active_ase_cnt := r.2.2.1
          group_audio_locations_memo := r.2.2.2 }
      if !r.1 then some st1
      else some { st1 with required_device_cnt := st1.required_device_cnt - 1 }
  | _ => none

/-- The first loop of `ConfigureAses` for one direction, over the members with
the context available, from the member at the given index. `none` is returned
when the fuel runs out. -/
def configureAvailableLoop (env : Env) (audio_set_conf : AudioSetConfiguration)
    (direction : Direction) (context_type : Nat)
    (metadata_context_types : BidirectionalPair Nat)
    (ccid_lists : BidirectionalPair (List Nat)) (reuse_cis_id : Bool) :
    Nat → Option Nat → ConfigureState → Option ConfigureState
  | _, none, st => some st
  | 0, some _, _ => none
  | fuel + 1, some k, st =>
    if st.required_device_cnt > 0 then
      match configuration_closure env audio_set_conf direction context_type
          metadata_context_types ccid_lists reuse_cis_id st k with
      | none => none
      | some st1 =>
        configureAvailableLoop env audio_set_conf direction context_type
          metadata_context_types ccid_lists reuse_cis_id fuel
          (st1.g.GetNextDeviceWithAvailableContext k context_type) st1
    else some st

/-- The second loop of `ConfigureAses` for one direction, over all members, from
the member at the given index. `none` is returned when the fuel runs out. -/
def configureAllLoop (env : Env) (audio_set_conf : AudioSetConfiguration)
    (direction : Direction) (context_type : Nat)
    (metadata_context_types : BidirectionalPair Nat)
    (ccid_lists : BidirectionalPair (List Nat)) (reuse_cis_id : Bool) :
    Nat → Option Nat → ConfigureState → Option ConfigureState
  | _, none, st => some st
  | 0, some _, _ => none
  | fuel + 1, some k, st =>
    if st.required_device_cnt > 0 then
      match configuration_closure env audio_set_conf direction context_type
          metadata_context_types ccid_lists reuse_cis_id st k with
      | none => none
      | some st1 =>
        configureAllLoop env audio_set_conf direction context_type
          metadata_context_types ccid_lists reuse_cis_id fuel (st1.g.GetNextDevice k) st1
    else some st

/-- The two loops of `ConfigureAses` for one direction that has requirements:
the state after the second one, or after the first one when that leaves
`required_device_cnt` at 0. -/
def configurePasses (env : Env) (audio_set_conf : AudioSetConfiguration)
    (direction : Direction) (context_type : Nat)
    (metadata_context_types : BidirectionalPair Nat)
    (ccid_lists : BidirectionalPair (List Nat)) (reuse_cis_id : Bool)
    (g : LeAudioDeviceGroup) (group_audio_locations_memo : BidirectionalPair Nat) :
    Option ConfigureState :=
  let st0 : ConfigureState :=
    { g := g
      required_device_cnt := g.NumOfConnected env env.RFU
      active_ase_cnt := 0
      group_audio_locations_memo := group_audio_locations_memo }
  match configureAvailableLoop env audio_set_conf direction context_type
      metadata_context_types ccid_lists reuse_cis_id g.leAudioDevices_.length
      (g.GetFirstDeviceWithAvailableContext context_type) st0 with
  | none => none
  | some st1 =>
    if st1.required_device_cnt > 0 then
      configureAllLoop env audio_set_conf direction context_type metadata_context_types
        ccid_lists reuse_cis_id st1.g.leAudioDevices_.length st1.g.GetFirstDeviceIndex st1
    else some st1

/-- One pass of the loop over the two directions in `ConfigureAses`: `true`
when the loop goes on, `false` after `Deactivate()` for the `return false`;
with the group and the memo of audio locations afterwards. -/
def configureDirection (env : Env) (audio_set_conf : AudioSetConfiguration)
    (direction : Direction) (context_type : Nat)
    (metadata_context_types : BidirectionalPair Nat)
    (ccid_lists : BidirectionalPair (List Nat)) (reuse_cis_id : Bool)
    (g : LeAudioDeviceGroup) (group_audio_locations_memo : BidirectionalPair Nat) :
    Option (Bool × LeAudioDeviceGroup × BidirectionalPair Nat) :=
  if (audio_set_conf.confs.get direction).isEmpty then
    some (true, g, group_audio_locations_memo)
  else
    match configurePasses env audio_set_conf direction context_type metadata_context_types
        ccid_lists reuse_cis_id g group_audio_locations_memo with
    | none => none
    | some st =>
      if st.required_device_cnt > 0 then
        match st.g.Deactivate with
        | none => none
        | some g1 => some (false, g1, st.group_audio_locations_memo)
      else some (true, st.g, st.group_audio_locations_memo)

/-- The function `LeAudioDeviceGroup::ConfigureAses(audio_set_conf, context_type,
metadata_context_types, ccid_lists)`: its result and the group afterwards. -/
def LeAudioDeviceGroup.ConfigureAses (env : Env) (g : LeAudioDeviceGroup)
    (audio_set_conf : AudioSetConfiguration) (context_type : Nat)
    (metadata_context_types : BidirectionalPair Nat)
    (ccid_lists : BidirectionalPair (List Nat)) : Option (Bool × LeAudioDeviceGroup) :=
  let num_of_connected := g.num_of_connected env context_type
  if !env.check_if_may_cover_scenario audio_set_conf num_of_connected then some (false, g)
  else
    let reuse_cis_id :=
      decide (g.current_state_ = AseState.BTA_LE_AUDIO_ASE_STATE_CODEC_CONFIGURED)
    let group_audio_locations_memo : BidirectionalPair Nat := ⟨0, 0⟩
    match configureDirection env audio_set_conf Direction.kLeAudioDirectionSink context_type
        metadata_context_types ccid_lists reuse_cis_id g group_audio_locations_memo with
    | none => none
    | some (false, g1, _) => some (false, g1)
    | some (true, g1, memo1) =>
      match configureDirection env audio_set_conf Direction.kLeAudioDirectionSource
          context_type metadata_context_types ccid_lists reuse_cis_id g1 memo1 with
      | none => none
      | some (false, g2, _) => some (false, g2)
      | some (true, g2, _) =>
        some (true, { g2 with
          configuration_context_type_ := context_type
          metadata_context_type_ := metadata_context_types })

/-- The function `LeAudioDeviceGroup::Configure(context_type,
metadata_context_types, ccid_lists)`: its result and the group afterwards. -/
def LeAudioDeviceGroup.Configure (env : Env) (g : LeAudioDeviceGroup) (context_type : Nat)
    (metadata_context_types : BidirectionalPair Nat)
    (ccid_lists : BidirectionalPair (List Nat)) : Option (Bool × LeAudioDeviceGroup) :=
  let r := g.GetConfiguration env context_type
  match r.1 with
  | none => some (false, r.2)
  | some conf =>
    match r.2.ConfigureAses env conf.conf context_type metadata_context_types ccid_lists with
    | none => none
    | some (false, g1) => some (false, g1)
    | some (true, g1) => some (true, { g1 with stream_conf_conf := some conf })

/-! ## `LeAudioDeviceGroup::GetPresentationDelay` -/

/-- Modelled from the spec: `LeAudioDevice::GetFirstActiveAseByDirection(direction)`
of `devices.cc` (absent): the first of the "active ASEs of the requested
direction" of the device. -/
def LeAudioDevice.GetFirstActiveAseByDirection (d : LeAudioDevice) (direction : Direction) :
    Option Nat :=
  findIfFrom (fun a => a.active && decide (a.direction = direction)) d.ases_ 0

/-- The value `UINT32_MAX`. -/
def UINT32_MAX : Nat := 4294967295

/-- The four local variables of `GetPresentationDelay`. -/
structure PresentationDelayRange where
  delay_min : Nat
  delay_max : Nat
  preferred_delay_min : Nat
  preferred_delay_max : Nat
deriving DecidableEq

/-- The body of the inner loop of `GetPresentationDelay` for one ASE: `none` for
the `return false` on no common range, else the four variables afterwards. -/
def presentationDelayStep (env : Env) (a : ase) (r : PresentationDelayRange) :
    Option PresentationDelayRange :=
  if a.qos_preferences.pres_delay_min > r.delay_max ∨
      a.qos_preferences.pres_delay_max < r.delay_min then none
  else
    some
      { delay_min :=
          if a.qos_preferences.pres_delay_min > r.delay_min then
            a.qos_preferences.pres_delay_min
          else r.delay_min
        delay_max :=
          if a.qos_preferences.pres_delay_max < r.delay_max then
            a.qos_preferences.pres_delay_max
          else r.delay_max
        preferred_delay_min :=
          if a.qos_preferences.preferred_pres_delay_min > r.preferred_delay_min then
            a.qos_preferences.preferred_pres_delay_min
          else r.preferred_delay_min
        preferred_delay_max :=
          if a.qos_preferences.preferred_pres_delay_max < r.preferred_delay_max ∧
              a.qos_preferences.preferred_pres_delay_max ≠ env.kPresDelayNoPreference then
            a.qos_preferences.preferred_pres_delay_max
          else r.preferred_delay_max }

/-- The inner `do ... while` loop of `GetPresentationDelay` over the ASEs of a
device, from the ASE at index `i`: `some none` is the `return false`. `none` is
returned when the fuel runs out. -/
def presentationDelayAseLoop (env : Env) (d : LeAudioDevice) :
    Nat → Nat → PresentationDelayRange → Option (Option PresentationDelayRange)
  | 0, _, _ => none
  | fuel + 1, i, r =>
    match d.ases_[i]? with
    | none => none
    | some a =>
      match presentationDelayStep env a r with
      | none => some none
      | some r1 =>
        match d.GetNextActiveAseWithSameDirection i with
        | none => some (some r1)
        | some j => presentationDelayAseLoop env d fuel j r1

/-- The outer `do ... while` loop of `GetPresentationDelay` over the active
members, from the member at index `k`: `some none` is the `return false`.
`none` is returned when the fuel runs out. -/
def presentationDelayDeviceLoop (env : Env) (g : LeAudioDeviceGroup) (direction : Direction) :
    Nat → Nat → PresentationDelayRange → Option (Option PresentationDelayRange)
  | 0, _, _ => none
  | fuel + 1, k, r =>
    match g.leAudioDevices_[k]? with
    | some (some leAudioDevice) =>
      match leAudioDevice.GetFirstActiveAseByDirection direction with
      | none =>
        match g.GetNextActiveDevice k with
        | none => some (some r)
        | some k1 => presentationDelayDeviceLoop env g direction fuel k1 r
      | some i =>
        match presentationDelayAseLoop env leAudioDevice leAudioDevice.ases_.length i r with
        | none => none
        | some none => some none
        | some (some r1) =>
          match g.GetNextActiveDevice k with
          | none => some (some r1)
          | some k1 => presentationDelayDeviceLoop env g direction fuel k1 r1
    | _ => none

/-- The value `GetPresentationDelay` stores to `*delay` after its loops. -/
def chosenPresentationDelay (r : PresentationDelayRange) : Nat :=
  if r.preferred_delay_min ≤ r.preferred_delay_max ∧ r.preferred_delay_min > r.delay_min ∧
      r.preferred_delay_min < r.delay_max then
    r.preferred_delay_min
  else r.delay_min

/-- The function `LeAudioDeviceGroup::GetPresentationDelay(delay, direction)`:
`some none` when it returns `false`, `some (some v)` when it returns `true`
with `*delay = v`, and `none` when the `LOG_ASSERT` on the first active device
fails. -/
def LeAudioDeviceGroup.GetPresentationDelay (env : Env) (g : LeAudioDeviceGroup)
    (direction : Direction) : Option (Option Nat) :=
  let delay_min := 0
  let delay_max := UINT32_MAX
  let preferred_delay_min := delay_min
  let preferred_delay_max := delay_max
  match g.GetFirstActiveDevice with
  | none => none
  | some k =>
    match presentationDelayDeviceLoop env g direction g.leAudioDevices_.length k
        { delay_min := delay_min, delay_max := delay_max
          preferred_delay_min := preferred_delay_min
          preferred_delay_max := preferred_delay_max } with
    | none => none
    | some none => some none
    | some (some r) => some (some (chosenPresentationDelay r))

/-! ## Vocabulary of the statements on `ConfigureAses` -/

/-- The group `g1` differs from `g` in its members at most. -/
def onlyMembersChanged (g g1 : LeAudioDeviceGroup) : Prop :=
  g1 = { g with leAudioDevices_ := g1.leAudioDevices_ }

/-- No ASE of a live member of the group is active. -/
def noActiveAse (g : LeAudioDeviceGroup) : Prop :=
  ∀ (k : Nat) (d : LeAudioDevice), g.leAudioDevices_[k]? = some (some d) →
    ∀ (n : Nat) (a : ase), d.ases_[n]? = some a → a.active = false

/-- Whether the two loops of `ConfigureAses` for the direction, run on the
group with the memo of audio locations, leave `required_device_cnt` above 0. -/
def requirementsLeft (env : Env) (audio_set_conf : AudioSetConfiguration)
    (direction : Direction) (context_type : Nat)
    (metadata_context_types : BidirectionalPair Nat)
    (ccid_lists : BidirectionalPair (List Nat)) (reuse_cis_id : Bool)
    (g : LeAudioDeviceGroup) (group_audio_locations_memo : BidirectionalPair Nat) : Bool :=
  match configurePasses env audio_set_conf direction context_type metadata_context_types
      ccid_lists reuse_cis_id g group_audio_locations_memo with
  | some st => decide (st.required_device_cnt > 0)
  | none => false

/-- The scenario-coverage check accepts the call of `ConfigureAses`, and for a
direction with requirements `required_device_cnt` is still above 0 after both
loops: for the sink direction, or for the source direction after the sink
direction has gone through. -/
def requirementsUnmet (env : Env) (g : LeAudioDeviceGroup)
    (audio_set_conf : AudioSetConfiguration) (context_type : Nat)
    (metadata_context_types : BidirectionalPair Nat)
    (ccid_lists : BidirectionalPair (List Nat)) : Prop :=
  env.check_if_may_cover_scenario audio_set_conf (g.num_of_connected env context_type) = true ∧
    ((audio_set_conf.confs.sink ≠ [] ∧
        requirementsLeft env audio_set_conf Direction.kLeAudioDirectionSink context_type
          metadata_context_types ccid_lists
          (decide (g.current_state_ = AseState.BTA_LE_AUDIO_ASE_STATE_CODEC_CONFIGURED))
          g ⟨0, 0⟩ = true) ∨
      ∃ (g1 : LeAudioDeviceGroup) (memo1 : BidirectionalPair Nat),
        configureDirection env audio_set_conf Direction.kLeAudioDirectionSink context_type
          metadata_context_types ccid_lists
          (decide (g.current_state_ = AseState.BTA_LE_AUDIO_ASE_STATE_CODEC_CONFIGURED))
          g ⟨0, 0⟩ = some (true, g1, memo1) ∧
        audio_set_conf.confs.source ≠ [] ∧
        requirementsLeft env audio_set_conf Direction.kLeAudioDirectionSource context_type
          metadata_context_types ccid_lists
          (decide (g.current_state_ = AseState.BTA_LE_AUDIO_ASE_STATE_CODEC_CONFIGURED))
          g1 memo1 = true)

/-- Two devices and the memo of audio locations after `LeAudioDevice::ConfigureAses`
has been called for the direction on the first device, with the count 0, and
then on the second one, with the count and the memo the first call left. -/
def configuredPair (env : Env) (audio_set_conf : AudioSetConfiguration)
    (direction : Direction) (context_type : Nat)
    (metadata_context_types : BidirectionalPair Nat)
    (ccid_lists : BidirectionalPair (List Nat)) (reuse_cis_id : Bool)
    (p : LeAudioDevice × LeAudioDevice × BidirectionalPair Nat) :
    LeAudioDevice × LeAudioDevice × BidirectionalPair Nat :=
  let r0 := env.ConfigureAses p.1 audio_set_conf direction context_type 0 p.2.2
    metadata_context_types ccid_lists reuse_cis_id
  let r1 := env.ConfigureAses p.2.1 audio_set_conf direction context_type r0.2.2.1 r0.2.2.2
    metadata_context_types ccid_lists reuse_cis_id
  ({ p.1 with ases_ := r0.2.1 }, { p.2.1 with ases_ := r1.2.1 }, r1.2.2.2)

/-- Both calls of `configuredPair` succeed. -/
def pairSucceeds (env : Env) (audio_set_conf : AudioSetConfiguration)
    (direction : Direction) (context_type : Nat)
    (metadata_context_types : BidirectionalPair Nat)
    (ccid_lists : BidirectionalPair (List Nat)) (reuse_cis_id : Bool)
    (p : LeAudioDevice × LeAudioDevice × BidirectionalPair Nat) : Prop :=
  (env.ConfigureAses p.1 audio_set_conf direction context_type 0 p.2.2
      metadata_context_types ccid_lists reuse_cis_id).1 = true ∧
    (env.ConfigureAses p.2.1 audio_set_conf direction context_type
      (env.ConfigureAses p.1 audio_set_conf direction context_type 0 p.2.2
        metadata_context_types ccid_lists reuse_cis_id).2.2.1
      (env.ConfigureAses p.1 audio_set_conf direction context_type 0 p.2.2
        metadata_context_types ccid_lists reuse_cis_id).2.2.2
      metadata_context_types ccid_lists reuse_cis_id).1 = true

/-- Two devices and the memo after one pass of the loop over the directions in
`ConfigureAses` that hands both devices to `LeAudioDevice::ConfigureAses`:
nothing happens for a direction without requirements. -/
def configuredPairIfRequired (env : Env) (audio_set_conf : AudioSetConfiguration)
    (direction : Direction) (context_type : Nat)
    (metadata_context_types : BidirectionalPair Nat)
    (ccid_lists : BidirectionalPair (List Nat)) (reuse_cis_id : Bool)
    (p : LeAudioDevice × LeAudioDevice × BidirectionalPair Nat) :
    LeAudioDevice × LeAudioDevice × BidirectionalPair Nat :=
  if (audio_set_conf.confs.get direction).isEmpty then p
  else configuredPair env audio_set_conf direction context_type metadata_context_types
    ccid_lists reuse_cis_id p

/-- The device is connected, with a valid connection id. -/
def isConnected (env : Env) (d : LeAudioDevice) : Prop :=
  d.connection_state_ = DeviceConnectState.CONNECTED ∧ d.conn_id_ ≠ env.GATT_INVALID_CONN_ID

/-! ## Vocabulary of the statements on the presentation delay -/

/-- The active ASEs of the direction of one member. -/
def activeAsesOfMember (direction : Direction) (m : Option LeAudioDevice) : List ase :=
  match m with
  | none => []
  | some d => d.ases_.filter (fun a => a.active && decide (a.direction = direction))

/-- The active ASEs of the direction of all live members of the group, in the
order of the members and of their ASEs. -/
def activeAsesOf (direction : Direction) (g : LeAudioDeviceGroup) : List ase :=
  g.leAudioDevices_.flatMap (activeAsesOfMember direction)

/-- The body of the inner loop of `GetPresentationDelay` run over a list of
ASEs. -/
def presentationDelayFold (env : Env) :
    List ase → PresentationDelayRange → Option PresentationDelayRange
  | [], r => some r
  | a :: rest, r =>
    match presentationDelayStep env a r with
    | none => none
    | some r1 => presentationDelayFold env rest r1

/-- The delay `x` lies in the presentation-delay window of the ASE. -/
@[reducible]
def inWindow (x : Nat) (a : ase) : Prop :=
  a.qos_preferences.pres_delay_min ≤ x ∧ x ≤ a.qos_preferences.pres_delay_max

/-- The window of the ASE is not empty, and its upper bound is a `uint32_t`
value. -/
@[reducible]
def properWindow (a : ase) : Prop :=
  a.qos_preferences.pres_delay_min ≤ a.qos_preferences.pres_delay_max ∧
    a.qos_preferences.pres_delay_max ≤ UINT32_MAX

/-- The four presentation delays of the ASE are `uint32_t` values. -/
@[reducible]
def uint32Preferences (a : ase) : Prop :=
  a.qos_preferences.pres_delay_min ≤ UINT32_MAX ∧
    a.qos_preferences.pres_delay_max ≤ UINT32_MAX ∧
    a.qos_preferences.preferred_pres_delay_min ≤ UINT32_MAX ∧
    a.qos_preferences.preferred_pres_delay_max ≤ UINT32_MAX

/-- The preferred maximum the ASE states: its `preferred_pres_delay_max`, or
none, which is `UINT32_MAX`, when that is the no-preference value. -/
def statedPreferredMax (env : Env) (a : ase) : Nat :=
  if a.qos_preferences.preferred_pres_delay_max = env.kPresDelayNoPreference then UINT32_MAX
  else a.qos_preferences.preferred_pres_delay_max

/-! ## Vocabulary of the statements on the sink strategy -/

/-- The channel counts a supported-channel-count bitmap (a `uint8_t`) stands
for: bit `n - 1` is set when `n` channels are supported. -/
def supportedChannelCounts (bitmap : Nat) : List Nat :=
  (List.range 8).filterMap (fun i => if bitmap.testBit i then some (i + 1) else none)

/-- A change of the membership or of the audio locations of a group. -/
inductive GroupChange where
  | AddNode (leAudioDevice : LeAudioDevice)
  | RemoveNode (k : Nat)
  | ReloadAudioLocations

/-- The group after one change; removing an index that is no live member
changes nothing. -/
def applyChange (env : Env) (g : LeAudioDeviceGroup) : GroupChange → LeAudioDeviceGroup
  | GroupChange.AddNode leAudioDevice => g.AddNode leAudioDevice
  | GroupChange.RemoveNode k =>
    match g.RemoveNode env k with
    | some r => r.1
    | none => g
  | GroupChange.ReloadAudioLocations => (g.ReloadAudioLocations env).2

/-- The group after a sequence of changes. -/
def applyChanges (env : Env) (g : LeAudioDeviceGroup) (changes : List GroupChange) :
    LeAudioDeviceGroup :=
  changes.foldl (applyChange env) g

/-- A call on a group that is not `InvalidateCachedConfigurations`: a lookup of
the configuration of a context, a `Configure` for a context, or a change of
the membership or of the audio locations. -/
inductive LaterCall where
  | GetConfiguration (context_type : Nat)
  | Configure (context_type : Nat) (metadata_context_types : BidirectionalPair Nat)
      (ccid_lists : BidirectionalPair (List Nat))
  | Change (change : GroupChange)

/-- The group after one such call. -/
def applyLaterCall (env : Env) (g : LeAudioDeviceGroup) : LaterCall → LeAudioDeviceGroup
  | LaterCall.GetConfiguration context_type => (g.GetConfiguration env context_type).2
  | LaterCall.Configure context_type metadata_context_types ccid_lists =>
    match g.Configure env context_type metadata_context_types ccid_lists with
    | some r => r.2
    | none => g
  | LaterCall.Change change => applyChange env g change

/-- The group after a sequence of such calls. -/
def applyLaterCalls (env : Env) (g : LeAudioDeviceGroup) (calls : List LaterCall) :
    LeAudioDeviceGroup :=
  calls.foldl (applyLaterCall env) g

/-! ## Concrete inputs for the selection of a configuration -/

/-- A catalogue entry with one source requirement and no sink requirement,
declared for one source device; its sink strategy is declared as
`STEREO_ONE_CIS_PER_DEVICE`. -/
def sourceOnlyConf : AudioSetConfiguration :=
  { name := "source only"
    confs := ⟨[], [{ codec := 1 }]⟩
    topology_info := some
      { device_count := ⟨0, 1⟩
        strategy := ⟨LeAudioConfigurationStrategy.STEREO_ONE_CIS_PER_DEVICE,
                     LeAudioConfigurationStrategy.MONO_ONE_CIS_PER_DEVICE⟩ } }

/-- A catalogue entry with one sink requirement, declared for one sink device
and the sink strategy `MONO_ONE_CIS_PER_DEVICE`. -/
def sinkMonoConf : AudioSetConfiguration :=
  { name := "one sink"
    confs := ⟨[{ codec := 1 }], []⟩
    topology_info := some
      { device_count := ⟨1, 0⟩
        strategy := ⟨LeAudioConfigurationStrategy.MONO_ONE_CIS_PER_DEVICE,
                     LeAudioConfigurationStrategy.MONO_ONE_CIS_PER_DEVICE⟩ } }

/-- A catalogue entry as `sinkMonoConf`, declared for two sink devices. -/
def twoSinksConf : AudioSetConfiguration :=
  { name := "two sinks"
    confs := ⟨[{ codec := 1 }, { codec := 1 }], []⟩
    topology_info := some
      { device_count := ⟨2, 0⟩
        strategy := ⟨LeAudioConfigurationStrategy.MONO_ONE_CIS_PER_DEVICE,
                     LeAudioConfigurationStrategy.MONO_ONE_CIS_PER_DEVICE⟩ } }

/-- A group of one connected microphone with a source audio location. -/
def micGroup : LeAudioDeviceGroup :=
  { leAudioDevices_ := [some { micDevice with src_audio_locations_ := 1 }] }

/-- A group of one connected earbud with the left sink audio location. -/
def leftEarbudGroup : LeAudioDeviceGroup :=
  { leAudioDevices_ := [some { earbudDevice with snk_audio_locations_ := 1 }]
    snk_audio_locations_ := 1 }

/-! ## Vocabulary of the statements on the selection -/

/-- A catalogue entry on which `IsAudioSetConfigurationSupported` runs to its
end: it carries topology information, which the `ASSERT_LOG` asks for, and the
channel count of each requirement is between 1 and 32, which keeps the shift of
`CheckIfStrategySupported` defined. -/
def checkable (conf : AudioSetConfiguration) : Bool :=
  conf.topology_info.isSome &&
    (conf.confs.sink ++ conf.confs.source).all
      (fun ent => decide (1 ≤ ent.channel_count_per_iso_stream) &&
        decide (ent.channel_count_per_iso_stream ≤ 32))

/-- A device reporting the left and the right sink location and, by its
channel-count bitmap 1, one channel per stream. -/
def stereoOneChannelDevice (address : Nat) : LeAudioDevice :=
  { address_ := ⟨address⟩
    ases_ := [{ id := 1 }, { id := 2 }]
    snk_audio_locations_ := 3
    snk_channel_counts_ := 1 }

/-- A group of two such devices, without a cached strategy. -/
def stereoPairGroup : LeAudioDeviceGroup :=
  { leAudioDevices_ := [some (stereoOneChannelDevice 1), some (stereoOneChannelDevice 2)]
    snk_audio_locations_ := 3 }

/-- A group of one device reporting both sink locations whose channel-count
bitmap is 2: two channels per stream, and no other count. -/
def twoChannelGroup : LeAudioDeviceGroup :=
  { leAudioDevices_ := [some { stereoOneChannelDevice 1 with snk_channel_counts_ := 2 }]
    snk_audio_locations_ := 3 }

/-- A group of one device of the kind of `stereoPairGroup`. -/
def stereoSingleGroup : LeAudioDeviceGroup :=
  { leAudioDevices_ := [some (stereoOneChannelDevice 1)]
    snk_audio_locations_ := 3 }

/-- A group of a connected earbud, which has a sink ASE, and a connected
microphone, which has none. -/
def earbudAndMicGroup : LeAudioDeviceGroup :=
  { leAudioDevices_ := [some earbudDevice, some micDevice]
    configuration_context_type_ := 2
    metadata_context_type_ := ⟨2, 2⟩ }

/-- The collaborators of `exampleEnv` with a codec manager that offers, for
every context, a fresh copy of `sinkMonoConf` at the address 100 plus the
context. -/
def offeringEnv : Env :=
  { exampleEnv with
    GetCodecConfig := fun ctx_type g => (some ⟨100 + ctx_type, sinkMonoConf⟩, g.strategy_) }

/-- An active sink ASE with the given presentation-delay window and preferred
range. -/
def delayAse (id lo hi preferred_lo preferred_hi : Nat) : ase :=
  { id := id, active := true
    qos_preferences :=
      { pres_delay_min := lo, pres_delay_max := hi
        preferred_pres_delay_min := preferred_lo
        preferred_pres_delay_max := preferred_hi } }

/-- A group of two devices with one active sink ASE each, whose windows 10 to 20
and 30 to 40 have nothing in common. -/
def disjointWindowsGroup : LeAudioDeviceGroup :=
  { leAudioDevices_ :=
      [some { address_ := ⟨1⟩, ases_ := [delayAse 1 10 20 0 0] },
       some { address_ := ⟨2⟩, ases_ := [delayAse 1 30 40 0 0] }] }

/-- A group of two devices with one active sink ASE each, both with the window 0
to 100; the first prefers 10 to 20 and the second 30 to 40. -/
def preferencesApartGroup : LeAudioDeviceGroup :=
  { leAudioDevices_ :=
      [some { address_ := ⟨1⟩, ases_ := [delayAse 1 0 100 10 20] },
       some { address_ := ⟨2⟩, ases_ := [delayAse 1 0 100 30 40] }] }

/-- A group as `preferencesApartGroup` whose devices prefer 10 to 50 and 30 to
40. -/
def preferencesMeetGroup : LeAudioDeviceGroup :=
  { leAudioDevices_ :=
      [some { address_ := ⟨1⟩, ases_ := [delayAse 1 0 100 10 50] },
       some { address_ := ⟨2⟩, ases_ := [delayAse 1 0 100 30 40] }] }

/-! ## The registry of groups -/

/-- The type `LeAudioDeviceGroups`: the vector `groups_` of the groups it owns.
A pointer to a group is the index of the group in `groups_`. -/
structure LeAudioDeviceGroups where
  groups_ : List LeAudioDeviceGroup := []
deriving DecidableEq

/-- Modelled from the spec: the constructor `LeAudioDeviceGroup(group_id)` of
`device_groups.h` (absent): a group "created/destroyed by id", which has the
id and no member. -/
def LeAudioDeviceGroup.create (group_id : Int) : LeAudioDeviceGroup :=
  { group_id_ := group_id }

/-- The function `LeAudioDeviceGroups::FindById`: the first group with the id,
null when there is none. -/
def LeAudioDeviceGroups.FindById (r : LeAudioDeviceGroups) (group_id : Int) : Option Nat :=
  findIfFrom (fun group => decide (group.group_id_ = group_id)) r.groups_ 0

/-- The function `LeAudioDeviceGroups::Add`: the pointer returned and the
registry afterwards. -/
def LeAudioDeviceGroups.Add (r : LeAudioDeviceGroups) (group_id : Int) :
    Option Nat × LeAudioDeviceGroups :=
  match r.FindById group_id with
  | some _ => (none, r)
  | none =>
    (some r.groups_.length,
     { r with groups_ := r.groups_ ++ [LeAudioDeviceGroup.create group_id] })

/-- The function `LeAudioDeviceGroups::Remove`. -/
def LeAudioDeviceGroups.Remove (r : LeAudioDeviceGroups) (group_id : Int) :
    LeAudioDeviceGroups :=
  match findIfFrom (fun group => decide (group.group_id_ = group_id)) r.groups_ 0 with
  | none => r
  | some iter => { r with groups_ := r.groups_.eraseIdx iter }

/-- The function `LeAudioDeviceGroups::GetGroupsIds`. -/
def LeAudioDeviceGroups.GetGroupsIds (r : LeAudioDeviceGroups) : List Int :=
  r.groups_.map (fun group => group.group_id_)

/-! ## `GetSCA` -/

/-- The loop of `LeAudioDeviceGroup::GetSCA` over the members, `sca` being the
value so far. `leAudioDevice.lock()` is dereferenced without a check, so an
expired reference gives `none`. -/
def getScaLoop (env : Env) : List (Option LeAudioDevice) → Nat → Option Nat
  | [], sca => some sca
  | none :: _, _ => none
  | some leAudioDevice :: rest, sca =>
    let dev_sca := env.BTM_GetPeerSCA leAudioDevice.address_
    if dev_sca = 0xFF ∨ dev_sca = 0 then some 0
    else getScaLoop env rest (if dev_sca < sca then dev_sca else sca)

/-- The function `LeAudioDeviceGroup::GetSCA`. -/
def LeAudioDeviceGroup.GetSCA (env : Env) (g : LeAudioDeviceGroup) : Option Nat :=
  getScaLoop env g.leAudioDevices_ env.kIsoSca0To20Ppm

/-! ## `find_max_transport_latency` -/

/-- The body of the inner loop of `find_max_transport_latency` for one ASE:
the value of `max_transport_latency` afterwards. -/
def maxTransportLatencyStep (a : ase) (max_transport_latency : Nat) : Nat :=
  if max_transport_latency = 0 then a.qos_config.max_transport_latency
  else if a.qos_config.max_transport_latency < max_transport_latency then
    if a.qos_config.max_transport_latency ≠ 0 then a.qos_config.max_transport_latency
    else max_transport_latency
  else max_transport_latency

/-- The inner `for` loop of `find_max_transport_latency` over the active ASEs
of the direction of a device, `ase` being the loop variable; the condition of
the loop is `ase != nullptr`, so the `if (!ase) break;` of the body never
fires. `none` is returned when the fuel runs out. -/
def maxTransportLatencyAseLoop (d : LeAudioDevice) : Nat → Option Nat → Nat → Option Nat
  | _, none, max_transport_latency => some max_transport_latency
  | 0, some _, _ => none
  | fuel + 1, some i, max_transport_latency =>
    match d.ases_[i]? with
    | none => none
    | some a =>
      maxTransportLatencyAseLoop d fuel (d.GetNextActiveAseWithSameDirection i)
        (maxTransportLatencyStep a max_transport_latency)

/-- The outer `for` loop of `find_max_transport_latency` over the active
members, `leAudioDevice` being the loop variable. `none` is returned when the
fuel runs out. -/
def maxTransportLatencyDeviceLoop (g : LeAudioDeviceGroup) (direction : Direction) :
    Nat → Option Nat → Nat → Option Nat
  | _, none, max_transport_latency => some max_transport_latency
  | 0, some _, _ => none
  | fuel + 1, some k, max_transport_latency =>
    match g.leAudioDevices_[k]? with
    | some (some leAudioDevice) =>
      match maxTransportLatencyAseLoop leAudioDevice leAudioDevice.ases_.length
          (leAudioDevice.GetFirstActiveAseByDirection direction) max_transport_latency with
      | none => none
      | some max_transport_latency1 =>
        maxTransportLatencyDeviceLoop g direction fuel (g.GetNextActiveDevice k)
          max_transport_latency1
    | _ => none

/-- The function `find_max_transport_latency(group, direction)`. -/
def find_max_transport_latency (env : Env) (group : LeAudioDeviceGroup)
    (direction : Direction) : Option Nat :=
  match maxTransportLatencyDeviceLoop group direction group.leAudioDevices_.length
      group.GetFirstActiveDevice 0 with
  | none => none
  | some max_transport_latency =>
    if max_transport_latency < env.kMaxTransportLatencyMin then
      some env.kMaxTransportLatencyMin
    else if max_transport_latency > env.kMaxTransportLatencyMax then
      some env.kMaxTransportLatencyMax
    else some max_transport_latency

/-- The function `LeAudioDeviceGroup::GetMaxTransportLatencyStom`. -/
def LeAudioDeviceGroup.GetMaxTransportLatencyStom (env : Env) (g : LeAudioDeviceGroup) :
    Option Nat :=
  find_max_transport_latency env g Direction.kLeAudioDirectionSource

/-- The function `LeAudioDeviceGroup::GetMaxTransportLatencyMtos`. -/
def LeAudioDeviceGroup.GetMaxTransportLatencyMtos (env : Env) (g : LeAudioDeviceGroup) :
    Option Nat :=
  find_max_transport_latency env g Direction.kLeAudioDirectionSink

/-! ## `GetPhyBitmask` -/

/-- The body of the inner loop of `LeAudioDeviceGroup::GetPhyBitmask` for one
ASE of the device: the value of `phy_bitfield` afterwards. The operands are
`uint8_t` values, and the bitwise operations stay within them. -/
def phyBitmaskStep (env : Env) (direction : Direction) (leAudioDevice : LeAudioDevice)
    (a : ase) (phy_bitfield : Nat) : Nat :=
  if direction = a.direction then
    let phy_bitfield1 := phy_bitfield &&& env.GetPhyBitmaskOfDevice leAudioDevice
    if a.qos_preferences.preferred_phy ≠ 0 ∧
        (phy_bitfield1 &&& a.qos_preferences.preferred_phy) ≠ 0 then
      phy_bitfield1 &&& a.qos_preferences.preferred_phy
    else phy_bitfield1
  else phy_bitfield

/-- The inner `do ... while` loop of `GetPhyBitmask` over the ASEs of a device,
from the ASE at index `i`. `none` is returned when the fuel runs out. -/
def phyBitmaskAseLoop (env : Env) (direction : Direction) (d : LeAudioDevice) :
    Nat → Nat → Nat → Option Nat
  | 0, _, _ => none
  | fuel + 1, i, phy_bitfield =>
    match d.ases_[i]? with
    | none => none
    | some a =>
      let phy_bitfield1 := phyBitmaskStep env direction d a phy_bitfield
      match d.GetNextActiveAseWithSameDirection i with
      | none => some phy_bitfield1
      | some j => phyBitmaskAseLoop env direction d fuel j phy_bitfield1

/-- The outer `do ... while` loop of `GetPhyBitmask` over the active members,
from the member at index `k`; a member without an active ASE of the direction
ends the function with `return phy_bitfield`. `none` is returned when the fuel
runs out. -/
def phyBitmaskDeviceLoop (env : Env) (g : LeAudioDeviceGroup) (direction : Direction) :
    Nat → Nat → Nat → Option Nat
  | 0, _, _ => none
  | fuel + 1, k, phy_bitfield =>
    match g.leAudioDevices_[k]? with
    | some (some leAudioDevice) =>
      match leAudioDevice.GetFirstActiveAseByDirection direction with
      | none => some phy_bitfield
      | some i =>
        match phyBitmaskAseLoop env direction leAudioDevice leAudioDevice.ases_.length i
            phy_bitfield with
        | none => none
        | some phy_bitfield1 =>
          match g.GetNextActiveDevice k with
          | none => some phy_bitfield1
          | some k1 => phyBitmaskDeviceLoop env g direction fuel k1 phy_bitfield1
    | _ => none

/-- The function `LeAudioDeviceGroup::GetPhyBitmask(direction)`; `none` when the
`LOG_ASSERT` on the first active device fails. -/
def LeAudioDeviceGroup.GetPhyBitmask (env : Env) (g : LeAudioDeviceGroup)
    (direction : Direction) : Option Nat :=
  match g.GetFirstActiveDevice with
  | none => none
  | some k =>
    let phy_bitfield :=
      if env.SupportsBle2mPhy then env.kIsoCigPhy1M ||| env.kIsoCigPhy2M
      else env.kIsoCigPhy1M
    phyBitmaskDeviceLoop env g direction g.leAudioDevices_.length k phy_bitfield

/-! ## `RemoveCisFromStreamIfNeeded` -/

/-- Modelled from the spec: `stream_parameters::clear()` of `le_audio_types.h`
(absent): the parameters of a direction after `ClearSinksFromConfiguration`
or `ClearSourcesFromConfiguration`, with no device, no channel and no stream
location. -/
def stream_parameters.clear (_params : stream_parameters) : stream_parameters :=
  { num_of_devices := 0, num_of_channels := 0, audio_channel_allocation := 0
    stream_locations := [] }

/-- Modelled from the spec: `LeAudioDevice::GetAsesByCisConnHdl(conn_hdl)` of
`devices.cc` (absent): the sink ASE and the source ASE of the device "bound to"
the connection handle, as `GetAsesByCisId` does for a CIS id; the ASEs pointed
to are only read, and are given by value. -/
def LeAudioDevice.GetAsesByCisConnHdl (d : LeAudioDevice) (conn_hdl : Nat) :
    BidirectionalPair (Option ase) :=
  { sink := (d.ases_.filter (fun a => decide (a.cis_conn_hdl = conn_hdl) &&
      decide (a.direction = Direction.kLeAudioDirectionSink))).getLast?
    source := (d.ases_.filter (fun a => decide (a.cis_conn_hdl = conn_hdl) &&
      decide (a.direction ≠ Direction.kLeAudioDirectionSink))).getLast? }

/-- The function `LeAudioDeviceGroup::IsCisPartOfCurrentStream`. -/
def LeAudioDeviceGroup.IsCisPartOfCurrentStream (g : LeAudioDeviceGroup)
    (cis_conn_hdl : Nat) : Bool :=
  let sink_stream_locations := g.stream_conf_stream_params.sink.stream_locations
  match sink_stream_locations.find? (fun pair => decide (cis_conn_hdl = pair.1)) with
  | some _ => true
  | none =>
    let source_stream_locations := g.stream_conf_stream_params.source.stream_locations
    (source_stream_locations.find? (fun pair => decide (cis_conn_hdl = pair.1))).isSome

/-- The call of `std::remove_if` in `RemoveCisFromStreamIfNeeded` over the
stream locations of the direction `dir`: the predicate runs once on each pair,
in order; it writes to `cis_conn_hdl`, captured by reference, and to the
counters of `params`. The result is `cis_conn_hdl` and the counters afterwards
and the pairs that are kept. The `uint8_t` subtraction wraps, and `~pair.second`
is the complement of a `uint32_t`. -/
def removeCisLoop (leAudioDevice : LeAudioDevice) (dir : Direction) :
    List (Nat × Nat) → Nat → stream_parameters → Nat × stream_parameters × List (Nat × Nat)
  | [], cis_conn_hdl, params => (cis_conn_hdl, params, [])
  | pair :: rest, cis_conn_hdl, params =>
    let cis_conn_hdl1 := if cis_conn_hdl = 0 then pair.1 else cis_conn_hdl
    let ases_pair := leAudioDevice.GetAsesByCisConnHdl cis_conn_hdl1
    match ases_pair.get dir with
    | some a =>
      if cis_conn_hdl1 = pair.1 then
        removeCisLoop leAudioDevice dir rest cis_conn_hdl1
          { params with
            num_of_devices := params.num_of_devices - 1
            num_of_channels :=
              (params.num_of_channels + 256 - a.channel_count_per_iso_stream % 256) % 256
            audio_channel_allocation :=
              params.audio_channel_allocation &&& (0xFFFFFFFF ^^^ pair.2) }
      else
        let r := removeCisLoop leAudioDevice dir rest cis_conn_hdl1 params
        (r.1, r.2.1, pair :: r.2.2)
    | none =>
      let r := removeCisLoop leAudioDevice dir rest cis_conn_hdl1 params
      (r.1, r.2.1, pair :: r.2.2)

/-- One round of the loop `for (auto dir : {sink, source})` of
`RemoveCisFromStreamIfNeeded`: `cis_conn_hdl` and the parameters of the
direction afterwards. -/
def removeCisFromDirection (leAudioDevice : LeAudioDevice) (dir : Direction)
    (cis_conn_hdl : Nat) (params : stream_parameters) : Nat × stream_parameters :=
  let r := removeCisLoop leAudioDevice dir params.stream_locations cis_conn_hdl params
  (r.1, { r.2.1 with stream_locations := r.2.2 })

/-- The function `LeAudioDeviceGroup::RemoveCisFromStreamIfNeeded(leAudioDevice,
cis_conn_hdl)`: the group afterwards. The calls to the codec manager leave the
group as it is. -/
def LeAudioDeviceGroup.RemoveCisFromStreamIfNeeded (g : LeAudioDeviceGroup)
    (leAudioDevice : LeAudioDevice) (cis_conn_hdl : Nat) : LeAudioDeviceGroup :=
  if !g.IsCisPartOfCurrentStream cis_conn_hdl then g
  else
    let r_sink := removeCisFromDirection leAudioDevice Direction.kLeAudioDirectionSink
      cis_conn_hdl g.stream_conf_stream_params.sink
    let r_source := removeCisFromDirection leAudioDevice Direction.kLeAudioDirectionSource
      r_sink.1 g.stream_conf_stream_params.source
    let sink := if r_sink.2.num_of_channels = 0 then r_sink.2.clear else r_sink.2
    let source := if r_source.2.num_of_channels = 0 then r_source.2.clear else r_source.2
    { g with
      stream_conf_stream_params := ⟨sink, source⟩
      cig := UnassignCis g.cig leAudioDevice }

/-! ## Vocabulary of the statements on the membership -/

/-- A member that is not expired, has a valid connection id and is in the
state `CONNECTED`. -/
def connectedMember (env : Env) (m : Option LeAudioDevice) : Bool :=
  match m with
  | none => false
  | some d =>
    decide (d.conn_id_ ≠ env.GATT_INVALID_CONN_ID) &&
      decide (d.connection_state_ = DeviceConnectState.CONNECTED)

/-- A member that is not expired and whose supported contexts, of either
direction, have a bit in common with `context_type`. -/
def supportsContext (context_type : Nat) (m : Option LeAudioDevice) : Bool :=
  match m with
  | none => false
  | some d =>
    decide (((d.supp_contexts_.sink ||| d.supp_contexts_.source) &&& context_type) ≠ 0)

/-- The members that are not expired, in the order of the group. -/
def liveMembers (g : LeAudioDeviceGroup) : List LeAudioDevice :=
  g.leAudioDevices_.filterMap id

/-- The members visited by `GetFirstDevice` and then `GetNextDevice` until it
returns null, as indexes, with at most `fuel` calls of `GetNextDevice`. -/
def visitFrom (g : LeAudioDeviceGroup) : Nat → Option Nat → List Nat
  | _, none => []
  | 0, some k => [k]
  | fuel + 1, some k => k :: visitFrom g fuel (g.GetNextDevice k)

/-- The members visited by the iteration `GetFirstDevice`, `GetNextDevice`. -/
def visitedMembers (g : LeAudioDeviceGroup) : List Nat :=
  visitFrom g g.leAudioDevices_.length g.GetFirstDeviceIndex

/-- The calls that change the registry. -/
inductive RegistryCall where
  | Add (group_id : Int)
  | Remove (group_id : Int)
deriving DecidableEq

/-- The registry after one call. -/
def applyRegistryCall (r : LeAudioDeviceGroups) : RegistryCall → LeAudioDeviceGroups
  | RegistryCall.Add group_id => (r.Add group_id).2
  | RegistryCall.Remove group_id => r.Remove group_id

/-- The registry after a sequence of calls. -/
def applyRegistryCalls (r : LeAudioDeviceGroups) (calls : List RegistryCall) :
    LeAudioDeviceGroups :=
  calls.foldl applyRegistryCall r

/-- The readings of the sleep clock accuracy of the live members. -/
def scaReadings (env : Env) (g : LeAudioDeviceGroup) : List Nat :=
  (liveMembers g).map (fun d => env.BTM_GetPeerSCA d.address_)

/-! ## Vocabulary of the statements on the PHY bitmask -/

/-- The locally supported PHY mask: 1M, and 2M when the controller supports
it. -/
def localPhyMask (env : Env) : Nat :=
  if env.SupportsBle2mPhy then env.kIsoCigPhy1M ||| env.kIsoCigPhy2M else env.kIsoCigPhy1M

/-- The active ASEs of the direction of one member, each with the member. -/
def activeAsePairsOfMember (direction : Direction) (m : Option LeAudioDevice) :
    List (LeAudioDevice × ase) :=
  match m with
  | none => []
  | some d =>
    (d.ases_.filter (fun a => a.active && decide (a.direction = direction))).map
      (fun a => (d, a))

/-- The active ASEs of the direction of all live members, each with its
member, in the order of the members and of their ASEs. -/
def activeAsePairsOf (direction : Direction) (g : LeAudioDeviceGroup) :
    List (LeAudioDevice × ase) :=
  g.leAudioDevices_.flatMap (activeAsePairsOfMember direction)

/-- The mask intersected with the PHY bitmask of the device of an ASE, and then
with the preferred PHY bitmask of the ASE unless that is 0, which is no
preference, or has nothing in common with the mask. -/
def intersectPhy (env : Env) (mask : Nat) (pair : LeAudioDevice × ase) : Nat :=
  let common := mask &&& env.GetPhyBitmaskOfDevice pair.1
  if pair.2.qos_preferences.preferred_phy = 0 then common
  else if common &&& pair.2.qos_preferences.preferred_phy = 0 then common
  else common &&& pair.2.qos_preferences.preferred_phy

/-- No active member of the list without an active ASE of the direction comes
before a member with one. -/
def gapSkipsNothing (direction : Direction) : List (Option LeAudioDevice) → Bool
  | [] => true
  | m :: rest =>
    if isActiveMember m && (activeAsesOfMember direction m).isEmpty then
      rest.all (fun m1 => (activeAsesOfMember direction m1).isEmpty)
    else gapSkipsNothing direction rest

/-- The `return` that `GetPhyBitmask` takes at an active member without an
active ASE of the direction skips no active ASE of the direction: no such
member comes before a member with an active ASE of the direction. -/
def earlyReturnSkipsNothing (direction : Direction) (g : LeAudioDeviceGroup) : Bool :=
  gapSkipsNothing direction g.leAudioDevices_

/-! ## Vocabulary of the statements on the freshness of the cache -/

/-- The cache holds at most one entry per context type. -/
@[reducible] def cacheKeysUnique (g : LeAudioDeviceGroup) : Prop :=
  (g.context_to_configuration_cache_map.map (fun e => e.1)).Nodup

/-- The entry of the context is missing, marked invalid, or null. -/
def needsRefresh (g : LeAudioDeviceGroup) (context_type : Nat) : Bool :=
  match cacheAt g.context_to_configuration_cache_map context_type with
  | none => true
  | some (is_valid, conf) => !is_valid || conf.isNone

/-- A call on a group: one of the calls of `LaterCall`, a refresh of the entry
of a context, or `InvalidateCachedConfigurations`. -/
inductive GroupCall where
  | Later (call : LaterCall)
  | UpdateAudioSetConfigurationCache (ctx_type : Nat)
  | InvalidateCachedConfigurations

/-- The group after one call. -/
def applyGroupCall (env : Env) (g : LeAudioDeviceGroup) : GroupCall → LeAudioDeviceGroup
  | GroupCall.Later call => applyLaterCall env g call
  | GroupCall.UpdateAudioSetConfigurationCache ctx_type =>
    (g.UpdateAudioSetConfigurationCache env ctx_type).2
  | GroupCall.InvalidateCachedConfigurations => g.InvalidateCachedConfigurations

/-- The group after a sequence of calls. -/
def applyGroupCalls (env : Env) (g : LeAudioDeviceGroup) (calls : List GroupCall) :
    LeAudioDeviceGroup :=
  calls.foldl (applyGroupCall env) g

/-! ## Vocabulary of the statements on the transport latency -/

/-- The smallest value of the list other than 0, and 0 when there is none. -/
def smallestNonZero (values : List Nat) : Nat :=
  ((values.filter (fun v => decide (v ≠ 0))).min?).getD 0

/-- The value clamped into the range from `lo` to `hi`. -/
def clampInto (lo hi v : Nat) : Nat := max lo (min hi v)

/-- The values of `max_transport_latency` of the active ASEs of the direction. -/
def transportLatencies (direction : Direction) (g : LeAudioDeviceGroup) : List Nat :=
  (activeAsesOf direction g).map (fun a => a.qos_config.max_transport_latency)

/-! ## Vocabulary of the statements on the removal of a CIS from the stream -/

/-- The parameters of a direction without the stream locations of the handle
`h`, when `a` is the ASE of the direction that the device has on `h`: an entry
less is a device less, the channels of the ASE less (of a `uint8_t`, so modulo
256) and the bits of its location cleared in the channel allocation; the
parameters as they are when the device has no such ASE. -/
def withoutCis (a : Option ase) (h : Nat) (params : stream_parameters) : stream_parameters :=
  match a with
  | none => params
  | some a =>
    { num_of_devices :=
        params.num_of_devices -
          ((params.stream_locations.filter (fun pair => decide (pair.1 = h))).length : Int)
      num_of_channels :=
        (((params.num_of_channels : Int) -
          ((params.stream_locations.filter (fun pair => decide (pair.1 = h))).length : Int) *
            (a.channel_count_per_iso_stream : Int)) % 256).toNat
      audio_channel_allocation :=
        (params.stream_locations.filter (fun pair => decide (pair.1 = h))).foldl
          (fun allocation pair => allocation &&& (0xFFFFFFFF ^^^ pair.2))
          params.audio_channel_allocation
      stream_locations := params.stream_locations.filter (fun pair => decide (pair.1 ≠ h)) }

/-- The parameters of a direction, cleared when the channel count is 0. -/
def clearedWhenSilent (params : stream_parameters) : stream_parameters :=
  if params.num_of_channels = 0 then {} else params

/-! ## Concrete inputs for the membership, the registry and the stream -/

/-- An earbud whose ASE is active and holds the connection handle 7. -/
def streamingEarbud : LeAudioDevice :=
  { address_ := ⟨6⟩, group_id_ := 1
    ases_ := [{ id := 1, active := true, cis_id := 0, cis_conn_hdl := 7 }] }

/-- A group with the id 1 whose only member is `streamingEarbud`. -/
def streamingGroup : LeAudioDeviceGroup :=
  { group_id_ := 1, leAudioDevices_ := [some streamingEarbud] }

/-- A group of three references, the second of which is expired. -/
def gapGroup : LeAudioDeviceGroup :=
  { leAudioDevices_ := [some earbudDevice, none, some secondEarbud] }

/-- A group of the earbud and an expired reference. -/
def expiredTailGroup : LeAudioDeviceGroup :=
  { leAudioDevices_ := [some earbudDevice, none] }

/-- A connected device with the connection id 1 that supports the context of
bit 2. -/
def mediaEarbud : LeAudioDevice :=
  { earbudDevice with
    conn_id_ := 1, connection_state_ := DeviceConnectState.CONNECTED
    supp_contexts_ := ⟨4, 0⟩ }

/-- A group of a connected member that supports the context of bit 2, an
expired reference, a connected member that supports no context and a member
without a valid connection id. -/
def mixedGroup : LeAudioDeviceGroup :=
  { leAudioDevices_ := [some mediaEarbud, none, some secondEarbud,
                        some { mediaEarbud with address_ := ⟨9⟩, conn_id_ := 0xFFFF }] }

/-- A group of two members whose readings of the sleep clock accuracy are 0
(address 256) and 3. -/
def zeroScaGroup : LeAudioDeviceGroup :=
  { leAudioDevices_ := [some { earbudDevice with address_ := ⟨256⟩ },
                        some { earbudDevice with address_ := ⟨3⟩ }] }

/-- A group of two members whose readings of the sleep clock accuracy are 5
and 3. -/
def scaGroup : LeAudioDeviceGroup :=
  { leAudioDevices_ := [some { earbudDevice with address_ := ⟨5⟩ },
                        some { earbudDevice with address_ := ⟨3⟩ }] }

/-- The group `leftEarbudGroup` whose cache holds, for the context 4, an entry
that is marked invalid. -/
def staleGroup : LeAudioDeviceGroup :=
  { leftEarbudGroup with
    context_to_configuration_cache_map := [(4, false, some ⟨104, sinkMonoConf⟩)] }

/-- A group of two devices: the first has an active sink ASE without a
transport latency and one with the latency 20, the second one with the latency
10 and an active source ASE with the latency 8. -/
def latencyGroup : LeAudioDeviceGroup :=
  { leAudioDevices_ :=
      [some { address_ := ⟨1⟩
              ases_ := [{ id := 1, active := true },
                        { id := 2, active := true, qos_config := { max_transport_latency := 20 } }] },
       some { address_ := ⟨2⟩
              ases_ := [{ id := 1, active := true, qos_config := { max_transport_latency := 10 } },
                        { id := 2, active := true
                          direction := Direction.kLeAudioDirectionSource
                          qos_config := { max_transport_latency := 8 } }] }] }

/-- An active sink ASE with the given preferred PHY bitmask. -/
def phyAse (id preferred_phy : Nat) : ase :=
  { id := id, active := true, qos_preferences := { preferred_phy := preferred_phy } }

/-- A group of one device whose active sink ASEs prefer the PHY 2M, state no
preference, and prefer the PHY 1M. -/
def phyGroup : LeAudioDeviceGroup :=
  { leAudioDevices_ := [some { address_ := ⟨1⟩, ases_ := [phyAse 1 2, phyAse 2 0, phyAse 3 1] }] }

/-- A group of two devices: the first has an active source ASE and no sink ASE,
the second an active sink ASE that prefers the PHY 1M. -/
def micFirstGroup : LeAudioDeviceGroup :=
  { leAudioDevices_ :=
      [some { address_ := ⟨1⟩
              ases_ := [{ id := 1, active := true
                          direction := Direction.kLeAudioDirectionSource }] },
       some { address_ := ⟨2⟩, ases_ := [phyAse 1 1] }] }

/-- A group of one device whose active sink ASE states no preference. -/
def noPreferenceGroup : LeAudioDeviceGroup :=
  { leAudioDevices_ := [some { address_ := ⟨1⟩, ases_ := [phyAse 1 0] }] }

/-- A device whose only ASE is an active sink ASE with two channels on the
connection handle 5. -/
def handleFiveDevice : LeAudioDevice :=
  { address_ := ⟨6⟩
    ases_ := [{ id := 1, active := true, cis_id := 0, cis_conn_hdl := 5
                channel_count_per_iso_stream := 2 }] }

/-- A group that streams to two sink locations, on the connection handles 5
and 0, with three channels. -/
def zeroHandleGroup : LeAudioDeviceGroup :=
  { leAudioDevices_ := [some handleFiveDevice]
    stream_conf_stream_params :=
      ⟨{ num_of_devices := 2, num_of_channels := 3, audio_channel_allocation := 3
         stream_locations := [(5, 1), (0, 2)] }, {}⟩ }

/-- A group that streams to two sink locations, on the connection handles 5
and 9, with three channels. -/
def twoHandlesGroup : LeAudioDeviceGroup :=
  { leAudioDevices_ := [some handleFiveDevice]
    stream_conf_stream_params :=
      ⟨{ num_of_devices := 2, num_of_channels := 3, audio_channel_allocation := 3
         stream_locations := [(5, 1), (9, 2)] }, {}⟩ }

/-! ## The transport latency of the group -/

/-- The function `LeAudioDeviceGroup::GetTransportLatencyUs(direction)`, on the
`uint8_t` direction it is called with. -/
def LeAudioDeviceGroup.GetTransportLatencyUs (env : Env) (g : LeAudioDeviceGroup)
    (direction : Nat) : Nat :=
  if direction = env.kLeAudioDirectionSink then g.transport_latency_mtos_us_
  else if direction = env.kLeAudioDirectionSource then g.transport_latency_stom_us_
  else 0

/-- The part of `SetTransportLatency` that works through the pointer
`transport_latency_us`: the value pointed to afterwards. -/
def writeTransportLatency (transport_latency_us new_transport_latency_us : Nat) : Nat :=
  if transport_latency_us = new_transport_latency_us then transport_latency_us
  else if transport_latency_us ≠ 0 ∧ transport_latency_us ≠ new_transport_latency_us then
    transport_latency_us
  else new_transport_latency_us

/-- The function `LeAudioDeviceGroup::SetTransportLatency(direction,
new_transport_latency_us)`, on the `uint8_t` direction it is called with: the
group afterwards. -/
def LeAudioDeviceGroup.SetTransportLatency (env : Env) (g : LeAudioDeviceGroup)
    (direction new_transport_latency_us : Nat) : LeAudioDeviceGroup :=
  if direction = env.kLeAudioDirectionSink then
    { g with
      transport_latency_mtos_us_ :=
        writeTransportLatency g.transport_latency_mtos_us_ new_transport_latency_us }
  else if direction = env.kLeAudioDirectionSource then
    { g with
      transport_latency_stom_us_ :=
        writeTransportLatency g.transport_latency_stom_us_ new_transport_latency_us }
  else g

/-! ## Vocabulary of the statements on the transport latency of the group -/

/-- The group after a sequence of calls `SetTransportLatency(direction, value)`. -/
def applySetTransportLatency (env : Env) (g : LeAudioDeviceGroup)
    (calls : List (Nat × Nat)) : LeAudioDeviceGroup :=
  calls.foldl (fun g1 call => g1.SetTransportLatency env call.1 call.2) g

/-! ## Vocabulary of the statements on the quota and the strategy -/

/-- The quotient `n / d` rounded up. -/
def ceilDiv (n d : Nat) : Nat := (n + d - 1) / d

/-- The audio-location bitmap of the device for the direction. -/
def audioLocationsOf (direction : Direction) (device : LeAudioDevice) : Nat :=
  match direction with
  | Direction.kLeAudioDirectionSink => device.snk_audio_locations_
  | Direction.kLeAudioDirectionSource => device.src_audio_locations_

/-- What the strategy asks of a device: for the mono strategy a location bit;
for the stereo strategy with two CISes a left and a right location bit; for
the stereo strategy with one CIS both and the bit `n - 1` of the supported
channel counts, `n` being the requested channel count; nothing passes any
other strategy. -/
def strategySupported (env : Env) (strategy : LeAudioConfigurationStrategy)
    (conf : AseConfiguration) (direction : Direction) (device : LeAudioDevice) : Bool :=
  match strategy with
  | LeAudioConfigurationStrategy.MONO_ONE_CIS_PER_DEVICE =>
    decide (audioLocationsOf direction device ≠ 0)
  | LeAudioConfigurationStrategy.STEREO_TWO_CISES_PER_DEVICE =>
    decide ((audioLocationsOf direction device &&& env.kLeAudioLocationAnyLeft) ≠ 0) &&
      decide ((audioLocationsOf direction device &&& env.kLeAudioLocationAnyRight) ≠ 0)
  | LeAudioConfigurationStrategy.STEREO_ONE_CIS_PER_DEVICE =>
    decide ((audioLocationsOf direction device &&& env.kLeAudioLocationAnyLeft) ≠ 0) &&
      decide ((audioLocationsOf direction device &&& env.kLeAudioLocationAnyRight) ≠ 0) &&
      (device.GetSupportedAudioChannelCounts direction).testBit
        (conf.channel_count_per_iso_stream - 1)
  | LeAudioConfigurationStrategy.RFU => false

/-- The number of active ASEs of the device with CIS and data-path state
`IDLE`. -/
def idleCount (d : LeAudioDevice) : Nat :=
  d.ases_.countP idleActive

/-- No two ASEs of the device have the same direction and the same CIS id. -/
@[reducible] def noSharedCisId (d : LeAudioDevice) : Prop :=
  d.ases_.Pairwise (fun a b => ¬ (a.cis_id = b.cis_id ∧ a.direction = b.direction))

/-- The CIS id held by every active ASE of the device indexes a table of `size`
slots. -/
@[reducible] def activeIdsInTable (d : LeAudioDevice) (size : Nat) : Prop :=
  ∀ a ∈ d.ases_, a.active = true → a.cis_id < size

/-! ## Vocabulary of the statements on the allocation of CIS ids -/

/-- The lowest index of a slot of the type that no device is bound to, if
there is one. -/
def lowestFreeSlot (cises : List cis) (cis_type : CisType) : Option Nat :=
  findIfFrom (fun c => decide (c.addr = RawAddress.kEmpty) && decide (c.type = cis_type))
    cises 0

/-- The lowest index of a free slot of the type, if there is one, is below 255,
that is, a valid 8-bit CIS id. -/
def lowestFreeSlotFits (cises : List cis) (cis_type : CisType) : Bool :=
  match lowestFreeSlot cises cis_type with
  | some k => decide (k < 255)
  | none => true

/-- Every active ASE of the device after the index `i` whose direction is not
`direction` holds a CIS id: the ASE at `i`, of that direction, has no mate to
share a bidirectional CIS with. -/
def noUsableMate (d : LeAudioDevice) (i : Nat) (direction : Direction) : Bool :=
  (d.ases_.drop (i + 1)).all
    (fun x => !(x.active && decide (x.direction ≠ direction) &&
      decide (x.cis_id = kInvalidCisId)))

/-- No ASE of the device holds a CIS id. -/
@[reducible] def noCisIdHeld (d : LeAudioDevice) : Prop :=
  ∀ a ∈ d.ases_, a.cis_id = kInvalidCisId

/-- The slot `c2` is the slot `c` as it was, or `c` was free and `c2` is `c`
bound to the address. -/
def keptOrBound (addr : RawAddress) (c c2 : cis) : Prop :=
  c2 = c ∨ (c.addr = RawAddress.kEmpty ∧ c2 = { c with addr := addr })

/-- The state of an allocation that started from the table `cises0` for the
device at `addr`: the table has the slots of `cises0`, each as it was or, if it
was free, bound to `addr`; every CIS id held by an ASE of the device indexes a
slot that was free in `cises0` and is bound to `addr`; and no two ASEs of the
same direction hold the same CIS id. -/
def allocatedFrom (cises0 : List cis) (addr : RawAddress) (d : LeAudioDevice)
    (cises : List cis) : Prop :=
  cises.length = cises0.length ∧ d.address_ = addr ∧
    (∀ (j : Nat) (c : cis), cises0[j]? = some c →
      ∃ c2, cises[j]? = some c2 ∧ keptOrBound addr c c2) ∧
    (∀ (n : Nat) (b : ase), d.ases_[n]? = some b → b.cis_id ≠ kInvalidCisId →
      ∃ c, cises0[b.cis_id]? = some c ∧ c.addr = RawAddress.kEmpty ∧
        cises[b.cis_id]? = some { c with addr := addr }) ∧
    (∀ (n n1 : Nat) (b b1 : ase), n ≠ n1 → d.ases_[n]? = some b → d.ases_[n1]? = some b1 →
      b.cis_id ≠ kInvalidCisId → b.cis_id = b1.cis_id → b.direction ≠ b1.direction)

/-! ## Concrete inputs for the quota, the strategy and the latency -/

/-- A connected earbud with one sink ASE and the left sink location. -/
def leftEarbud : LeAudioDevice :=
  { address_ := ⟨6⟩, snk_audio_locations_ := 1, ases_ := [{ id := 1 }] }

/-- A connected microphone without a sink ASE and without a sink location: its
only ASE is a source ASE. -/
def plainMic : LeAudioDevice :=
  { address_ := ⟨8⟩
    ases_ := [{ id := 1, direction := Direction.kLeAudioDirectionSource }] }

/-- A group of an earbud with a sink ASE and a microphone without one. -/
def oneSinkGroup : LeAudioDeviceGroup :=
  { leAudioDevices_ := [some leftEarbud, some plainMic] }

/-- A device with a left and a right sink location that supports one channel
per stream. -/
def stereoDevice : LeAudioDevice :=
  { address_ := ⟨6⟩, snk_audio_locations_ := 3, snk_channel_counts_ := 1
    ases_ := [{ id := 1 }] }

/-- A device with an active sink ASE and an active source ASE on the CIS id 0,
an active sink ASE on the CIS id 1 and an inactive sink ASE without a CIS id. -/
def threeStreamsDevice : LeAudioDevice :=
  { address_ := ⟨5⟩
    ases_ := [{ id := 1, active := true, cis_id := 0 },
              { id := 2, active := true, cis_id := 0
                direction := Direction.kLeAudioDirectionSource },
              { id := 3, active := true, cis_id := 1 },
              { id := 4 }] }

/-- A table of a bidirectional slot with the handle 96 and a sink slot with the
handle 97, both bound to the device at address 5. -/
def twoSlotsTable : CigConfiguration :=
  { cises := [{ id := 0, type := CisType.CIS_TYPE_BIDIRECTIONAL, conn_handle := 96,
                addr := ⟨5⟩ },
              { id := 1, type := CisType.CIS_TYPE_UNIDIRECTIONAL_SINK, conn_handle := 97,
                addr := ⟨5⟩ }] }

/-- A table of 257 slots: 256 unidirectional sink slots bound to the device at
address 9, then a free unidirectional sink slot at index 256. -/
def wrappedTable : CigConfiguration :=
  { cises := (List.range 256).map
      (fun i => { id := i, type := CisType.CIS_TYPE_UNIDIRECTIONAL_SINK, conn_handle := 0,
                  addr := ⟨9⟩ }) ++ [freeCis 256 CisType.CIS_TYPE_UNIDIRECTIONAL_SINK] }

/-- A table of a free sink slot, a sink slot bound to the device at address 9, a
free bidirectional slot and a free source slot. -/
def mixedTable : CigConfiguration :=
  { cises := [freeCis 0 CisType.CIS_TYPE_UNIDIRECTIONAL_SINK,
              { freeCis 1 CisType.CIS_TYPE_UNIDIRECTIONAL_SINK with addr := ⟨9⟩ },
              freeCis 2 CisType.CIS_TYPE_BIDIRECTIONAL,
              freeCis 3 CisType.CIS_TYPE_UNIDIRECTIONAL_SOURCE] }

/-- A device at address 6 with two active sink ASEs and an active source ASE,
none with a CIS id. -/
def freshHeadset : LeAudioDevice :=
  { address_ := ⟨6⟩
    ases_ := [{ id := 1, active := true }, { id := 2, active := true },
              { id := 3, active := true, direction := Direction.kLeAudioDirectionSource }] }

/-! ## The maximum power property of `system/stack/btm/btm_vendor.cc`

A C string is the list of its characters before the terminating NUL. -/

/-- The function `is_byte_valid(ch)`. -/
def is_byte_valid (ch : Char) : Bool :=
  (decide ('0' ≤ ch) && decide (ch ≤ '9')) || (decide ('a' ≤ ch) && decide (ch ≤ 'f')) ||
    (decide ('A' ≤ ch) && decide (ch ≤ 'F'))

/-- The C library function `strtok_r(s, delim, &s)` as the loop of
`decode_max_power_values` calls it, with the string to scan and the saved
position in the same variable: the token, `none` for a null pointer, and the
string left to scan. The leading delimiters are skipped; the token runs to the
next delimiter, which is consumed, or to the end of the string. -/
def strtok_r (s : List Char) (delim : List Char) : Option (List Char) × List Char :=
  let s1 := s.dropWhile (fun c => delim.contains c)
  if s1 = [] then (none, [])
  else
    (some (s1.takeWhile (fun c => !delim.contains c)),
     (s1.dropWhile (fun c => !delim.contains c)).drop 1)

/-- The value of a hexadecimal digit, `none` for any other character. -/
def hexDigitValue (c : Char) : Option Nat :=
  if '0' ≤ c ∧ c ≤ '9' then some (c.toNat - '0'.toNat)
  else if 'a' ≤ c ∧ c ≤ 'f' then some (c.toNat - 'a'.toNat + 10)
  else if 'A' ≤ c ∧ c ≤ 'F' then some (c.toNat - 'A'.toNat + 10)
  else none

/-- The C library function `strtoul(token, NULL, 16)` on a token that starts
with no white space and no sign: after the optional prefix `0x` or `0X`, the
value of the longest run of hexadecimal digits, `ULONG_MAX` of 64 bits when it
does not fit. -/
def strtoul16 (token : List Char) : Nat :=
  let digits :=
    match token with
    | '0' :: 'x' :: rest => rest
    | '0' :: 'X' :: rest => rest
    | _ => token
  min ((digits.takeWhile (fun c => (hexDigitValue c).isSome)).foldl
    (fun v c => 16 * v + (hexDigitValue c).getD 0) 0) (2 ^ 64 - 1)

/-- The condition of the `if` in the loop of `decode_max_power_values`: the
token is not null, has four characters, starts with `0x` or `0X` and ends with
two characters that `is_byte_valid` accepts. -/
def tokenInOrder (token : Option (List Char)) : Bool :=
  match token with
  | none => false
  | some t =>
    t.length == 4 &&
      (t[0]? == some '0' && (t[1]? == some 'x' || t[1]? == some 'X') &&
        ((t[2]?).any is_byte_valid && (t[3]?).any is_byte_valid))

/-- The loop `for (i = 0; (i < 3 && status); i++)` of `decode_max_power_values`,
with `rounds` the number of rounds left: the status and the array
`max_power_prop_value` afterwards. -/
def decodeTokensLoop : Nat → Nat → List Char → List Nat → Bool × List Nat
  | 0, _, _, max_power_prop_value => (true, max_power_prop_value)
  | rounds + 1, i, reset, max_power_prop_value =>
    let r := strtok_r reset ['-']
    if tokenInOrder r.1 then
      decodeTokensLoop rounds (i + 1) r.2
        (max_power_prop_value.set i (strtoul16 (r.1.getD []) % 256))
    else (false, max_power_prop_value)

/-- The function `decode_max_power_values(power_val)`: the returned status and
the static array `max_power_prop_value` afterwards. -/
def decode_max_power_values (power_val : List Char) (max_power_prop_value : List Nat) :
    Bool × List Nat :=
  if power_val = ['f', 'a', 'l', 's', 'e'] then (false, max_power_prop_value)
  else if !power_val.contains '-' ||
      (!power_val.contains 'x' && !power_val.contains 'X') ||
      power_val.length != 14 then
    (false, max_power_prop_value)
  else decodeTokensLoop 3 0 power_val max_power_prop_value

/-! ## The trimming of advertising data of `system/gd/hci` -/

/-- Modelled from the spec: the loop of
`LeScanningReassembler::TrimAdvertisingData`, whose file
`system/gd/hci/le_scanning_reassembler.cc` is absent (only its test
`le_scanning_reassembler_test.cc` is there). The byte at `offset` is the
declared length of an entry; the entry, its length byte included, is appended
to the result when the length is not 0 and the declared bytes are all inside
the input; the scan goes on after the declared bytes. The fuel bounds the
number of entries read. -/
def trimLoop (advertising_data : List Nat) : Nat → Nat → List Nat → List Nat
  | 0, _, significant_advertising_data => significant_advertising_data
  | fuel + 1, offset, significant_advertising_data =>
    if offset < advertising_data.length then
      let remaining_size := advertising_data.length - offset
      let entry_size := advertising_data.getD offset 0
      trimLoop advertising_data fuel (offset + entry_size + 1)
        (if entry_size ≠ 0 ∧ entry_size < remaining_size then
          significant_advertising_data ++
            entry_size :: (advertising_data.drop (offset + 1)).take entry_size
        else significant_advertising_data)
    else significant_advertising_data

/-- Modelled from the spec: the function
`LeScanningReassembler::TrimAdvertisingData(advertising_data)`, whose file
`system/gd/hci/le_scanning_reassembler.cc` is absent: the entries of the input
that are not empty and do not overflow it, in order. -/
def TrimAdvertisingData (advertising_data : List Nat) : List Nat :=
  trimLoop advertising_data advertising_data.length 0 []

/-! ## Vocabulary of the statements on the trimming of advertising data -/

/-- The entries of a byte sequence read from the front: the length byte of an
entry with the bytes that follow it, as many as it declares or, for an entry
that overflows, as many as are left. The fuel bounds the number of entries. -/
def entriesLoop : Nat → List Nat → List (Nat × List Nat)
  | 0, _ => []
  | _ + 1, [] => []
  | fuel + 1, entry_size :: rest =>
    (entry_size, rest.take entry_size) :: entriesLoop fuel (rest.drop entry_size)

/-- The byte sequence read as a list of length-prefixed entries. -/
def lengthPrefixedEntries (data : List Nat) : List (Nat × List Nat) :=
  entriesLoop data.length data

/-- The entry is not empty and fits entirely inside the input: it has all the
bytes that its length byte declares. -/
def significantEntry (e : Nat × List Nat) : Bool :=
  decide (e.1 ≠ 0) && decide (e.2.length = e.1)

/-- The bytes of an entry: its length byte, then its payload. -/
def entryBytes (e : Nat × List Nat) : List Nat := e.1 :: e.2

/-! ## Vocabulary of the statements on the maximum power property -/

/-- The character is `x` or `X`. -/
def isHexMark (c : Char) : Bool := c == 'x' || c == 'X'

/-- The character is a hexadecimal digit. -/
def isHexDigit (c : Char) : Bool := (hexDigitValue c).isSome

/-- The string has exactly 14 characters, of the form `0xHH-0xHH-0xHH`, each
`x` being `x` or `X` and each `H` a hexadecimal digit. -/
def maxPowerFormat (s : List Char) : Bool :=
  match s with
  | [z1, x1, a1, b1, d1, z2, x2, a2, b2, d2, z3, x3, a3, b3] =>
    z1 == '0' && isHexMark x1 && isHexDigit a1 && isHexDigit b1 && d1 == '-' &&
      z2 == '0' && isHexMark x2 && isHexDigit a2 && isHexDigit b2 && d2 == '-' &&
      z3 == '0' && isHexMark x3 && isHexDigit a3 && isHexDigit b3
  | _ => false

/-- The byte written with the two hexadecimal digits `a` and `b`. -/
def hexByte (a b : Char) : Nat :=
  16 * (hexDigitValue a).getD 0 + (hexDigitValue b).getD 0

/-- The three bytes `HH` of a string of the form `0xHH-0xHH-0xHH`, in order. -/
def maxPowerBytes (s : List Char) : List Nat :=
  match s with
  | [_, _, a1, b1, _, _, _, a2, b2, _, _, _, a3, b3] =>
    [hexByte a1 b1, hexByte a2 b2, hexByte a3 b3]
  | _ => []

/-! ## Concrete inputs for the handing out of the connection handles -/

/-- A device with an active sink ASE on the CIS id 0 with CIS and data-path
state `IDLE`, an active source ASE on the CIS id 0 whose CIS is connected, an
active sink ASE on the CIS id 1 whose CIS is connected with the handle 50, and
an inactive sink ASE without a CIS id. -/
def mixedStatesDevice : LeAudioDevice :=
  { address_ := ⟨5⟩
    ases_ := [{ id := 1, active := true, cis_id := 0 },
              { id := 2, active := true, cis_id := 0
                direction := Direction.kLeAudioDirectionSource
                cis_state := CisState.CONNECTED },
              { id := 3, active := true, cis_id := 1, cis_conn_hdl := 50
                cis_state := CisState.CONNECTED },
              { id := 4 }] }

/-! ## Vocabulary of the statements on the round trip of a configuration -/

/-- The call is neither `InvalidateCachedConfigurations` nor a direct call of
`UpdateAudioSetConfigurationCache` for the context `context_type`. -/
def keepsEntryOf (context_type : Nat) : GroupCall → Bool
  | GroupCall.Later _ => true
  | GroupCall.UpdateAudioSetConfigurationCache ctx_type => decide (ctx_type ≠ context_type)
  | GroupCall.InvalidateCachedConfigurations => false

/-- The collaborators of `exampleEnv` with a codec manager that selects anew
at every call: it offers a copy of `sinkMonoConf` at an address that depends on
the group, 100 plus the number of members. -/
def renewingEnv : Env :=
  { exampleEnv with
    GetCodecConfig := fun _ g =>
      (some ⟨100 + g.leAudioDevices_.length, sinkMonoConf⟩, g.strategy_) }

/-! # Theorems -/

/-! # Properties of the CIS table generator -/

theorem GetGroupSinkStrategy_cached (env : Env) (g g1 : LeAudioDeviceGroup)
    (s : LeAudioConfigurationStrategy) (h : g.GetGroupSinkStrategy env = some (s, g1)) :
    g1.strategy_ = some s ∧ g1.leAudioDevices_ = g.leAudioDevices_ ∧
      g1.group_id_ = g.group_id_ ∧ g1.cig = g.cig := by
  unfold LeAudioDeviceGroup.GetGroupSinkStrategy at h
  split at h
  · next s0 hs =>
    simp only [Option.some.injEq, Prod.mk.injEq] at h
    obtain ⟨rfl, rfl⟩ := h
    exact ⟨hs, rfl, rfl, rfl⟩
  · dsimp only at h
    split at h
    · exact absurd h (by simp)
    · simp only [Option.some.injEq, Prod.mk.injEq] at h
      obtain ⟨rfl, rfl⟩ := h
      exact ⟨rfl, rfl, rfl, rfl⟩

theorem cisCountArguments_stable (env : Env) (g g1 : LeAudioDeviceGroup)
    (args : Int × LeAudioConfigurationStrategy × Int × Int × BidirectionalPair Nat)
    (h : cisCountArguments env g = some (args, g1)) (c : CigConfiguration) :
    g1.cig = g.cig ∧
      cisCountArguments env { g1 with cig := c } = some (args, { g1 with cig := c }) := by
  unfold cisCountArguments at h
  simp only at h
  split at h
  · exact absurd h (by simp)
  · next strategy g2 hs =>
    obtain ⟨hst, hdev, hid, hcig⟩ := GetGroupSinkStrategy_cached env g g2 strategy hs
    split at h
    · next snk src hsnk hsrc =>
      simp only [Option.some.injEq, Prod.mk.injEq] at h
      obtain ⟨rfl, rfl⟩ := h
      refine ⟨hcig, ?_⟩
      unfold cisCountArguments
      simp only [LeAudioDeviceGroup.GetGroupSinkStrategy, hst, hid]
      simp only [LeAudioDeviceGroup.GetAseCount] at hsnk hsrc ⊢
      simp only [hsnk, hsrc, LeAudioDeviceGroup.GetLatestAvailableContexts]
    · exact absurd h (by simp)

theorem GenerateCisIds_nonempty (env : Env) (context_type : Nat) (g : LeAudioDeviceGroup)
    (h : g.cig.cises ≠ []) : GenerateCisIds env context_type g = some g := by
  unfold GenerateCisIds
  have : g.cig.cises.length > 0 := List.length_pos.mpr h
  simp [this]

theorem GenerateCisIds_twice (env : Env) (context_type : Nat) (g g1 : LeAudioDeviceGroup)
    (h : GenerateCisIds env context_type g = some g1) :
    GenerateCisIds env context_type g1 = some g1 := by
  by_cases hne : g1.cig.cises = []
  · unfold GenerateCisIds at h
    split at h
    · simp only [Option.some.injEq] at h
      subst h
      simp_all
    · next hlen =>
      split at h
      · exact absurd h (by simp)
      · next group_size strategy snk src avail g2 hargs =>
        simp only [Option.some.injEq] at h
        obtain ⟨hcig, hstable⟩ := cisCountArguments_stable env g g2 _ hargs g1.cig
        have hg1 : { g2 with cig := g1.cig } = g1 := by rw [← h]
        rw [hg1] at hstable
        have hempty : g2.cig.cises = [] := by
          rw [hcig]
          exact List.length_eq_zero.mp (by omega)
        unfold GenerateCisIds
        simp only [hne, List.length_nil, gt_iff_lt, lt_self_iff_false, ↓reduceIte, hstable]
        have hX := congrArg LeAudioDeviceGroup.cig h
        dsimp only at hX
        rw [← hempty, hX]
  · exact GenerateCisIds_nonempty env context_type g1 hne

/-- C1: `GenerateCisIds` is a no-op on a group whose CIS table is non-empty, for
every group and context; and a second call (with no `ClearAllCises` in between)
returns the group exactly as the first call left it. -/
theorem GenerateCisIds_idempotent (env : Env) (context_type : Nat) (g : LeAudioDeviceGroup) :
    (g.cig.cises ≠ [] → GenerateCisIds env context_type g = some g) ∧
    (∀ g1, GenerateCisIds env context_type g = some g1 →
      GenerateCisIds env context_type g1 = some g1 ∧
      ∀ other_context, g1.cig.cises ≠ [] → GenerateCisIds env other_context g1 = some g1) :=
  ⟨GenerateCisIds_nonempty env context_type g,
   fun g1 h => ⟨GenerateCisIds_twice env context_type g g1 h,
     fun other_context hne => GenerateCisIds_nonempty env other_context g1 hne⟩⟩

/-- Witness of C1: a fresh group gets three slots, and a second call with
another context returns the same group. -/
theorem GenerateCisIds_idempotent_witness :
    GenerateCisIds exampleEnv 4 { leAudioDevices_ := [some {}] } =
      some { leAudioDevices_ := [some {}],
             strategy_ := some LeAudioConfigurationStrategy.MONO_ONE_CIS_PER_DEVICE,
             cig := { cises := [freeCis 0 CisType.CIS_TYPE_BIDIRECTIONAL,
                                freeCis 1 CisType.CIS_TYPE_UNIDIRECTIONAL_SINK,
                                freeCis 2 CisType.CIS_TYPE_UNIDIRECTIONAL_SINK] } } ∧
    GenerateCisIds exampleEnv 2
      { leAudioDevices_ := [some {}],
        strategy_ := some LeAudioConfigurationStrategy.MONO_ONE_CIS_PER_DEVICE,
        cig := { cises := [freeCis 0 CisType.CIS_TYPE_BIDIRECTIONAL,
                           freeCis 1 CisType.CIS_TYPE_UNIDIRECTIONAL_SINK,
                           freeCis 2 CisType.CIS_TYPE_UNIDIRECTIONAL_SINK] } } =
      some { leAudioDevices_ := [some {}],
             strategy_ := some LeAudioConfigurationStrategy.MONO_ONE_CIS_PER_DEVICE,
             cig := { cises := [freeCis 0 CisType.CIS_TYPE_BIDIRECTIONAL,
                                freeCis 1 CisType.CIS_TYPE_UNIDIRECTIONAL_SINK,
                                freeCis 2 CisType.CIS_TYPE_UNIDIRECTIONAL_SINK] } } :=
  ⟨by decide,
   ((GenerateCisIds_idempotent exampleEnv 4 { leAudioDevices_ := [some {}] }).2 _
      (by decide)).2 2 (by decide)⟩

theorem pushCisEntries_eq (count : Nat) (type : CisType) :
    ∀ (idx : Nat) (cises : List cis), idx < 256 →
      pushCisEntries count type idx cises =
        ((idx + count) % 256,
          cises ++ (List.range count).map (fun k => freeCis ((idx + k) % 256) type)) := by
  induction count with
  | zero =>
    intro idx cises h
    simp [pushCisEntries, Nat.mod_eq_of_lt h]
  | succ n ih =>
    intro idx cises h
    rw [pushCisEntries, ih ((idx + 1) % 256) _ (Nat.mod_lt _ (by decide))]
    refine Prod.ext (by simp only; omega) ?_
    simp only [List.range_succ_eq_map, List.map_cons, List.map_map, List.append_assoc,
      List.singleton_append, Nat.add_zero, Nat.mod_eq_of_lt h]
    congr 2
    · apply List.map_congr_left
      intro k _
      simp only [Function.comp_apply, freeCis, cis.mk.injEq, and_true]
      omega

theorem generated_table (b s r : Nat) :
    let r1 := pushCisEntries b CisType.CIS_TYPE_BIDIRECTIONAL 0 []
    let r2 := pushCisEntries s CisType.CIS_TYPE_UNIDIRECTIONAL_SINK r1.1 r1.2
    let r3 := pushCisEntries r CisType.CIS_TYPE_UNIDIRECTIONAL_SOURCE r2.1 r2.2
    r3.2.length = b + s + r ∧
      ∀ i, i < b + s + r → r3.2[i]? = some (freeCis (i % 256) (slotType b s i)) := by
  intro r1 r2 r3
  have h1 : r1 = _ := pushCisEntries_eq b CisType.CIS_TYPE_BIDIRECTIONAL 0 [] (by decide)
  have h2 : r2 = _ := pushCisEntries_eq s CisType.CIS_TYPE_UNIDIRECTIONAL_SINK r1.1 r1.2
    (by rw [h1]; exact Nat.mod_lt _ (by decide))
  have h3 : r3 = _ := pushCisEntries_eq r CisType.CIS_TYPE_UNIDIRECTIONAL_SOURCE r2.1 r2.2
    (by rw [h2]; exact Nat.mod_lt _ (by decide))
  rw [h3, h2, h1]
  simp only [List.nil_append, List.length_append, List.length_map, List.length_range,
    true_and]
  intro i hi
  by_cases hb : i < b
  · rw [List.getElem?_append_left (by simp; omega), List.getElem?_append_left (by simp; omega)]
    simp [List.getElem?_range hb, slotType, hb]
  · by_cases hs : i < b + s
    · rw [List.getElem?_append_left (by simp; omega),
        List.getElem?_append_right (by simp; omega)]
      have hk : i - b < s := by omega
      simp only [List.length_map, List.length_range, List.getElem?_map,
        List.getElem?_range hk, Option.map_some', slotType, hb, hs, if_false, if_true,
        freeCis, Option.some.injEq, cis.mk.injEq, and_true]
      omega
    · rw [List.getElem?_append_right (by simp; omega)]
      have hk : i - (b + s) < r := by omega
      simp only [List.length_append, List.length_map, List.length_range, List.getElem?_map,
        List.getElem?_range hk, Option.map_some', slotType, hb, hs, if_false,
        freeCis, Option.some.injEq, cis.mk.injEq, and_true]
      omega

/-- C2 (as amended): on an empty table, when the heuristic returns `(b, s, r)`,
`GenerateCisIds` produces exactly `b + s + r` free slots with `conn_handle` 0,
the first `b` bidirectional, the next `s` sink, the last `r` source; slot `i`
has the 8-bit id `i % 256`, which is `i` whenever `b + s + r ≤ 256`. -/
theorem GenerateCisIds_table (env : Env) (context_type : Nat) (g g1 : LeAudioDeviceGroup)
    (args : Int × LeAudioConfigurationStrategy × Int × Int × BidirectionalPair Nat)
    (b s r : Nat) (hempty : g.cig.cises = [])
    (hargs : cisCountArguments env g = some (args, g1))
    (hcount : env.get_cis_count context_type args.1 args.2.1 args.2.2.1 args.2.2.2.1
      args.2.2.2.2 = (b, s, r))
    (hb : b < 256) (hs : s < 256) (hr : r < 256) :
    ∃ g2, GenerateCisIds env context_type g = some g2 ∧
      g2.cig.cises.length = b + s + r ∧
      (∀ i, i < b + s + r →
        g2.cig.cises[i]? = some
          { id := i % 256, type := slotType b s i, conn_handle := 0,
            addr := RawAddress.kEmpty }) ∧
      (b + s + r ≤ 256 → ∀ i, i < b + s + r →
        g2.cig.cises[i]? = some
          { id := i, type := slotType b s i, conn_handle := 0,
            addr := RawAddress.kEmpty }) := by
  obtain ⟨group_size, strategy, snk, src, avail⟩ := args
  have hcig := (cisCountArguments_stable env g g1 _ hargs g1.cig).1
  have hg1 : g1.cig.cises = [] := by rw [hcig]; exact hempty
  obtain ⟨hlen, hslots⟩ := generated_table b s r
  unfold GenerateCisIds
  simp only [hempty, List.length_nil, gt_iff_lt, lt_self_iff_false, if_false, hargs]
  simp only at hcount
  simp only [hcount, Nat.mod_eq_of_lt hb, Nat.mod_eq_of_lt hs, Nat.mod_eq_of_lt hr, hg1]
  refine ⟨_, rfl, hlen, hslots, ?_⟩
  intro hsum i hi
  have := hslots i hi
  rw [Nat.mod_eq_of_lt (by omega)] at this
  exact this

/-- Witness of C2 (as amended): a fresh group of one device, a heuristic
returning `(1, 2, 0)`. -/
theorem GenerateCisIds_table_witness :
    ∃ g2, GenerateCisIds exampleEnv 4 { leAudioDevices_ := [some {}] } = some g2 ∧
      g2.cig.cises.length = 1 + 2 + 0 ∧
      (∀ i, i < 1 + 2 + 0 →
        g2.cig.cises[i]? = some
          { id := i % 256, type := slotType 1 2 i, conn_handle := 0,
            addr := RawAddress.kEmpty }) ∧
      (1 + 2 + 0 ≤ 256 → ∀ i, i < 1 + 2 + 0 →
        g2.cig.cises[i]? = some
          { id := i, type := slotType 1 2 i, conn_handle := 0,
            addr := RawAddress.kEmpty }) :=
  GenerateCisIds_table exampleEnv 4 { leAudioDevices_ := [some {}] }
    { leAudioDevices_ := [some {}],
      strategy_ := some LeAudioConfigurationStrategy.MONO_ONE_CIS_PER_DEVICE }
    (2, LeAudioConfigurationStrategy.MONO_ONE_CIS_PER_DEVICE, 0, 0, ⟨0, 0⟩) 1 2 0
    (by decide) rfl rfl (by decide) (by decide) (by decide)

set_option maxRecDepth 100000 in
/-- Counterexample to C2 as stated: when the heuristic returns `(255, 2, 0)` the
table has 257 slots and the slot at index 256 has id 0, not 256. -/
theorem GenerateCisIds_id_wraps :
    ∃ g2, GenerateCisIds wideEnv 4 {} = some g2 ∧
      g2.cig.cises.length = 255 + 2 + 0 ∧
      g2.cig.cises[256]? = some (freeCis 0 CisType.CIS_TYPE_UNIDIRECTIONAL_SINK) ∧
      ¬ (∀ i, i < 255 + 2 + 0 → (g2.cig.cises[i]?).map cis.id = some i) := by
  refine ⟨_, rfl, by decide, by decide, ?_⟩
  intro h
  exact absurd (h 256 (by decide)) (by decide)

/-! # `find_if` over a vector -/

theorem findIfFrom_some {α : Type} {p : α → Bool} {l : List α} {start i : Nat}
    (h : findIfFrom p l start = some i) :
    start ≤ i ∧ i < l.length ∧ (∃ a, l[i]? = some a ∧ p a = true) ∧
      ∀ j, start ≤ j → j < i → ∀ b, l[j]? = some b → p b = false := by
  unfold findIfFrom at h
  rw [List.find?_range_eq_some] at h
  obtain ⟨hi, hmem, hmin⟩ := h
  simp only [Bool.and_eq_true, decide_eq_true_eq] at hi
  have hlt : i < l.length := List.mem_range.mp hmem
  refine ⟨hi.1, hlt, ?_, ?_⟩
  · rw [List.getElem?_eq_getElem hlt] at hi ⊢
    exact ⟨l[i], rfl, by simpa using hi.2⟩
  · intro j hsj hji b hb
    have := hmin j hji
    simp only [hb, Option.any_some, Bool.not_eq_true', Bool.and_eq_false_imp,
      decide_eq_true_eq, Bool.not_eq_eq_eq_not, Bool.not_true] at this
    simpa using this hsj

theorem findIfFrom_none {α : Type} {p : α → Bool} {l : List α} {start : Nat}
    (h : findIfFrom p l start = none) :
    ∀ j, start ≤ j → ∀ b, l[j]? = some b → p b = false := by
  unfold findIfFrom at h
  rw [List.find?_range_eq_none] at h
  intro j hsj b hb
  have hlt : j < l.length := by
    by_contra hge
    rw [List.getElem?_eq_none (by omega)] at hb
    exact absurd hb (by simp)
  have := h j hlt
  simp only [hb, Option.any_some, Bool.not_eq_true', Bool.and_eq_false_imp,
    decide_eq_true_eq, Bool.not_eq_eq_eq_not, Bool.not_true] at this
  simpa using this hsj

theorem findIfFrom_eq_some {α : Type} {p : α → Bool} {l : List α} {start i : Nat} {a : α}
    (hs : start ≤ i) (ha : l[i]? = some a) (hp : p a = true)
    (hmin : ∀ j, start ≤ j → j < i → ∀ b, l[j]? = some b → p b = false) :
    findIfFrom p l start = some i := by
  unfold findIfFrom
  rw [List.find?_range_eq_some]
  have hlt : i < l.length := by
    by_contra hge
    rw [List.getElem?_eq_none (by omega)] at ha
    exact absurd ha (by simp)
  refine ⟨by simp [hs, ha, hp], List.mem_range.mpr hlt, ?_⟩
  intro j hji
  by_cases hsj : start ≤ j
  · have hj : j < l.length := by omega
    have := hmin j hsj hji l[j] (List.getElem?_eq_getElem hj)
    simp [List.getElem?_eq_getElem hj, this]
  · simp [hsj]

theorem findIfFrom_eq_none {α : Type} {p : α → Bool} {l : List α} {start : Nat}
    (h : ∀ j, start ≤ j → ∀ b, l[j]? = some b → p b = false) :
    findIfFrom p l start = none := by
  unfold findIfFrom
  rw [List.find?_range_eq_none]
  intro j hj
  by_cases hsj : start ≤ j
  · have := h j hsj l[j] (List.getElem?_eq_getElem hj)
    simp [List.getElem?_eq_getElem hj, this]
  · simp [hsj]

/-- The search only looks at what `p` says about the elements: two vectors of
equal length that agree under `p` give the same result. -/
theorem findIfFrom_congr {α : Type} {p : α → Bool} {l l2 : List α} (start : Nat)
    (hlen : l2.length = l.length)
    (h : ∀ j : Nat, (l2[j]?).any p = (l[j]?).any p) :
    findIfFrom p l2 start = findIfFrom p l start := by
  unfold findIfFrom
  rw [hlen]
  congr 1
  funext j
  rw [h j]

/-! # `GetFirstFreeCisId` -/

/-- A slot that `GetFirstFreeCisId(cis_type)` accepts. -/
theorem GetFirstFreeCisId_valid {cises : List cis} {cis_type : CisType}
    (h : GetFirstFreeCisId cises cis_type ≠ kInvalidCisId) :
    GetFirstFreeCisId cises cis_type < cises.length ∧
      GetFirstFreeCisId cises cis_type < 256 := by
  unfold GetFirstFreeCisId at h ⊢
  split
  · next id hid =>
    have := (findIfFrom_some hid).2.1
    constructor
    · exact lt_of_le_of_lt (Nat.mod_le _ _) this
    · exact Nat.mod_lt _ (by decide)
  · next hnone =>
    rw [hnone] at h
    exact absurd rfl h

/-- On a table of at most 255 slots, `GetFirstFreeCisId` returns the invalid id
only when no slot of the type is free. -/
theorem GetFirstFreeCisId_invalid {cises : List cis} {cis_type : CisType}
    (hlen : cises.length ≤ 255)
    (h : GetFirstFreeCisId cises cis_type = kInvalidCisId) :
    ∀ (j : Nat) (c : cis), cises[j]? = some c →
      ¬ (c.addr = RawAddress.kEmpty ∧ c.type = cis_type) := by
  unfold GetFirstFreeCisId at h
  split at h
  · next id hid =>
    have := (findIfFrom_some hid).2.1
    rw [Nat.mod_eq_of_lt (by omega)] at h
    unfold kInvalidCisId at h
    omega
  · next hnone =>
    intro j c hc hfree
    have := findIfFrom_none hnone j (Nat.zero_le _) c hc
    simp [RawAddress.IsEmpty, hfree.1, hfree.2] at this

/-- With the lowest free slot of the type at an index `k < 255`,
`GetFirstFreeCisId` returns `k`. -/
theorem GetFirstFreeCisId_eq {cises : List cis} {cis_type : CisType} {k : Nat} {c : cis}
    (hk : k < 255) (hc : cises[k]? = some c) (hfree : c.addr = RawAddress.kEmpty)
    (htype : c.type = cis_type)
    (hmin : ∀ j, j < k → ∀ b, cises[j]? = some b →
      ¬ (b.addr = RawAddress.kEmpty ∧ b.type = cis_type)) :
    GetFirstFreeCisId cises cis_type = k := by
  unfold GetFirstFreeCisId
  have : findIfFrom (fun c => c.addr.IsEmpty && decide (c.type = cis_type)) cises 0 = some k := by
    apply findIfFrom_eq_some (Nat.zero_le _) hc
    · simp [RawAddress.IsEmpty, hfree, htype]
    · intro j _ hjk b hb
      have := hmin j hjk b hb
      simp only [RawAddress.IsEmpty, Bool.and_eq_false_imp, decide_eq_true_eq,
        decide_eq_false_iff_not]
      intro h1 h2
      exact this ⟨h1, h2⟩
  rw [this]
  simp only
  omega

/-! # One pass of the body of `AssignCisIds` -/

theorem setCisAddr_eq {cises cises1 : List cis} {cis_id : Nat} {addr : RawAddress}
    (h : setCisAddr cises cis_id addr = some cises1) :
    cis_id < cises.length ∧ cises1 = bindCis cises cis_id addr := by
  unfold setCisAddr at h
  split at h
  · next hlt =>
    simp only [Option.some.injEq] at h
    exact ⟨hlt, h.symm⟩
  · exact absurd h (by simp)

theorem assignUnidirectional_cases {d d1 : LeAudioDevice} {cises cises1 : List cis}
    {i cis_id : Nat} {cis_type : CisType} {r : Bool}
    (h : assignUnidirectional d cises i cis_id cis_type = some (r, d1, cises1)) :
    (∃ cid, r = true ∧ cid ≠ kInvalidCisId ∧ cid < cises.length ∧
        cises1 = bindCis cises cid d.address_ ∧ d1 = d.setAseCisId i cid ∧
        (cid = cis_id ∨
          (cis_id = kInvalidCisId ∧
            (cid = GetFirstFreeCisId cises cis_type ∨
              (GetFirstFreeCisId cises cis_type = kInvalidCisId ∧
                cid = GetFirstFreeCisId cises CisType.CIS_TYPE_BIDIRECTIONAL))))) ∨
      (r = false ∧ d1 = d ∧ cises1 = cises ∧ cis_id = kInvalidCisId ∧
        GetFirstFreeCisId cises cis_type = kInvalidCisId ∧
        GetFirstFreeCisId cises CisType.CIS_TYPE_BIDIRECTIONAL = kInvalidCisId) := by
  unfold assignUnidirectional at h
  dsimp only at h
  by_cases hc : cis_id = kInvalidCisId
  · simp only [hc, if_true] at h
    by_cases h1 : GetFirstFreeCisId cises cis_type = kInvalidCisId
    · simp only [h1, if_true] at h
      by_cases h2 : GetFirstFreeCisId cises CisType.CIS_TYPE_BIDIRECTIONAL = kInvalidCisId
      · simp only [h2, if_true, Option.some.injEq, Prod.mk.injEq] at h
        obtain ⟨rfl, rfl, rfl⟩ := h
        exact Or.inr ⟨rfl, rfl, rfl, hc, h1, h2⟩
      · simp only [h2, if_false] at h
        split at h
        · exact absurd h (by simp)
        · next cises2 hset =>
          simp only [Option.some.injEq, Prod.mk.injEq] at h
          obtain ⟨rfl, rfl, rfl⟩ := h
          obtain ⟨hlt, heq⟩ := setCisAddr_eq hset
          exact Or.inl ⟨_, rfl, h2, hlt, heq, rfl, Or.inr ⟨hc, Or.inr ⟨h1, rfl⟩⟩⟩
    · simp only [h1, if_false] at h
      split at h
      · exact absurd h (by simp)
      · next cises2 hset =>
        simp only [Option.some.injEq, Prod.mk.injEq] at h
        obtain ⟨rfl, rfl, rfl⟩ := h
        obtain ⟨hlt, heq⟩ := setCisAddr_eq hset
        exact Or.inl ⟨_, rfl, h1, hlt, heq, rfl, Or.inr ⟨hc, Or.inl rfl⟩⟩
  · simp only [hc, if_false] at h
    split at h
    · exact absurd h (by simp)
    · next cises2 hset =>
      simp only [Option.some.injEq, Prod.mk.injEq] at h
      obtain ⟨rfl, rfl, rfl⟩ := h
      obtain ⟨hlt, heq⟩ := setCisAddr_eq hset
      exact Or.inl ⟨_, rfl, hc, hlt, heq, rfl, Or.inl rfl⟩

theorem existingCisId_cases {a : ase} {cises : List cis} {o : Option Nat}
    (h : existingCisId a cises = some o) :
    (o = none ∧ a.cis_id ≠ kInvalidCisId ∧
        ∃ c, cises[a.cis_id]? = some c ∧ c.addr ≠ RawAddress.kEmpty) ∨
      (o = some a.cis_id ∧
        (a.cis_id = kInvalidCisId ∨
          ∃ c, cises[a.cis_id]? = some c ∧ c.addr = RawAddress.kEmpty)) := by
  unfold existingCisId at h
  split at h
  · next hvalid =>
    split at h
    · exact absurd h (by simp)
    · next c hc =>
      split at h
      · next hne =>
        simp only [Option.some.injEq] at h
        refine Or.inl ⟨h.symm, hvalid, c, hc, ?_⟩
        simpa [RawAddress.IsEmpty] using hne
      · next he =>
        simp only [Option.some.injEq] at h
        refine Or.inr ⟨h.symm, Or.inr ⟨c, hc, ?_⟩⟩
        simpa [RawAddress.IsEmpty] using he
  · next hinv =>
    simp only [Option.some.injEq] at h
    have hi : a.cis_id = kInvalidCisId := by simpa using hinv
    refine Or.inr ⟨?_, Or.inl hi⟩
    rw [← h, hi]

theorem matchingBidirAseLoop_some {d : LeAudioDevice} {cis_id : Nat} :
    ∀ (fuel : Nat) (start : Option Nat) (m : Nat),
      matchingBidirAseLoop d cis_id fuel start = some (some m) →
      ∃ x, d.ases_[m]? = some x ∧ (x.cis_id = kInvalidCisId ∨ x.cis_id = cis_id) := by
  intro fuel
  induction fuel with
  | zero =>
    intro start m h
    cases start <;> simp [matchingBidirAseLoop] at h
  | succ n ih =>
    intro start m h
    cases start with
    | none => simp [matchingBidirAseLoop] at h
    | some m0 =>
      rw [matchingBidirAseLoop] at h
      split at h
      · exact absurd h (by simp)
      · next x hx =>
        split at h
        · exact ih _ m h
        · next hcompat =>
          simp only [Option.some.injEq] at h
          subst h
          refine ⟨x, hx, ?_⟩
          by_cases h1 : x.cis_id = kInvalidCisId
          · exact Or.inl h1
          · by_cases h2 : x.cis_id = cis_id
            · exact Or.inr h2
            · exact absurd ⟨h1, h2⟩ hcompat

/-- What one pass of the body of the loop of `AssignCisIds` can do: skip an ASE
whose CIS is bound already, bind a CIS for the ASE (and its mate), or fail. -/
theorem assignCisIdBody_cases {d d1 : LeAudioDevice} {cises cises1 : List cis} {i : Nat}
    {r : Bool} (h : assignCisIdBody d cises i = some (r, d1, cises1)) :
    ∃ a, d.ases_[i]? = some a ∧
      ((r = true ∧ d1 = d ∧ cises1 = cises ∧ a.cis_id ≠ kInvalidCisId ∧
          ∃ c, cises[a.cis_id]? = some c ∧ c.addr ≠ RawAddress.kEmpty) ∨
        (∃ cid, r = true ∧ cid ≠ kInvalidCisId ∧ cid < cises.length ∧
          cises1 = bindCis cises cid d.address_ ∧
          (d1 = d.setAseCisId i cid ∨
            ∃ m x, d.ases_[m]? = some x ∧ (x.cis_id = kInvalidCisId ∨ x.cis_id = cid) ∧
              d1 = (d.setAseCisId i cid).setAseCisId m cid) ∧
          ((cid = a.cis_id ∧ ∃ c, cises[cid]? = some c ∧ c.addr = RawAddress.kEmpty) ∨
            (a.cis_id = kInvalidCisId ∧ ∃ t, cid = GetFirstFreeCisId cises t))) ∨
        (r = false ∧ d1 = d ∧ cises1 = cises ∧ a.cis_id = kInvalidCisId ∧
          GetFirstFreeCisId cises (uniType a.direction) = kInvalidCisId ∧
          GetFirstFreeCisId cises CisType.CIS_TYPE_BIDIRECTIONAL = kInvalidCisId)) := by
  unfold assignCisIdBody at h
  split at h
  · exact absurd h (by simp)
  · next a ha =>
    refine ⟨a, ha, ?_⟩
    -- the unidirectional blocks, for the value `cis_id` of the local at that point
    have huni : ∀ cis_id, (cis_id = a.cis_id ∨ cis_id = kInvalidCisId) →
        (cis_id = kInvalidCisId ∨ ∃ c, cises[cis_id]? = some c ∧ c.addr = RawAddress.kEmpty) →
        (cis_id = kInvalidCisId → a.cis_id = kInvalidCisId) →
        (if a.direction = Direction.kLeAudioDirectionSink then
            assignUnidirectional d cises i cis_id CisType.CIS_TYPE_UNIDIRECTIONAL_SINK
          else
            assignUnidirectional d cises i cis_id CisType.CIS_TYPE_UNIDIRECTIONAL_SOURCE) =
          some (r, d1, cises1) →
        (∃ cid, r = true ∧ cid ≠ kInvalidCisId ∧ cid < cises.length ∧
          cises1 = bindCis cises cid d.address_ ∧
          (d1 = d.setAseCisId i cid ∨
            ∃ m x, d.ases_[m]? = some x ∧ (x.cis_id = kInvalidCisId ∨ x.cis_id = cid) ∧
              d1 = (d.setAseCisId i cid).setAseCisId m cid) ∧
          ((cid = a.cis_id ∧ ∃ c, cises[cid]? = some c ∧ c.addr = RawAddress.kEmpty) ∨
            (a.cis_id = kInvalidCisId ∧ ∃ t, cid = GetFirstFreeCisId cises t))) ∨
        (r = false ∧ d1 = d ∧ cises1 = cises ∧ a.cis_id = kInvalidCisId ∧
          GetFirstFreeCisId cises (uniType a.direction) = kInvalidCisId ∧
          GetFirstFreeCisId cises CisType.CIS_TYPE_BIDIRECTIONAL = kInvalidCisId) := by
      intro cis_id hsrc hfree hinv hu
      have key : ∃ t, t = uniType a.direction ∧
          assignUnidirectional d cises i cis_id t = some (r, d1, cises1) := by
        cases hdir : a.direction
        · simp only [hdir, if_true] at hu
          exact ⟨_, rfl, hu⟩
        · simp only [hdir, if_false] at hu
          refine ⟨_, rfl, ?_⟩
          simpa using hu
      obtain ⟨t, ht, hu2⟩ := key
      rcases assignUnidirectional_cases hu2 with
        ⟨cid, hr, hcid, hlt, hc1, hd1, horig⟩ | ⟨hr, hd1, hc1, hci, hg1, hg2⟩
      · refine Or.inl ⟨cid, hr, hcid, hlt, hc1, Or.inl hd1, ?_⟩
        rcases horig with heq | ⟨hci, hor⟩
        · subst heq
          rcases hfree with hf | hf
          · exact absurd hf hcid
          · rcases hsrc with hs | hs
            · exact Or.inl ⟨hs, hf⟩
            · exact absurd hs hcid
        · rcases hor with hg | ⟨_, hg⟩
          · exact Or.inr ⟨hinv hci, _, hg⟩
          · exact Or.inr ⟨hinv hci, _, hg⟩
      · exact Or.inr ⟨hr, hd1, hc1, hinv hci, by rw [← ht]; exact hg1, hg2⟩
    split at h
    · exact absurd h (by simp)
    · next hex =>
      simp only [Option.some.injEq, Prod.mk.injEq] at h
      obtain ⟨rfl, rfl, rfl⟩ := h
      rcases existingCisId_cases hex with ⟨_, hv, hc⟩ | ⟨hcontra, _⟩
      · exact Or.inl ⟨rfl, rfl, rfl, hv, hc⟩
      · exact absurd hcontra (by simp)
    · next cis_id hex =>
      rcases existingCisId_cases hex with ⟨hcontra, _⟩ | ⟨hcid, hfree⟩
      · exact absurd hcontra (by simp)
      · simp only [Option.some.injEq] at hcid
        subst hcid
        split at h
        · exact absurd h (by simp)
        · next m hm =>
          obtain ⟨x, hx, hxc⟩ := matchingBidirAseLoop_some _ _ _ hm
          dsimp only at h
          by_cases hci : a.cis_id = kInvalidCisId
          · simp only [hci, if_true] at h hxc
            by_cases hg : GetFirstFreeCisId cises CisType.CIS_TYPE_BIDIRECTIONAL = kInvalidCisId
            · simp only [hg, ne_eq, not_true_eq_false, if_false] at h
              exact Or.inr (huni kInvalidCisId (Or.inr rfl) (Or.inl rfl) (fun _ => hci) h)
            · simp only [ne_eq, hg, not_false_eq_true, if_true] at h
              split at h
              · exact absurd h (by simp)
              · next cises2 hset =>
                simp only [Option.some.injEq, Prod.mk.injEq] at h
                obtain ⟨rfl, rfl, rfl⟩ := h
                obtain ⟨hlt, heq⟩ := setCisAddr_eq hset
                refine Or.inr (Or.inl ⟨_, rfl, hg, hlt, heq, Or.inr ⟨m, x, hx, ?_, rfl⟩,
                  Or.inr ⟨hci, _, rfl⟩⟩)
                rcases hxc with h1 | h1
                · exact Or.inl h1
                · exact Or.inl h1
          · simp only [hci, if_false, ne_eq, not_false_eq_true, if_true] at h
            split at h
            · exact absurd h (by simp)
            · next cises2 hset =>
              simp only [Option.some.injEq, Prod.mk.injEq] at h
              obtain ⟨rfl, rfl, rfl⟩ := h
              obtain ⟨hlt, heq⟩ := setCisAddr_eq hset
              refine Or.inr (Or.inl ⟨_, rfl, hci, hlt, heq, Or.inr ⟨m, x, hx, hxc, rfl⟩, ?_⟩)
              rcases hfree with hf | hf
              · exact absurd hf hci
              · exact Or.inl ⟨rfl, hf⟩
        · exact Or.inr (huni a.cis_id (Or.inl rfl) hfree id h)

/-! # Frame facts of the writes -/

theorem setAseCisId_get (d : LeAudioDevice) (i cid n : Nat) :
    (d.setAseCisId i cid).ases_[n]? =
      (d.ases_[n]?).map (fun a => if i = n then { a with cis_id := cid } else a) := by
  simp only [LeAudioDevice.setAseCisId, List.getElem?_modify]
  rfl

theorem setAseCisId_address (d : LeAudioDevice) (i cid : Nat) :
    (d.setAseCisId i cid).address_ = d.address_ := rfl

theorem setAseCisId_length (d : LeAudioDevice) (i cid : Nat) :
    (d.setAseCisId i cid).ases_.length = d.ases_.length := by
  simp [LeAudioDevice.setAseCisId]

theorem bindCis_get (cises : List cis) (cid : Nat) (addr : RawAddress) (n : Nat) :
    (bindCis cises cid addr)[n]? =
      (cises[n]?).map (fun c => if cid = n then { c with addr := addr } else c) := by
  simp only [bindCis, List.getElem?_modify]
  rfl

theorem bindCis_length (cises : List cis) (cid : Nat) (addr : RawAddress) :
    (bindCis cises cid addr).length = cises.length := by
  simp [bindCis]

theorem sameButCisId_refl (d : LeAudioDevice) : sameButCisId d d := ⟨rfl, fun _ => rfl⟩

theorem sameButCisId_trans {d d1 d2 : LeAudioDevice} (h1 : sameButCisId d d1)
    (h2 : sameButCisId d1 d2) : sameButCisId d d2 :=
  ⟨h2.1.trans h1.1, fun n => (h2.2 n).trans (h1.2 n)⟩

theorem sameButCisId_set (d : LeAudioDevice) (i cid : Nat) :
    sameButCisId d (d.setAseCisId i cid) := by
  refine ⟨rfl, fun n => ?_⟩
  rw [setAseCisId_get]
  cases d.ases_[n]? with
  | none => rfl
  | some a =>
    simp only [Option.map_some', Option.some.injEq]
    split <;> rfl

theorem sameButCisId_get {d d1 : LeAudioDevice} (h : sameButCisId d d1) {n : Nat} {a1 : ase}
    (h1 : d1.ases_[n]? = some a1) :
    ∃ a, d.ases_[n]? = some a ∧ a.active = a1.active ∧ a.direction = a1.direction ∧
      a.cis_state = a1.cis_state ∧ a.data_path_state = a1.data_path_state ∧
      a.cis_conn_hdl = a1.cis_conn_hdl ∧ a.id = a1.id ∧ a.reconfigure = a1.reconfigure := by
  have := h.2 n
  rw [h1] at this
  cases hd : d.ases_[n]? with
  | none => rw [hd] at this; exact absurd this (by simp)
  | some a =>
    rw [hd] at this
    simp only [Option.map_some', Option.some.injEq, ase.mk.injEq] at this
    obtain ⟨e1, e2, e3, e4, -, e5, e6, e7, -, -, -⟩ := this
    exact ⟨a, rfl, e3.symm, e2.symm, e6.symm, e7.symm, e5.symm, e1.symm, e4.symm⟩

theorem sameButCisId_symm {d d1 : LeAudioDevice} (h : sameButCisId d d1) : sameButCisId d1 d :=
  ⟨h.1.symm, fun n => (h.2 n).symm⟩

theorem sameButCisId_length {d d1 : LeAudioDevice} (h : sameButCisId d d1) :
    d1.ases_.length = d.ases_.length := by
  by_contra hne
  rcases Nat.lt_or_gt_of_ne hne with hlt | hgt
  · have := h.2 d1.ases_.length
    rw [List.getElem?_eq_none (le_refl _), List.getElem?_eq_getElem hlt] at this
    exact absurd this (by simp)
  · have := h.2 d.ases_.length
    rw [List.getElem?_eq_none (le_refl _), List.getElem?_eq_getElem hgt] at this
    exact absurd this (by simp)

/-- A search that looks at the fields other than `cis_id` gives the same
result on both devices. -/
theorem findIfFrom_sameButCisId {d d1 : LeAudioDevice} (h : sameButCisId d d1)
    (p : ase → Bool) (hp : ∀ a : ase, p a = p { a with cis_id := 0 }) (start : Nat) :
    findIfFrom p d1.ases_ start = findIfFrom p d.ases_ start := by
  apply findIfFrom_congr start (sameButCisId_length h)
  intro j
  have := h.2 j
  cases h1 : d1.ases_[j]? with
  | none =>
    rw [h1] at this
    cases h0 : d.ases_[j]? with
    | none => rfl
    | some a => rw [h0] at this; exact absurd this (by simp)
  | some a1 =>
    rw [h1] at this
    cases h0 : d.ases_[j]? with
    | none => rw [h0] at this; exact absurd this (by simp)
    | some a =>
      rw [h0] at this
      simp only [Option.map_some', Option.some.injEq] at this
      simp only [Option.any_some]
      rw [hp a1, hp a, this]

theorem GetNextActiveAse_sameButCisId {d d1 : LeAudioDevice} (h : sameButCisId d d1)
    (i : Nat) : d1.GetNextActiveAse i = d.GetNextActiveAse i :=
  findIfFrom_sameButCisId h (fun a => a.active) (fun _ => rfl) _

theorem GetFirstActiveAse_sameButCisId {d d1 : LeAudioDevice} (h : sameButCisId d d1) :
    d1.GetFirstActiveAse = d.GetFirstActiveAse :=
  findIfFrom_sameButCisId h (fun a => a.active) (fun _ => rfl) _

/-- Every result of a pass of the body differs from its input only in CIS ids
and bound addresses. -/
theorem assignCisIdBody_frame {d d1 : LeAudioDevice} {cises cises1 : List cis} {i : Nat}
    {r : Bool} (h : assignCisIdBody d cises i = some (r, d1, cises1)) :
    sameButCisId d d1 ∧ cises1.length = cises.length := by
  obtain ⟨a, _, hcases⟩ := assignCisIdBody_cases h
  rcases hcases with ⟨_, rfl, rfl, _⟩ | ⟨cid, _, _, _, rfl, hd1, _⟩ | ⟨_, rfl, rfl, _⟩
  · exact ⟨sameButCisId_refl _, rfl⟩
  · refine ⟨?_, bindCis_length _ _ _⟩
    rcases hd1 with rfl | ⟨m, _, _, _, rfl⟩
    · exact sameButCisId_set _ _ _
    · exact sameButCisId_trans (sameButCisId_set _ _ _) (sameButCisId_set _ _ _)
  · exact ⟨sameButCisId_refl _, rfl⟩

/-! # The loops do not run out of fuel -/

theorem matchingBidirAseLoop_total (d : LeAudioDevice) (cis_id : Nat) :
    ∀ (fuel : Nat) (start : Option Nat),
      (∀ m, start = some m → m < d.ases_.length ∧ d.ases_.length - m ≤ fuel) →
      ∃ o, matchingBidirAseLoop d cis_id fuel start = some o := by
  intro fuel
  induction fuel with
  | zero =>
    intro start hs
    cases start with
    | none => exact ⟨none, rfl⟩
    | some m => have := hs m rfl; omega
  | succ n ih =>
    intro start hs
    cases start with
    | none => exact ⟨none, rfl⟩
    | some m =>
      obtain ⟨hm, hfuel⟩ := hs m rfl
      rw [matchingBidirAseLoop, List.getElem?_eq_getElem hm]
      dsimp only
      split
      · apply ih
        intro m1 hm1
        unfold LeAudioDevice.GetNextActiveAseWithSameDirection at hm1
        rw [List.getElem?_eq_getElem hm] at hm1
        have := findIfFrom_some hm1
        omega
      · exact ⟨_, rfl⟩

theorem GetNextActiveAseWithDifferentDirection_lt {d : LeAudioDevice} {i m : Nat}
    (h : d.GetNextActiveAseWithDifferentDirection i = some m) :
    i < m ∧ m < d.ases_.length := by
  unfold LeAudioDevice.GetNextActiveAseWithDifferentDirection at h
  split at h
  · exact absurd h (by simp)
  · have := findIfFrom_some h
    omega

/-- The body returns a result whenever the CIS id of the ASE, if set, indexes
the table. -/
theorem assignCisIdBody_total (d : LeAudioDevice) (cises : List cis) (i : Nat) (a : ase)
    (ha : d.ases_[i]? = some a)
    (hb : a.cis_id ≠ kInvalidCisId → a.cis_id < cises.length) :
    ∃ r d1 cises1, assignCisIdBody d cises i = some (r, d1, cises1) := by
  have hset : ∀ cid, cid < cises.length → ∀ d2 : LeAudioDevice,
      ∃ r d1 cises1, (match setCisAddr cises cid d.address_ with
        | none => none
        | some cises1 => some (true, d2, cises1)) = some (r, d1, cises1) := by
    intro cid hlt d2
    simp only [setCisAddr, hlt, if_true]
    exact ⟨_, _, _, rfl⟩
  have huni : ∀ cis_id t, (cis_id ≠ kInvalidCisId → cis_id < cises.length) →
      ∃ r d1 cises1, assignUnidirectional d cises i cis_id t = some (r, d1, cises1) := by
    intro cis_id t hin
    unfold assignUnidirectional
    dsimp only
    by_cases hc : cis_id = kInvalidCisId
    · simp only [hc, if_true]
      by_cases h1 : GetFirstFreeCisId cises t = kInvalidCisId
      · simp only [h1, if_true]
        by_cases h2 : GetFirstFreeCisId cises CisType.CIS_TYPE_BIDIRECTIONAL = kInvalidCisId
        · simp only [h2, if_true]
          exact ⟨_, _, _, rfl⟩
        · simp only [h2, if_false]
          exact hset _ (GetFirstFreeCisId_valid h2).1 _
      · simp only [h1, if_false]
        exact hset _ (GetFirstFreeCisId_valid h1).1 _
    · simp only [hc, if_false]
      exact hset _ (hin hc) _
  have hunidir : ∀ cis_id, (cis_id ≠ kInvalidCisId → cis_id < cises.length) →
      ∃ r d1 cises1,
        (if a.direction = Direction.kLeAudioDirectionSink then
          assignUnidirectional d cises i cis_id CisType.CIS_TYPE_UNIDIRECTIONAL_SINK
        else
          assignUnidirectional d cises i cis_id CisType.CIS_TYPE_UNIDIRECTIONAL_SOURCE) =
        some (r, d1, cises1) := by
    intro cis_id hin
    split
    · exact huni _ _ hin
    · exact huni _ _ hin
  unfold assignCisIdBody
  rw [ha]
  dsimp only
  have hex : ∃ o, existingCisId a cises = some o ∧
      ∀ cis_id, o = some cis_id → cis_id = a.cis_id := by
    unfold existingCisId
    by_cases hv : a.cis_id = kInvalidCisId
    · simp only [hv, ne_eq, not_true_eq_false, if_false]
      exact ⟨_, rfl, fun _ h => by simpa using h.symm⟩
    · simp only [ne_eq, hv, not_false_eq_true, if_true, List.getElem?_eq_getElem (hb hv)]
      split
      · exact ⟨_, rfl, fun _ h => by simp at h⟩
      · exact ⟨_, rfl, fun _ h => by simpa using h.symm⟩
  obtain ⟨o, ho, hoc⟩ := hex
  rw [ho]
  cases o with
  | none => exact ⟨_, _, _, rfl⟩
  | some cis_id =>
    have hcid := hoc cis_id rfl
    subst hcid
    dsimp only
    obtain ⟨o2, ho2⟩ := matchingBidirAseLoop_total d a.cis_id d.ases_.length
      (d.GetNextActiveAseWithDifferentDirection i)
      (fun m hm => by have := GetNextActiveAseWithDifferentDirection_lt hm; omega)
    rw [ho2]
    cases o2 with
    | none => exact hunidir _ hb
    | some m =>
      dsimp only
      by_cases hv : a.cis_id = kInvalidCisId
      · simp only [hv, if_true]
        by_cases hg : GetFirstFreeCisId cises CisType.CIS_TYPE_BIDIRECTIONAL = kInvalidCisId
        · simp only [hg, ne_eq, not_true_eq_false, if_false]
          have := hunidir kInvalidCisId (fun h => absurd rfl h)
          exact this
        · simp only [ne_eq, hg, not_false_eq_true, if_true]
          exact hset _ (GetFirstFreeCisId_valid hg).1 _
      · simp only [hv, if_false, ne_eq, not_false_eq_true, if_true]
        exact hset _ (hb hv) _

/-! # The loop of `AssignCisIds` -/

/-- Invariant rule for the loop of `AssignCisIds`: `I` is kept by every pass,
`G n` records that the ASE at `n` has been served and `F n` why a pass failed. -/
theorem assignCisIdsLoop_spec
    (I : LeAudioDevice → List cis → Prop)
    (G F : Nat → LeAudioDevice → List cis → Prop)
    (htotal : ∀ d cises i a, I d cises → d.ases_[i]? = some a →
      ∃ r d1 cises1, assignCisIdBody d cises i = some (r, d1, cises1))
    (hbody : ∀ d cises i a d1 cises1, I d cises → d.ases_[i]? = some a → a.active = true →
      (assignCisIdBody d cises i = some (true, d1, cises1) →
        I d1 cises1 ∧ G i d1 cises1 ∧ ∀ n, n < i → G n d cises → G n d1 cises1) ∧
      (assignCisIdBody d cises i = some (false, d1, cises1) → F i d cises)) :
    ∀ (fuel i : Nat) (d : LeAudioDevice) (cises : List cis) (a : ase),
      d.ases_.length - i ≤ fuel → I d cises → d.ases_[i]? = some a → a.active = true →
      (∀ n b, n < i → d.ases_[n]? = some b → b.active = true → G n d cises) →
      ∃ r d2 cises2, assignCisIdsLoop fuel (some i) d cises = some (r, d2, cises2) ∧
        sameButCisId d d2 ∧ cises2.length = cises.length ∧ I d2 cises2 ∧
        (r = true → ∀ n b, d2.ases_[n]? = some b → b.active = true → G n d2 cises2) ∧
        (r = false → ∃ n b, d2.ases_[n]? = some b ∧ b.active = true ∧ F n d2 cises2) := by
  intro fuel
  induction fuel with
  | zero =>
    intro i d cises a hfuel _ ha
    have hi : i < d.ases_.length := by
      by_contra hge
      rw [List.getElem?_eq_none (by omega)] at ha
      exact absurd ha (by simp)
    omega
  | succ k ih =>
    intro i d cises a hfuel hI ha hact hdone
    have hi : i < d.ases_.length := by
      by_contra hge
      rw [List.getElem?_eq_none (by omega)] at ha
      exact absurd ha (by simp)
    obtain ⟨r, d1, cises1, hb⟩ := htotal d cises i a hI ha
    obtain ⟨hsame, hlen⟩ := assignCisIdBody_frame hb
    rw [assignCisIdsLoop, hb]
    cases r with
    | false =>
      dsimp only
      have hF := (hbody d cises i a d1 cises1 hI ha hact).2 hb
      obtain ⟨a0, ha0, hcases⟩ := assignCisIdBody_cases hb
      have hsame2 : d1 = d ∧ cises1 = cises := by
        rcases hcases with ⟨hr, _⟩ | ⟨_, hr, _⟩ | ⟨_, h1, h2, _⟩
        · exact absurd hr (by simp)
        · exact absurd hr (by simp)
        · exact ⟨h1, h2⟩
      obtain ⟨rfl, rfl⟩ := hsame2
      exact ⟨false, d1, cises1, rfl, hsame, rfl, hI, fun h => absurd h (by simp),
        fun _ => ⟨i, a, ha, hact, hF⟩⟩
    | true =>
      dsimp only
      obtain ⟨hI1, hG1, hkeep⟩ := (hbody d cises i a d1 cises1 hI ha hact).1 hb
      have hlen1 := sameButCisId_length hsame
      -- the ASEs served so far, in the new state
      have hdone1 : ∀ n b, n ≤ i → d1.ases_[n]? = some b → b.active = true → G n d1 cises1 := by
        intro n b hn hb1 hbact
        rcases Nat.lt_or_eq_of_le hn with hlt | heq
        · obtain ⟨b0, hb0, hact0, _⟩ := sameButCisId_get hsame hb1
          exact hkeep n hlt (hdone n b0 hlt hb0 (by rw [hact0]; exact hbact))
        · rw [heq]; exact hG1
      cases hnext : d1.GetNextActiveAse i with
      | none =>
        refine ⟨true, d1, cises1, ?_, hsame, hlen, hI1, ?_, fun h => absurd h (by simp)⟩
        · cases k <;> rfl
        · intro _ n b hb1 hbact
          by_cases hn : n ≤ i
          · exact hdone1 n b hn hb1 hbact
          · have := findIfFrom_none hnext n (by omega) b hb1
            rw [hbact] at this
            exact absurd this (by simp)
      | some i1 =>
        obtain ⟨hlo, hhi, ⟨a1, ha1, hact1⟩, hmin⟩ := findIfFrom_some hnext
        have hdone2 : ∀ n b, n < i1 → d1.ases_[n]? = some b → b.active = true →
            G n d1 cises1 := by
          intro n b hn hb1 hbact
          by_cases hni : n ≤ i
          · exact hdone1 n b hni hb1 hbact
          · have := hmin n (by omega) hn b hb1
            rw [hbact] at this
            exact absurd this (by simp)
        obtain ⟨r2, d2, cises2, hloop, hs2, hl2, hI2, ht2, hf2⟩ :=
          ih i1 d1 cises1 a1 (by omega) hI1 ha1 hact1 hdone2
        exact ⟨r2, d2, cises2, hloop, sameButCisId_trans hsame hs2, hl2.trans hlen, hI2,
          ht2, hf2⟩

/-- The invariant rule for the whole of `AssignCisIds`. -/
theorem AssignCisIds_spec
    (I : LeAudioDevice → List cis → Prop)
    (G F : Nat → LeAudioDevice → List cis → Prop)
    (htotal : ∀ d cises i a, I d cises → d.ases_[i]? = some a →
      ∃ r d1 cises1, assignCisIdBody d cises i = some (r, d1, cises1))
    (hbody : ∀ d cises i a d1 cises1, I d cises → d.ases_[i]? = some a → a.active = true →
      (assignCisIdBody d cises i = some (true, d1, cises1) →
        I d1 cises1 ∧ G i d1 cises1 ∧ ∀ n, n < i → G n d cises → G n d1 cises1) ∧
      (assignCisIdBody d cises i = some (false, d1, cises1) → F i d cises))
    (cig : CigConfiguration) (d : LeAudioDevice) (hI : I d cig.cises) :
    ∃ r d2 cig2, AssignCisIds cig d = some (r, d2, cig2) ∧
      sameButCisId d d2 ∧ cig2.cises.length = cig.cises.length ∧ I d2 cig2.cises ∧
      (r = true → ∀ n b, d2.ases_[n]? = some b → b.active = true → G n d2 cig2.cises) ∧
      (r = false → (∀ (n : Nat) (b : ase), d.ases_[n]? = some b → b.active = false) ∨
        ∃ n b, d2.ases_[n]? = some b ∧ b.active = true ∧ F n d2 cig2.cises) := by
  unfold AssignCisIds
  cases hfirst : d.GetFirstActiveAse with
  | none =>
    refine ⟨false, d, cig, rfl, sameButCisId_refl d, rfl, hI, fun h => absurd h (by simp),
      fun _ => Or.inl ?_⟩
    intro n b hb
    exact findIfFrom_none hfirst n (Nat.zero_le _) b hb
  | some i =>
    obtain ⟨_, hhi, ⟨a, ha, hact⟩, hmin⟩ := findIfFrom_some hfirst
    obtain ⟨r, d2, cises2, hloop, hs, hl, hI2, ht, hf⟩ :=
      assignCisIdsLoop_spec I G F htotal hbody d.ases_.length i d cig.cises a (by omega) hI ha
        hact (by
          intro n b hn hb hbact
          have := hmin n (Nat.zero_le _) hn b hb
          rw [hbact] at this
          exact absurd this (by simp))
    dsimp only
    rw [hloop]
    exact ⟨r, d2, { cises := cises2 }, rfl, hs, hl, hI2, ht, fun h => Or.inr (hf h)⟩

/-! # What `AssignCisIds` guarantees -/

/-- After a pass that gave the CIS id `cid` to the ASE at `i` (and to a mate),
an ASE either holds `cid` or is as before. -/
theorem assigned_get {d d1 : LeAudioDevice} {i cid : Nat}
    (hd1 : d1 = d.setAseCisId i cid ∨
      ∃ m x, d.ases_[m]? = some x ∧ (x.cis_id = kInvalidCisId ∨ x.cis_id = cid) ∧
        d1 = (d.setAseCisId i cid).setAseCisId m cid)
    {n : Nat} {a1 : ase} (h1 : d1.ases_[n]? = some a1) :
    ∃ a, d.ases_[n]? = some a ∧ (a1.cis_id = cid ∨ a1 = a) ∧ (n = i → a1.cis_id = cid) := by
  rcases hd1 with rfl | ⟨m, x, _, _, rfl⟩
  · rw [setAseCisId_get] at h1
    cases hd : d.ases_[n]? with
    | none => rw [hd] at h1; exact absurd h1 (by simp)
    | some a =>
      rw [hd] at h1
      simp only [Option.map_some', Option.some.injEq] at h1
      refine ⟨a, rfl, ?_, ?_⟩
      · by_cases hin : i = n
        · left; rw [← h1]; simp [hin]
        · right; rw [← h1]; simp [hin]
      · intro hni
        rw [← h1]; simp [hni]
  · rw [setAseCisId_get, setAseCisId_get] at h1
    cases hd : d.ases_[n]? with
    | none => rw [hd] at h1; exact absurd h1 (by simp)
    | some a =>
      rw [hd] at h1
      simp only [Option.map_some', Option.some.injEq] at h1
      refine ⟨a, rfl, ?_, ?_⟩
      · by_cases hmn : m = n
        · left; rw [← h1]; simp [hmn]
        · by_cases hin : i = n
          · left; rw [← h1]; simp [hmn, hin]
          · right; rw [← h1]; simp [hmn, hin]
      · intro hni
        rw [← h1]
        by_cases hmn : m = n
        · simp [hmn]
        · simp [hmn, hni]

theorem heldSlotsOwn_total (d : LeAudioDevice) (cises : List cis) (i : Nat) (a : ase)
    (hI : heldSlotsOwn d cises) (ha : d.ases_[i]? = some a) :
    ∃ r d1 cises1, assignCisIdBody d cises i = some (r, d1, cises1) := by
  apply assignCisIdBody_total d cises i a ha
  intro hv
  obtain ⟨c, hc, _⟩ := hI i a ha hv
  by_contra hge
  rw [List.getElem?_eq_none (by omega)] at hc
  exact absurd hc (by simp)

theorem lt_of_getElem_some {α : Type} {l : List α} {n : Nat} {x : α} (h : l[n]? = some x) :
    n < l.length := by
  by_contra hge
  rw [List.getElem?_eq_none (by omega)] at h
  exact absurd h (by simp)

theorem heldSlotsOwn_body (d : LeAudioDevice) (cises : List cis) (i : Nat) (a : ase)
    (d1 : LeAudioDevice) (cises1 : List cis) (hI : heldSlotsOwn d cises)
    (ha : d.ases_[i]? = some a) :
    (assignCisIdBody d cises i = some (true, d1, cises1) →
      heldSlotsOwn d1 cises1 ∧ aseBound i d1 cises1 ∧
        ∀ n, n < i → aseBound n d cises → aseBound n d1 cises1) ∧
    (assignCisIdBody d cises i = some (false, d1, cises1) → True) := by
  refine ⟨fun h => ?_, fun _ => trivial⟩
  obtain ⟨a0, ha0, hcases⟩ := assignCisIdBody_cases h
  rw [ha] at ha0
  simp only [Option.some.injEq] at ha0
  subst ha0
  rcases hcases with ⟨_, rfl, rfl, hv, c, hc, hne⟩ | ⟨cid, _, hcid, hlt, rfl, hd1, _⟩ |
    ⟨hr, _⟩
  · refine ⟨hI, ?_, fun _ _ hg => hg⟩
    intro a1 ha1
    rw [ha] at ha1
    simp only [Option.some.injEq] at ha1
    subst ha1
    obtain ⟨c2, hc2, hown⟩ := hI i a ha hv
    rw [hc] at hc2
    simp only [Option.some.injEq] at hc2
    subst hc2
    refine ⟨hv, lt_of_getElem_some hc, c, hc, ?_⟩
    rcases hown with he | ho
    · exact absurd he hne
    · exact ho
  · have haddr : d1.address_ = d.address_ := by
      rcases hd1 with rfl | ⟨_, _, _, _, rfl⟩ <;> rfl
    -- a slot of the new table: that of the old one, bound if it is `cid`
    have hslot : ∀ (x : Nat) (c : cis), cises[x]? = some c →
        (c.addr = d.address_ ∨ x = cid) →
        ∃ c1, (bindCis cises cid d.address_)[x]? = some c1 ∧ c1.addr = d.address_ := by
      intro x c hc hor
      rw [bindCis_get, hc]
      simp only [Option.map_some', Option.some.injEq, exists_eq_left']
      by_cases hx : cid = x
      · simp [hx]
      · simp only [hx, if_false]
        rcases hor with h1 | h1
        · exact h1
        · exact absurd h1.symm hx
    have hcidslot : ∃ c1, (bindCis cises cid d.address_)[cid]? = some c1 ∧
        c1.addr = d.address_ :=
      hslot cid _ (List.getElem?_eq_getElem hlt) (Or.inr rfl)
    refine ⟨?_, ?_, ?_⟩
    · intro n a1 ha1 hv1
      obtain ⟨a0, ha0, hor, _⟩ := assigned_get hd1 ha1
      rw [haddr]
      rcases hor with heq | heq
      · rw [heq]
        obtain ⟨c1, hc1, hb⟩ := hcidslot
        exact ⟨c1, hc1, Or.inr hb⟩
      · subst heq
        obtain ⟨c, hc, hown⟩ := hI n a1 ha0 hv1
        by_cases hx : a1.cis_id = cid
        · rw [hx]
          obtain ⟨c1, hc1, hb⟩ := hcidslot
          exact ⟨c1, hc1, Or.inr hb⟩
        · refine ⟨c, ?_, hown⟩
          rw [bindCis_get, hc]
          simp [Ne.symm hx]
    · intro a1 ha1
      obtain ⟨a0, ha0, _, hi⟩ := assigned_get hd1 ha1
      rw [hi rfl, haddr, bindCis_length]
      exact ⟨hcid, hlt, hcidslot⟩
    · intro n _ hg a1 ha1
      obtain ⟨a0, ha0, hor, _⟩ := assigned_get hd1 ha1
      rw [haddr, bindCis_length]
      rcases hor with heq | heq
      · rw [heq]
        exact ⟨hcid, hlt, hcidslot⟩
      · subst heq
        obtain ⟨hv, hl, c, hc, hb⟩ := hg a1 ha0
        exact ⟨hv, hl, hslot _ c hc (Or.inl hb)⟩
  · exact absurd hr (by simp)

/-- C6: when every CIS id already held by an ASE of the device indexes a slot
that is free or bound to this device, `AssignCisIds` returns a result, and if it
returns `true` then every active ASE of the device holds a valid CIS id (not the
invalid sentinel, less than the table size) whose slot is bound to the address
of the device. -/
theorem AssignCisIds_active_bound (cig : CigConfiguration) (d : LeAudioDevice)
    (hpre : ∀ (n : Nat) (a : ase), d.ases_[n]? = some a → a.cis_id ≠ kInvalidCisId →
      ∃ c, cig.cises[a.cis_id]? = some c ∧
        (c.addr = RawAddress.kEmpty ∨ c.addr = d.address_)) :
    ∃ r d2 cig2, AssignCisIds cig d = some (r, d2, cig2) ∧
      d2.address_ = d.address_ ∧ cig2.cises.length = cig.cises.length ∧
      (r = true → ∀ (n : Nat) (a : ase), d2.ases_[n]? = some a → a.active = true →
        a.cis_id ≠ kInvalidCisId ∧ a.cis_id < cig2.cises.length ∧
          ∃ c, cig2.cises[a.cis_id]? = some c ∧ c.addr = d.address_) := by
  obtain ⟨r, d2, cig2, h, hsame, hlen, _, ht, _⟩ :=
    AssignCisIds_spec heldSlotsOwn aseBound (fun _ _ _ => True)
      (fun d cises i a hI ha => heldSlotsOwn_total d cises i a hI ha)
      (fun d cises i a d1 cises1 hI ha _ => heldSlotsOwn_body d cises i a d1 cises1 hI ha)
      cig d hpre
  refine ⟨r, d2, cig2, h, hsame.1, hlen, ?_⟩
  intro hr n a ha hact
  have := ht hr n a ha hact a ha
  rw [hsame.1] at this
  exact this

/-- Witness of C6: the device with one sink and one source ASE on a table with
one free bidirectional slot. -/
theorem AssignCisIds_active_bound_witness :
    ∃ r d2 cig2,
      AssignCisIds { cises := [freeCis 0 CisType.CIS_TYPE_BIDIRECTIONAL] } headsetDevice =
        some (r, d2, cig2) ∧
      d2.address_ = headsetDevice.address_ ∧ cig2.cises.length = 1 ∧
      (r = true → ∀ (n : Nat) (a : ase), d2.ases_[n]? = some a → a.active = true →
        a.cis_id ≠ kInvalidCisId ∧ a.cis_id < cig2.cises.length ∧
          ∃ c, cig2.cises[a.cis_id]? = some c ∧ c.addr = headsetDevice.address_) :=
  AssignCisIds_active_bound { cises := [freeCis 0 CisType.CIS_TYPE_BIDIRECTIONAL] }
    headsetDevice (by
      intro n a ha hv
      have hmem := List.getElem?_mem ha
      simp only [headsetDevice, List.mem_cons, List.mem_singleton, List.not_mem_nil,
        or_false] at hmem
      rcases hmem with rfl | rfl <;> exact absurd rfl hv)

theorem cisIdsInTable_body (d : LeAudioDevice) (cises : List cis) (i : Nat) (a : ase)
    (d1 : LeAudioDevice) (cises1 : List cis)
    (hI : cises.length ≤ 255 ∧ cisIdsInTable d cises) (ha : d.ases_[i]? = some a) :
    (assignCisIdBody d cises i = some (true, d1, cises1) →
      (cises1.length ≤ 255 ∧ cisIdsInTable d1 cises1) ∧ True ∧ ∀ n, n < i → True → True) ∧
    (assignCisIdBody d cises i = some (false, d1, cises1) →
      ∃ b, d.ases_[i]? = some b ∧ noUsableSlot b.direction cises) := by
  constructor
  · intro h
    refine ⟨?_, trivial, fun _ _ _ => trivial⟩
    obtain ⟨_, hlen⟩ := assignCisIdBody_frame h
    refine ⟨by omega, ?_⟩
    obtain ⟨a0, _, hcases⟩ := assignCisIdBody_cases h
    rcases hcases with ⟨_, rfl, rfl, _⟩ | ⟨cid, _, _, hlt, _, hd1, _⟩ | ⟨hr, _⟩
    · exact hI.2
    · intro n a1 ha1 hv
      obtain ⟨a2, ha2, hor, _⟩ := assigned_get hd1 ha1
      rw [hlen]
      rcases hor with heq | heq
      · rw [heq]; exact hlt
      · subst heq; exact hI.2 n a1 ha2 hv
    · exact absurd hr (by simp)
  · intro h
    obtain ⟨a0, ha0, hcases⟩ := assignCisIdBody_cases h
    rcases hcases with ⟨hr, _⟩ | ⟨_, hr, _⟩ | ⟨_, _, _, _, hg1, hg2⟩
    · exact absurd hr (by simp)
    · exact absurd hr (by simp)
    · refine ⟨a0, ha0, ?_⟩
      intro j c hc hfree
      exact ⟨fun ht => GetFirstFreeCisId_invalid hI.1 hg1 j c hc ⟨hfree, ht⟩,
        fun ht => GetFirstFreeCisId_invalid hI.1 hg2 j c hc ⟨hfree, ht⟩⟩

/-- C4 (as amended): on a table of at most 255 slots that the CIS ids held by
the ASEs of the device index, `AssignCisIds` returns a result; it returns
`false` when the device has no active ASE, and otherwise returns `false` only if
for some active ASE no free slot of its own direction type and no free
bidirectional slot is left in the table. -/
theorem AssignCisIds_false_only_if (cig : CigConfiguration) (d : LeAudioDevice)
    (hlen : cig.cises.length ≤ 255) (hin : cisIdsInTable d cig.cises) :
    ∃ r d2 cig2, AssignCisIds cig d = some (r, d2, cig2) ∧
      ((∀ (n : Nat) (b : ase), d.ases_[n]? = some b → b.active = false) →
        r = false ∧ d2 = d ∧ cig2 = cig) ∧
      (r = false →
        (∀ (n : Nat) (b : ase), d.ases_[n]? = some b → b.active = false) ∨
        ∃ (n : Nat) (b : ase), d.ases_[n]? = some b ∧ b.active = true ∧
          noUsableSlot b.direction cig2.cises) := by
  obtain ⟨r, d2, cig2, h, hsame, _, _, _, hf⟩ :=
    AssignCisIds_spec (fun d cises => cises.length ≤ 255 ∧ cisIdsInTable d cises)
      (fun _ _ _ => True)
      (fun n d cises => ∃ b, d.ases_[n]? = some b ∧ noUsableSlot b.direction cises)
      (fun d cises i a hI ha => assignCisIdBody_total d cises i a ha (hI.2 i a ha))
      (fun d cises i a d1 cises1 hI ha _ => cisIdsInTable_body d cises i a d1 cises1 hI ha)
      cig d ⟨hlen, hin⟩
  refine ⟨r, d2, cig2, h, ?_, ?_⟩
  · intro hnone
    have hfirst : d.GetFirstActiveAse = none :=
      findIfFrom_eq_none (fun j _ b hb => hnone j b hb)
    unfold AssignCisIds at h
    rw [hfirst] at h
    simp only [Option.some.injEq, Prod.mk.injEq] at h
    exact ⟨h.1.symm, h.2.1.symm, h.2.2.symm⟩
  · intro hr
    rcases hf hr with hnone | ⟨n, b, hb, hact, b2, hb2, hno⟩
    · exact Or.inl hnone
    · rw [hb] at hb2
      simp only [Option.some.injEq] at hb2
      subst hb2
      obtain ⟨b0, hb0, hact0, hdir0, _⟩ := sameButCisId_get hsame hb
      exact Or.inr ⟨n, b0, hb0, by rw [hact0]; exact hact, by rw [hdir0]; exact hno⟩

/-- Witness of C4 (as amended): one active sink ASE and an empty table. -/
theorem AssignCisIds_false_only_if_witness :
    ∃ r d2 cig2, AssignCisIds {} earbudDevice = some (r, d2, cig2) ∧
      ((∀ (n : Nat) (b : ase), earbudDevice.ases_[n]? = some b → b.active = false) →
        r = false ∧ d2 = earbudDevice ∧ cig2 = {}) ∧
      (r = false →
        (∀ (n : Nat) (b : ase), earbudDevice.ases_[n]? = some b → b.active = false) ∨
        ∃ (n : Nat) (b : ase), earbudDevice.ases_[n]? = some b ∧ b.active = true ∧
          noUsableSlot b.direction cig2.cises) :=
  AssignCisIds_false_only_if {} earbudDevice (by decide) (by
    intro n a ha hv
    have hmem := List.getElem?_mem ha
    simp only [earbudDevice, List.mem_singleton] at hmem
    subst hmem
    exact absurd rfl hv)

set_option maxRecDepth 100000 in
/-- Counterexample to C4 as stated: a device without an active ASE gets `false`
although a usable slot is free; and on a table of 256 slots whose only free
slot, a source slot, sits at index 255, a device with an active source ASE gets
`false` although that slot is free. -/
theorem AssignCisIds_false_otherwise :
    (AssignCisIds { cises := [freeCis 0 CisType.CIS_TYPE_UNIDIRECTIONAL_SINK] } idleDevice =
        some (false, idleDevice,
          { cises := [freeCis 0 CisType.CIS_TYPE_UNIDIRECTIONAL_SINK] }) ∧
      idleDevice.ases_.all (fun a => !a.active) = true) ∧
    (AssignCisIds (fullTable CisType.CIS_TYPE_UNIDIRECTIONAL_SOURCE) micDevice =
        some (false, micDevice, fullTable CisType.CIS_TYPE_UNIDIRECTIONAL_SOURCE) ∧
      (fullTable CisType.CIS_TYPE_UNIDIRECTIONAL_SOURCE).cises[255]? =
        some (freeCis 255 CisType.CIS_TYPE_UNIDIRECTIONAL_SOURCE)) := by
  refine ⟨⟨by decide, by decide⟩, ⟨by decide, by decide⟩⟩

/-! # Passes of the body of `AssignCisIds`, computed -/

theorem setAseCisId_idem (d : LeAudioDevice) (i cid : Nat) :
    (d.setAseCisId i cid).setAseCisId i cid = d.setAseCisId i cid := by
  have : ((d.setAseCisId i cid).setAseCisId i cid).ases_ = (d.setAseCisId i cid).ases_ := by
    apply List.ext_getElem?
    intro n
    rw [setAseCisId_get]
    cases h : (d.setAseCisId i cid).ases_[n]? with
    | none => rfl
    | some a =>
      simp only [Option.map_some', Option.some.injEq]
      by_cases hin : i = n
      · simp only [hin, if_true]
        rw [setAseCisId_get] at h
        cases h0 : d.ases_[n]? with
        | none => rw [h0] at h; exact absurd h (by simp)
        | some a0 =>
          rw [h0] at h
          simp only [Option.map_some', hin, if_true, Option.some.injEq] at h
          rw [← h]
      · simp [hin]
  calc (d.setAseCisId i cid).setAseCisId i cid
      = { d.setAseCisId i cid with
          ases_ := ((d.setAseCisId i cid).setAseCisId i cid).ases_ } := rfl
    _ = d.setAseCisId i cid := by rw [this]

theorem bindCis_idem (cises : List cis) (cid : Nat) (addr : RawAddress) :
    bindCis (bindCis cises cid addr) cid addr = bindCis cises cid addr := by
  apply List.ext_getElem?
  intro n
  rw [bindCis_get, bindCis_get]
  cases cises[n]? with
  | none => rfl
  | some c =>
    simp only [Option.map_some', Option.some.injEq]
    by_cases h : cid = n <;> simp [h]

/-- The pass for an ASE without a CIS id that has a mate without a CIS id, when
a bidirectional slot is free. -/
theorem assignCisIdBody_pair {d : LeAudioDevice} {cises : List cis} {i m k : Nat} {a x : ase}
    (ha : d.ases_[i]? = some a) (hinv : a.cis_id = kInvalidCisId)
    (hm : d.GetNextActiveAseWithDifferentDirection i = some m)
    (hx : d.ases_[m]? = some x) (hxinv : x.cis_id = kInvalidCisId)
    (hk : GetFirstFreeCisId cises CisType.CIS_TYPE_BIDIRECTIONAL = k)
    (hkv : k ≠ kInvalidCisId) :
    assignCisIdBody d cises i =
      some (true, (d.setAseCisId i k).setAseCisId m k, bindCis cises k d.address_) := by
  have hmlt := lt_of_getElem_some hx
  obtain ⟨f, hf⟩ : ∃ f, d.ases_.length = f + 1 := ⟨d.ases_.length - 1, by omega⟩
  have hklt : k < cises.length := by
    rw [← hk]; exact (GetFirstFreeCisId_valid (by rw [hk]; exact hkv)).1
  unfold assignCisIdBody
  rw [ha]
  simp only [existingCisId, hinv, ne_eq, not_true_eq_false, if_false, hm, hf,
    matchingBidirAseLoop, hx, hxinv, false_and, if_true, hk, hkv, not_false_eq_true,
    setCisAddr, hklt, bindCis]

/-- The pass for an ASE whose CIS id indexes a bound slot: the `continue`. -/
theorem assignCisIdBody_bound {d : LeAudioDevice} {cises : List cis} {i : Nat} {a : ase}
    {c : cis} (ha : d.ases_[i]? = some a) (hv : a.cis_id ≠ kInvalidCisId)
    (hc : cises[a.cis_id]? = some c) (hne : c.addr ≠ RawAddress.kEmpty) :
    assignCisIdBody d cises i = some (true, d, cises) := by
  unfold assignCisIdBody
  rw [ha]
  simp [existingCisId, hv, hc, RawAddress.IsEmpty, hne]

/-- The pass for an ASE whose CIS id indexes a free slot and that has no mate:
the id is used again. -/
theorem assignCisIdBody_reuse {d : LeAudioDevice} {cises : List cis} {i : Nat} {a : ase}
    {c : cis} (ha : d.ases_[i]? = some a) (hv : a.cis_id ≠ kInvalidCisId)
    (hc : cises[a.cis_id]? = some c) (he : c.addr = RawAddress.kEmpty)
    (hm : d.GetNextActiveAseWithDifferentDirection i = none) :
    assignCisIdBody d cises i =
      some (true, d.setAseCisId i a.cis_id, bindCis cises a.cis_id d.address_) := by
  have hlt := lt_of_getElem_some hc
  unfold assignCisIdBody
  rw [ha]
  cases hdir : a.direction <;>
    simp [existingCisId, hv, hc, RawAddress.IsEmpty, he, hm, matchingBidirAseLoop, hdir,
      assignUnidirectional, setCisAddr, hlt, bindCis]

/-- C3 (as amended): for a device whose active ASEs are exactly two, of
different directions (one sink, one source), at positions `p < q` and both
without a CIS id, and a table whose lowest-index free bidirectional slot is `k`
with `k < 255` (so that `k` is a valid 8-bit CIS id), `AssignCisIds` returns
`true`, gives both ASEs the CIS id `k`, binds slot `k` to the address of the
device and changes no other slot. -/
theorem AssignCisIds_bidirectional_pair (cig : CigConfiguration) (d : LeAudioDevice)
    (p q k : Nat) (ap aq : ase) (ck : cis) (hpq : p < q)
    (hp : d.ases_[p]? = some ap) (hq : d.ases_[q]? = some aq)
    (hpact : ap.active = true) (hqact : aq.active = true)
    (hdir : ap.direction ≠ aq.direction)
    (hpinv : ap.cis_id = kInvalidCisId) (hqinv : aq.cis_id = kInvalidCisId)
    (hothers : ∀ (n : Nat) (a : ase), d.ases_[n]? = some a → n ≠ p → n ≠ q → a.active = false)
    (hk : cig.cises[k]? = some ck) (hfree : ck.addr = RawAddress.kEmpty)
    (htype : ck.type = CisType.CIS_TYPE_BIDIRECTIONAL)
    (hmin : ∀ j, j < k → ∀ b, cig.cises[j]? = some b →
      ¬ (b.addr = RawAddress.kEmpty ∧ b.type = CisType.CIS_TYPE_BIDIRECTIONAL))
    (hk255 : k < 255) :
    ∃ d2 cig2, AssignCisIds cig d = some (true, d2, cig2) ∧
      d2 = (d.setAseCisId p k).setAseCisId q k ∧
      d2.ases_[p]? = some { ap with cis_id := k } ∧
      d2.ases_[q]? = some { aq with cis_id := k } ∧
      cig2.cises[k]? = some { ck with addr := d.address_ } ∧
      (∀ n : Nat, n ≠ k → cig2.cises[n]? = cig.cises[n]?) ∧
      cig2.cises.length = cig.cises.length := by
  have hqlt := lt_of_getElem_some hq
  have hklt := lt_of_getElem_some hk
  obtain ⟨f, hf⟩ : ∃ f, d.ases_.length = f + 2 := ⟨d.ases_.length - 2, by omega⟩
  have hgff : GetFirstFreeCisId cig.cises CisType.CIS_TYPE_BIDIRECTIONAL = k :=
    GetFirstFreeCisId_eq hk255 hk hfree htype hmin
  have hkv : k ≠ kInvalidCisId := by unfold kInvalidCisId; omega
  -- the traversal of the active ASEs
  have hfirst : d.GetFirstActiveAse = some p := by
    apply findIfFrom_eq_some (Nat.zero_le _) hp hpact
    intro j _ hj b hb
    exact hothers j b hb (by omega) (by omega)
  have hnextp : d.GetNextActiveAse p = some q := by
    apply findIfFrom_eq_some (by omega) hq hqact
    intro j hj1 hj2 b hb
    exact hothers j b hb (by omega) (by omega)
  have hnextq : d.GetNextActiveAse q = none := by
    apply findIfFrom_eq_none
    intro j hj b hb
    exact hothers j b hb (by omega) (by omega)
  have hmate : d.GetNextActiveAseWithDifferentDirection p = some q := by
    unfold LeAudioDevice.GetNextActiveAseWithDifferentDirection
    rw [hp]
    apply findIfFrom_eq_some (by omega) hq
    · simp [hqact, Ne.symm hdir]
    · intro j hj1 hj2 b hb
      simp [hothers j b hb (by omega) (by omega)]
  -- the first pass, for the ASE at `p`
  have hbody1 := assignCisIdBody_pair hp hpinv hmate hq hqinv hgff hkv
  have hsame1 : sameButCisId d ((d.setAseCisId p k).setAseCisId q k) :=
    sameButCisId_trans (sameButCisId_set _ _ _) (sameButCisId_set _ _ _)
  have hq1 : ((d.setAseCisId p k).setAseCisId q k).ases_[q]? = some { aq with cis_id := k } := by
    rw [setAseCisId_get, setAseCisId_get, hq]
    simp [Nat.ne_of_lt hpq]
  have hp1 : ((d.setAseCisId p k).setAseCisId q k).ases_[p]? = some { ap with cis_id := k } := by
    rw [setAseCisId_get, setAseCisId_get, hp]
    simp [Nat.ne_of_gt hpq]
  have hk1 : (bindCis cig.cises k d.address_)[k]? = some { ck with addr := d.address_ } := by
    rw [bindCis_get, hk]
    simp
  -- the second pass, for the ASE at `q`
  have hbody2 : assignCisIdBody ((d.setAseCisId p k).setAseCisId q k)
      (bindCis cig.cises k d.address_) q =
      some (true, (d.setAseCisId p k).setAseCisId q k, bindCis cig.cises k d.address_) := by
    by_cases haddr : d.address_ = RawAddress.kEmpty
    · have hnomate : ((d.setAseCisId p k).setAseCisId q k).GetNextActiveAseWithDifferentDirection
          q = none := by
        unfold LeAudioDevice.GetNextActiveAseWithDifferentDirection
        rw [hq1]
        apply findIfFrom_eq_none
        intro j hj b hb
        obtain ⟨b0, hb0, hact0, _⟩ := sameButCisId_get hsame1 hb
        have := hothers j b0 hb0 (by omega) (by omega)
        rw [hact0] at this
        simp [this]
      have := assignCisIdBody_reuse hq1 hkv hk1 haddr hnomate
      rw [this]
      have haddr1 : ((d.setAseCisId p k).setAseCisId q k).address_ = d.address_ := rfl
      simp only [setAseCisId_idem, haddr1, bindCis_idem]
    · exact assignCisIdBody_bound hq1 hkv hk1 haddr
  refine ⟨(d.setAseCisId p k).setAseCisId q k, { cises := bindCis cig.cises k d.address_ },
    ?_, rfl, hp1, hq1, hk1, ?_, bindCis_length _ _ _⟩
  · unfold AssignCisIds
    rw [hfirst]
    simp only [hf, assignCisIdsLoop, hbody1, GetNextActiveAse_sameButCisId hsame1, hnextp,
      hbody2, hnextq]
  · intro n hn
    rw [bindCis_get]
    cases cig.cises[n]? with
    | none => rfl
    | some c => simp [Ne.symm hn]

/-- Witness of C3 (as amended): the device with one sink and one source ASE on a
table with one free bidirectional slot. -/
theorem AssignCisIds_bidirectional_pair_witness :
    ∃ d2 cig2,
      AssignCisIds { cises := [freeCis 0 CisType.CIS_TYPE_BIDIRECTIONAL,
                               freeCis 1 CisType.CIS_TYPE_UNIDIRECTIONAL_SINK] } headsetDevice =
        some (true, d2, cig2) ∧
      d2 = (headsetDevice.setAseCisId 0 0).setAseCisId 1 0 ∧
      d2.ases_[0]? = some { id := 1, active := true, cis_id := 0 } ∧
      d2.ases_[1]? = some { id := 2, active := true,
                            direction := Direction.kLeAudioDirectionSource, cis_id := 0 } ∧
      cig2.cises[0]? = some { freeCis 0 CisType.CIS_TYPE_BIDIRECTIONAL with addr := ⟨5⟩ } ∧
      (∀ n : Nat, n ≠ 0 → cig2.cises[n]? =
        [freeCis 0 CisType.CIS_TYPE_BIDIRECTIONAL,
         freeCis 1 CisType.CIS_TYPE_UNIDIRECTIONAL_SINK][n]?) ∧
      cig2.cises.length = 2 :=
  AssignCisIds_bidirectional_pair
    { cises := [freeCis 0 CisType.CIS_TYPE_BIDIRECTIONAL,
                freeCis 1 CisType.CIS_TYPE_UNIDIRECTIONAL_SINK] } headsetDevice 0 1 0
    { id := 1, active := true }
    { id := 2, active := true, direction := Direction.kLeAudioDirectionSource }
    (freeCis 0 CisType.CIS_TYPE_BIDIRECTIONAL) (by decide) rfl rfl rfl rfl (by decide) rfl rfl
    (by
      intro n a ha h0 h1
      match n, ha, h0, h1 with
      | 0, _, h0, _ => exact absurd rfl h0
      | 1, _, _, h1 => exact absurd rfl h1
      | n + 2, ha, _, _ => simp [headsetDevice] at ha)
    rfl rfl rfl (fun j hj => absurd hj (Nat.not_lt_zero j)) (by decide)

set_option maxRecDepth 100000 in
/-- Counterexample to C3 as stated: on a table of 256 slots whose only free
slot is a bidirectional one at index 255, the device with one active sink and
one active source ASE gets `false` and no CIS id. -/
theorem AssignCisIds_bidirectional_at_255 :
    (fullTable CisType.CIS_TYPE_BIDIRECTIONAL).cises[255]? =
        some (freeCis 255 CisType.CIS_TYPE_BIDIRECTIONAL) ∧
      AssignCisIds (fullTable CisType.CIS_TYPE_BIDIRECTIONAL) headsetDevice =
        some (false, headsetDevice, fullTable CisType.CIS_TYPE_BIDIRECTIONAL) := by
  refine ⟨by decide, by decide⟩

/-! # `Activate` -/

theorem activateLoop_abort (env : Env) (context_type : Nat)
    (metadata_context_types : BidirectionalPair Nat)
    (ccid_lists : BidirectionalPair (List Nat)) (dev d2 : LeAudioDevice)
    (post : List (Option LeAudioDevice)) (cig2 : CigConfiguration) :
    ∀ (pre visited done : List (Option LeAudioDevice)) (cig cig1 : CigConfiguration)
      (is_activate : Bool),
      activatedAll env context_type metadata_context_types ccid_lists pre cig visited cig1 →
      (env.ActivateConfiguredAses dev context_type metadata_context_types ccid_lists).1 =
        true →
      AssignCisIds cig1
        (env.ActivateConfiguredAses dev context_type metadata_context_types ccid_lists).2 =
        some (false, d2, cig2) →
      activateLoop env context_type metadata_context_types ccid_lists (pre ++ some dev :: post)
        done cig is_activate = some (false, done ++ (visited ++ some d2 :: post), cig2) := by
  intro pre
  induction pre with
  | nil =>
    intro visited done cig cig1 is_activate hpass hact hfail
    obtain ⟨rfl, rfl⟩ := hpass
    simp only [List.nil_append, activateLoop, hact, if_true, hfail]
  | cons m rest ih =>
    intro visited done cig cig1 is_activate hpass hact hfail
    cases m with
    | none =>
      obtain ⟨t, rfl, hrest⟩ := hpass
      rw [List.cons_append, activateLoop,
        ih t (done ++ [none]) cig cig1 is_activate hrest hact hfail]
      simp
    | some dev0 =>
      simp only [activatedAll] at hpass
      rw [List.cons_append, activateLoop]
      split at hpass
      · next h0 =>
        obtain ⟨d1, cig0, t, hassign, rfl, hrest⟩ := hpass
        simp only [h0, if_true, hassign]
        rw [ih t (done ++ [some d1]) cig0 cig1 true hrest hact hfail]
        simp
      · next h0 =>
        obtain ⟨t, rfl, hrest⟩ := hpass
        rw [if_neg h0, ih t _ cig cig1 is_activate hrest hact hfail]
        simp

/-- C5 (as amended): `Activate` rolls nothing back. When the loop has got
through the members `pre` and `AssignCisIds` fails for the next activated member,
`Activate` returns `false` at once with the state reached so far: the members
`pre` as activation and `AssignCisIds` left them, the failing member as the
failed `AssignCisIds` left it, the members after it untouched, and the table as
it was when `AssignCisIds` failed. -/
theorem Activate_abort_keeps_state (env : Env) (g : LeAudioDeviceGroup) (context_type : Nat)
    (metadata_context_types : BidirectionalPair Nat)
    (ccid_lists : BidirectionalPair (List Nat))
    (pre post visited : List (Option LeAudioDevice)) (dev d2 : LeAudioDevice)
    (cig1 cig2 : CigConfiguration)
    (hmembers : g.leAudioDevices_ = pre ++ some dev :: post)
    (hpre : activatedAll env context_type metadata_context_types ccid_lists pre g.cig visited
      cig1)
    (hact : (env.ActivateConfiguredAses dev context_type metadata_context_types
      ccid_lists).1 = true)
    (hfail : AssignCisIds cig1
      (env.ActivateConfiguredAses dev context_type metadata_context_types ccid_lists).2 =
      some (false, d2, cig2)) :
    g.Activate env context_type metadata_context_types ccid_lists =
      some (false, { g with leAudioDevices_ := visited ++ some d2 :: post, cig := cig2 }) := by
  unfold LeAudioDeviceGroup.Activate
  rw [hmembers, activateLoop_abort env context_type metadata_context_types ccid_lists dev d2 post
    cig2 pre visited [] g.cig cig1 false hpre hact hfail]
  simp

/-- Witness of C5 (as amended): two earbuds and a table with one sink slot; the
first earbud takes the slot, the second finds none. -/
theorem Activate_abort_keeps_state_witness :
    earbudGroup.Activate exampleEnv 4 ⟨0, 0⟩ ⟨[], []⟩ =
      some (false,
        { earbudGroup with
          leAudioDevices_ := [some (earbudDevice.setAseCisId 0 0)] ++ some secondEarbud :: [],
          cig := earbudTableBound }) :=
  Activate_abort_keeps_state exampleEnv earbudGroup 4 ⟨0, 0⟩ ⟨[], []⟩ [some earbudDevice] []
    [some (earbudDevice.setAseCisId 0 0)] secondEarbud secondEarbud earbudTableBound
    earbudTableBound rfl
    (by
      simp only [activatedAll]
      rw [if_pos (by decide)]
      exact ⟨earbudDevice.setAseCisId 0 0, _, [], by decide, rfl, rfl, rfl⟩)
    (by decide) (by decide)

/-- Counterexample to C5 as stated: two earbuds and a table with one sink slot.
`Activate` returns `false` because `AssignCisIds` finds no free slot for the
second earbud, and afterwards the ASE of the first earbud is still active and
still holds CIS id 0, and slot 0 is still bound to the first earbud. -/
theorem Activate_partially_committed :
    earbudGroup.Activate exampleEnv 4 ⟨0, 0⟩ ⟨[], []⟩ =
      some (false,
        { leAudioDevices_ :=
            [some { earbudDevice with ases_ := [{ id := 1, active := true, cis_id := 0 }] },
             some secondEarbud]
          cig := { cises := [{ id := 0, type := CisType.CIS_TYPE_UNIDIRECTIONAL_SINK,
                               conn_handle := 0, addr := earbudDevice.address_ }] } }) ∧
      AssignCisIds earbudTableBound secondEarbud =
        some (false, secondEarbud, earbudTableBound) :=
  ⟨by decide, by decide⟩

/-! # Connection handles of the table -/

theorem assignCisConnHandlesLoop_some (conn_handles : List Nat) :
    ∀ (cises : List cis) (i : Nat), i + cises.length ≤ conn_handles.length →
      ∃ r, assignCisConnHandlesLoop conn_handles cises i = some r ∧
        r.length = cises.length ∧
        ∀ (j : Nat) (c : cis), cises[j]? = some c →
          ∃ h, conn_handles[i + j]? = some h ∧ r[j]? = some { c with conn_handle := h } := by
  intro cises
  induction cises with
  | nil =>
    intro i _
    exact ⟨[], rfl, rfl, fun j c hc => absurd hc (by simp)⟩
  | cons c0 rest ih =>
    intro i hi
    simp only [List.length_cons] at hi
    obtain ⟨r, hr, hlen, hslots⟩ := ih (i + 1) (by omega)
    have hlt : i < conn_handles.length := by omega
    refine ⟨{ c0 with conn_handle := conn_handles[i] } :: r, ?_, by simp [hlen], ?_⟩
    · rw [assignCisConnHandlesLoop, List.getElem?_eq_getElem hlt]
      simp only [hr]
    · intro j c hc
      cases j with
      | zero =>
        simp only [List.getElem?_cons_zero, Option.some.injEq] at hc
        subst hc
        exact ⟨conn_handles[i], List.getElem?_eq_getElem hlt, by simp⟩
      | succ j =>
        simp only [List.getElem?_cons_succ] at hc
        obtain ⟨h, hh, hrj⟩ := hslots j c hc
        refine ⟨h, ?_, by simpa using hrj⟩
        rw [← hh]
        congr 1
        omega

theorem assignCisConnHandlesLoop_none (conn_handles : List Nat) :
    ∀ (cises : List cis) (i : Nat), i ≤ conn_handles.length →
      conn_handles.length < i + cises.length →
      assignCisConnHandlesLoop conn_handles cises i = none := by
  intro cises
  induction cises with
  | nil =>
    intro i hle hi
    simp only [List.length_nil, Nat.add_zero] at hi
    omega
  | cons c0 rest ih =>
    intro i hle hi
    simp only [List.length_cons] at hi
    rw [assignCisConnHandlesLoop]
    by_cases hlt : i < conn_handles.length
    · rw [List.getElem?_eq_getElem hlt]
      simp only [ih (i + 1) (by omega) (by omega)]
    · rw [List.getElem?_eq_none (by omega)]

/-- C7: for a handle vector as long as the table, `AssignCisConnHandles` returns
a table of the same length in which the slot at every index `i` has
`conn_handle = handles[i]` and its id, type and bound device unchanged. -/
theorem AssignCisConnHandles_positional (cig : CigConfiguration) (conn_handles : List Nat)
    (hlen : conn_handles.length = cig.cises.length) :
    ∃ cig2, AssignCisConnHandles cig conn_handles = some cig2 ∧
      cig2.cises.length = cig.cises.length ∧
      ∀ (i : Nat) (c : cis), cig.cises[i]? = some c →
        ∃ h, conn_handles[i]? = some h ∧
          cig2.cises[i]? = some
            { id := c.id, type := c.type, conn_handle := h, addr := c.addr } := by
  obtain ⟨r, hr, hl, hslots⟩ := assignCisConnHandlesLoop_some conn_handles cig.cises 0 (by omega)
  refine ⟨{ cises := r }, ?_, hl, ?_⟩
  · unfold AssignCisConnHandles
    rw [hr]
  · intro i c hc
    obtain ⟨h, hh, hri⟩ := hslots i c hc
    rw [Nat.zero_add] at hh
    exact ⟨h, hh, hri⟩

/-- Witness of C7: two slots and two handles. -/
theorem AssignCisConnHandles_positional_witness :
    ∃ cig2, AssignCisConnHandles
        { cises := [freeCis 0 CisType.CIS_TYPE_BIDIRECTIONAL,
                    freeCis 1 CisType.CIS_TYPE_UNIDIRECTIONAL_SINK] } [96, 97] = some cig2 ∧
      cig2.cises.length = 2 ∧
      ∀ (i : Nat) (c : cis),
        [freeCis 0 CisType.CIS_TYPE_BIDIRECTIONAL,
         freeCis 1 CisType.CIS_TYPE_UNIDIRECTIONAL_SINK][i]? = some c →
        ∃ h, [96, 97][i]? = some h ∧
          cig2.cises[i]? = some
            { id := c.id, type := c.type, conn_handle := h, addr := c.addr } :=
  AssignCisConnHandles_positional
    { cises := [freeCis 0 CisType.CIS_TYPE_BIDIRECTIONAL,
                freeCis 1 CisType.CIS_TYPE_UNIDIRECTIONAL_SINK] } [96, 97] (by decide)

/-- C8 (as amended): `AssignCisConnHandles` does not check the length of the
handle vector. With a vector at least as long as the table it writes the first
handles into the slots, position by position, and ignores the rest; with a
shorter vector it reads `conn_handles` out of bounds. -/
theorem AssignCisConnHandles_unchecked (cig : CigConfiguration) (conn_handles : List Nat) :
    (cig.cises.length ≤ conn_handles.length →
      ∃ cig2, AssignCisConnHandles cig conn_handles = some cig2 ∧
        cig2.cises.length = cig.cises.length ∧
        ∀ (i : Nat) (c : cis), cig.cises[i]? = some c →
          ∃ h, conn_handles[i]? = some h ∧
            cig2.cises[i]? = some
              { id := c.id, type := c.type, conn_handle := h, addr := c.addr }) ∧
    (conn_handles.length < cig.cises.length →
      AssignCisConnHandles cig conn_handles = none) := by
  constructor
  · intro hle
    obtain ⟨r, hr, hl, hslots⟩ :=
      assignCisConnHandlesLoop_some conn_handles cig.cises 0 (by omega)
    refine ⟨{ cises := r }, ?_, hl, ?_⟩
    · unfold AssignCisConnHandles
      rw [hr]
    · intro i c hc
      obtain ⟨h, hh, hri⟩ := hslots i c hc
      rw [Nat.zero_add] at hh
      exact ⟨h, hh, hri⟩
  · intro hlt
    unfold AssignCisConnHandles
    rw [assignCisConnHandlesLoop_none conn_handles cig.cises 0 (by omega) (by omega)]

/-- Witness of C8 (as amended): one slot and two handles; two slots and one
handle. -/
theorem AssignCisConnHandles_unchecked_witness :
    (∃ cig2, AssignCisConnHandles { cises := [freeCis 0 CisType.CIS_TYPE_BIDIRECTIONAL] }
        [96, 97] = some cig2 ∧
        cig2.cises.length = 1 ∧
        ∀ (i : Nat) (c : cis), [freeCis 0 CisType.CIS_TYPE_BIDIRECTIONAL][i]? = some c →
          ∃ h, [96, 97][i]? = some h ∧
            cig2.cises[i]? = some
              { id := c.id, type := c.type, conn_handle := h, addr := c.addr }) ∧
    AssignCisConnHandles
      { cises := [freeCis 0 CisType.CIS_TYPE_BIDIRECTIONAL,
                  freeCis 1 CisType.CIS_TYPE_UNIDIRECTIONAL_SINK] } [96] = none :=
  ⟨(AssignCisConnHandles_unchecked { cises := [freeCis 0 CisType.CIS_TYPE_BIDIRECTIONAL] }
      [96, 97]).1 (by decide),
   (AssignCisConnHandles_unchecked
      { cises := [freeCis 0 CisType.CIS_TYPE_BIDIRECTIONAL,
                  freeCis 1 CisType.CIS_TYPE_UNIDIRECTIONAL_SINK] } [96]).2 (by decide)⟩

/-- Counterexample to C8 as stated: with one slot and two handles the lengths
differ, yet the call goes through and writes the slot. -/
theorem AssignCisConnHandles_writes_on_mismatch :
    [96, 97].length ≠ [freeCis 0 CisType.CIS_TYPE_BIDIRECTIONAL].length ∧
    AssignCisConnHandles { cises := [freeCis 0 CisType.CIS_TYPE_BIDIRECTIONAL] } [96, 97] =
      some { cises := [{ id := 0, type := CisType.CIS_TYPE_BIDIRECTIONAL, conn_handle := 96,
                         addr := RawAddress.kEmpty }] } :=
  ⟨by decide, by decide⟩

/-! # `UnassignCis` -/

/-- C10: `UnassignCis(device)` keeps the length of the table and, of every slot,
the id, the type and the connection handle; it clears the bound device of the
slots bound to the address of the device and leaves the bound device of every
other slot as it is. -/
theorem UnassignCis_frame (cig : CigConfiguration) (leAudioDevice : LeAudioDevice) :
    (UnassignCis cig leAudioDevice).cises.length = cig.cises.length ∧
    ∀ (i : Nat) (c : cis), cig.cises[i]? = some c →
      ∃ c2, (UnassignCis cig leAudioDevice).cises[i]? = some c2 ∧
        c2.id = c.id ∧ c2.type = c.type ∧ c2.conn_handle = c.conn_handle ∧
        (c.addr = leAudioDevice.address_ → c2.addr = RawAddress.kEmpty) ∧
        (c.addr ≠ leAudioDevice.address_ → c2.addr = c.addr) := by
  refine ⟨by simp [UnassignCis], ?_⟩
  intro i c hc
  simp only [UnassignCis, List.getElem?_map, hc, Option.map_some', Option.some.injEq,
    exists_eq_left']
  by_cases h : c.addr = leAudioDevice.address_
  · simp [h]
  · simp [h]

/-- Witness of C10: a table with a slot of the first earbud and a slot of the
second. -/
theorem UnassignCis_frame_witness :
    ∃ c2, (UnassignCis
        { cises := [{ id := 0, type := CisType.CIS_TYPE_UNIDIRECTIONAL_SINK, conn_handle := 96,
                      addr := ⟨6⟩ },
                    { id := 1, type := CisType.CIS_TYPE_UNIDIRECTIONAL_SINK, conn_handle := 97,
                      addr := ⟨7⟩ }] } earbudDevice).cises[0]? = some c2 ∧
      c2.id = 0 ∧ c2.type = CisType.CIS_TYPE_UNIDIRECTIONAL_SINK ∧ c2.conn_handle = 96 ∧
      ((⟨6⟩ : RawAddress) = earbudDevice.address_ → c2.addr = RawAddress.kEmpty) ∧
      ((⟨6⟩ : RawAddress) ≠ earbudDevice.address_ → c2.addr = ⟨6⟩) :=
  (UnassignCis_frame
    { cises := [{ id := 0, type := CisType.CIS_TYPE_UNIDIRECTIONAL_SINK, conn_handle := 96,
                  addr := ⟨6⟩ },
                { id := 1, type := CisType.CIS_TYPE_UNIDIRECTIONAL_SINK, conn_handle := 97,
                  addr := ⟨7⟩ }] } earbudDevice).2 0
    { id := 0, type := CisType.CIS_TYPE_UNIDIRECTIONAL_SINK, conn_handle := 96, addr := ⟨6⟩ }
    rfl

/-! # `GetAsesByCisId` -/

theorem findLastLoop_some {α : Type} (p : α → Bool) :
    ∀ (l : List α) (i : Nat) (r : Option Nat) (k : Nat), findLastLoop p l i r = some k →
      (i ≤ k ∧ ∃ a, l[k - i]? = some a ∧ p a = true) ∨ r = some k := by
  intro l
  induction l with
  | nil =>
    intro i r k h
    exact Or.inr h
  | cons a rest ih =>
    intro i r k h
    rw [findLastLoop] at h
    rcases ih (i + 1) _ k h with ⟨hle, b, hb, hp⟩ | hr
    · left
      refine ⟨by omega, b, ?_, hp⟩
      have : k - i = (k - (i + 1)) + 1 := by omega
      rw [this, List.getElem?_cons_succ]
      exact hb
    · by_cases hpa : p a = true
      · simp only [hpa, if_true, Option.some.injEq] at hr
        left
        subst hr
        exact ⟨le_refl _, a, by simp, hpa⟩
      · simp only [hpa, if_false] at hr
        exact Or.inr hr

/-- When at most the element at `i` satisfies `p`, and it does, the loop ends
with `i`. -/
theorem findLastLoop_unique {α : Type} (p : α → Bool) :
    ∀ (l : List α) (i0 : Nat) (r : Option Nat) (i : Nat) (a : α),
      l[i]? = some a → p a = true →
      (∀ (j : Nat) (b : α), l[j]? = some b → p b = true → j = i) →
      findLastLoop p l i0 r = some (i0 + i) := by
  intro l
  induction l with
  | nil =>
    intro i0 r i a ha
    exact absurd ha (by simp)
  | cons x rest ih =>
    intro i0 r i a ha hp huniq
    rw [findLastLoop]
    cases i with
    | zero =>
      simp only [List.getElem?_cons_zero, Option.some.injEq] at ha
      subst ha
      simp only [hp, if_true]
      -- nothing after the head satisfies `p`
      have hnone : ∀ (l2 : List α) (i1 : Nat) (r1 : Option Nat),
          (∀ (j : Nat) (b : α), l2[j]? = some b → p b = false) →
          findLastLoop p l2 i1 r1 = r1 := by
        intro l2
        induction l2 with
        | nil => intro _ _ _; rfl
        | cons y t iht =>
          intro i1 r1 hall
          rw [findLastLoop, iht (i1 + 1) _ (fun j b hb => hall (j + 1) b (by simpa using hb))]
          have := hall 0 y (by simp)
          simp [this]
      rw [hnone rest (i0 + 1) _ ?_]
      · rfl
      · intro j b hb
        by_contra hpb
        have := huniq (j + 1) b (by simpa using hb) (by simpa using hpb)
        omega
    | succ i =>
      simp only [List.getElem?_cons_succ] at ha
      have := ih (i0 + 1) (if p x then some i0 else r) i a ha hp (by
        intro j b hb hpb
        have := huniq (j + 1) b (by simpa using hb) hpb
        omega)
      rw [this]
      congr 1
      omega

theorem findLast_some {α : Type} {p : α → Bool} {l : List α} {k : Nat}
    (h : findLast p l = some k) : ∃ a, l[k]? = some a ∧ p a = true := by
  rcases findLastLoop_some p l 0 none k h with ⟨_, a, ha, hp⟩ | hr
  · exact ⟨a, by simpa using ha, hp⟩
  · exact absurd hr (by simp)

theorem findLast_unique {α : Type} {p : α → Bool} {l : List α} {i : Nat} {a : α}
    (ha : l[i]? = some a) (hp : p a = true)
    (huniq : ∀ (j : Nat) (b : α), l[j]? = some b → p b = true → j = i) :
    findLast p l = some i := by
  have := findLastLoop_unique p l 0 none i a ha hp huniq
  rw [Nat.zero_add] at this
  exact this

/-! # Handing the connection handles to the ASEs of one device -/

theorem setAseCisConnHdl_get (d : LeAudioDevice) (i hdl n : Nat) :
    (d.setAseCisConnHdl i hdl).ases_[n]? =
      (d.ases_[n]?).map (fun a =>
        if i = n then { a with cis_conn_hdl := hdl, cis_state := CisState.ASSIGNED } else a) := by
  simp only [LeAudioDevice.setAseCisConnHdl, List.getElem?_modify]
  rfl

theorem handlesGiven_refl (cises : List cis) (d : LeAudioDevice) : handlesGiven cises d d :=
  ⟨rfl, rfl, fun _ _ h => Or.inl h⟩

theorem assignedAse_idem {cises : List cis} {x y : ase} (h : assignedAse cises x = some y) :
    y.active = x.active ∧ y.cis_id = x.cis_id ∧ y.direction = x.direction ∧
      idleActive y = false ∧ assignedAse cises y = some y := by
  unfold assignedAse at h
  cases hc : cises[x.cis_id]? with
  | none => rw [hc] at h; exact absurd h (by simp)
  | some c =>
    rw [hc] at h
    simp only [Option.map_some', Option.some.injEq] at h
    subst h
    refine ⟨rfl, rfl, rfl, by simp [idleActive], ?_⟩
    simp [assignedAse, hc]

theorem handlesGiven_trans {cises : List cis} {d d1 d2 : LeAudioDevice}
    (h1 : handlesGiven cises d d1) (h2 : handlesGiven cises d1 d2) :
    handlesGiven cises d d2 := by
  obtain ⟨e1, l1, r1⟩ := h1
  obtain ⟨e2, l2, r2⟩ := h2
  refine ⟨by rw [e2, e1], l2.trans l1, ?_⟩
  intro n x hx
  rcases r1 n x hx with hsame | ⟨hact, y, hy, hd1⟩
  · exact r2 n x hsame
  · obtain ⟨ya, _, _, _, yidem⟩ := assignedAse_idem hy
    rcases r2 n y hd1 with hsame | ⟨_, z, hz, hd2⟩
    · exact Or.inr ⟨hact, y, hy, hsame⟩
    · rw [yidem] at hz
      simp only [Option.some.injEq] at hz
      subst hz
      exact Or.inr ⟨hact, y, hy, hd2⟩

theorem handlesGiven_set {cises : List cis} {d : LeAudioDevice} {j : Nat} {x : ase} {c : cis}
    (hx : d.ases_[j]? = some x) (hact : x.active = true) (hc : cises[x.cis_id]? = some c) :
    handlesGiven cises d (d.setAseCisConnHdl j c.conn_handle) ∧
      (d.setAseCisConnHdl j c.conn_handle).ases_[j]? =
        some { x with cis_conn_hdl := c.conn_handle, cis_state := CisState.ASSIGNED } := by
  refine ⟨⟨rfl, by simp [LeAudioDevice.setAseCisConnHdl], ?_⟩, ?_⟩
  · intro n y hy
    rw [setAseCisConnHdl_get, hy]
    by_cases hjn : j = n
    · right
      subst hjn
      rw [hx] at hy
      simp only [Option.some.injEq] at hy
      subst hy
      exact ⟨hact, { x with cis_conn_hdl := c.conn_handle, cis_state := CisState.ASSIGNED },
        by simp [assignedAse, hc], by simp⟩
    · left
      simp [hjn]
  · rw [setAseCisConnHdl_get, hx]
    simp

/-- What `handlesGiven` keeps of every ASE. -/
theorem handlesGiven_get {cises : List cis} {d d1 : LeAudioDevice}
    (h : handlesGiven cises d d1) {n : Nat} {y : ase} (hy : d1.ases_[n]? = some y) :
    ∃ x, d.ases_[n]? = some x ∧ y.active = x.active ∧ y.cis_id = x.cis_id ∧
      y.direction = x.direction ∧ (idleActive y = true → y = x) := by
  have hn : n < d.ases_.length := by rw [← h.2.1]; exact lt_of_getElem_some hy
  refine ⟨d.ases_[n], List.getElem?_eq_getElem hn, ?_⟩
  rcases h.2.2 n d.ases_[n] (List.getElem?_eq_getElem hn) with hsame | ⟨_, z, hz, hd1⟩
  · rw [hy] at hsame
    simp only [Option.some.injEq] at hsame
    subst hsame
    exact ⟨rfl, rfl, rfl, fun _ => rfl⟩
  · rw [hy] at hd1
    simp only [Option.some.injEq] at hd1
    subst hd1
    obtain ⟨h1, h2, h3, h4, _⟩ := assignedAse_idem hz
    refine ⟨h1, h2, h3, fun hi => ?_⟩
    rw [h4] at hi
    exact absurd hi (by simp)

theorem pairUnique_handlesGiven {cises : List cis} {d d1 : LeAudioDevice}
    (h : handlesGiven cises d d1) (hu : pairUnique d) : pairUnique d1 := by
  intro i j a b ha hb hact hcis hdir
  obtain ⟨a0, ha0, e1, e2, e3, _⟩ := handlesGiven_get h ha
  obtain ⟨b0, hb0, _, f2, f3, _⟩ := handlesGiven_get h hb
  exact hu i j a0 b0 ha0 hb0 (by rw [← e1]; exact hact) (by rw [← f2, ← e2]; exact hcis)
    (by rw [← f3, ← e3]; exact hdir)

theorem activeInTable_handlesGiven {cises : List cis} {d d1 : LeAudioDevice} {size : Nat}
    (h : handlesGiven cises d d1) (hu : activeInTable d size) : activeInTable d1 size := by
  intro n a ha hact
  obtain ⟨a0, ha0, e1, e2, _⟩ := handlesGiven_get h ha
  rw [e2]
  exact hu n a0 ha0 (by rw [← e1]; exact hact)

theorem assignHandleToPairMember_spec {cises : List cis} {d : LeAudioDevice}
    {member : Option Nat} {cid : Nat} {c : cis} (hc : cises[cid]? = some c)
    (hm : ∀ j, member = some j → ∃ x, d.ases_[j]? = some x ∧ x.cis_id = cid) :
    ∃ d1, assignHandleToPairMember cises d member cid = some d1 ∧ handlesGiven cises d d1 ∧
      ∀ j x, member = some j → d.ases_[j]? = some x → x.active = true →
        d1.ases_[j]? =
          some { x with cis_conn_hdl := c.conn_handle, cis_state := CisState.ASSIGNED } := by
  cases member with
  | none =>
    exact ⟨d, rfl, handlesGiven_refl _ _, fun j x h => absurd h (by simp)⟩
  | some j =>
    obtain ⟨x, hx, hcid⟩ := hm j rfl
    simp only [assignHandleToPairMember, hx]
    by_cases hact : x.active = true
    · simp only [hact, if_true, hc]
      have hcx : cises[x.cis_id]? = some c := by rw [hcid]; exact hc
      obtain ⟨hg, hset⟩ := handlesGiven_set hx hact hcx
      refine ⟨_, rfl, hg, ?_⟩
      intro j2 x2 hj2 hx2 _
      simp only [Option.some.injEq] at hj2
      subst hj2
      rw [hx] at hx2
      simp only [Option.some.injEq] at hx2
      subst hx2
      exact hset
    · simp only [hact, if_false]
      refine ⟨d, rfl, handlesGiven_refl _ _, ?_⟩
      intro j2 x2 hj2 hx2 hact2
      simp only [Option.some.injEq] at hj2
      subst hj2
      rw [hx] at hx2
      simp only [Option.some.injEq] at hx2
      subst hx2
      exact absurd hact2 (by simpa using hact)

/-- One pass of the loop of `AssignCisConnHandlesToAses(leAudioDevice)` for the
active ASE at `i`: it gives the ASE (and its mate) the handle of its slot. -/
theorem assignCisConnHandlesToAsesBody_spec {cises : List cis} {d : LeAudioDevice} {i : Nat}
    {a : ase} (ha : d.ases_[i]? = some a) (hact : a.active = true) (hu : pairUnique d)
    (hin : activeInTable d cises.length) :
    ∃ d2, assignCisConnHandlesToAsesBody cises d i = some d2 ∧ handlesGiven cises d d2 ∧
      ∃ y, assignedAse cises a = some y ∧ d2.ases_[i]? = some y := by
  have hlt := hin i a ha hact
  have hc : cises[a.cis_id]? = some cises[a.cis_id] := List.getElem?_eq_getElem hlt
  have hy : assignedAse cises a = some
      { a with cis_conn_hdl := (cises[a.cis_id]).conn_handle, cis_state := CisState.ASSIGNED } := by
    simp [assignedAse, hc]
  unfold assignCisConnHandlesToAsesBody
  rw [ha]
  dsimp only
  -- the sink member of the pair
  have hm1 : ∀ j, (d.GetAsesByCisId a.cis_id).sink = some j →
      ∃ x, d.ases_[j]? = some x ∧ x.cis_id = a.cis_id := by
    intro j hj
    obtain ⟨x, hx, hp⟩ := findLast_some hj
    simp only [Bool.and_eq_true, decide_eq_true_eq] at hp
    exact ⟨x, hx, hp.1⟩
  obtain ⟨d1, hd1, hg1, hset1⟩ := assignHandleToPairMember_spec hc hm1
  rw [hd1]
  dsimp only
  -- the source member of the pair
  have hm2 : ∀ j, (d.GetAsesByCisId a.cis_id).source = some j →
      ∃ x, d1.ases_[j]? = some x ∧ x.cis_id = a.cis_id := by
    intro j hj
    obtain ⟨x, hx, hp⟩ := findLast_some hj
    simp only [Bool.and_eq_true, decide_eq_true_eq] at hp
    rcases hg1.2.2 j x hx with hsame | ⟨_, y, hy1, hd1j⟩
    · exact ⟨x, hsame, hp.1⟩
    · exact ⟨y, hd1j, by rw [(assignedAse_idem hy1).2.1]; exact hp.1⟩
  obtain ⟨d2, hd2, hg2, hset2⟩ := assignHandleToPairMember_spec hc hm2
  refine ⟨d2, hd2, handlesGiven_trans hg1 hg2, _, hy, ?_⟩
  have hdircases : a.direction = Direction.kLeAudioDirectionSink ∨
      a.direction = Direction.kLeAudioDirectionSource := by
    cases a.direction
    · exact Or.inl rfl
    · exact Or.inr rfl
  rcases hdircases with hdir | hdir
  · have hs : (d.GetAsesByCisId a.cis_id).sink = some i := by
      apply findLast_unique ha (by simp [hdir])
      intro j b hb hp
      simp only [Bool.and_eq_true, decide_eq_true_eq] at hp
      exact hu i j a b ha hb hact hp.1 (by rw [hp.2, hdir])
    have h1 := hset1 i a hs ha hact
    rcases hg2.2.2 i _ h1 with hsame | ⟨_, z, hz, hd2i⟩
    · exact hsame
    · have hidem := (assignedAse_idem hy).2.2.2.2
      rw [hidem] at hz
      simp only [Option.some.injEq] at hz
      rw [hd2i, ← hz]
  · have hs : (d.GetAsesByCisId a.cis_id).source = some i := by
      apply findLast_unique ha (by simp [hdir])
      intro j b hb hp
      simp only [Bool.and_eq_true, decide_eq_true_eq] at hp
      have hbdir : b.direction = Direction.kLeAudioDirectionSource := by
        cases hb2 : b.direction
        · exact absurd hb2 (by simpa using hp.2)
        · rfl
      exact hu i j a b ha hb hact hp.1 (by rw [hbdir, hdir])
    rcases hg1.2.2 i a ha with hsame | ⟨_, y, hy1, hd1i⟩
    · exact hset2 i a hs hsame hact
    · rw [hy] at hy1
      simp only [Option.some.injEq] at hy1
      subst hy1
      exact hset2 i
        { a with cis_conn_hdl := (cises[a.cis_id]).conn_handle, cis_state := CisState.ASSIGNED }
        hs hd1i hact

/-- The loop of `AssignCisConnHandlesToAses(leAudioDevice)` ends, and when it
ends no active ASE of the device is left with CIS and data-path state `IDLE`. -/
theorem assignCisConnHandlesToAsesLoop_spec (cises : List cis) :
    ∀ (fuel : Nat) (d : LeAudioDevice) (lo : Nat), pairUnique d →
      activeInTable d cises.length →
      (∀ (n : Nat) (x : ase), d.ases_[n]? = some x → idleActive x = true → lo ≤ n) →
      d.ases_.length - lo ≤ fuel →
      ∃ d2, assignCisConnHandlesToAsesLoop cises fuel d = some d2 ∧ handlesGiven cises d d2 ∧
        ∀ (n : Nat) (x : ase), d2.ases_[n]? = some x → idleActive x = false := by
  intro fuel
  induction fuel with
  | zero =>
    intro d lo _ _ hlo hfuel
    unfold assignCisConnHandlesToAsesLoop
    cases hfirst : d.GetFirstActiveAseByCisAndDataPathState CisState.IDLE DataPathState.IDLE with
    | none =>
      refine ⟨d, rfl, handlesGiven_refl _ _, ?_⟩
      intro n x hx
      exact findIfFrom_none hfirst n (Nat.zero_le _) x hx
    | some i =>
      obtain ⟨_, hi, ⟨a, ha, hp⟩, _⟩ := findIfFrom_some hfirst
      have := hlo i a ha hp
      omega
  | succ k ih =>
    intro d lo hu hin hlo hfuel
    unfold assignCisConnHandlesToAsesLoop
    cases hfirst : d.GetFirstActiveAseByCisAndDataPathState CisState.IDLE DataPathState.IDLE with
    | none =>
      refine ⟨d, rfl, handlesGiven_refl _ _, ?_⟩
      intro n x hx
      exact findIfFrom_none hfirst n (Nat.zero_le _) x hx
    | some i =>
      obtain ⟨_, hi, ⟨a, ha, hp⟩, hmin⟩ := findIfFrom_some hfirst
      have hact : a.active = true := by
        simp only [Bool.and_eq_true, decide_eq_true_eq] at hp
        exact hp.1.1
      obtain ⟨d1, hbody, hg, y, hy, hd1i⟩ := assignCisConnHandlesToAsesBody_spec ha hact hu hin
      have hloi : lo ≤ i := hlo i a ha hp
      dsimp only
      rw [hbody]
      dsimp only
      have hlo1 : ∀ (n : Nat) (x : ase), d1.ases_[n]? = some x → idleActive x = true →
          i + 1 ≤ n := by
        intro n x hx hidle
        obtain ⟨x0, hx0, _, _, _, heq⟩ := handlesGiven_get hg hx
        have hxx := heq hidle
        subst hxx
        by_contra hlt
        rcases Nat.lt_or_eq_of_le (Nat.le_of_lt_succ (Nat.lt_of_not_le hlt)) with h1 | h1
        · have := hmin n (Nat.zero_le _) h1 x hx0
          rw [idleActive] at hidle
          rw [hidle] at this
          exact absurd this (by simp)
        · subst h1
          rw [hd1i] at hx
          simp only [Option.some.injEq] at hx
          subst hx
          rw [(assignedAse_idem hy).2.2.2.1] at hidle
          exact absurd hidle (by simp)
      obtain ⟨d2, hloop, hg2, hdone⟩ := ih d1 (i + 1) (pairUnique_handlesGiven hg hu)
        (activeInTable_handlesGiven hg hin) hlo1 (by rw [hg.2.1]; omega)
      exact ⟨d2, hloop, handlesGiven_trans hg hg2, hdone⟩

/-- The call `AssignCisConnHandlesToAses(leAudioDevice)` returns, and gives every active
ASE that had CIS and data-path state `IDLE` the handle of its slot and the CIS
state `ASSIGNED`. -/
theorem AssignCisConnHandlesToAsesOfDevice_spec (cig : CigConfiguration) (d : LeAudioDevice)
    (hu : pairUnique d) (hin : activeInTable d cig.cises.length) :
    ∃ d2, AssignCisConnHandlesToAsesOfDevice cig d = some d2 ∧ handlesGiven cig.cises d d2 ∧
      ∀ (n : Nat) (x : ase), d.ases_[n]? = some x → idleActive x = true →
        ∃ y, assignedAse cig.cises x = some y ∧ d2.ases_[n]? = some y := by
  obtain ⟨d2, hloop, hg, hdone⟩ := assignCisConnHandlesToAsesLoop_spec cig.cises d.ases_.length d 0
    hu hin (fun _ _ _ _ => Nat.zero_le _) (by omega)
  refine ⟨d2, hloop, hg, ?_⟩
  intro n x hx hidle
  rcases hg.2.2 n x hx with hsame | ⟨_, y, hy, hd2⟩
  · have := hdone n x hsame
    rw [hidle] at this
    exact absurd this (by simp)
  · exact ⟨y, hy, hd2⟩

/-! # Which ASEs `AssignCisConnHandlesToAses(leAudioDevice)` changes -/

/-- The ASE at `n` after one block of the pass: written when it is the member
of the pair and active, as it was otherwise. -/
theorem assignHandleToPairMember_get {cises : List cis} {d d1 : LeAudioDevice}
    {member : Option Nat} {cid : Nat} {c : cis} (hc : cises[cid]? = some c)
    (h : assignHandleToPairMember cises d member cid = some d1) (n : Nat) :
    d1.ases_[n]? = (d.ases_[n]?).map (fun x =>
      if member = some n ∧ x.active = true then
        { x with cis_conn_hdl := c.conn_handle, cis_state := CisState.ASSIGNED }
      else x) := by
  cases member with
  | none =>
    simp only [assignHandleToPairMember, Option.some.injEq] at h
    subst h
    cases d.ases_[n]? <;> simp
  | some j =>
    unfold assignHandleToPairMember at h
    dsimp only at h
    cases hj : d.ases_[j]? with
    | none => rw [hj] at h; exact absurd h (by simp)
    | some x =>
      rw [hj] at h
      dsimp only at h
      by_cases hact : x.active = true
      · rw [if_pos hact, hc] at h
        simp only [Option.some.injEq] at h
        subst h
        rw [setAseCisConnHdl_get]
        cases hn : d.ases_[n]? with
        | none => rfl
        | some y =>
          simp only [Option.map_some', Option.some.injEq]
          by_cases hjn : j = n
          · subst hjn
            rw [hj] at hn
            simp only [Option.some.injEq] at hn
            subst hn
            simp [hact]
          · simp [hjn]
      · rw [if_neg hact] at h
        simp only [Option.some.injEq] at h
        subst h
        cases hn : d.ases_[n]? with
        | none => rfl
        | some y =>
          simp only [Option.map_some', Option.some.injEq]
          by_cases hjn : j = n
          · subst hjn
            rw [hj] at hn
            simp only [Option.some.injEq] at hn
            subst hn
            simp [hact]
          · simp [hjn]

/-- One pass of the loop of `AssignCisConnHandlesToAses(leAudioDevice)` for the
active ASE `a`: exactly the active ASEs that hold the CIS id of `a` are given
the handle of the slot. -/
theorem assignCisConnHandlesToAsesBody_exact {cises : List cis} {d d2 : LeAudioDevice}
    {i : Nat} {a : ase} (ha : d.ases_[i]? = some a) (hact : a.active = true)
    (hu : pairUnique d) (hin : activeInTable d cises.length)
    (hbody : assignCisConnHandlesToAsesBody cises d i = some d2) :
    ∀ (n : Nat) (x : ase), d.ases_[n]? = some x →
      d2.ases_[n]? = servedFor cises [a.cis_id] x := by
  have hlt := hin i a ha hact
  have hc : cises[a.cis_id]? = some cises[a.cis_id] := List.getElem?_eq_getElem hlt
  unfold assignCisConnHandlesToAsesBody at hbody
  rw [ha] at hbody
  dsimp only at hbody
  cases h1 : assignHandleToPairMember cises d (d.GetAsesByCisId a.cis_id).sink a.cis_id with
  | none => rw [h1] at hbody; exact absurd hbody (by simp)
  | some d1 =>
    rw [h1] at hbody
    dsimp only at hbody
    intro n x hx
    rw [assignHandleToPairMember_get hc hbody n, assignHandleToPairMember_get hc h1 n, hx]
    simp only [Option.map_some']
    -- the members of the pair hold the CIS id of `a`
    have hsink : ∀ j, (d.GetAsesByCisId a.cis_id).sink = some j →
        ∃ b, d.ases_[j]? = some b ∧ b.cis_id = a.cis_id ∧
          b.direction = Direction.kLeAudioDirectionSink := by
      intro j hj
      obtain ⟨b, hb, hp⟩ := findLast_some hj
      simp only [Bool.and_eq_true, decide_eq_true_eq] at hp
      exact ⟨b, hb, hp.1, hp.2⟩
    have hsource : ∀ j, (d.GetAsesByCisId a.cis_id).source = some j →
        ∃ b, d.ases_[j]? = some b ∧ b.cis_id = a.cis_id ∧
          b.direction ≠ Direction.kLeAudioDirectionSink := by
      intro j hj
      obtain ⟨b, hb, hp⟩ := findLast_some hj
      simp only [Bool.and_eq_true, decide_eq_true_eq] at hp
      exact ⟨b, hb, hp.1, hp.2⟩
    unfold servedFor
    by_cases hserved : x.active = true ∧ x.cis_id ∈ [a.cis_id]
    · obtain ⟨hxact, hxcid⟩ := hserved
      simp only [List.mem_singleton] at hxcid
      have hy : assignedAse cises x = some
          { x with cis_conn_hdl := (cises[a.cis_id]).conn_handle,
                   cis_state := CisState.ASSIGNED } := by
        simp [assignedAse, hxcid, hc]
      have hrhs : (if x.active = true ∧ x.cis_id ∈ [a.cis_id] then assignedAse cises x
          else some x) = some
            { x with cis_conn_hdl := (cises[a.cis_id]).conn_handle,
                     cis_state := CisState.ASSIGNED } := by
        rw [if_pos ⟨hxact, by simp [hxcid]⟩, hy]
      rw [hrhs]
      by_cases hdir : x.direction = Direction.kLeAudioDirectionSink
      · have hs : (d.GetAsesByCisId a.cis_id).sink = some n := by
          apply findLast_unique hx (by simp [hdir, hxcid])
          intro j b hb hp
          simp only [Bool.and_eq_true, decide_eq_true_eq] at hp
          exact hu n j x b hx hb hxact (by rw [hp.1, hxcid]) (by rw [hp.2, hdir])
        have hns : (d.GetAsesByCisId a.cis_id).source ≠ some n := by
          intro hso
          obtain ⟨b, hb, -, hbdir⟩ := hsource n hso
          rw [hx] at hb
          simp only [Option.some.injEq] at hb
          subst hb
          exact hbdir hdir
        simp [hs, hns, hxact]
      · have hs : (d.GetAsesByCisId a.cis_id).source = some n := by
          apply findLast_unique hx (by simp [hdir, hxcid])
          intro j b hb hp
          simp only [Bool.and_eq_true, decide_eq_true_eq] at hp
          have hbdir : b.direction = x.direction := by
            cases hb2 : b.direction
            · exact absurd hb2 hp.2
            · cases hx2 : x.direction
              · exact absurd hx2 hdir
              · rfl
          exact hu n j x b hx hb hxact (by rw [hp.1, hxcid]) hbdir
        have hns : (d.GetAsesByCisId a.cis_id).sink ≠ some n := by
          intro hsi
          obtain ⟨b, hb, -, hbdir⟩ := hsink n hsi
          rw [hx] at hb
          simp only [Option.some.injEq] at hb
          subst hb
          exact hdir hbdir
        simp [hs, hns, hxact]
    · have hrhs : (if x.active = true ∧ x.cis_id ∈ [a.cis_id] then assignedAse cises x
          else some x) = some x := if_neg hserved
      rw [hrhs]
      have hn1 : ¬ ((d.GetAsesByCisId a.cis_id).sink = some n ∧ x.active = true) := by
        intro ⟨hsi, hxact⟩
        obtain ⟨b, hb, hbcid, -⟩ := hsink n hsi
        rw [hx] at hb
        simp only [Option.some.injEq] at hb
        subst hb
        exact hserved ⟨hxact, by simp [hbcid]⟩
      have hn2 : ¬ ((d.GetAsesByCisId a.cis_id).source = some n ∧ x.active = true) := by
        intro ⟨hso, hxact⟩
        obtain ⟨b, hb, hbcid, -⟩ := hsource n hso
        rw [hx] at hb
        simp only [Option.some.injEq] at hb
        subst hb
        exact hserved ⟨hxact, by simp [hbcid]⟩
      rw [if_neg hn1, if_neg hn2]

/-- The passes for the CIS ids of `served` followed by the pass for `cid` are
the passes for `cid` and the CIS ids of `served`. -/
theorem servedFor_cons (cises : List cis) (served : List Nat) (cid : Nat) (x : ase) :
    (servedFor cises served x).bind (servedFor cises [cid]) =
      servedFor cises (cid :: served) x := by
  unfold servedFor
  by_cases h1 : x.active = true ∧ x.cis_id ∈ served
  · rw [if_pos h1, if_pos ⟨h1.1, List.mem_cons_of_mem _ h1.2⟩]
    cases hy : assignedAse cises x with
    | none => rfl
    | some y =>
      obtain ⟨e1, e2, -, -, e5⟩ := assignedAse_idem hy
      simp only [Option.some_bind]
      by_cases h2 : y.active = true ∧ y.cis_id ∈ [cid]
      · rw [if_pos h2, e5]
      · rw [if_neg h2]
  · rw [if_neg h1]
    simp only [Option.some_bind]
    by_cases h2 : x.active = true ∧ x.cis_id ∈ [cid]
    · have h3 : x.active = true ∧ x.cis_id ∈ cid :: served := by
        refine ⟨h2.1, ?_⟩
        have := h2.2
        simp only [List.mem_singleton] at this
        simp [this]
      rw [if_pos h2, if_pos h3]
    · have h3 : ¬ (x.active = true ∧ x.cis_id ∈ cid :: served) := by
        intro ⟨hact, hmem⟩
        simp only [List.mem_cons] at hmem
        rcases hmem with e | e
        · exact h2 ⟨hact, by simp [e]⟩
        · exact h1 ⟨hact, e⟩
      rw [if_neg h2, if_neg h3]

/-! # The ASEs after `AssignCisConnHandlesToAses(leAudioDevice)` -/

/-- When the loop of `AssignCisConnHandlesToAses(leAudioDevice)` ends, the ASEs
are those of the device `d0` at the start after the passes for a list of CIS
ids, each held by an active ASE of `d0` with CIS and data-path state `IDLE`,
and none of them is active with CIS and data-path state `IDLE`. -/
theorem assignCisConnHandlesToAsesLoop_exact (cises : List cis) (d0 : LeAudioDevice) :
    ∀ (fuel : Nat) (d1 d2 : LeAudioDevice) (served : List Nat), pairUnique d1 →
      activeInTable d1 cises.length → d1.ases_.length = d0.ases_.length →
      (∀ (n : Nat) (x : ase), d0.ases_[n]? = some x →
        d1.ases_[n]? = servedFor cises served x) →
      (∀ cid ∈ served, ∃ y ∈ d0.ases_, idleActive y = true ∧ y.cis_id = cid) →
      assignCisConnHandlesToAsesLoop cises fuel d1 = some d2 →
      ∃ served2 : List Nat,
        (∀ (n : Nat) (x : ase), d0.ases_[n]? = some x →
          d2.ases_[n]? = servedFor cises served2 x) ∧
        (∀ cid ∈ served2, ∃ y ∈ d0.ases_, idleActive y = true ∧ y.cis_id = cid) ∧
        ∀ (n : Nat) (x : ase), d2.ases_[n]? = some x → idleActive x = false := by
  intro fuel
  induction fuel with
  | zero =>
    intro d1 d2 served _ _ _ hinv hserved hloop
    unfold assignCisConnHandlesToAsesLoop at hloop
    cases hfirst : d1.GetFirstActiveAseByCisAndDataPathState CisState.IDLE
        DataPathState.IDLE with
    | none =>
      rw [hfirst] at hloop
      simp only [Option.some.injEq] at hloop
      subst hloop
      exact ⟨served, hinv, hserved,
        fun n x hx => findIfFrom_none hfirst n (Nat.zero_le _) x hx⟩
    | some i =>
      rw [hfirst] at hloop
      exact absurd hloop (by simp)
  | succ k ih =>
    intro d1 d2 served hu hin hlen hinv hserved hloop
    unfold assignCisConnHandlesToAsesLoop at hloop
    cases hfirst : d1.GetFirstActiveAseByCisAndDataPathState CisState.IDLE
        DataPathState.IDLE with
    | none =>
      rw [hfirst] at hloop
      simp only [Option.some.injEq] at hloop
      subst hloop
      exact ⟨served, hinv, hserved,
        fun n x hx => findIfFrom_none hfirst n (Nat.zero_le _) x hx⟩
    | some i =>
      rw [hfirst] at hloop
      dsimp only at hloop
      obtain ⟨_, hi, ⟨a, ha, hp⟩, _⟩ := findIfFrom_some hfirst
      have hidle : idleActive a = true := hp
      have hact : a.active = true := by
        simp only [Bool.and_eq_true, decide_eq_true_eq] at hp
        exact hp.1.1
      obtain ⟨d3, hbody, hg, -⟩ := assignCisConnHandlesToAsesBody_spec ha hact hu hin
      rw [hbody] at hloop
      dsimp only at hloop
      have hexact := assignCisConnHandlesToAsesBody_exact ha hact hu hin hbody
      -- the ASE found is an ASE of `d0` that no pass has served
      have hi0 : i < d0.ases_.length := by rw [← hlen]; exact hi
      have ha0 : d0.ases_[i]? = some a := by
        have h0 := hinv i d0.ases_[i] (List.getElem?_eq_getElem hi0)
        rw [ha] at h0
        unfold servedFor at h0
        split at h0
        · obtain ⟨-, -, -, hnot, -⟩ := assignedAse_idem h0.symm
          rw [hidle] at hnot
          exact absurd hnot (by simp)
        · simp only [Option.some.injEq] at h0
          rw [List.getElem?_eq_getElem hi0, ← h0]
      apply ih d3 d2 (a.cis_id :: served) (pairUnique_handlesGiven hg hu)
        (activeInTable_handlesGiven hg hin) (by rw [hg.2.1]; exact hlen) ?_ ?_ hloop
      · intro n x hx
        have h1 := hinv n x hx
        rw [← servedFor_cons, ← h1]
        cases hx1 : d1.ases_[n]? with
        | none =>
          have hn := lt_of_getElem_some hx
          rw [List.getElem?_eq_none (by
            have := List.getElem?_eq_none_iff.mp hx1
            rw [hg.2.1]; exact this)]
          rfl
        | some x1 =>
          rw [hexact n x1 hx1]
          rfl
      · intro cid hcid
        simp only [List.mem_cons] at hcid
        rcases hcid with e | e
        · exact ⟨a, List.getElem?_mem ha0, hidle, e.symm⟩
        · exact hserved cid e

/-- The call `AssignCisConnHandlesToAses(leAudioDevice)` returns, and each ASE of the
device is afterwards as `servedAse` says: given the handle of its slot and the
CIS state `ASSIGNED` exactly when it is active and shares its CIS id with an
active ASE with CIS and data-path state `IDLE`. -/
theorem AssignCisConnHandlesToAsesOfDevice_exact (cig : CigConfiguration) (d : LeAudioDevice)
    (hu : pairUnique d) (hin : activeInTable d cig.cises.length) :
    ∃ d2, AssignCisConnHandlesToAsesOfDevice cig d = some d2 ∧ handlesGiven cig.cises d d2 ∧
      (∀ (n : Nat) (x : ase), d.ases_[n]? = some x → idleActive x = true →
        ∃ y, assignedAse cig.cises x = some y ∧ d2.ases_[n]? = some y) ∧
      ∀ (n : Nat) (x : ase), d.ases_[n]? = some x →
        d2.ases_[n]? = servedAse cig.cises d x := by
  obtain ⟨d2, hdev, hg, hserved⟩ := AssignCisConnHandlesToAsesOfDevice_spec cig d hu hin
  refine ⟨d2, hdev, hg, hserved, ?_⟩
  obtain ⟨served, hinv, hwit, hdone⟩ :=
    assignCisConnHandlesToAsesLoop_exact cig.cises d d.ases_.length d d2 [] hu hin rfl
      (fun n x hx => by
        rw [hx]
        simp [servedFor])
      (fun cid h => absurd h (by simp)) hdev
  intro n x hx
  rw [hinv n x hx]
  unfold servedFor servedAse
  by_cases hact : x.active = true
  · by_cases hshare : sharesCisIdWithIdle d x = true
    · have hmem : x.cis_id ∈ served := by
        unfold sharesCisIdWithIdle at hshare
        rw [List.any_eq_true] at hshare
        obtain ⟨y, hy, hp⟩ := hshare
        simp only [Bool.and_eq_true, decide_eq_true_eq] at hp
        obtain ⟨j, hj⟩ := List.mem_iff_getElem?.mp hy
        by_contra hnot
        have hkept : d2.ases_[j]? = some y := by
          rw [hinv j y hj]
          unfold servedFor
          rw [if_neg (fun h => hnot (by rw [← hp.2]; exact h.2))]
        have := hdone j y hkept
        rw [hp.1] at this
        exact absurd this (by simp)
      rw [if_pos ⟨hact, hmem⟩, if_pos ⟨hact, hshare⟩]
    · have hmem : x.cis_id ∉ served := by
        intro hmem
        obtain ⟨y, hy, hidle, hcid⟩ := hwit x.cis_id hmem
        apply hshare
        unfold sharesCisIdWithIdle
        rw [List.any_eq_true]
        exact ⟨y, hy, by simp [hidle, hcid]⟩
      rw [if_neg (fun h => hmem h.2), if_neg (fun h => hshare h.2)]
  · rw [if_neg (fun h => hact h.1), if_neg (fun h => hact h.1)]

/-! # Handing the connection handles to the ASEs of the group -/

theorem memberServed_idle (cises : List cis) (m0 : Option LeAudioDevice)
    (h : isActiveMember m0 = false) : memberServed cises m0 m0 := by
  cases m0 with
  | none => trivial
  | some d =>
    simp only [isActiveMember, LeAudioDevice.HaveActiveAse, List.any_eq_false] at h
    refine ⟨handlesGiven_refl _ _, ?_, ?_⟩
    · intro n x hx hidle
      have := h x (List.getElem?_mem hx)
      simp only [idleActive, Bool.and_eq_true, decide_eq_true_eq] at hidle
      exact absurd hidle.1.1 this
    · intro n x hx
      have := h x (List.getElem?_mem hx)
      unfold servedAse
      rw [if_neg (fun hact => this hact.1), hx]

theorem assignCisConnHandlesToAsesGroupLoop_spec (g0 : LeAudioDeviceGroup)
    (hwf : ∀ (k : Nat) (d : LeAudioDevice), g0.leAudioDevices_[k]? = some (some d) →
      pairUnique d ∧ activeInTable d g0.cig.cises.length) :
    ∀ (fuel k : Nat) (g : LeAudioDeviceGroup), g.cig = g0.cig →
      g.leAudioDevices_.length = g0.leAudioDevices_.length →
      (∀ j : Nat, k ≤ j → g.leAudioDevices_[j]? = g0.leAudioDevices_[j]?) →
      (∀ (j : Nat) (m0 : Option LeAudioDevice), j < k → g0.leAudioDevices_[j]? = some m0 →
        ∃ m, g.leAudioDevices_[j]? = some m ∧ memberServed g0.cig.cises m0 m) →
      (∃ m, g.leAudioDevices_[k]? = some m ∧ isActiveMember m = true) →
      g0.leAudioDevices_.length - k ≤ fuel →
      ∃ g2, assignCisConnHandlesToAsesGroupLoop fuel (some k) g = some g2 ∧
        g2.cig = g0.cig ∧ g2.leAudioDevices_.length = g0.leAudioDevices_.length ∧
        ∀ (j : Nat) (m0 : Option LeAudioDevice), g0.leAudioDevices_[j]? = some m0 →
          ∃ m, g2.leAudioDevices_[j]? = some m ∧ memberServed g0.cig.cises m0 m := by
  intro fuel
  induction fuel with
  | zero =>
    intro k g _ hlen _ _ hk hfuel
    obtain ⟨m, hm, _⟩ := hk
    have := lt_of_getElem_some hm
    omega
  | succ f ih =>
    intro k g hcig hlen hrest hdone hk hfuel
    obtain ⟨m, hm, hact⟩ := hk
    have hklt := lt_of_getElem_some hm
    cases m with
    | none => simp [isActiveMember] at hact
    | some d =>
      have hm0 : g0.leAudioDevices_[k]? = some (some d) := by
        rw [← hrest k (le_refl _)]; exact hm
      obtain ⟨hu, hin⟩ := hwf k d hm0
      obtain ⟨d1, hdev, hg, hserved, hexact⟩ :=
        AssignCisConnHandlesToAsesOfDevice_exact g0.cig d hu hin
      have hdev1 : AssignCisConnHandlesToAsesOfDevice g.cig d = some d1 := by
        rw [hcig]; exact hdev
      rw [assignCisConnHandlesToAsesGroupLoop, hm]
      dsimp only
      rw [hdev1]
      dsimp only
      -- the group after the pass for the member at `k`
      have hlen1 : (g.leAudioDevices_.set k (some d1)).length = g0.leAudioDevices_.length := by
        rw [List.length_set]; exact hlen
      have hrest1 : ∀ j : Nat, k + 1 ≤ j →
          (g.leAudioDevices_.set k (some d1))[j]? = g0.leAudioDevices_[j]? := by
        intro j hj
        rw [List.getElem?_set_ne (by omega)]
        exact hrest j (by omega)
      have hdone1 : ∀ (j : Nat) (m0 : Option LeAudioDevice), j < k + 1 →
          g0.leAudioDevices_[j]? = some m0 →
          ∃ m, (g.leAudioDevices_.set k (some d1))[j]? = some m ∧
            memberServed g0.cig.cises m0 m := by
        intro j m0 hj hj0
        by_cases hjk : j = k
        · subst hjk
          rw [hm0] at hj0
          simp only [Option.some.injEq] at hj0
          subst hj0
          exact ⟨some d1, by rw [List.getElem?_set_self hklt], hg, hserved, hexact⟩
        · rw [List.getElem?_set_ne (Ne.symm hjk)]
          exact hdone j m0 (by omega) hj0
      cases hnext : LeAudioDeviceGroup.GetNextActiveDevice
          { g with leAudioDevices_ := g.leAudioDevices_.set k (some d1) } k with
      | none =>
        refine ⟨{ g with leAudioDevices_ := g.leAudioDevices_.set k (some d1) }, ?_, hcig,
          hlen1, ?_⟩
        · cases f <;> rfl
        · intro j m0 hj0
          by_cases hj : j < k + 1
          · exact hdone1 j m0 hj hj0
          · refine ⟨m0, ?_, ?_⟩
            · show (g.leAudioDevices_.set k (some d1))[j]? = some m0
              rw [hrest1 j (by omega)]; exact hj0
            · apply memberServed_idle
              have := findIfFrom_none hnext j (by omega) m0 (by
                show (g.leAudioDevices_.set k (some d1))[j]? = some m0
                rw [hrest1 j (by omega)]; exact hj0)
              exact this
      | some k1 =>
        obtain ⟨hlo, hhi, ⟨m1, hm1, hact1⟩, hmin⟩ := findIfFrom_some hnext
        have hdone2 : ∀ (j : Nat) (m0 : Option LeAudioDevice), j < k1 →
            g0.leAudioDevices_[j]? = some m0 →
            ∃ m, (g.leAudioDevices_.set k (some d1))[j]? = some m ∧
              memberServed g0.cig.cises m0 m := by
          intro j m0 hj hj0
          by_cases hjk : j < k + 1
          · exact hdone1 j m0 hjk hj0
          · have hj1 : (g.leAudioDevices_.set k (some d1))[j]? = some m0 := by
              rw [hrest1 j (by omega)]; exact hj0
            exact ⟨m0, hj1, memberServed_idle _ _ (hmin j (by omega) hj m0 hj1)⟩
        exact ih k1 { g with leAudioDevices_ := g.leAudioDevices_.set k (some d1) } hcig hlen1
          (fun j hj => hrest1 j (by omega)) hdone2 ⟨m1, hm1, hact1⟩
          (by
            have : k1 < g0.leAudioDevices_.length := by rw [← hlen1]; exact hhi
            omega)

theorem AssignCisConnHandlesToAses_spec (g : LeAudioDeviceGroup)
    (hactive : ∃ (k : Nat) (d : LeAudioDevice),
      g.leAudioDevices_[k]? = some (some d) ∧ d.HaveActiveAse = true)
    (hwf : ∀ (k : Nat) (d : LeAudioDevice), g.leAudioDevices_[k]? = some (some d) →
      pairUnique d ∧ activeInTable d g.cig.cises.length) :
    ∃ g2, g.AssignCisConnHandlesToAses = some g2 ∧ g2.cig = g.cig ∧
      g2.leAudioDevices_.length = g.leAudioDevices_.length ∧
      ∀ (j : Nat) (m0 : Option LeAudioDevice), g.leAudioDevices_[j]? = some m0 →
        ∃ m, g2.leAudioDevices_[j]? = some m ∧ memberServed g.cig.cises m0 m := by
  unfold LeAudioDeviceGroup.AssignCisConnHandlesToAses
  cases hfirst : g.GetFirstActiveDevice with
  | none =>
    obtain ⟨k, d, hk, hact⟩ := hactive
    have := findIfFrom_none hfirst k (Nat.zero_le _) (some d) hk
    simp only [isActiveMember] at this
    rw [hact] at this
    exact absurd this (by simp)
  | some k =>
    obtain ⟨_, hhi, ⟨m, hm, hact⟩, hmin⟩ := findIfFrom_some hfirst
    dsimp only
    apply assignCisConnHandlesToAsesGroupLoop_spec g hwf g.leAudioDevices_.length k g rfl rfl
      (fun _ _ => rfl) ?_ ⟨m, hm, hact⟩ (by omega)
    intro j m0 hj hj0
    exact ⟨m0, hj0, memberServed_idle _ _ (hmin j (Nat.zero_le _) hj m0 hj0)⟩

/-- Counterexample to C9 as stated: an earbud whose active ASE holds CIS id 0
with the CIS connected already. After `AssignCisConnHandles([96])` and
`AssignCisConnHandlesToAses()` slot 0 has handle 96, while the active ASE still
has `cis_conn_hdl` 0 and CIS state `CONNECTED`. And for an earbud whose active
ASE has no CIS id yet, `AssignCisConnHandlesToAses()` indexes the table of one
slot with the invalid id and gives no result. -/
theorem AssignCisConnHandlesToAses_skips_connected :
    AssignCisConnHandles earbudTableBound [96] =
        some { cises := [{ id := 0, type := CisType.CIS_TYPE_UNIDIRECTIONAL_SINK,
                           conn_handle := 96, addr := ⟨6⟩ }] } ∧
      LeAudioDeviceGroup.AssignCisConnHandlesToAses
        { leAudioDevices_ := [some connectedEarbud],
          cig := { cises := [{ id := 0, type := CisType.CIS_TYPE_UNIDIRECTIONAL_SINK,
                               conn_handle := 96, addr := ⟨6⟩ }] } } =
        some { leAudioDevices_ := [some connectedEarbud],
               cig := { cises := [{ id := 0, type := CisType.CIS_TYPE_UNIDIRECTIONAL_SINK,
                                    conn_handle := 96, addr := ⟨6⟩ }] } } ∧
      connectedEarbud.ases_ =
        [{ id := 1, active := true, cis_id := 0, cis_conn_hdl := 0,
           cis_state := CisState.CONNECTED }] ∧
      LeAudioDeviceGroup.AssignCisConnHandlesToAses
        { leAudioDevices_ := [some earbudDevice],
          cig := { cises := [{ id := 0, type := CisType.CIS_TYPE_UNIDIRECTIONAL_SINK,
                               conn_handle := 96, addr := ⟨6⟩ }] } } = none :=
  ⟨by decide, by decide, rfl, by decide⟩

/-! # Selection: the sink strategy of the entry returned -/

theorem findFirstSupportedLoop_some (env : Env) (g : LeAudioDeviceGroup) (context_type : Nat)
    (s : LeAudioConfigurationStrategy) (confs : List AudioSetConfiguration)
    (conf : AudioSetConfiguration)
    (h : findFirstSupportedLoop env g context_type s confs = some (some conf)) :
    conf ∈ confs ∧ g.IsAudioSetConfigurationSupported env conf context_type s = some true := by
  induction confs with
  | nil => simp [findFirstSupportedLoop] at h
  | cons c rest ih =>
    unfold findFirstSupportedLoop at h
    split at h
    · exact absurd h (by simp)
    · next hc =>
      simp only [Option.some.injEq] at h
      subst h
      exact ⟨List.mem_cons_self _ _, hc⟩
    · obtain ⟨hm, hs⟩ := ih h
      exact ⟨List.mem_cons_of_mem _ hm, hs⟩

theorem IsAudioSetConfigurationSupported_sink (env : Env) (g : LeAudioDeviceGroup)
    (conf : AudioSetConfiguration) (context_type : Nat) (s : LeAudioConfigurationStrategy)
    (h : g.IsAudioSetConfigurationSupported env conf context_type s = some true) :
    supportedForDirection env g conf s Direction.kLeAudioDirectionSink = some true ∧
      supportedForDirection env g conf s Direction.kLeAudioDirectionSource = some true := by
  unfold LeAudioDeviceGroup.IsAudioSetConfigurationSupported at h
  dsimp only at h
  split at h
  · exact absurd h (by simp)
  · split at h
    · exact absurd h (by simp)
    · exact absurd h (by simp)
    · next h1 =>
      split at h
      · exact absurd h (by simp)
      · exact absurd h (by simp)
      · next h2 => exact ⟨h1, h2⟩

theorem supportedForDirection_sink_strategy (env : Env) (g : LeAudioDeviceGroup)
    (conf : AudioSetConfiguration) (s : LeAudioConfigurationStrategy)
    (topology : TopologyInfo)
    (h : supportedForDirection env g conf s Direction.kLeAudioDirectionSink = some true)
    (ht : conf.topology_info = some topology) (hase : conf.confs.sink ≠ [])
    (hdev : topology.device_count.sink ≠ 0) :
    topology.strategy.sink = s := by
  unfold supportedForDirection at h
  rw [ht] at h
  simp only [BidirectionalPair.get] at h
  have hlen : conf.confs.sink.length ≠ 0 := by
    intro h0
    exact hase (List.length_eq_zero.mp h0)
  rw [if_neg hlen, if_neg hdev] at h
  by_contra hne
  rw [if_pos ⟨trivial, hne⟩] at h
  exact absurd h (by simp)

/-- C11 (as amended): when `FindFirstSupportedConfiguration` returns a candidate
that has sink requirements, that is a non-empty list of sink ASE requirements
and a non-zero sink device count, the sink strategy the candidate declares is
the one `GetGroupSinkStrategy()` returns for the group. -/
theorem FindFirstSupportedConfiguration_sink_strategy (env : Env)
    (g g1 : LeAudioDeviceGroup) (context_type : Nat) (confs : List AudioSetConfiguration)
    (conf : AudioSetConfiguration) (topology : TopologyInfo)
    (h : g.FindFirstSupportedConfiguration env context_type confs = some (some conf, g1))
    (ht : conf.topology_info = some topology) (hase : conf.confs.sink ≠ [])
    (hdev : topology.device_count.sink ≠ 0) :
    g.GetGroupSinkStrategy env = some (topology.strategy.sink, g1) := by
  unfold LeAudioDeviceGroup.FindFirstSupportedConfiguration at h
  dsimp only at h
  split at h
  · simp at h
  · split at h
    · exact absurd h (by simp)
    · next s g0 hs =>
      split at h
      · exact absurd h (by simp)
      · next r hr =>
        simp only [Option.some.injEq, Prod.mk.injEq] at h
        obtain ⟨h1, h2⟩ := h
        subst h1
        subst h2
        have hsup := (findFirstSupportedLoop_some env g0 context_type s confs conf hr).2
        have hsink := (IsAudioSetConfigurationSupported_sink env g0 conf context_type s hsup).1
        rw [supportedForDirection_sink_strategy env g0 conf s topology hsink ht hase hdev]
        exact hs

/-- C11, `FindFirstSupportedConfiguration_sink_strategy` at a group of one
earbud and a catalogue whose second entry fits it. -/
theorem FindFirstSupportedConfiguration_sink_strategy_witness :
    leftEarbudGroup.FindFirstSupportedConfiguration exampleEnv 4 [twoSinksConf, sinkMonoConf] =
        some (some sinkMonoConf,
          { leftEarbudGroup with
            strategy_ := some LeAudioConfigurationStrategy.MONO_ONE_CIS_PER_DEVICE }) ∧
      leftEarbudGroup.GetGroupSinkStrategy exampleEnv =
        some (LeAudioConfigurationStrategy.MONO_ONE_CIS_PER_DEVICE,
          { leftEarbudGroup with
            strategy_ := some LeAudioConfigurationStrategy.MONO_ONE_CIS_PER_DEVICE }) :=
  ⟨by decide,
   FindFirstSupportedConfiguration_sink_strategy exampleEnv leftEarbudGroup _ 4
     [twoSinksConf, sinkMonoConf] sinkMonoConf
     { device_count := ⟨1, 0⟩
       strategy := ⟨LeAudioConfigurationStrategy.MONO_ONE_CIS_PER_DEVICE,
                    LeAudioConfigurationStrategy.MONO_ONE_CIS_PER_DEVICE⟩ }
     (by decide) rfl (by decide) (by decide)⟩

/-- C11, counterexample to the claim as stated: for a group of one microphone,
whose sink strategy is `MONO_ONE_CIS_PER_DEVICE`, the call returns a candidate
without sink requirements that declares the sink strategy
`STEREO_ONE_CIS_PER_DEVICE`. -/
theorem FindFirstSupportedConfiguration_other_sink_strategy :
    micGroup.FindFirstSupportedConfiguration exampleEnv 4 [sourceOnlyConf] =
        some (some sourceOnlyConf,
          { micGroup with
            strategy_ := some LeAudioConfigurationStrategy.MONO_ONE_CIS_PER_DEVICE }) ∧
      sourceOnlyConf.topology_info.map (fun t => t.strategy.sink) =
        some LeAudioConfigurationStrategy.STEREO_ONE_CIS_PER_DEVICE ∧
      (micGroup.GetGroupSinkStrategy exampleEnv).map Prod.fst =
        some LeAudioConfigurationStrategy.MONO_ONE_CIS_PER_DEVICE := by
  decide

/-! # Selection: the checks run to their end -/

theorem CheckIfStrategySupported_total (env : Env) (strategy : LeAudioConfigurationStrategy)
    (ent : AseConfiguration) (direction : Direction) (device : LeAudioDevice)
    (h : 1 ≤ ent.channel_count_per_iso_stream ∧ ent.channel_count_per_iso_stream ≤ 32) :
    ∃ b, CheckIfStrategySupported env strategy ent direction device = some b := by
  cases strategy <;> simp only [CheckIfStrategySupported] <;>
    first
    | exact ⟨_, rfl⟩
    | (split_ifs <;> first | exact ⟨_, rfl⟩ | (exfalso; omega))

theorem matchRequirements_total (env : Env) (g : LeAudioDeviceGroup)
    (strategy : LeAudioConfigurationStrategy) (direction : Direction) (device : LeAudioDevice)
    (ents : List AseConfiguration)
    (h : ∀ ent : AseConfiguration, ent ∈ ents →
      1 ≤ ent.channel_count_per_iso_stream ∧ ent.channel_count_per_iso_stream ≤ 32)
    (active_ase_cnt : Nat) (needed_ase_per_dev : Int) :
    ∃ r, matchRequirements env g strategy direction device ents active_ase_cnt
      needed_ase_per_dev = some r := by
  induction ents generalizing active_ase_cnt needed_ase_per_dev with
  | nil => exact ⟨_, rfl⟩
  | cons ent rest ih =>
    have hrest : ∀ e : AseConfiguration, e ∈ rest →
        1 ≤ e.channel_count_per_iso_stream ∧ e.channel_count_per_iso_stream ≤ 32 :=
      fun e he => h e (List.mem_cons_of_mem _ he)
    unfold matchRequirements
    split
    · exact ih hrest _ _
    · obtain ⟨b, hb⟩ := CheckIfStrategySupported_total env strategy ent direction device
        (h ent (List.mem_cons_self _ _))
      rw [hb]
      cases b with
      | false => exact ih hrest _ _
      | true => exact ih hrest _ _

theorem GetNextDevice_some {g : LeAudioDeviceGroup} {k j : Nat}
    (h : g.GetNextDevice k = some j) :
    j = k + 1 ∧ ∃ d, g.leAudioDevices_[j]? = some (some d) := by
  unfold LeAudioDeviceGroup.GetNextDevice at h
  split at h
  · split at h
    · exact absurd h (by simp)
    · exact absurd h (by simp)
    · next d hd =>
      simp only [Option.some.injEq] at h
      subst h
      exact ⟨rfl, d, hd⟩
  · exact absurd h (by simp)

theorem GetFirstDeviceIndex_some {g : LeAudioDeviceGroup} {k : Nat}
    (h : g.GetFirstDeviceIndex = some k) :
    ∃ d, g.leAudioDevices_[k]? = some (some d) := by
  obtain ⟨-, -, ⟨a, ha, hp⟩, -⟩ := findIfFrom_some h
  cases a with
  | none => simp at hp
  | some d => exact ⟨d, ha⟩

theorem supportedDevicesLoop_total (env : Env) (g : LeAudioDeviceGroup)
    (strategy : LeAudioConfigurationStrategy) (direction : Direction)
    (ase_confs : List AseConfiguration) (max_required_ase_per_dev : Nat)
    (h : ∀ ent : AseConfiguration, ent ∈ ase_confs →
      1 ≤ ent.channel_count_per_iso_stream ∧ ent.channel_count_per_iso_stream ≤ 32)
    (fuel : Nat) (device : Option Nat) (required_device_cnt active_ase_cnt : Nat)
    (hdev : ∀ k, device = some k →
      (∃ d, g.leAudioDevices_[k]? = some (some d)) ∧ g.leAudioDevices_.length ≤ k + fuel) :
    ∃ r, supportedDevicesLoop env g strategy direction ase_confs max_required_ase_per_dev
      fuel device required_device_cnt active_ase_cnt = some r := by
  induction fuel generalizing device required_device_cnt active_ase_cnt with
  | zero =>
    cases device with
    | none => exact ⟨some required_device_cnt, by simp [supportedDevicesLoop]⟩
    | some k =>
      obtain ⟨⟨d, hd⟩, hlen⟩ := hdev k rfl
      have := lt_of_getElem_some hd
      omega
  | succ fuel ih =>
    cases device with
    | none => exact ⟨some required_device_cnt, by simp [supportedDevicesLoop]⟩
    | some k =>
      obtain ⟨⟨d, hd⟩, hlen⟩ := hdev k rfl
      have hnext : ∀ j, g.GetNextDevice k = some j →
          (∃ d, g.leAudioDevices_[j]? = some (some d)) ∧ g.leAudioDevices_.length ≤ j + fuel := by
        intro j hj
        obtain ⟨hj1, hj2⟩ := GetNextDevice_some hj
        exact ⟨hj2, by omega⟩
      unfold supportedDevicesLoop
      split
      · exact ⟨_, rfl⟩
      · rw [hd]
        dsimp only
        split
        · exact ih _ _ _ hnext
        · obtain ⟨r, hr⟩ := matchRequirements_total env g strategy direction d ase_confs h
            active_ase_cnt (min (max_required_ase_per_dev : Int)
              (static_cast_int ((ase_confs.length : Int) - (active_ase_cnt : Int))))
          rw [hr]
          dsimp only
          split
          · exact ⟨_, rfl⟩
          · exact ih _ _ _ hnext

theorem checkable_bounds {conf : AudioSetConfiguration} (h : checkable conf = true)
    (direction : Direction) :
    ∀ ent : AseConfiguration, ent ∈ conf.confs.get direction →
      1 ≤ ent.channel_count_per_iso_stream ∧ ent.channel_count_per_iso_stream ≤ 32 := by
  intro ent hent
  unfold checkable at h
  simp only [Bool.and_eq_true, List.all_eq_true, decide_eq_true_eq, List.mem_append] at h
  apply h.2 ent
  cases direction with
  | kLeAudioDirectionSink => exact Or.inl hent
  | kLeAudioDirectionSource => exact Or.inr hent

theorem supportedForDirection_total (env : Env) (g : LeAudioDeviceGroup)
    (conf : AudioSetConfiguration) (s : LeAudioConfigurationStrategy) (direction : Direction)
    (h : checkable conf = true) :
    ∃ b, supportedForDirection env g conf s direction = some b := by
  have hb := checkable_bounds h direction
  unfold checkable at h
  simp only [Bool.and_eq_true, Option.isSome_iff_exists] at h
  obtain ⟨⟨t, ht⟩, -⟩ := h
  unfold supportedForDirection
  rw [ht]
  dsimp only
  split
  · exact ⟨_, rfl⟩
  · split
    · exact ⟨_, rfl⟩
    · split
      · exact ⟨_, rfl⟩
      · obtain ⟨r, hr⟩ := supportedDevicesLoop_total env g (t.strategy.get direction) direction
          (conf.confs.get direction)
          (maxRequiredAsePerDev (conf.confs.get direction).length
            (t.device_count.get direction)) hb
          g.leAudioDevices_.length g.GetFirstDeviceIndex (t.device_count.get direction) 0
          (fun k hk => ⟨GetFirstDeviceIndex_some hk, by omega⟩)
        rw [hr]
        cases r with
        | none => exact ⟨_, rfl⟩
        | some n =>
          dsimp only
          split
          · exact ⟨_, rfl⟩
          · exact ⟨_, rfl⟩

/-- The check of an entry with topology information and channel counts between
1 and 32 returns: it neither fails an assertion nor runs out of fuel. -/
theorem IsAudioSetConfigurationSupported_total (env : Env) (g : LeAudioDeviceGroup)
    (conf : AudioSetConfiguration) (context_type : Nat) (s : LeAudioConfigurationStrategy)
    (h : checkable conf = true) :
    ∃ b, g.IsAudioSetConfigurationSupported env conf context_type s = some b := by
  obtain ⟨b1, h1⟩ := supportedForDirection_total env g conf s Direction.kLeAudioDirectionSink h
  obtain ⟨b2, h2⟩ := supportedForDirection_total env g conf s
    Direction.kLeAudioDirectionSource h
  unfold LeAudioDeviceGroup.IsAudioSetConfigurationSupported
  dsimp only
  split
  · exact ⟨_, rfl⟩
  · rw [h1]
    cases b1 with
    | false => exact ⟨_, rfl⟩
    | true =>
      dsimp only
      rw [h2]
      cases b2 with
      | false => exact ⟨_, rfl⟩
      | true =>
        dsimp only
        split
        · split
          · exact ⟨_, rfl⟩
          · exact ⟨_, rfl⟩
        · exact ⟨_, rfl⟩

theorem findFirstSupportedLoop_eq_find (env : Env) (g : LeAudioDeviceGroup) (context_type : Nat)
    (s : LeAudioConfigurationStrategy) (confs : List AudioSetConfiguration)
    (h : ∀ conf : AudioSetConfiguration, conf ∈ confs → checkable conf = true) :
    findFirstSupportedLoop env g context_type s confs =
      some (confs.find? (fun conf =>
        decide (g.IsAudioSetConfigurationSupported env conf context_type s = some true))) := by
  induction confs with
  | nil => rfl
  | cons c rest ih =>
    obtain ⟨b, hb⟩ := IsAudioSetConfigurationSupported_total env g c context_type s
      (h c (List.mem_cons_self _ _))
    unfold findFirstSupportedLoop
    rw [hb]
    cases b with
    | true => simp [hb]
    | false =>
      dsimp only
      rw [ih (fun conf hc => h conf (List.mem_cons_of_mem _ hc))]
      simp [hb]

/-- C12: `FindFirstSupportedConfiguration` is first-fit. The count handed to the
scenario-coverage check is `NumOfConnected(context)`, or `NumOfConnected()` when
that is zero; the call returns null when the check rejects the catalogue for
that count; otherwise it returns the first entry of the catalogue, in its
order, for which `IsAudioSetConfigurationSupported(entry, context, sink
strategy of the group)` holds, and null when there is none. The entries are
such that the check runs to its end on them. -/
theorem FindFirstSupportedConfiguration_first_fit (env : Env) (g : LeAudioDeviceGroup)
    (context_type : Nat) (confs : List AudioSetConfiguration)
    (hconfs : ∀ conf : AudioSetConfiguration, conf ∈ confs → checkable conf = true) :
    g.num_of_connected env context_type =
        (if g.NumOfConnected env context_type = 0 then g.NumOfConnected env env.RFU
         else g.NumOfConnected env context_type) ∧
      (env.check_if_may_cover_scenario_confs confs (g.num_of_connected env context_type) =
          false →
        g.FindFirstSupportedConfiguration env context_type confs = some (none, g)) ∧
      (env.check_if_may_cover_scenario_confs confs (g.num_of_connected env context_type) =
          true →
        ∀ (s : LeAudioConfigurationStrategy) (g1 : LeAudioDeviceGroup),
          g.GetGroupSinkStrategy env = some (s, g1) →
          g.FindFirstSupportedConfiguration env context_type confs =
            some (confs.find? (fun conf =>
                decide (g1.IsAudioSetConfigurationSupported env conf context_type s =
                  some true)), g1)) := by
  refine ⟨rfl, ?_, ?_⟩
  · intro hc
    unfold LeAudioDeviceGroup.FindFirstSupportedConfiguration
    simp [hc]
  · intro hc s g1 hs
    unfold LeAudioDeviceGroup.FindFirstSupportedConfiguration
    simp only [hc, Bool.not_true, Bool.false_eq_true, if_false, hs]
    rw [findFirstSupportedLoop_eq_find env g1 context_type s confs hconfs]

/-- C12, `FindFirstSupportedConfiguration_first_fit` at a group of one earbud and
a catalogue whose first entry asks for two devices: the second entry is
returned. -/
theorem FindFirstSupportedConfiguration_first_fit_witness :
    (∀ conf : AudioSetConfiguration, conf ∈ [twoSinksConf, sinkMonoConf] →
        checkable conf = true) ∧
      leftEarbudGroup.FindFirstSupportedConfiguration exampleEnv 4
          [twoSinksConf, sinkMonoConf] =
        some (some sinkMonoConf,
          { leftEarbudGroup with
            strategy_ := some LeAudioConfigurationStrategy.MONO_ONE_CIS_PER_DEVICE }) :=
  ⟨by decide,
   ((FindFirstSupportedConfiguration_first_fit exampleEnv leftEarbudGroup 4
      [twoSinksConf, sinkMonoConf] (by decide)).2.2 (by decide)
      LeAudioConfigurationStrategy.MONO_ONE_CIS_PER_DEVICE
      { leftEarbudGroup with
        strategy_ := some LeAudioConfigurationStrategy.MONO_ONE_CIS_PER_DEVICE }
      (by decide)).trans (by decide)⟩

/-! # The sink strategy of a group -/

/-- C13 (as amended): `GetGroupSinkStrategyFromPacs` follows the rule, in order:
a group size above 1 gives `MONO_ONE_CIS_PER_DEVICE`; else a sink location
bitmap of the group lacking the any-left or the any-right bit gives
`MONO_ONE_CIS_PER_DEVICE`; else, with the first live member of the group, a
supported sink channel-count bitmap equal to 1 gives
`STEREO_TWO_CISES_PER_DEVICE` and any other bitmap `STEREO_ONE_CIS_PER_DEVICE`. -/
theorem GetGroupSinkStrategyFromPacs_rule (env : Env) (g : LeAudioDeviceGroup)
    (expected_group_size : Int) :
    (expected_group_size > 1 →
      g.GetGroupSinkStrategyFromPacs env expected_group_size =
        some LeAudioConfigurationStrategy.MONO_ONE_CIS_PER_DEVICE) ∧
    (¬ expected_group_size > 1 →
      ((g.snk_audio_locations_ &&& env.kLeAudioLocationAnyLeft) = 0 ∨
        (g.snk_audio_locations_ &&& env.kLeAudioLocationAnyRight) = 0) →
      g.GetGroupSinkStrategyFromPacs env expected_group_size =
        some LeAudioConfigurationStrategy.MONO_ONE_CIS_PER_DEVICE) ∧
    (¬ expected_group_size > 1 →
      (g.snk_audio_locations_ &&& env.kLeAudioLocationAnyLeft) ≠ 0 →
      (g.snk_audio_locations_ &&& env.kLeAudioLocationAnyRight) ≠ 0 →
      ∀ device : LeAudioDevice, g.GetFirstDevice = some device →
        (device.snk_channel_counts_ = 1 →
          g.GetGroupSinkStrategyFromPacs env expected_group_size =
            some LeAudioConfigurationStrategy.STEREO_TWO_CISES_PER_DEVICE) ∧
        (device.snk_channel_counts_ ≠ 1 →
          g.GetGroupSinkStrategyFromPacs env expected_group_size =
            some LeAudioConfigurationStrategy.STEREO_ONE_CIS_PER_DEVICE)) := by
  refine ⟨?_, ?_, ?_⟩
  · intro h
    unfold LeAudioDeviceGroup.GetGroupSinkStrategyFromPacs
    rw [if_pos h]
  · intro h hl
    unfold LeAudioDeviceGroup.GetGroupSinkStrategyFromPacs
    rw [if_neg h, if_pos hl]
  · intro h hl hr device hd
    have hlr : ¬ ((g.snk_audio_locations_ &&& env.kLeAudioLocationAnyLeft) = 0 ∨
        (g.snk_audio_locations_ &&& env.kLeAudioLocationAnyRight) = 0) := by
      rintro (h1 | h1)
      · exact hl h1
      · exact hr h1
    unfold LeAudioDeviceGroup.GetGroupSinkStrategyFromPacs
    rw [if_neg h, if_neg hlr, hd]
    dsimp only
    constructor
    · intro h1
      rw [if_pos h1]
    · intro h1
      rw [if_neg h1]

/-- C13, `GetGroupSinkStrategyFromPacs_rule` at a group of one device with both
sink locations and the channel-count bitmap 1. -/
theorem GetGroupSinkStrategyFromPacs_rule_witness :
    stereoSingleGroup.GetGroupSinkStrategyFromPacs exampleEnv 1 =
      some LeAudioConfigurationStrategy.STEREO_TWO_CISES_PER_DEVICE :=
  ((GetGroupSinkStrategyFromPacs_rule exampleEnv stereoSingleGroup 1).2.2 (by decide)
    (by decide) (by decide) (stereoOneChannelDevice 1) (by decide)).1 (by decide)

/-- C13, counterexample to the claim as stated: the first member's bitmap 2
stands for exactly one supported channel count, the count 2, and the strategy
is `STEREO_ONE_CIS_PER_DEVICE`, not `STEREO_TWO_CISES_PER_DEVICE`. -/
theorem GetGroupSinkStrategyFromPacs_single_count_two :
    twoChannelGroup.GetFirstDevice.map
        (fun device => supportedChannelCounts device.snk_channel_counts_) = some [2] ∧
      twoChannelGroup.GetGroupSinkStrategyFromPacs exampleEnv twoChannelGroup.Size =
        some LeAudioConfigurationStrategy.STEREO_ONE_CIS_PER_DEVICE := by
  decide

/-- C14 (as amended): for a group of 2 devices without a cached strategy,
whatever locations and channel counts the devices report,
`GetGroupSinkStrategy()` returns `MONO_ONE_CIS_PER_DEVICE` and caches it. -/
theorem GetGroupSinkStrategy_pair (env : Env) (g : LeAudioDeviceGroup)
    (hsize : g.leAudioDevices_.length = 2) (hnone : g.strategy_ = none) :
    g.GetGroupSinkStrategy env =
      some (LeAudioConfigurationStrategy.MONO_ONE_CIS_PER_DEVICE,
        { g with strategy_ := some LeAudioConfigurationStrategy.MONO_ONE_CIS_PER_DEVICE }) := by
  unfold LeAudioDeviceGroup.GetGroupSinkStrategy
  rw [hnone]
  dsimp only
  have hs : g.Size > 1 := by
    unfold LeAudioDeviceGroup.Size
    rw [hsize]
    decide
  unfold LeAudioDeviceGroup.GetGroupSinkStrategyFromPacs
  rw [if_pos hs]

/-- C14, `GetGroupSinkStrategy_pair` at the group of two devices that report
both sink locations and one channel per stream. -/
theorem GetGroupSinkStrategy_pair_witness :
    stereoPairGroup.GetGroupSinkStrategy exampleEnv =
      some (LeAudioConfigurationStrategy.MONO_ONE_CIS_PER_DEVICE,
        { stereoPairGroup with
          strategy_ := some LeAudioConfigurationStrategy.MONO_ONE_CIS_PER_DEVICE }) :=
  GetGroupSinkStrategy_pair exampleEnv stereoPairGroup (by decide) (by decide)

/-- C14, counterexample to the claim as stated: the group of two devices that
both report the left and the right sink location and the channel-count bitmap
1, without a cached strategy, does not get `STEREO_TWO_CISES_PER_DEVICE`. -/
theorem GetGroupSinkStrategy_pair_not_stereo :
    stereoPairGroup.strategy_ = none ∧ stereoPairGroup.Size = 2 ∧
      (∀ d : LeAudioDevice, some d ∈ stereoPairGroup.leAudioDevices_ →
        (d.snk_audio_locations_ &&& exampleEnv.kLeAudioLocationAnyLeft) ≠ 0 ∧
        (d.snk_audio_locations_ &&& exampleEnv.kLeAudioLocationAnyRight) ≠ 0 ∧
        d.snk_channel_counts_ = 1) ∧
      (stereoPairGroup.GetGroupSinkStrategy exampleEnv).map Prod.fst ≠
        some LeAudioConfigurationStrategy.STEREO_TWO_CISES_PER_DEVICE := by
  refine ⟨rfl, rfl, ?_, by decide⟩
  intro d hd
  simp only [stereoPairGroup, List.mem_cons, Option.some.injEq, List.mem_singleton,
    List.not_mem_nil, or_false] at hd
  rcases hd with rfl | rfl <;> decide

/-! # The cached sink strategy -/

theorem applyChange_strategy (env : Env) (g : LeAudioDeviceGroup) (change : GroupChange) :
    (applyChange env g change).strategy_ = g.strategy_ := by
  cases change with
  | AddNode d => rfl
  | RemoveNode k =>
    simp only [applyChange, LeAudioDeviceGroup.RemoveNode]
    cases hk : g.leAudioDevices_[k]? with
    | none => rfl
    | some m =>
      cases m with
      | none => rfl
      | some d => rfl
  | ReloadAudioLocations =>
    simp only [applyChange, LeAudioDeviceGroup.ReloadAudioLocations]
    split <;> rfl

theorem applyChanges_strategy (env : Env) (g : LeAudioDeviceGroup)
    (changes : List GroupChange) :
    (applyChanges env g changes).strategy_ = g.strategy_ := by
  induction changes generalizing g with
  | nil => rfl
  | cons c rest ih =>
    unfold applyChanges
    rw [List.foldl_cons]
    exact (ih (applyChange env g c)).trans (applyChange_strategy env g c)

theorem GetGroupSinkStrategy_of_cached (env : Env) (g : LeAudioDeviceGroup)
    (s : LeAudioConfigurationStrategy) (h : g.strategy_ = some s) :
    g.GetGroupSinkStrategy env = some (s, g) := by
  unfold LeAudioDeviceGroup.GetGroupSinkStrategy
  rw [h]

/-- C15: the sink strategy is memoized. Once `GetGroupSinkStrategy` has returned
a value, a call after any sequence of `AddNode`, `RemoveNode` and
`ReloadAudioLocations` returns the same value and leaves the group as it is, so
every later call does; after the cached strategy is invalidated, the first call
returns `GetGroupSinkStrategyFromPacs(Size())` of the group as it then is,
whatever value was cached before. -/
theorem GetGroupSinkStrategy_memoized (env : Env) (g g1 : LeAudioDeviceGroup)
    (s : LeAudioConfigurationStrategy) (h : g.GetGroupSinkStrategy env = some (s, g1))
    (changes : List GroupChange) :
    (applyChanges env g1 changes).GetGroupSinkStrategy env =
        some (s, applyChanges env g1 changes) ∧
      ((applyChanges env g1 changes).InvalidateGroupStrategy.GetGroupSinkStrategy env).map
          Prod.fst =
        (applyChanges env g1 changes).InvalidateGroupStrategy.GetGroupSinkStrategyFromPacs env
          (applyChanges env g1 changes).InvalidateGroupStrategy.Size ∧
      ∀ cached : Option LeAudioConfigurationStrategy,
        ({ applyChanges env g1 changes with
            strategy_ := cached }).InvalidateGroupStrategy.GetGroupSinkStrategy env =
          (applyChanges env g1 changes).InvalidateGroupStrategy.GetGroupSinkStrategy env := by
  refine ⟨?_, ?_, ?_⟩
  · apply GetGroupSinkStrategy_of_cached
    rw [applyChanges_strategy]
    exact (GetGroupSinkStrategy_cached env g g1 s h).1
  · generalize applyChanges env g1 changes = g2
    unfold LeAudioDeviceGroup.GetGroupSinkStrategy
    have hnone : g2.InvalidateGroupStrategy.strategy_ = none := rfl
    rw [hnone]
    dsimp only
    cases g2.InvalidateGroupStrategy.GetGroupSinkStrategyFromPacs env
      g2.InvalidateGroupStrategy.Size <;> rfl
  · intro cached
    rfl

/-- C15, `GetGroupSinkStrategy_memoized` at a group of one device, which gets a
second member, reloads its locations and loses its first member: the strategy
returned stays the one cached for the group of one. -/
theorem GetGroupSinkStrategy_memoized_witness :
    stereoSingleGroup.GetGroupSinkStrategy exampleEnv =
        some (LeAudioConfigurationStrategy.STEREO_TWO_CISES_PER_DEVICE,
          { stereoSingleGroup with
            strategy_ := some LeAudioConfigurationStrategy.STEREO_TWO_CISES_PER_DEVICE }) ∧
      (applyChanges exampleEnv
          { stereoSingleGroup with
            strategy_ := some LeAudioConfigurationStrategy.STEREO_TWO_CISES_PER_DEVICE }
          [GroupChange.AddNode (stereoOneChannelDevice 2), GroupChange.ReloadAudioLocations,
           GroupChange.RemoveNode 0]).GetGroupSinkStrategy exampleEnv =
        some (LeAudioConfigurationStrategy.STEREO_TWO_CISES_PER_DEVICE,
          applyChanges exampleEnv
            { stereoSingleGroup with
              strategy_ := some LeAudioConfigurationStrategy.STEREO_TWO_CISES_PER_DEVICE }
            [GroupChange.AddNode (stereoOneChannelDevice 2), GroupChange.ReloadAudioLocations,
             GroupChange.RemoveNode 0]) :=
  ⟨by decide,
   (GetGroupSinkStrategy_memoized exampleEnv stereoSingleGroup
      { stereoSingleGroup with
        strategy_ := some LeAudioConfigurationStrategy.STEREO_TWO_CISES_PER_DEVICE }
      LeAudioConfigurationStrategy.STEREO_TWO_CISES_PER_DEVICE (by decide)
      [GroupChange.AddNode (stereoOneChannelDevice 2), GroupChange.ReloadAudioLocations,
       GroupChange.RemoveNode 0]).1⟩

/-! # The configuration cache -/

theorem cacheAt_erase (cache : List (Nat × Bool × Option AudioSetConfigurationPtr))
    (k k1 : Nat) :
    cacheAt (cacheErase cache k) k1 = if k1 = k then none else cacheAt cache k1 := by
  unfold cacheAt cacheErase
  induction cache with
  | nil => simp
  | cons e rest ih =>
    by_cases hek : e.1 = k
    · rw [List.filter_cons_of_neg (by simpa using hek), ih]
      by_cases hk1 : k1 = k
      · simp [hk1]
      · have : ¬ e.1 = k1 := fun h => hk1 (h ▸ hek)
        simp [hk1, List.find?_cons, this]
    · rw [List.filter_cons_of_pos (by simpa using hek)]
      by_cases he1 : e.1 = k1
      · have : ¬ k1 = k := fun h => hek (he1.trans h)
        simp [List.find?_cons, he1, this]
      · simp only [List.find?_cons, he1, decide_False]
        exact ih

theorem cacheAt_append_of_none (cache : List (Nat × Bool × Option AudioSetConfigurationPtr))
    (e : Nat × Bool × Option AudioSetConfigurationPtr) (k1 : Nat)
    (h : cacheAt cache k1 = none) :
    cacheAt (cache ++ [e]) k1 = if e.1 = k1 then some e.2 else none := by
  unfold cacheAt at h ⊢
  rw [List.find?_append]
  cases hf : cache.find? (fun e => decide (e.1 = k1)) with
  | some x => rw [hf] at h; exact absurd h (by simp)
  | none =>
    by_cases he : e.1 = k1
    · simp [he]
    · simp [he]

theorem cacheAt_append_of_some (cache : List (Nat × Bool × Option AudioSetConfigurationPtr))
    (e : Nat × Bool × Option AudioSetConfigurationPtr) (k1 : Nat)
    (x : Bool × Option AudioSetConfigurationPtr) (h : cacheAt cache k1 = some x) :
    cacheAt (cache ++ [e]) k1 = some x := by
  unfold cacheAt at h ⊢
  rw [List.find?_append]
  cases hf : cache.find? (fun e => decide (e.1 = k1)) with
  | some y => rw [hf] at h; simpa using h
  | none => rw [hf] at h; exact absurd h (by simp)

theorem cacheAt_insert_other (cache : List (Nat × Bool × Option AudioSetConfigurationPtr))
    (e : Nat × Bool × Option AudioSetConfigurationPtr) (k1 : Nat) (h : k1 ≠ e.1) :
    cacheAt (cacheInsert cache e) k1 = cacheAt cache k1 := by
  unfold cacheInsert
  split
  · rfl
  · cases hc : cacheAt cache k1 with
    | none =>
      rw [cacheAt_append_of_none cache e k1 hc, if_neg (fun h1 => h h1.symm)]
    | some x => exact cacheAt_append_of_some cache e k1 x hc

theorem cacheAt_insert_self (cache : List (Nat × Bool × Option AudioSetConfigurationPtr))
    (e : Nat × Bool × Option AudioSetConfigurationPtr) (h : cacheAt cache e.1 = none) :
    cacheAt (cacheInsert cache e) e.1 = some e.2 := by
  unfold cacheInsert
  rw [h]
  dsimp only
  rw [cacheAt_append_of_none cache e e.1 h, if_pos rfl]

theorem cacheAt_markValid (cache : List (Nat × Bool × Option AudioSetConfigurationPtr))
    (k k1 : Nat) :
    cacheAt (cacheMarkValid cache k) k1 =
      if k1 = k then (cacheAt cache k1).map (fun x => (true, x.2)) else cacheAt cache k1 := by
  unfold cacheAt cacheMarkValid
  induction cache with
  | nil => simp
  | cons e rest ih =>
    rw [List.map_cons]
    by_cases hek : e.1 = k
    · rw [if_pos hek]
      by_cases hk1 : k1 = k
      · have he1 : e.1 = k1 := hek.trans hk1.symm
        simp [List.find?_cons, he1, hk1]
      · have he1 : ¬ e.1 = k1 := fun h => hk1 (h ▸ hek)
        simp only [List.find?_cons, he1, decide_False]
        rw [ih]
    · rw [if_neg hek]
      by_cases he1 : e.1 = k1
      · have hk1 : ¬ k1 = k := fun h => hek (he1.trans h)
        simp [List.find?_cons, he1, hk1]
      · simp only [List.find?_cons, he1, decide_False]
        rw [ih]

/-- The refresh of the entry of one context leaves the entries of the other
contexts as they are. -/
theorem UpdateAudioSetConfigurationCache_other (env : Env) (g : LeAudioDeviceGroup)
    (ctx_type k1 : Nat) (h : k1 ≠ ctx_type) :
    cacheAt (g.UpdateAudioSetConfigurationCache env ctx_type).2.context_to_configuration_cache_map
        k1 =
      cacheAt g.context_to_configuration_cache_map k1 := by
  have hrep : ∀ new_conf : Option AudioSetConfigurationPtr,
      cacheAt (match new_conf with
        | some p => cacheInsert (cacheErase g.context_to_configuration_cache_map ctx_type)
            (ctx_type, true, some p)
        | none => cacheErase g.context_to_configuration_cache_map ctx_type) k1 =
      cacheAt g.context_to_configuration_cache_map k1 := by
    intro new_conf
    cases new_conf with
    | none =>
      dsimp only
      rw [cacheAt_erase, if_neg h]
    | some p =>
      dsimp only
      rw [cacheAt_insert_other _ _ _ h, cacheAt_erase, if_neg h]
  unfold LeAudioDeviceGroup.UpdateAudioSetConfigurationCache
  dsimp only
  split
  · split
    · dsimp only
      rw [cacheAt_markValid, if_neg h]
    · split
      · exact hrep _
      · rfl
  · exact hrep _

/-- What the refresh leaves for the refreshed context: no entry, or a valid
one, or the entry it found when that was valid already. -/
theorem UpdateAudioSetConfigurationCache_self (env : Env) (g : LeAudioDeviceGroup)
    (ctx_type : Nat) :
    cacheAt (g.UpdateAudioSetConfigurationCache env ctx_type).2.context_to_configuration_cache_map
        ctx_type = none ∨
      (∃ conf, cacheAt
        (g.UpdateAudioSetConfigurationCache env ctx_type).2.context_to_configuration_cache_map
        ctx_type = some (true, conf)) := by
  have hrep : ∀ new_conf : Option AudioSetConfigurationPtr,
      cacheAt (match new_conf with
        | some p => cacheInsert (cacheErase g.context_to_configuration_cache_map ctx_type)
            (ctx_type, true, some p)
        | none => cacheErase g.context_to_configuration_cache_map ctx_type) ctx_type = none ∨
      ∃ conf, cacheAt (match new_conf with
        | some p => cacheInsert (cacheErase g.context_to_configuration_cache_map ctx_type)
            (ctx_type, true, some p)
        | none => cacheErase g.context_to_configuration_cache_map ctx_type) ctx_type =
          some (true, conf) := by
    intro new_conf
    cases new_conf with
    | none =>
      left
      dsimp only
      rw [cacheAt_erase, if_pos rfl]
    | some p =>
      right
      refine ⟨some p, ?_⟩
      dsimp only
      exact cacheAt_insert_self _ (ctx_type, true, some p) (by rw [cacheAt_erase, if_pos rfl])
  unfold LeAudioDeviceGroup.UpdateAudioSetConfigurationCache
  dsimp only
  split
  · next is_valid existing_conf hex =>
    split
    · right
      dsimp only
      refine ⟨existing_conf, ?_⟩
      rw [cacheAt_markValid, if_pos rfl, hex]
      rfl
    · next hnv =>
      split
      · exact hrep _
      · next hnu =>
        right
        refine ⟨existing_conf, ?_⟩
        dsimp only
        rw [hex]
        simp only [Bool.and_eq_true, Bool.not_eq_true', not_and, Bool.not_eq_false] at hnv
        simp only [Bool.not_eq_true] at hnu
        rw [hnv hnu]
  · exact hrep _

/-! # `Deactivate` leaves no ASE active -/

theorem deactivate_write_get (l : List ase) (i n : Nat) (a : ase)
    (h : (l.modify deactivateAse i)[n]? =
      some a) :
    (n = i ∧ a.active = false) ∨ (n ≠ i ∧ l[n]? = some a) := by
  rw [List.getElem?_modify] at h
  cases hl : l[n]? with
  | none => rw [hl] at h; exact absurd h (by simp)
  | some b =>
    rw [hl] at h
    by_cases hin : i = n
    · simp only [hin, if_true, Option.map_eq_map, Option.map_some', Option.some.injEq] at h
      left
      exact ⟨hin.symm, by rw [← h]; rfl⟩
    · simp only [hin, if_false, Option.map_eq_map, Option.map_some', Option.some.injEq] at h
      right
      exact ⟨fun h1 => hin h1.symm, by rw [h]⟩

theorem deactivateAsesLoop_spec : ∀ (fuel : Nat) (oi : Option Nat) (d : LeAudioDevice),
    (∀ i, oi = some i → i < d.ases_.length ∧ d.ases_.length ≤ i + fuel ∧
        ∀ (n : Nat) (a : ase), n < i → d.ases_[n]? = some a → a.active = false) →
    (oi = none → ∀ (n : Nat) (a : ase), d.ases_[n]? = some a → a.active = false) →
    ∃ d1, deactivateAsesLoop fuel oi d = some d1 ∧ d1 = { d with ases_ := d1.ases_ } ∧
      ∀ (n : Nat) (a : ase), d1.ases_[n]? = some a → a.active = false := by
  intro fuel
  induction fuel with
  | zero =>
    intro oi d hsome hnone
    cases oi with
    | none => exact ⟨d, by simp [deactivateAsesLoop], rfl, hnone rfl⟩
    | some i =>
      obtain ⟨h1, h2, _⟩ := hsome i rfl
      omega
  | succ fuel ih =>
    intro oi d hsome hnone
    cases oi with
    | none => exact ⟨d, by simp [deactivateAsesLoop], rfl, hnone rfl⟩
    | some i =>
      obtain ⟨hi, hfuel, hbefore⟩ := hsome i rfl
      unfold deactivateAsesLoop
      dsimp only
      have hlen : (d.ases_.modify deactivateAse
          i).length = d.ases_.length := List.length_modify _ _ _
      have hupto : ∀ (n : Nat) (a : ase), n ≤ i →
          (d.ases_.modify deactivateAse
            i)[n]? = some a → a.active = false := by
        intro n a hn ha
        rcases deactivate_write_get _ _ _ _ ha with ⟨_, h⟩ | ⟨hne, h⟩
        · exact h
        · exact hbefore n a (by omega) h
      obtain ⟨d2, hd2, hframe, hall⟩ := ih
        (LeAudioDevice.GetNextActiveAse
          { d with ases_ := d.ases_.modify deactivateAse i } i)
        { d with ases_ := d.ases_.modify deactivateAse i }
        (by
          intro j hj
          obtain ⟨hij, hjlt, -, hmin⟩ := findIfFrom_some hj
          dsimp only at hjlt hmin ⊢
          refine ⟨hjlt, by omega, ?_⟩
          intro n a hn ha
          by_cases hni : n ≤ i
          · exact hupto n a hni ha
          · exact hmin n (by omega) hn a ha)
        (by
          intro hj n a ha
          dsimp only at ha
          by_cases hni : n ≤ i
          · exact hupto n a hni ha
          · exact findIfFrom_none hj n (by omega) a ha)
      refine ⟨d2, hd2, ?_, hall⟩
      rw [hframe]

/-- The inner loop of `Deactivate` run on a device returns, and leaves none of
its ASEs active and the rest of the device as it is. -/
theorem deactivateAses_device (d : LeAudioDevice) :
    ∃ d1, deactivateAsesLoop d.ases_.length d.GetFirstActiveAse d = some d1 ∧
      d1 = { d with ases_ := d1.ases_ } ∧
      ∀ (n : Nat) (a : ase), d1.ases_[n]? = some a → a.active = false := by
  apply deactivateAsesLoop_spec
  · intro i hi
    obtain ⟨-, hlt, -, hmin⟩ := findIfFrom_some hi
    exact ⟨hlt, by omega, fun n a hn ha => hmin n (Nat.zero_le _) hn a ha⟩
  · intro hnone n a ha
    exact findIfFrom_none hnone n (Nat.zero_le _) a ha

theorem not_isActiveMember_of_inactive (d : LeAudioDevice)
    (h : ∀ (n : Nat) (a : ase), d.ases_[n]? = some a → a.active = false) :
    isActiveMember (some d) = false := by
  simp only [isActiveMember, LeAudioDevice.HaveActiveAse]
  rw [Bool.eq_false_iff]
  intro hany
  rw [List.any_eq_true] at hany
  obtain ⟨a, hmem, hact⟩ := hany
  obtain ⟨n, hn, hget⟩ := List.getElem_of_mem hmem
  have := h n a (by rw [List.getElem?_eq_getElem hn, hget])
  rw [this] at hact
  exact absurd hact (by simp)

theorem inactive_of_not_isActiveMember (d : LeAudioDevice)
    (h : isActiveMember (some d) = false) :
    ∀ (n : Nat) (a : ase), d.ases_[n]? = some a → a.active = false := by
  intro n a ha
  simp only [isActiveMember, LeAudioDevice.HaveActiveAse] at h
  cases hact : a.active with
  | false => rfl
  | true =>
    have : d.ases_.any (fun a => a.active) = true := by
      rw [List.any_eq_true]
      exact ⟨a, List.getElem?_mem ha, hact⟩
    rw [this] at h
    exact absurd h (by simp)

theorem onlyMembersChanged_refl (g : LeAudioDeviceGroup) : onlyMembersChanged g g := rfl

theorem onlyMembersChanged_trans {g g1 g2 : LeAudioDeviceGroup}
    (h1 : onlyMembersChanged g g1) (h2 : onlyMembersChanged g1 g2) :
    onlyMembersChanged g g2 := by
  unfold onlyMembersChanged at h1 h2 ⊢
  rw [h2, h1]

theorem onlyMembersChanged_set (g : LeAudioDeviceGroup) (l : List (Option LeAudioDevice)) :
    onlyMembersChanged g { g with leAudioDevices_ := l } := rfl

theorem deactivateLoop_spec : ∀ (fuel : Nat) (ok : Option Nat) (g : LeAudioDeviceGroup),
    (∀ k, ok = some k → (∃ d, g.leAudioDevices_[k]? = some (some d)) ∧
        g.leAudioDevices_.length ≤ k + fuel ∧
        ∀ (n : Nat) (m : Option LeAudioDevice), n < k → g.leAudioDevices_[n]? = some m →
          isActiveMember m = false) →
    (ok = none → ∀ (n : Nat) (m : Option LeAudioDevice), g.leAudioDevices_[n]? = some m →
        isActiveMember m = false) →
    ∃ g1, deactivateLoop fuel ok g = some g1 ∧ onlyMembersChanged g g1 ∧
      g1.leAudioDevices_.length = g.leAudioDevices_.length ∧
      ∀ (n : Nat) (m : Option LeAudioDevice), g1.leAudioDevices_[n]? = some m →
        isActiveMember m = false := by
  intro fuel
  induction fuel with
  | zero =>
    intro ok g hsome hnone
    cases ok with
    | none => exact ⟨g, by simp [deactivateLoop], rfl, rfl, hnone rfl⟩
    | some k =>
      obtain ⟨⟨d, hd⟩, h2, _⟩ := hsome k rfl
      have := lt_of_getElem_some hd
      omega
  | succ fuel ih =>
    intro ok g hsome hnone
    cases ok with
    | none => exact ⟨g, by simp [deactivateLoop], rfl, rfl, hnone rfl⟩
    | some k =>
      obtain ⟨⟨d, hd⟩, hfuel, hbefore⟩ := hsome k rfl
      have hk := lt_of_getElem_some hd
      obtain ⟨d1, hd1, -, hall1⟩ := deactivateAses_device d
      unfold deactivateLoop
      rw [hd]
      dsimp only
      rw [hd1]
      dsimp only
      have hupto : ∀ (n : Nat) (m : Option LeAudioDevice), n ≤ k →
          (g.leAudioDevices_.set k (some d1))[n]? = some m → isActiveMember m = false := by
        intro n m hn hm
        by_cases hnk : n = k
        · subst hnk
          rw [List.getElem?_set_self hk] at hm
          simp only [Option.some.injEq] at hm
          rw [← hm]
          exact not_isActiveMember_of_inactive d1 hall1
        · rw [List.getElem?_set_ne (fun h => hnk h.symm)] at hm
          exact hbefore n m (by omega) hm
      obtain ⟨g2, hg2, hframe, hlen, hall⟩ := ih
        (LeAudioDeviceGroup.GetNextActiveDevice
          { g with leAudioDevices_ := g.leAudioDevices_.set k (some d1) } k)
        { g with leAudioDevices_ := g.leAudioDevices_.set k (some d1) }
        (by
          intro j hj
          obtain ⟨hkj, hjlt, ⟨m, hm, hact⟩, hmin⟩ := findIfFrom_some hj
          dsimp only at hjlt hm hmin ⊢
          rw [List.length_set] at hjlt ⊢
          refine ⟨?_, by omega, ?_⟩
          · cases m with
            | none => simp [isActiveMember] at hact
            | some dj => exact ⟨dj, hm⟩
          · intro n m1 hn hm1
            by_cases hnk : n ≤ k
            · exact hupto n m1 hnk hm1
            · exact hmin n (by omega) hn m1 hm1)
        (by
          intro hj n m hm
          dsimp only at hm
          by_cases hnk : n ≤ k
          · exact hupto n m hnk hm
          · exact findIfFrom_none hj n (by omega) m hm)
      refine ⟨g2, hg2, ?_, ?_, hall⟩
      · exact onlyMembersChanged_trans (onlyMembersChanged_set g _) hframe
      · rw [hlen]
        exact List.length_set _ _ _

/-- The function `Deactivate` returns, changes nothing but the members of the
group, and leaves no ASE of a live member active. -/
theorem Deactivate_spec (g : LeAudioDeviceGroup) :
    ∃ g1, g.Deactivate = some g1 ∧ onlyMembersChanged g g1 ∧
      g1.leAudioDevices_.length = g.leAudioDevices_.length ∧ noActiveAse g1 := by
  obtain ⟨g1, hg1, hframe, hlen, hall⟩ := deactivateLoop_spec g.leAudioDevices_.length
    g.GetFirstActiveDevice g
    (by
      intro k hk
      obtain ⟨-, hlt, ⟨m, hm, hact⟩, hmin⟩ := findIfFrom_some hk
      refine ⟨?_, by omega, fun n m1 hn hm1 => hmin n (Nat.zero_le _) hn m1 hm1⟩
      cases m with
      | none => simp [isActiveMember] at hact
      | some d => exact ⟨d, hm⟩)
    (by
      intro hnone n m hm
      exact findIfFrom_none hnone n (Nat.zero_le _) m hm)
  refine ⟨g1, hg1, hframe, hlen, ?_⟩
  intro k d hd
  exact inactive_of_not_isActiveMember d (hall k (some d) hd)

/-! # The loops of `ConfigureAses` -/

theorem configuration_closure_spec (env : Env) (audio_set_conf : AudioSetConfiguration)
    (direction : Direction) (context_type : Nat)
    (metadata_context_types : BidirectionalPair Nat)
    (ccid_lists : BidirectionalPair (List Nat)) (reuse_cis_id : Bool)
    (st : ConfigureState) (k : Nat) (dev : LeAudioDevice)
    (h : st.g.leAudioDevices_[k]? = some (some dev)) :
    ∃ st1, configuration_closure env audio_set_conf direction context_type
        metadata_context_types ccid_lists reuse_cis_id st k = some st1 ∧
      onlyMembersChanged st.g st1.g ∧
      st1.g.leAudioDevices_.length = st.g.leAudioDevices_.length ∧
      ∀ j : Nat, (st1.g.leAudioDevices_[j]?).map (fun m => m.map
          (fun d => (d.connection_state_, d.conn_id_, d.avail_contexts_))) =
        (st.g.leAudioDevices_[j]?).map (fun m => m.map
          (fun d => (d.connection_state_, d.conn_id_, d.avail_contexts_))) := by
  have hk := lt_of_getElem_some h
  unfold configuration_closure
  rw [h]
  dsimp only
  have hshape : ∀ (l : List ase) (j : Nat),
      ((st.g.leAudioDevices_.set k (some { dev with ases_ := l }))[j]?).map (fun m => m.map
          (fun d => (d.connection_state_, d.conn_id_, d.avail_contexts_))) =
        (st.g.leAudioDevices_[j]?).map (fun m => m.map
          (fun d => (d.connection_state_, d.conn_id_, d.avail_contexts_))) := by
    intro l j
    by_cases hjk : j = k
    · subst hjk
      rw [List.getElem?_set_self hk, h]
      rfl
    · rw [List.getElem?_set_ne (fun h1 => hjk h1.symm)]
  split
  · exact ⟨st, rfl, rfl, rfl, fun _ => rfl⟩
  · split
    · exact ⟨_, rfl, rfl, List.length_set _ _ _, hshape _⟩
    · exact ⟨_, rfl, rfl, List.length_set _ _ _, hshape _⟩

theorem GetNextDeviceWithAvailableContext_some {g : LeAudioDeviceGroup} {k j : Nat}
    {context_type : Nat} (h : g.GetNextDeviceWithAvailableContext k context_type = some j) :
    k + 1 ≤ j ∧ ∃ d, g.leAudioDevices_[j]? = some (some d) := by
  unfold LeAudioDeviceGroup.GetNextDeviceWithAvailableContext at h
  split at h
  · obtain ⟨hkj, -, ⟨m, hm, hp⟩, -⟩ := findIfFrom_some h
    refine ⟨hkj, ?_⟩
    cases m with
    | none => simp [hasAvailableContext] at hp
    | some d => exact ⟨d, hm⟩
  · exact absurd h (by simp)

theorem GetFirstDeviceWithAvailableContext_some {g : LeAudioDeviceGroup} {j : Nat}
    {context_type : Nat} (h : g.GetFirstDeviceWithAvailableContext context_type = some j) :
    ∃ d, g.leAudioDevices_[j]? = some (some d) := by
  obtain ⟨-, -, ⟨m, hm, hp⟩, -⟩ := findIfFrom_some h
  cases m with
  | none => simp [hasAvailableContext] at hp
  | some d => exact ⟨d, hm⟩

/-- What the loops of `ConfigureAses` keep of a group: everything but the
members, their number, and of each member the connection state, the connection
id and the available contexts. -/
theorem configureAvailableLoop_spec (env : Env) (audio_set_conf : AudioSetConfiguration)
    (direction : Direction) (context_type : Nat)
    (metadata_context_types : BidirectionalPair Nat)
    (ccid_lists : BidirectionalPair (List Nat)) (reuse_cis_id : Bool) :
    ∀ (fuel : Nat) (ok : Option Nat) (st : ConfigureState),
      (∀ k, ok = some k → (∃ d, st.g.leAudioDevices_[k]? = some (some d)) ∧
        st.g.leAudioDevices_.length ≤ k + fuel) →
      ∃ st1, configureAvailableLoop env audio_set_conf direction context_type
          metadata_context_types ccid_lists reuse_cis_id fuel ok st = some st1 ∧
        onlyMembersChanged st.g st1.g ∧
        st1.g.leAudioDevices_.length = st.g.leAudioDevices_.length ∧
        ∀ j : Nat, (st1.g.leAudioDevices_[j]?).map (fun m => m.map
            (fun d => (d.connection_state_, d.conn_id_, d.avail_contexts_))) =
          (st.g.leAudioDevices_[j]?).map (fun m => m.map
            (fun d => (d.connection_state_, d.conn_id_, d.avail_contexts_))) := by
  intro fuel
  induction fuel with
  | zero =>
    intro ok st hsome
    cases ok with
    | none => exact ⟨st, by simp [configureAvailableLoop], rfl, rfl, fun _ => rfl⟩
    | some k =>
      obtain ⟨⟨d, hd⟩, h2⟩ := hsome k rfl
      have := lt_of_getElem_some hd
      omega
  | succ fuel ih =>
    intro ok st hsome
    cases ok with
    | none => exact ⟨st, by simp [configureAvailableLoop], rfl, rfl, fun _ => rfl⟩
    | some k =>
      obtain ⟨⟨d, hd⟩, hfuel⟩ := hsome k rfl
      unfold configureAvailableLoop
      split
      · obtain ⟨st1, hst1, hframe1, hlen1, hshape1⟩ := configuration_closure_spec env
          audio_set_conf direction context_type metadata_context_types ccid_lists reuse_cis_id
          st k d hd
        rw [hst1]
        dsimp only
        obtain ⟨st2, hst2, hframe2, hlen2, hshape2⟩ := ih
          (st1.g.GetNextDeviceWithAvailableContext k context_type) st1
          (by
            intro j hj
            obtain ⟨hkj, hlive⟩ := GetNextDeviceWithAvailableContext_some hj
            exact ⟨hlive, by omega⟩)
        exact ⟨st2, hst2, onlyMembersChanged_trans hframe1 hframe2, by rw [hlen2, hlen1],
          fun j => (hshape2 j).trans (hshape1 j)⟩
      · exact ⟨st, rfl, rfl, rfl, fun _ => rfl⟩

theorem configureAllLoop_spec (env : Env) (audio_set_conf : AudioSetConfiguration)
    (direction : Direction) (context_type : Nat)
    (metadata_context_types : BidirectionalPair Nat)
    (ccid_lists : BidirectionalPair (List Nat)) (reuse_cis_id : Bool) :
    ∀ (fuel : Nat) (ok : Option Nat) (st : ConfigureState),
      (∀ k, ok = some k → (∃ d, st.g.leAudioDevices_[k]? = some (some d)) ∧
        st.g.leAudioDevices_.length ≤ k + fuel) →
      ∃ st1, configureAllLoop env audio_set_conf direction context_type
          metadata_context_types ccid_lists reuse_cis_id fuel ok st = some st1 ∧
        onlyMembersChanged st.g st1.g ∧
        st1.g.leAudioDevices_.length = st.g.leAudioDevices_.length ∧
        ∀ j : Nat, (st1.g.leAudioDevices_[j]?).map (fun m => m.map
            (fun d => (d.connection_state_, d.conn_id_, d.avail_contexts_))) =
          (st.g.leAudioDevices_[j]?).map (fun m => m.map
            (fun d => (d.connection_state_, d.conn_id_, d.avail_contexts_))) := by
  intro fuel
  induction fuel with
  | zero =>
    intro ok st hsome
    cases ok with
    | none => exact ⟨st, by simp [configureAllLoop], rfl, rfl, fun _ => rfl⟩
    | some k =>
      obtain ⟨⟨d, hd⟩, h2⟩ := hsome k rfl
      have := lt_of_getElem_some hd
      omega
  | succ fuel ih =>
    intro ok st hsome
    cases ok with
    | none => exact ⟨st, by simp [configureAllLoop], rfl, rfl, fun _ => rfl⟩
    | some k =>
      obtain ⟨⟨d, hd⟩, hfuel⟩ := hsome k rfl
      unfold configureAllLoop
      split
      · obtain ⟨st1, hst1, hframe1, hlen1, hshape1⟩ := configuration_closure_spec env
          audio_set_conf direction context_type metadata_context_types ccid_lists reuse_cis_id
          st k d hd
        rw [hst1]
        dsimp only
        obtain ⟨st2, hst2, hframe2, hlen2, hshape2⟩ := ih (st1.g.GetNextDevice k) st1
          (by
            intro j hj
            obtain ⟨hkj, hlive⟩ := GetNextDevice_some hj
            exact ⟨hlive, by omega⟩)
        exact ⟨st2, hst2, onlyMembersChanged_trans hframe1 hframe2, by rw [hlen2, hlen1],
          fun j => (hshape2 j).trans (hshape1 j)⟩
      · exact ⟨st, rfl, rfl, rfl, fun _ => rfl⟩

/-- The two loops of `ConfigureAses` for a direction return. -/
theorem configurePasses_spec (env : Env) (audio_set_conf : AudioSetConfiguration)
    (direction : Direction) (context_type : Nat)
    (metadata_context_types : BidirectionalPair Nat)
    (ccid_lists : BidirectionalPair (List Nat)) (reuse_cis_id : Bool)
    (g : LeAudioDeviceGroup) (memo : BidirectionalPair Nat) :
    ∃ st, configurePasses env audio_set_conf direction context_type metadata_context_types
        ccid_lists reuse_cis_id g memo = some st ∧
      onlyMembersChanged g st.g ∧
      st.g.leAudioDevices_.length = g.leAudioDevices_.length := by
  unfold configurePasses
  dsimp only
  obtain ⟨st1, hst1, hframe1, hlen1, -⟩ := configureAvailableLoop_spec env audio_set_conf
    direction context_type metadata_context_types ccid_lists reuse_cis_id
    g.leAudioDevices_.length (g.GetFirstDeviceWithAvailableContext context_type)
    { g := g, required_device_cnt := g.NumOfConnected env env.RFU, active_ase_cnt := 0,
      group_audio_locations_memo := memo }
    (fun k hk => ⟨GetFirstDeviceWithAvailableContext_some hk, by dsimp only; omega⟩)
  rw [hst1]
  dsimp only
  split
  · obtain ⟨st2, hst2, hframe2, hlen2, -⟩ := configureAllLoop_spec env audio_set_conf
      direction context_type metadata_context_types ccid_lists reuse_cis_id
      st1.g.leAudioDevices_.length st1.g.GetFirstDeviceIndex st1
      (fun k hk => ⟨GetFirstDeviceIndex_some hk, by omega⟩)
    exact ⟨st2, hst2, onlyMembersChanged_trans hframe1 hframe2, by rw [hlen2, hlen1]⟩
  · exact ⟨st1, rfl, hframe1, hlen1⟩

/-! # `ConfigureAses`: the result and what it leaves behind -/

theorem configureDirection_spec (env : Env) (audio_set_conf : AudioSetConfiguration)
    (direction : Direction) (context_type : Nat)
    (metadata_context_types : BidirectionalPair Nat)
    (ccid_lists : BidirectionalPair (List Nat)) (reuse_cis_id : Bool)
    (g : LeAudioDeviceGroup) (memo : BidirectionalPair Nat) :
    ∃ b g1 memo1, configureDirection env audio_set_conf direction context_type
        metadata_context_types ccid_lists reuse_cis_id g memo = some (b, g1, memo1) ∧
      onlyMembersChanged g g1 ∧
      (b = false → noActiveAse g1) ∧
      (audio_set_conf.confs.get direction ≠ [] →
        requirementsLeft env audio_set_conf direction context_type metadata_context_types
          ccid_lists reuse_cis_id g memo = true → b = false) := by
  unfold configureDirection requirementsLeft
  split
  · next hempty =>
    refine ⟨true, g, memo, rfl, rfl, fun h => absurd h (by simp), ?_⟩
    intro hne
    exact absurd (List.isEmpty_iff.mp hempty) hne
  · obtain ⟨st, hst, hframe, -⟩ := configurePasses_spec env audio_set_conf direction
      context_type metadata_context_types ccid_lists reuse_cis_id g memo
    rw [hst]
    dsimp only
    split
    · obtain ⟨g1, hg1, hframe1, -, hno⟩ := Deactivate_spec st.g
      rw [hg1]
      exact ⟨false, g1, _, rfl, onlyMembersChanged_trans hframe hframe1, fun _ => hno,
        fun _ _ => rfl⟩
    · next hle =>
      refine ⟨true, st.g, _, rfl, hframe, fun h => absurd h (by simp), ?_⟩
      intro _ hleft
      simp only [decide_eq_true_eq] at hleft
      exact absurd hleft hle

/-- The function `ConfigureAses` returns; it changes the members of the group
and, when it returns `true`, the stored context type and metadata contexts, and
nothing else; when a direction leaves its requirements unmet, it returns
`false` with no ASE active. -/
theorem ConfigureAses_spec (env : Env) (g : LeAudioDeviceGroup)
    (audio_set_conf : AudioSetConfiguration) (context_type : Nat)
    (metadata_context_types : BidirectionalPair Nat)
    (ccid_lists : BidirectionalPair (List Nat)) :
    ∃ b g1, g.ConfigureAses env audio_set_conf context_type metadata_context_types
        ccid_lists = some (b, g1) ∧
      (b = true → g1 = { g with
          leAudioDevices_ := g1.leAudioDevices_
          configuration_context_type_ := context_type
          metadata_context_type_ := metadata_context_types }) ∧
      (b = false → onlyMembersChanged g g1) ∧
      (requirementsUnmet env g audio_set_conf context_type metadata_context_types ccid_lists →
        b = false ∧ noActiveAse g1) := by
  unfold LeAudioDeviceGroup.ConfigureAses requirementsUnmet
  dsimp only
  split
  · next hcover =>
    refine ⟨false, g, rfl, fun h => absurd h (by simp), fun _ => rfl, ?_⟩
    rintro ⟨hc, -⟩
    rw [hc] at hcover
    exact absurd hcover (by simp)
  · obtain ⟨b1, g1, memo1, h1, hframe1, hno1, hleft1⟩ := configureDirection_spec env
      audio_set_conf Direction.kLeAudioDirectionSink context_type metadata_context_types
      ccid_lists (decide (g.current_state_ = AseState.BTA_LE_AUDIO_ASE_STATE_CODEC_CONFIGURED))
      g ⟨0, 0⟩
    rw [h1]
    cases b1 with
    | false =>
      exact ⟨false, g1, rfl, fun h => absurd h (by simp), fun _ => hframe1,
        fun _ => ⟨rfl, hno1 rfl⟩⟩
    | true =>
      dsimp only
      obtain ⟨b2, g2, memo2, h2, hframe2, hno2, hleft2⟩ := configureDirection_spec env
        audio_set_conf Direction.kLeAudioDirectionSource context_type metadata_context_types
        ccid_lists
        (decide (g.current_state_ = AseState.BTA_LE_AUDIO_ASE_STATE_CODEC_CONFIGURED))
        g1 memo1
      rw [h2]
      have hframe := onlyMembersChanged_trans hframe1 hframe2
      cases b2 with
      | false =>
        exact ⟨false, g2, rfl, fun h => absurd h (by simp), fun _ => hframe,
          fun _ => ⟨rfl, hno2 rfl⟩⟩
      | true =>
        refine ⟨true, _, rfl, ?_, fun h => absurd h (by simp), ?_⟩
        · intro _
          dsimp only
          unfold onlyMembersChanged at hframe
          rw [hframe]
        · rintro ⟨-, hsink | ⟨g3, memo3, h3, hne, hsrc⟩⟩
          · exact absurd (hleft1 hsink.1 hsink.2) (by simp)
          · simp only [Option.some.injEq, Prod.mk.injEq, true_and] at h3
            obtain ⟨e1, e2⟩ := h3
            subst e1
            subst e2
            exact absurd (hleft2 hne hsrc) (by simp)

/-- C17: `ConfigureAses` rolls back fully on failure. The call returns; if, for
a direction with requirements, `required_device_cnt` is still above 0 after
both loops, it returns `false` and afterwards no ASE of a live member of the
group is active; whenever it returns `false` the stored configuration context
type and metadata contexts are as before, and when it returns `true` they are
the requested ones. -/
theorem ConfigureAses_rollback (env : Env) (g : LeAudioDeviceGroup)
    (audio_set_conf : AudioSetConfiguration) (context_type : Nat)
    (metadata_context_types : BidirectionalPair Nat)
    (ccid_lists : BidirectionalPair (List Nat)) :
    ∃ b g1, g.ConfigureAses env audio_set_conf context_type metadata_context_types
        ccid_lists = some (b, g1) ∧
      (requirementsUnmet env g audio_set_conf context_type metadata_context_types ccid_lists →
        b = false ∧ noActiveAse g1) ∧
      (b = false →
        g1.configuration_context_type_ = g.configuration_context_type_ ∧
        g1.metadata_context_type_ = g.metadata_context_type_) ∧
      (b = true →
        g1.configuration_context_type_ = context_type ∧
        g1.metadata_context_type_ = metadata_context_types) := by
  obtain ⟨b, g1, h, htrue, hfalse, hunmet⟩ := ConfigureAses_spec env g audio_set_conf
    context_type metadata_context_types ccid_lists
  refine ⟨b, g1, h, hunmet, ?_, ?_⟩
  · intro hb
    have := hfalse hb
    unfold onlyMembersChanged at this
    rw [this]
    exact ⟨rfl, rfl⟩
  · intro hb
    rw [htrue hb]
    exact ⟨rfl, rfl⟩

/-- C17, `ConfigureAses_rollback` at a group of an earbud and a microphone asked
for a configuration with sink requirements: the microphone has no sink ASE, one
device stays required, and the call fails with every ASE inactive and the
stored context type and metadata contexts as before. -/
theorem ConfigureAses_rollback_witness :
    requirementsUnmet exampleEnv earbudAndMicGroup sinkMonoConf 4 ⟨4, 4⟩ ⟨[], []⟩ ∧
      ∃ g1, earbudAndMicGroup.ConfigureAses exampleEnv sinkMonoConf 4 ⟨4, 4⟩ ⟨[], []⟩ =
          some (false, g1) ∧
        noActiveAse g1 ∧ g1.configuration_context_type_ = 2 ∧
        g1.metadata_context_type_ = ⟨2, 2⟩ := by
  have hu : requirementsUnmet exampleEnv earbudAndMicGroup sinkMonoConf 4 ⟨4, 4⟩ ⟨[], []⟩ :=
    ⟨by decide, Or.inl ⟨by decide, by decide⟩⟩
  obtain ⟨b, g1, h1, h2, h3, -⟩ := ConfigureAses_rollback exampleEnv earbudAndMicGroup
    sinkMonoConf 4 ⟨4, 4⟩ ⟨[], []⟩
  obtain ⟨hb, hno⟩ := h2 hu
  subst hb
  exact ⟨hu, g1, h1, hno, (h3 rfl).1, (h3 rfl).2⟩

/-! # `ConfigureAses` on a pair of devices without the context -/

theorem NumOfConnected_pair (env : Env) (g : LeAudioDeviceGroup) (a b : LeAudioDevice)
    (hg : g.leAudioDevices_ = [some a, some b]) (ha : isConnected env a)
    (hb : isConnected env b) :
    g.NumOfConnected env env.RFU = 2 := by
  unfold LeAudioDeviceGroup.NumOfConnected
  rw [hg]
  simp [countsAsConnected, ha.1, ha.2, hb.1, hb.2]

theorem configureDirection_pair (env : Env) (audio_set_conf : AudioSetConfiguration)
    (direction : Direction) (context_type : Nat)
    (metadata_context_types : BidirectionalPair Nat)
    (ccid_lists : BidirectionalPair (List Nat)) (reuse_cis_id : Bool)
    (g : LeAudioDeviceGroup) (a b : LeAudioDevice) (memo : BidirectionalPair Nat)
    (hg : g.leAudioDevices_ = [some a, some b])
    (ha : isConnected env a) (hb : isConnected env b)
    (hca : AudioContexts.test a.GetAvailableContexts context_type = false)
    (hcb : AudioContexts.test b.GetAvailableContexts context_type = false)
    (hne : audio_set_conf.confs.get direction ≠ [])
    (hok : pairSucceeds env audio_set_conf direction context_type metadata_context_types
      ccid_lists reuse_cis_id (a, b, memo)) :
    configureDirection env audio_set_conf direction context_type metadata_context_types
        ccid_lists reuse_cis_id g memo =
      some (true,
        { g with leAudioDevices_ :=
            [some (configuredPair env audio_set_conf direction context_type
                metadata_context_types ccid_lists reuse_cis_id (a, b, memo)).1,
             some (configuredPair env audio_set_conf direction context_type
                metadata_context_types ccid_lists reuse_cis_id (a, b, memo)).2.1] },
        (configuredPair env audio_set_conf direction context_type
          metadata_context_types ccid_lists reuse_cis_id (a, b, memo)).2.2) := by
  have hnum := NumOfConnected_pair env g a b hg ha hb
  have hfirst : g.GetFirstDeviceWithAvailableContext context_type = none := by
    unfold LeAudioDeviceGroup.GetFirstDeviceWithAvailableContext
    apply findIfFrom_eq_none
    intro j _ m hm
    rw [hg] at hm
    match j, hm with
    | 0, hm =>
      simp only [List.getElem?_cons_zero, Option.some.injEq] at hm
      rw [← hm]
      exact hca
    | 1, hm =>
      simp only [List.getElem?_cons_succ, List.getElem?_cons_zero, Option.some.injEq] at hm
      rw [← hm]
      exact hcb
    | n + 2, hm => simp at hm
  have hidx : g.GetFirstDeviceIndex = some 0 := by
    unfold LeAudioDeviceGroup.GetFirstDeviceIndex
    apply findIfFrom_eq_some (le_refl 0) (a := some a)
    · rw [hg]; rfl
    · rfl
    · intro j _ hj
      omega
  obtain ⟨hok0, hok1⟩ := hok
  dsimp only at hok0 hok1
  unfold configureDirection
  have hne2 : (audio_set_conf.confs.get direction).isEmpty = false := by
    cases hl : audio_set_conf.confs.get direction with
    | nil => exact absurd hl hne
    | cons x xs => rfl
  rw [hne2]
  simp only [Bool.false_eq_true, if_false]
  unfold configurePasses
  simp only [hfirst, hnum, hidx, hg, List.length_cons, List.length_nil, configureAvailableLoop]
  simp only [show (2 : Int) > 0 by decide, if_true]
  simp only [configureAllLoop, configuration_closure, hg, List.getElem?_cons_zero, ha.1,
    ne_eq, not_true_eq_false, if_false, hok0, Bool.not_true, Bool.false_eq_true,
    show (2 : Int) > 0 by decide, if_true, List.set_cons_zero,
    LeAudioDeviceGroup.GetNextDevice, List.getElem?_cons_succ, zero_add,
    show (2 : Int) - 1 > 0 by decide, hb.1, hok1, List.set_cons_succ,
    List.getElem?_nil, show ¬ ((2 : Int) - 1 - 1 > 0) by decide, configuredPair]

theorem configureDirection_pair_if_required (env : Env)
    (audio_set_conf : AudioSetConfiguration)
    (direction : Direction) (context_type : Nat)
    (metadata_context_types : BidirectionalPair Nat)
    (ccid_lists : BidirectionalPair (List Nat)) (reuse_cis_id : Bool)
    (g : LeAudioDeviceGroup) (a b : LeAudioDevice) (memo : BidirectionalPair Nat)
    (hg : g.leAudioDevices_ = [some a, some b])
    (ha : isConnected env a) (hb : isConnected env b)
    (hca : AudioContexts.test a.GetAvailableContexts context_type = false)
    (hcb : AudioContexts.test b.GetAvailableContexts context_type = false)
    (hok : audio_set_conf.confs.get direction ≠ [] →
      pairSucceeds env audio_set_conf direction context_type metadata_context_types
        ccid_lists reuse_cis_id (a, b, memo)) :
    configureDirection env audio_set_conf direction context_type metadata_context_types
        ccid_lists reuse_cis_id g memo =
      some (true,
        { g with leAudioDevices_ :=
            [some (configuredPairIfRequired env audio_set_conf direction context_type
                metadata_context_types ccid_lists reuse_cis_id (a, b, memo)).1,
             some (configuredPairIfRequired env audio_set_conf direction context_type
                metadata_context_types ccid_lists reuse_cis_id (a, b, memo)).2.1] },
        (configuredPairIfRequired env audio_set_conf direction context_type
          metadata_context_types ccid_lists reuse_cis_id (a, b, memo)).2.2) := by
  by_cases hne : audio_set_conf.confs.get direction = []
  · have hempty : (audio_set_conf.confs.get direction).isEmpty = true := by rw [hne]; rfl
    unfold configureDirection configuredPairIfRequired
    rw [if_pos hempty, if_pos hempty]
    dsimp only
    rw [← hg]
  · have hempty : ¬ (audio_set_conf.confs.get direction).isEmpty = true := by
      intro h
      exact hne (List.isEmpty_iff.mp h)
    rw [configureDirection_pair env audio_set_conf direction context_type
      metadata_context_types ccid_lists reuse_cis_id g a b memo hg ha hb hca hcb hne (hok hne)]
    unfold configuredPairIfRequired
    rw [if_neg hempty]

theorem configuredPairIfRequired_shape (env : Env) (audio_set_conf : AudioSetConfiguration)
    (direction : Direction) (context_type : Nat)
    (metadata_context_types : BidirectionalPair Nat)
    (ccid_lists : BidirectionalPair (List Nat)) (reuse_cis_id : Bool)
    (p : LeAudioDevice × LeAudioDevice × BidirectionalPair Nat) :
    (isConnected env p.1 →
      isConnected env (configuredPairIfRequired env audio_set_conf direction context_type
        metadata_context_types ccid_lists reuse_cis_id p).1) ∧
    (isConnected env p.2.1 →
      isConnected env (configuredPairIfRequired env audio_set_conf direction context_type
        metadata_context_types ccid_lists reuse_cis_id p).2.1) ∧
    (configuredPairIfRequired env audio_set_conf direction context_type
        metadata_context_types ccid_lists reuse_cis_id p).1.GetAvailableContexts =
      p.1.GetAvailableContexts ∧
    (configuredPairIfRequired env audio_set_conf direction context_type
        metadata_context_types ccid_lists reuse_cis_id p).2.1.GetAvailableContexts =
      p.2.1.GetAvailableContexts := by
  unfold configuredPairIfRequired
  split
  · exact ⟨id, id, rfl, rfl⟩
  · exact ⟨id, id, rfl, rfl⟩

/-- C18: the second loop of `ConfigureAses` reaches devices that do not advertise
the context. For a group of 2 connected devices neither of which has the
requested context available, so that the first loop visits no device, if the
scenario-coverage check accepts and the calls of `LeAudioDevice::ConfigureAses`
on the two devices succeed for every direction that has requirements, then
`ConfigureAses` of the group hands both devices to it in the second loop, for
each such direction, and returns `true`. -/
theorem ConfigureAses_second_pass (env : Env) (g : LeAudioDeviceGroup)
    (d0 d1 : LeAudioDevice) (audio_set_conf : AudioSetConfiguration) (context_type : Nat)
    (metadata_context_types : BidirectionalPair Nat)
    (ccid_lists : BidirectionalPair (List Nat))
    (hg : g.leAudioDevices_ = [some d0, some d1])
    (h0 : isConnected env d0) (h1 : isConnected env d1)
    (hc0 : AudioContexts.test d0.GetAvailableContexts context_type = false)
    (hc1 : AudioContexts.test d1.GetAvailableContexts context_type = false)
    (hcover : env.check_if_may_cover_scenario audio_set_conf
      (g.num_of_connected env context_type) = true)
    (hsink : audio_set_conf.confs.sink ≠ [] →
      pairSucceeds env audio_set_conf Direction.kLeAudioDirectionSink context_type
        metadata_context_types ccid_lists
        (decide (g.current_state_ = AseState.BTA_LE_AUDIO_ASE_STATE_CODEC_CONFIGURED))
        (d0, d1, ⟨0, 0⟩))
    (hsource : audio_set_conf.confs.source ≠ [] →
      pairSucceeds env audio_set_conf Direction.kLeAudioDirectionSource context_type
        metadata_context_types ccid_lists
        (decide (g.current_state_ = AseState.BTA_LE_AUDIO_ASE_STATE_CODEC_CONFIGURED))
        (configuredPairIfRequired env audio_set_conf Direction.kLeAudioDirectionSink
          context_type metadata_context_types ccid_lists
          (decide (g.current_state_ = AseState.BTA_LE_AUDIO_ASE_STATE_CODEC_CONFIGURED))
          (d0, d1, ⟨0, 0⟩))) :
    g.GetFirstDeviceWithAvailableContext context_type = none ∧
      g.ConfigureAses env audio_set_conf context_type metadata_context_types ccid_lists =
        some (true,
          { g with
            leAudioDevices_ :=
              [some (configuredPairIfRequired env audio_set_conf
                  Direction.kLeAudioDirectionSource context_type metadata_context_types
                  ccid_lists
                  (decide (g.current_state_ = AseState.BTA_LE_AUDIO_ASE_STATE_CODEC_CONFIGURED))
                  (configuredPairIfRequired env audio_set_conf
                    Direction.kLeAudioDirectionSink context_type metadata_context_types
                    ccid_lists
                    (decide (g.current_state_ =
                      AseState.BTA_LE_AUDIO_ASE_STATE_CODEC_CONFIGURED))
                    (d0, d1, ⟨0, 0⟩))).1,
               some (configuredPairIfRequired env audio_set_conf
                  Direction.kLeAudioDirectionSource context_type metadata_context_types
                  ccid_lists
                  (decide (g.current_state_ = AseState.BTA_LE_AUDIO_ASE_STATE_CODEC_CONFIGURED))
                  (configuredPairIfRequired env audio_set_conf
                    Direction.kLeAudioDirectionSink context_type metadata_context_types
                    ccid_lists
                    (decide (g.current_state_ =
                      AseState.BTA_LE_AUDIO_ASE_STATE_CODEC_CONFIGURED))
                    (d0, d1, ⟨0, 0⟩))).2.1]
            configuration_context_type_ := context_type
            metadata_context_type_ := metadata_context_types }) := by
  constructor
  · unfold LeAudioDeviceGroup.GetFirstDeviceWithAvailableContext
    apply findIfFrom_eq_none
    intro j _ m hm
    rw [hg] at hm
    match j, hm with
    | 0, hm =>
      simp only [List.getElem?_cons_zero, Option.some.injEq] at hm
      rw [← hm]
      exact hc0
    | 1, hm =>
      simp only [List.getElem?_cons_succ, List.getElem?_cons_zero, Option.some.injEq] at hm
      rw [← hm]
      exact hc1
    | n + 2, hm => simp at hm
  · obtain ⟨s0, s1, sc0, sc1⟩ := configuredPairIfRequired_shape env audio_set_conf
      Direction.kLeAudioDirectionSink context_type metadata_context_types ccid_lists
      (decide (g.current_state_ = AseState.BTA_LE_AUDIO_ASE_STATE_CODEC_CONFIGURED))
      (d0, d1, ⟨0, 0⟩)
    have hdir1 := configureDirection_pair_if_required env audio_set_conf
      Direction.kLeAudioDirectionSink context_type metadata_context_types ccid_lists
      (decide (g.current_state_ = AseState.BTA_LE_AUDIO_ASE_STATE_CODEC_CONFIGURED)) g d0 d1
      ⟨0, 0⟩ hg h0 h1 hc0 hc1 hsink
    generalize configuredPairIfRequired env audio_set_conf Direction.kLeAudioDirectionSink
      context_type metadata_context_types ccid_lists
      (decide (g.current_state_ = AseState.BTA_LE_AUDIO_ASE_STATE_CODEC_CONFIGURED))
      (d0, d1, ⟨0, 0⟩) = p1 at hdir1 hsource s0 s1 sc0 sc1 ⊢
    have hdir2 := configureDirection_pair_if_required env audio_set_conf
      Direction.kLeAudioDirectionSource context_type metadata_context_types ccid_lists
      (decide (g.current_state_ = AseState.BTA_LE_AUDIO_ASE_STATE_CODEC_CONFIGURED))
      { g with leAudioDevices_ := [some p1.1, some p1.2.1] } p1.1 p1.2.1 p1.2.2
      rfl (s0 h0) (s1 h1) (by rw [sc0]; exact hc0) (by rw [sc1]; exact hc1) hsource
    generalize configuredPairIfRequired env audio_set_conf Direction.kLeAudioDirectionSource
      context_type metadata_context_types ccid_lists
      (decide (g.current_state_ = AseState.BTA_LE_AUDIO_ASE_STATE_CODEC_CONFIGURED))
      (p1.1, p1.2.1, p1.2.2) = p2 at hdir2 ⊢
    unfold LeAudioDeviceGroup.ConfigureAses
    dsimp only
    rw [hcover]
    simp only [Bool.not_true, Bool.false_eq_true, if_false]
    rw [hdir1]
    dsimp only
    rw [hdir2]

/-- C18, `ConfigureAses_second_pass` at the group of two earbuds, neither with
an available context, asked for a configuration with sink requirements: both
earbuds are configured and the call returns `true`. -/
theorem ConfigureAses_second_pass_witness :
    earbudGroup.GetFirstDeviceWithAvailableContext 4 = none ∧
      ∃ g1, earbudGroup.ConfigureAses exampleEnv twoSinksConf 4 ⟨4, 4⟩ ⟨[], []⟩ =
        some (true, g1) :=
  ⟨(ConfigureAses_second_pass exampleEnv earbudGroup earbudDevice secondEarbud twoSinksConf 4
      ⟨4, 4⟩ ⟨[], []⟩ rfl ⟨rfl, by decide⟩ ⟨rfl, by decide⟩ (by decide) (by decide)
      (by decide) (fun _ => ⟨by decide, by decide⟩) (fun h => absurd rfl h)).1,
   _, (ConfigureAses_second_pass exampleEnv earbudGroup earbudDevice secondEarbud twoSinksConf 4
      ⟨4, 4⟩ ⟨[], []⟩ rfl ⟨rfl, by decide⟩ ⟨rfl, by decide⟩ (by decide) (by decide)
      (by decide) (fun _ => ⟨by decide, by decide⟩) (fun h => absurd rfl h)).2⟩

/-! # The round trip of `Configure` and `GetConfiguration` -/

theorem GetConfiguration_of_valid (env : Env) (g : LeAudioDeviceGroup) (context_type : Nat)
    (conf : AudioSetConfigurationPtr)
    (h : cacheAt g.context_to_configuration_cache_map context_type = some (true, some conf))
    (hctx : context_type ≠ env.UNINITIALIZED) :
    g.GetConfiguration env context_type = (some conf, g) := by
  unfold LeAudioDeviceGroup.GetConfiguration LeAudioDeviceGroup.GetCachedConfiguration
  rw [if_neg hctx, h]
  simp [h]

theorem GetConfiguration_some (env : Env) (g : LeAudioDeviceGroup) (context_type : Nat)
    (conf : AudioSetConfigurationPtr)
    (h : (g.GetConfiguration env context_type).1 = some conf) :
    cacheAt (g.GetConfiguration env context_type).2.context_to_configuration_cache_map
        context_type = some (true, some conf) ∧
      context_type ≠ env.UNINITIALIZED := by
  unfold LeAudioDeviceGroup.GetConfiguration at h ⊢
  by_cases hctx : context_type = env.UNINITIALIZED
  · rw [if_pos hctx] at h
    exact absurd h (by simp)
  · rw [if_neg hctx] at h ⊢
    refine ⟨?_, hctx⟩
    dsimp only at h ⊢
    split at h
    · next hupd =>
      rw [if_pos hupd]
      unfold LeAudioDeviceGroup.GetCachedConfiguration at h
      rcases UpdateAudioSetConfigurationCache_self env g context_type with hn | ⟨c, hc⟩
      · rw [hn] at h
        exact absurd h (by simp)
      · rw [hc] at h ⊢
        dsimp only at h
        rw [h]
    · next hupd =>
      rw [if_neg hupd]
      unfold LeAudioDeviceGroup.GetCachedConfiguration at h
      cases hc : cacheAt g.context_to_configuration_cache_map context_type with
      | none =>
        rw [hc] at h
        exact absurd h (by simp)
      | some e =>
        rw [hc] at h hupd
        dsimp only at h hupd
        simp only [Bool.or_eq_true, Bool.not_eq_true', not_or, Bool.not_eq_false] at hupd
        obtain ⟨b, c⟩ := e
        dsimp only at h hupd
        rw [hupd.1, h]

theorem GetConfiguration_other (env : Env) (g : LeAudioDeviceGroup) (context_type k1 : Nat)
    (h : k1 ≠ context_type) :
    cacheAt (g.GetConfiguration env context_type).2.context_to_configuration_cache_map k1 =
      cacheAt g.context_to_configuration_cache_map k1 := by
  unfold LeAudioDeviceGroup.GetConfiguration
  split
  · rfl
  · dsimp only
    split
    · exact UpdateAudioSetConfigurationCache_other env g context_type k1 h
    · rfl

theorem ConfigureAses_cache (env : Env) (g g1 : LeAudioDeviceGroup)
    (audio_set_conf : AudioSetConfiguration) (context_type : Nat)
    (metadata_context_types : BidirectionalPair Nat)
    (ccid_lists : BidirectionalPair (List Nat)) (b : Bool)
    (h : g.ConfigureAses env audio_set_conf context_type metadata_context_types ccid_lists =
      some (b, g1)) :
    g1.context_to_configuration_cache_map = g.context_to_configuration_cache_map ∧
      g1.stream_conf_conf = g.stream_conf_conf := by
  obtain ⟨b2, g2, h2, htrue, hfalse, -⟩ := ConfigureAses_spec env g audio_set_conf
    context_type metadata_context_types ccid_lists
  rw [h] at h2
  simp only [Option.some.injEq, Prod.mk.injEq] at h2
  obtain ⟨e1, e2⟩ := h2
  subst e1
  subst e2
  cases b with
  | true =>
    rw [htrue rfl]
    exact ⟨rfl, rfl⟩
  | false =>
    have := hfalse rfl
    unfold onlyMembersChanged at this
    rw [this]
    exact ⟨rfl, rfl⟩

/-- A `Configure` for a context leaves the cache as its `GetConfiguration`
leaves it. -/
theorem Configure_cache (env : Env) (g : LeAudioDeviceGroup) (context_type : Nat)
    (metadata_context_types : BidirectionalPair Nat)
    (ccid_lists : BidirectionalPair (List Nat)) (r : Bool × LeAudioDeviceGroup)
    (h : g.Configure env context_type metadata_context_types ccid_lists = some r) :
    r.2.context_to_configuration_cache_map =
      (g.GetConfiguration env context_type).2.context_to_configuration_cache_map := by
  unfold LeAudioDeviceGroup.Configure at h
  dsimp only at h
  split at h
  · simp only [Option.some.injEq] at h
    rw [← h]
  · split at h
    · exact absurd h (by simp)
    · next g1 hc =>
      simp only [Option.some.injEq] at h
      rw [← h]
      exact (ConfigureAses_cache env _ g1 _ _ _ _ false hc).1
    · next g1 hc =>
      simp only [Option.some.injEq] at h
      rw [← h]
      exact (ConfigureAses_cache env _ g1 _ _ _ _ true hc).1

theorem applyChange_cache (env : Env) (g : LeAudioDeviceGroup) (change : GroupChange) :
    (applyChange env g change).context_to_configuration_cache_map =
      g.context_to_configuration_cache_map := by
  cases change with
  | AddNode d => rfl
  | RemoveNode k =>
    simp only [applyChange, LeAudioDeviceGroup.RemoveNode]
    cases hk : g.leAudioDevices_[k]? with
    | none => rfl
    | some m =>
      cases m with
      | none => rfl
      | some d => rfl
  | ReloadAudioLocations =>
    simp only [applyChange, LeAudioDeviceGroup.ReloadAudioLocations]
    split <;> rfl

/-- A valid entry with a configuration stays in the cache over every call that
is not an invalidation. -/
theorem applyLaterCall_valid (env : Env) (g : LeAudioDeviceGroup) (call : LaterCall)
    (context_type : Nat) (conf : AudioSetConfigurationPtr)
    (h : cacheAt g.context_to_configuration_cache_map context_type = some (true, some conf))
    (hctx : context_type ≠ env.UNINITIALIZED) :
    cacheAt (applyLaterCall env g call).context_to_configuration_cache_map context_type =
      some (true, some conf) := by
  have hget : ∀ c2 : Nat,
      cacheAt (g.GetConfiguration env c2).2.context_to_configuration_cache_map context_type =
        some (true, some conf) := by
    intro c2
    by_cases hc : context_type = c2
    · subst hc
      rw [GetConfiguration_of_valid env g context_type conf h hctx]
      exact h
    · rw [GetConfiguration_other env g c2 context_type hc]
      exact h
  cases call with
  | GetConfiguration c2 => exact hget c2
  | Configure c2 m l =>
    simp only [applyLaterCall]
    cases hc : g.Configure env c2 m l with
    | none => exact h
    | some r =>
      dsimp only
      rw [Configure_cache env g c2 m l r hc]
      exact hget c2
  | Change change =>
    simp only [applyLaterCall]
    rw [applyChange_cache]
    exact h

theorem applyLaterCalls_valid (env : Env) (g : LeAudioDeviceGroup) (calls : List LaterCall)
    (context_type : Nat) (conf : AudioSetConfigurationPtr)
    (h : cacheAt g.context_to_configuration_cache_map context_type = some (true, some conf))
    (hctx : context_type ≠ env.UNINITIALIZED) :
    cacheAt (applyLaterCalls env g calls).context_to_configuration_cache_map context_type =
      some (true, some conf) := by
  induction calls generalizing g with
  | nil => exact h
  | cons c rest ih =>
    unfold applyLaterCalls
    rw [List.foldl_cons]
    exact ih (applyLaterCall env g c) (applyLaterCall_valid env g c context_type conf h hctx)

/-! # `GetPresentationDelay` runs over the active ASEs of the direction -/

theorem flatMap_drop_skip {α β : Type} (f : α → List β) (l : List α) :
    ∀ (n s : Nat), (∀ (m : Nat) (x : α), s ≤ m → m < s + n → l[m]? = some x → f x = []) →
      (l.drop s).flatMap f = (l.drop (s + n)).flatMap f := by
  intro n
  induction n with
  | zero => intro s _; rfl
  | succ n ih =>
    intro s h
    by_cases hs : s < l.length
    · rw [List.drop_eq_getElem_cons hs, List.flatMap_cons,
        h s l[s] (le_refl _) (by omega) (List.getElem?_eq_getElem hs), List.nil_append,
        ih (s + 1) (fun m x h1 h2 hx => h m x (by omega) (by omega) hx)]
      congr 2
      omega
    · rw [List.drop_eq_nil_of_le (by omega), List.drop_eq_nil_of_le (by omega)]

theorem flatMap_drop_of_findIfFrom_some {α β : Type} (f : α → List β) (q : α → Bool)
    (hq : ∀ x, q x = false → f x = []) (l : List α) (s j : Nat)
    (h : findIfFrom q l s = some j) :
    (l.drop s).flatMap f = (l.drop j).flatMap f := by
  obtain ⟨hsj, -, -, hmin⟩ := findIfFrom_some h
  have := flatMap_drop_skip f l (j - s) s
    (fun m x h1 h2 hx => hq x (hmin m h1 (by omega) x hx))
  rw [this]
  congr 2
  omega

theorem flatMap_drop_of_findIfFrom_none {α β : Type} (f : α → List β) (q : α → Bool)
    (hq : ∀ x, q x = false → f x = []) (l : List α) (s : Nat)
    (h : findIfFrom q l s = none) :
    (l.drop s).flatMap f = [] := by
  have := flatMap_drop_skip f l l.length s
    (fun m x h1 _ hx => hq x (findIfFrom_none h m h1 x hx))
  rw [this, List.drop_eq_nil_of_le (by omega)]
  rfl

theorem filter_eq_flatMap {α : Type} (p : α → Bool) (l : List α) :
    l.filter p = l.flatMap (fun a => if p a = true then [a] else []) := by
  induction l with
  | nil => rfl
  | cons a rest ih =>
    rw [List.flatMap_cons, ← ih]
    by_cases hp : p a = true
    · rw [List.filter_cons_of_pos hp, if_pos hp]
      rfl
    · rw [List.filter_cons_of_neg hp, if_neg hp]
      rfl

theorem filter_drop_of_findIfFrom_some {α : Type} (p : α → Bool) (l : List α) (s j : Nat)
    (h : findIfFrom p l s = some j) :
    (l.drop s).filter p = (l.drop j).filter p := by
  rw [filter_eq_flatMap, filter_eq_flatMap]
  exact flatMap_drop_of_findIfFrom_some _ p (fun x hx => by simp [hx]) l s j h

theorem filter_drop_of_findIfFrom_none {α : Type} (p : α → Bool) (l : List α) (s : Nat)
    (h : findIfFrom p l s = none) :
    (l.drop s).filter p = [] := by
  rw [filter_eq_flatMap]
  exact flatMap_drop_of_findIfFrom_none _ p (fun x hx => by simp [hx]) l s h

theorem presentationDelayFold_append (env : Env) (l1 l2 : List ase)
    (r : PresentationDelayRange) :
    presentationDelayFold env (l1 ++ l2) r =
      (presentationDelayFold env l1 r).bind (presentationDelayFold env l2) := by
  induction l1 generalizing r with
  | nil => rfl
  | cons a rest ih =>
    rw [List.cons_append]
    rw [show presentationDelayFold env (a :: (rest ++ l2)) r =
        (match presentationDelayStep env a r with
          | none => none
          | some r1 => presentationDelayFold env (rest ++ l2) r1) from rfl,
      show presentationDelayFold env (a :: rest) r =
        (match presentationDelayStep env a r with
          | none => none
          | some r1 => presentationDelayFold env rest r1) from rfl]
    cases presentationDelayStep env a r with
    | none => rfl
    | some r1 => exact ih r1

theorem presentationDelayAseLoop_eq (env : Env) (d : LeAudioDevice) (direction : Direction) :
    ∀ (fuel i : Nat) (r : PresentationDelayRange) (a : ase),
      d.ases_[i]? = some a → (a.active && decide (a.direction = direction)) = true →
      d.ases_.length ≤ i + fuel →
      presentationDelayAseLoop env d fuel i r =
        some (presentationDelayFold env
          ((d.ases_.drop i).filter (fun a => a.active && decide (a.direction = direction)))
          r) := by
  intro fuel
  induction fuel with
  | zero =>
    intro i r a ha _ hlen
    have := lt_of_getElem_some ha
    omega
  | succ fuel ih =>
    intro i r a ha hp hlen
    have hi := lt_of_getElem_some ha
    have hai : d.ases_[i] = a := by
      rw [List.getElem?_eq_getElem hi] at ha
      simpa using ha
    have hdir : a.direction = direction := by
      simp only [Bool.and_eq_true, decide_eq_true_eq] at hp
      exact hp.2
    unfold presentationDelayAseLoop
    rw [ha, List.drop_eq_getElem_cons hi, hai,
      List.filter_cons_of_pos
        (p := fun (a : ase) => a.active && decide (a.direction = direction)) hp]
    dsimp only
    rw [show presentationDelayFold env
        (a :: (d.ases_.drop (i + 1)).filter
          (fun a => a.active && decide (a.direction = direction))) r =
        (match presentationDelayStep env a r with
          | none => none
          | some r1 => presentationDelayFold env
              ((d.ases_.drop (i + 1)).filter
                (fun a => a.active && decide (a.direction = direction))) r1) from rfl]
    cases hstep : presentationDelayStep env a r with
    | none => rfl
    | some r1 =>
      dsimp only
      unfold LeAudioDevice.GetNextActiveAseWithSameDirection
      rw [ha]
      dsimp only
      rw [hdir]
      cases hnext : findIfFrom (fun a => a.active && decide (a.direction = direction))
          d.ases_ (i + 1) with
      | none =>
        rw [filter_drop_of_findIfFrom_none _ _ _ hnext]
        rfl
      | some j =>
        obtain ⟨hij, -, ⟨b, hb, hpb⟩, -⟩ := findIfFrom_some hnext
        rw [filter_drop_of_findIfFrom_some _ _ _ _ hnext]
        exact ih j r1 b hb hpb (by omega)

theorem activeAsesOfMember_of_inactive (direction : Direction) (m : Option LeAudioDevice)
    (h : isActiveMember m = false) : activeAsesOfMember direction m = [] := by
  cases m with
  | none => rfl
  | some d =>
    unfold activeAsesOfMember
    dsimp only
    rw [List.filter_eq_nil_iff]
    intro a ha
    obtain ⟨n, hn, hget⟩ := List.getElem_of_mem ha
    have := inactive_of_not_isActiveMember d h n a
      (by rw [List.getElem?_eq_getElem hn, hget])
    simp [this]

theorem presentationDelayDeviceLoop_eq (env : Env) (g : LeAudioDeviceGroup)
    (direction : Direction) :
    ∀ (fuel k : Nat) (r : PresentationDelayRange) (m : Option LeAudioDevice),
      g.leAudioDevices_[k]? = some m → isActiveMember m = true →
      g.leAudioDevices_.length ≤ k + fuel →
      presentationDelayDeviceLoop env g direction fuel k r =
        some (presentationDelayFold env
          ((g.leAudioDevices_.drop k).flatMap (activeAsesOfMember direction)) r) := by
  intro fuel
  induction fuel with
  | zero =>
    intro k r m hm _ hlen
    have := lt_of_getElem_some hm
    omega
  | succ fuel ih =>
    intro k r m hm hact hlen
    have hk := lt_of_getElem_some hm
    cases m with
    | none => simp [isActiveMember] at hact
    | some d =>
      have hmk : g.leAudioDevices_[k] = some d := by
        rw [List.getElem?_eq_getElem hk] at hm
        simpa using hm
      have hnext : ∀ r1 : PresentationDelayRange,
          (match g.GetNextActiveDevice k with
            | none => some (some r1)
            | some k1 => presentationDelayDeviceLoop env g direction fuel k1 r1) =
          some (presentationDelayFold env
            ((g.leAudioDevices_.drop (k + 1)).flatMap (activeAsesOfMember direction)) r1) := by
        intro r1
        unfold LeAudioDeviceGroup.GetNextActiveDevice
        cases hn : findIfFrom isActiveMember g.leAudioDevices_ (k + 1) with
        | none =>
          rw [flatMap_drop_of_findIfFrom_none _ isActiveMember
            (activeAsesOfMember_of_inactive direction) _ _ hn]
          rfl
        | some k1 =>
          obtain ⟨hkk, -, ⟨m1, hm1, hact1⟩, -⟩ := findIfFrom_some hn
          rw [flatMap_drop_of_findIfFrom_some _ isActiveMember
            (activeAsesOfMember_of_inactive direction) _ _ _ hn]
          exact ih k1 r1 m1 hm1 hact1 (by omega)
      unfold presentationDelayDeviceLoop
      rw [hm, List.drop_eq_getElem_cons hk, hmk, List.flatMap_cons,
        presentationDelayFold_append]
      dsimp only
      unfold LeAudioDevice.GetFirstActiveAseByDirection
      cases hfirst : findIfFrom (fun a => a.active && decide (a.direction = direction))
          d.ases_ 0 with
      | none =>
        have hnil : activeAsesOfMember direction (some d) = [] := by
          have := filter_drop_of_findIfFrom_none _ _ _ hfirst
          rw [List.drop_zero] at this
          exact this
        rw [hnil]
        exact hnext r
      | some i =>
        obtain ⟨-, -, ⟨a, ha, hp⟩, -⟩ := findIfFrom_some hfirst
        have hall : activeAsesOfMember direction (some d) =
            (d.ases_.drop i).filter (fun a => a.active && decide (a.direction = direction)) := by
          have := filter_drop_of_findIfFrom_some _ _ _ _ hfirst
          rw [List.drop_zero] at this
          exact this
        dsimp only
        rw [presentationDelayAseLoop_eq env d direction d.ases_.length i r a ha hp (by omega),
          hall]
        cases presentationDelayFold env
            ((d.ases_.drop i).filter (fun a => a.active && decide (a.direction = direction)))
            r with
        | none => rfl
        | some r1 => exact hnext r1

/-- With an active member in the group, `GetPresentationDelay` returns, and its
result is that of the loop body run over the active ASEs of the direction. -/
theorem GetPresentationDelay_eq (env : Env) (g : LeAudioDeviceGroup) (direction : Direction)
    (hactive : g.GetFirstActiveDevice ≠ none) :
    g.GetPresentationDelay env direction =
      some ((presentationDelayFold env (activeAsesOf direction g)
        { delay_min := 0, delay_max := UINT32_MAX, preferred_delay_min := 0
          preferred_delay_max := UINT32_MAX }).map chosenPresentationDelay) := by
  unfold LeAudioDeviceGroup.GetPresentationDelay
  dsimp only
  cases hfirst : g.GetFirstActiveDevice with
  | none => exact absurd hfirst hactive
  | some k =>
    obtain ⟨-, -, ⟨m, hm, hact⟩, -⟩ := findIfFrom_some hfirst
    have hskip := flatMap_drop_of_findIfFrom_some (activeAsesOfMember direction)
      isActiveMember (activeAsesOfMember_of_inactive direction) _ _ _ hfirst
    rw [List.drop_zero] at hskip
    dsimp only
    rw [presentationDelayDeviceLoop_eq env g direction g.leAudioDevices_.length k _ m hm hact
      (by omega)]
    unfold activeAsesOf
    rw [hskip]
    cases presentationDelayFold env
        ((g.leAudioDevices_.drop k).flatMap (activeAsesOfMember direction))
        { delay_min := 0, delay_max := UINT32_MAX, preferred_delay_min := 0
          preferred_delay_max := UINT32_MAX } <;> rfl

/-! # `GetPresentationDelay`: the common range of the windows -/

theorem presentationDelayFold_none_iff (env : Env) (l : List ase) :
    ∀ r : PresentationDelayRange, r.delay_min ≤ r.delay_max →
      (∀ a : ase, a ∈ l →
        a.qos_preferences.pres_delay_min ≤ a.qos_preferences.pres_delay_max) →
      (presentationDelayFold env l r = none ↔
        ¬ ∃ x, r.delay_min ≤ x ∧ x ≤ r.delay_max ∧ ∀ a : ase, a ∈ l → inWindow x a) := by
  induction l with
  | nil =>
    intro r hr _
    constructor
    · intro h
      simp [presentationDelayFold] at h
    · intro h
      exact absurd ⟨r.delay_min, le_refl _, hr, fun a ha => absurd ha (List.not_mem_nil a)⟩ h
  | cons a rest ih =>
    intro r hr hwin
    have hawin := hwin a (List.mem_cons_self _ _)
    have hrest : ∀ b : ase, b ∈ rest →
        b.qos_preferences.pres_delay_min ≤ b.qos_preferences.pres_delay_max :=
      fun b hb => hwin b (List.mem_cons_of_mem _ hb)
    rw [show presentationDelayFold env (a :: rest) r =
        (match presentationDelayStep env a r with
          | none => none
          | some r1 => presentationDelayFold env rest r1) from rfl]
    unfold presentationDelayStep
    by_cases hdis : a.qos_preferences.pres_delay_min > r.delay_max ∨
        a.qos_preferences.pres_delay_max < r.delay_min
    · rw [if_pos hdis]
      constructor
      · intro _
        rintro ⟨x, h1, h2, h3⟩
        have := h3 a (List.mem_cons_self _ _)
        unfold inWindow at this
        omega
      · intro _
        rfl
    · rw [if_neg hdis]
      dsimp only
      rw [ih _ (by dsimp only; split_ifs <;> omega) hrest]
      dsimp only
      constructor
      · intro h
        rintro ⟨x, h1, h2, h3⟩
        apply h
        have hx := h3 a (List.mem_cons_self _ _)
        unfold inWindow at hx
        refine ⟨x, ?_, ?_, fun b hb => h3 b (List.mem_cons_of_mem _ hb)⟩
        · split_ifs <;> omega
        · split_ifs <;> omega
      · intro h
        rintro ⟨x, h1, h2, h3⟩
        apply h
        refine ⟨x, ?_, ?_, ?_⟩
        · split_ifs at h1 <;> omega
        · split_ifs at h2 <;> omega
        · intro b hb
          rcases List.mem_cons.mp hb with rfl | hb
          · unfold inWindow
            constructor
            · split_ifs at h1 <;> omega
            · split_ifs at h2 <;> omega
          · exact h3 b hb

/-- C19: for every group with an active device and every direction, if the
window of each active ASE of that direction satisfies `pres_delay_min <=
pres_delay_max` (both `uint32_t` values), then `GetPresentationDelay` returns,
and it returns `false` if and only if no delay lies in the window of every
active ASE of that direction. -/
theorem GetPresentationDelay_false_iff (env : Env) (g : LeAudioDeviceGroup)
    (direction : Direction) (hactive : g.GetFirstActiveDevice ≠ none)
    (hwin : ∀ a : ase, a ∈ activeAsesOf direction g → properWindow a) :
    (∃ r, g.GetPresentationDelay env direction = some r) ∧
      (g.GetPresentationDelay env direction = some none ↔
        ¬ ∃ x, ∀ a : ase, a ∈ activeAsesOf direction g → inWindow x a) := by
  rw [GetPresentationDelay_eq env g direction hactive]
  refine ⟨⟨_, rfl⟩, ?_⟩
  have hiff := presentationDelayFold_none_iff env (activeAsesOf direction g)
    { delay_min := 0, delay_max := UINT32_MAX, preferred_delay_min := 0
      preferred_delay_max := UINT32_MAX } (Nat.zero_le _) (fun a ha => (hwin a ha).1)
  dsimp only at hiff
  constructor
  · intro h
    have hnone : presentationDelayFold env (activeAsesOf direction g)
        { delay_min := 0, delay_max := UINT32_MAX, preferred_delay_min := 0
          preferred_delay_max := UINT32_MAX } = none := by
      cases hf : presentationDelayFold env (activeAsesOf direction g)
          { delay_min := 0, delay_max := UINT32_MAX, preferred_delay_min := 0
            preferred_delay_max := UINT32_MAX } with
      | none => rfl
      | some r =>
        rw [hf] at h
        simp at h
    rintro ⟨x, hx⟩
    apply hiff.mp hnone
    cases hl : activeAsesOf direction g with
    | nil => exact ⟨0, le_refl _, Nat.zero_le _, fun a ha => absurd ha (List.not_mem_nil a)⟩
    | cons a rest =>
      have ha : a ∈ activeAsesOf direction g := by rw [hl]; exact List.mem_cons_self _ _
      have h1 := hx a ha
      have h2 := (hwin a ha).2
      refine ⟨x, Nat.zero_le _, le_trans h1.2 h2, ?_⟩
      intro b hb
      exact hx b (by rw [hl]; exact hb)
  · intro h
    have hnone := hiff.mpr (fun ⟨x, _, _, hx⟩ => h ⟨x, hx⟩)
    rw [hnone]
    rfl

/-- C19, `GetPresentationDelay_false_iff` at a group of two devices whose active
sink ASEs have the windows 10 to 20 and 30 to 40: the call returns `false`, and
no delay lies in both windows. -/
theorem GetPresentationDelay_false_iff_witness :
    disjointWindowsGroup.GetPresentationDelay exampleEnv Direction.kLeAudioDirectionSink =
        some none ∧
      ¬ ∃ x, ∀ a : ase,
        a ∈ activeAsesOf Direction.kLeAudioDirectionSink disjointWindowsGroup → inWindow x a :=
  ⟨by decide,
   (GetPresentationDelay_false_iff exampleEnv disjointWindowsGroup
      Direction.kLeAudioDirectionSink (by decide) (by decide)).2.mp (by decide)⟩

/-! # `GetPresentationDelay`: the delay chosen for two ASEs -/

theorem GetFirstActiveDevice_of_activeAses (g : LeAudioDeviceGroup) (direction : Direction)
    (h : activeAsesOf direction g ≠ []) : g.GetFirstActiveDevice ≠ none := by
  intro hnone
  apply h
  have := flatMap_drop_of_findIfFrom_none (activeAsesOfMember direction) isActiveMember
    (activeAsesOfMember_of_inactive direction) g.leAudioDevices_ 0 hnone
  rw [List.drop_zero] at this
  exact this

theorem presentationDelayStep_first (env : Env) (a : ase) (ha : uint32Preferences a) :
    presentationDelayStep env a
        { delay_min := 0, delay_max := UINT32_MAX, preferred_delay_min := 0
          preferred_delay_max := UINT32_MAX } =
      some
        { delay_min := a.qos_preferences.pres_delay_min
          delay_max := a.qos_preferences.pres_delay_max
          preferred_delay_min := a.qos_preferences.preferred_pres_delay_min
          preferred_delay_max := statedPreferredMax env a } := by
  obtain ⟨h1, h2, h3, h4⟩ := ha
  unfold presentationDelayStep statedPreferredMax
  dsimp only
  rw [if_neg (by omega)]
  simp only [Option.some.injEq, PresentationDelayRange.mk.injEq]
  refine ⟨?_, ?_, ?_, ?_⟩
  · split_ifs <;> omega
  · split_ifs <;> omega
  · split_ifs <;> omega
  · by_cases hno : a.qos_preferences.preferred_pres_delay_max = env.kPresDelayNoPreference
    · rw [if_neg (fun h => h.2 hno), if_pos hno]
    · rw [if_neg hno]
      split_ifs <;> omega

theorem presentationDelayStep_second (env : Env) (a b : ase) (ha : uint32Preferences a)
    (hb : uint32Preferences b)
    (hoverlap : max a.qos_preferences.pres_delay_min b.qos_preferences.pres_delay_min ≤
      min a.qos_preferences.pres_delay_max b.qos_preferences.pres_delay_max) :
    presentationDelayStep env b
        { delay_min := a.qos_preferences.pres_delay_min
          delay_max := a.qos_preferences.pres_delay_max
          preferred_delay_min := a.qos_preferences.preferred_pres_delay_min
          preferred_delay_max := statedPreferredMax env a } =
      some
        { delay_min :=
            max a.qos_preferences.pres_delay_min b.qos_preferences.pres_delay_min
          delay_max :=
            min a.qos_preferences.pres_delay_max b.qos_preferences.pres_delay_max
          preferred_delay_min :=
            max a.qos_preferences.preferred_pres_delay_min
              b.qos_preferences.preferred_pres_delay_min
          preferred_delay_max := min (statedPreferredMax env a) (statedPreferredMax env b) } := by
  obtain ⟨h1, h2, h3, h4⟩ := ha
  obtain ⟨k1, k2, k3, k4⟩ := hb
  have hsa : statedPreferredMax env a ≤ UINT32_MAX := by
    unfold statedPreferredMax
    split_ifs <;> omega
  have hlo := le_max_left a.qos_preferences.pres_delay_min b.qos_preferences.pres_delay_min
  have hlo2 := le_max_right a.qos_preferences.pres_delay_min b.qos_preferences.pres_delay_min
  have hhi := min_le_left a.qos_preferences.pres_delay_max b.qos_preferences.pres_delay_max
  have hhi2 := min_le_right a.qos_preferences.pres_delay_max b.qos_preferences.pres_delay_max
  unfold presentationDelayStep
  dsimp only
  rw [if_neg (by omega)]
  simp only [Option.some.injEq, PresentationDelayRange.mk.injEq]
  refine ⟨?_, ?_, ?_, ?_⟩
  · rw [max_def]
    split_ifs <;> omega
  · rw [min_def]
    split_ifs <;> omega
  · rw [max_def]
    split_ifs <;> omega
  · by_cases hno : b.qos_preferences.preferred_pres_delay_max = env.kPresDelayNoPreference
    · rw [if_neg (fun h => h.2 hno)]
      have : statedPreferredMax env b = UINT32_MAX := by
        unfold statedPreferredMax
        rw [if_pos hno]
      rw [this, min_def]
      split_ifs <;> omega
    · have : statedPreferredMax env b = b.qos_preferences.preferred_pres_delay_max := by
        unfold statedPreferredMax
        rw [if_neg hno]
      rw [this, min_def]
      split_ifs <;> omega

/-- C20 (as amended): for a group whose active ASEs of one direction are two
ASEs with overlapping windows (all bounds `uint32_t` values),
`GetPresentationDelay` succeeds, and the delay is the higher
`preferred_pres_delay_min` whenever that value lies strictly inside the
intersection of the windows and is not above the lowest
`preferred_pres_delay_max` the two ASEs state (the no-preference value states
none), and the lower bound of the intersection otherwise. -/
theorem GetPresentationDelay_two_ases (env : Env) (g : LeAudioDeviceGroup)
    (direction : Direction) (a b : ase)
    (hases : activeAsesOf direction g = [a, b])
    (ha : uint32Preferences a) (hb : uint32Preferences b)
    (hoverlap : max a.qos_preferences.pres_delay_min b.qos_preferences.pres_delay_min ≤
      min a.qos_preferences.pres_delay_max b.qos_preferences.pres_delay_max) :
    g.GetPresentationDelay env direction =
      some (some
        (if max a.qos_preferences.preferred_pres_delay_min
              b.qos_preferences.preferred_pres_delay_min ≤
              min (statedPreferredMax env a) (statedPreferredMax env b) ∧
            max a.qos_preferences.preferred_pres_delay_min
              b.qos_preferences.preferred_pres_delay_min >
              max a.qos_preferences.pres_delay_min b.qos_preferences.pres_delay_min ∧
            max a.qos_preferences.preferred_pres_delay_min
              b.qos_preferences.preferred_pres_delay_min <
              min a.qos_preferences.pres_delay_max b.qos_preferences.pres_delay_max then
          max a.qos_preferences.preferred_pres_delay_min
            b.qos_preferences.preferred_pres_delay_min
        else max a.qos_preferences.pres_delay_min b.qos_preferences.pres_delay_min)) := by
  have hactive := GetFirstActiveDevice_of_activeAses g direction
    (by rw [hases]; exact List.cons_ne_nil _ _)
  rw [GetPresentationDelay_eq env g direction hactive, hases]
  rw [show presentationDelayFold env [a, b]
      { delay_min := 0, delay_max := UINT32_MAX, preferred_delay_min := 0
        preferred_delay_max := UINT32_MAX } =
      (match presentationDelayStep env a
          { delay_min := 0, delay_max := UINT32_MAX, preferred_delay_min := 0
            preferred_delay_max := UINT32_MAX } with
        | none => none
        | some r1 =>
          match presentationDelayStep env b r1 with
          | none => none
          | some r2 => some r2) from rfl]
  rw [presentationDelayStep_first env a ha]
  dsimp only
  rw [presentationDelayStep_second env a b ha hb hoverlap]
  rfl

/-- C20, `GetPresentationDelay_two_ases` at a group of two devices whose active
sink ASEs share the window 0 to 100 and prefer 10 to 50 and 30 to 40: the
delay is 30, the higher preferred minimum. -/
theorem GetPresentationDelay_two_ases_witness :
    preferencesMeetGroup.GetPresentationDelay exampleEnv Direction.kLeAudioDirectionSink =
      some (some 30) :=
  (GetPresentationDelay_two_ases exampleEnv preferencesMeetGroup
    Direction.kLeAudioDirectionSink (delayAse 1 0 100 10 50) (delayAse 1 0 100 30 40)
    (by decide) (by decide) (by decide) (by decide)).trans (by decide)

/-- C20, counterexample to the claim as stated: the two active sink ASEs of the
group share the window 0 to 100 and prefer 10 to 20 and 30 to 40; the higher
preferred minimum, 30, lies strictly inside the intersection of the windows,
but the delay returned is 0, the lower bound of the intersection. -/
theorem GetPresentationDelay_preferences_apart :
    activeAsesOf Direction.kLeAudioDirectionSink preferencesApartGroup =
        [delayAse 1 0 100 10 20, delayAse 1 0 100 30 40] ∧
      max (delayAse 1 0 100 10 20).qos_preferences.pres_delay_min
          (delayAse 1 0 100 30 40).qos_preferences.pres_delay_min <
        max (delayAse 1 0 100 10 20).qos_preferences.preferred_pres_delay_min
          (delayAse 1 0 100 30 40).qos_preferences.preferred_pres_delay_min ∧
      max (delayAse 1 0 100 10 20).qos_preferences.preferred_pres_delay_min
          (delayAse 1 0 100 30 40).qos_preferences.preferred_pres_delay_min <
        min (delayAse 1 0 100 10 20).qos_preferences.pres_delay_max
          (delayAse 1 0 100 30 40).qos_preferences.pres_delay_max ∧
      preferencesApartGroup.GetPresentationDelay exampleEnv Direction.kLeAudioDirectionSink ≠
        some (some (max (delayAse 1 0 100 10 20).qos_preferences.preferred_pres_delay_min
          (delayAse 1 0 100 30 40).qos_preferences.preferred_pres_delay_min)) ∧
      preferencesApartGroup.GetPresentationDelay exampleEnv Direction.kLeAudioDirectionSink =
        some (some 0) := by
  decide

/-! # The membership queries and expired references -/

/-- The function `NumOfConnected` is the count of its predicate, also for the
group without members. -/
theorem NumOfConnected_eq_countP (env : Env) (g : LeAudioDeviceGroup) (context_type : Nat) :
    g.NumOfConnected env context_type =
      ((g.leAudioDevices_.countP
        (countsAsConnected env (decide (context_type ≠ env.RFU)) context_type) : Nat) : Int) := by
  unfold LeAudioDeviceGroup.NumOfConnected
  split
  · rename_i h
    have hnil : g.leAudioDevices_ = [] := List.isEmpty_iff.mp h
    simp [hnil]
  · rfl

/-- With the check of the context, the predicate of `NumOfConnected` holds of
the connected members that support the context. -/
theorem countsAsConnected_checked (env : Env) (context_type : Nat)
    (m : Option LeAudioDevice) :
    countsAsConnected env true context_type m =
      (connectedMember env m && supportsContext context_type m) := by
  cases m with
  | none => rfl
  | some d =>
    simp only [countsAsConnected, connectedMember, supportsContext, AudioContexts.test_any,
      LeAudioDevice.GetSupportedContexts]
    by_cases h1 : d.conn_id_ = env.GATT_INVALID_CONN_ID <;>
      by_cases h2 : d.connection_state_ = DeviceConnectState.CONNECTED <;>
      simp [h1, h2]

/-- Without the check of the context, the predicate of `NumOfConnected` holds
of the connected members. -/
theorem countsAsConnected_unchecked (env : Env) (context_type : Nat)
    (m : Option LeAudioDevice) :
    countsAsConnected env false context_type m = connectedMember env m := by
  cases m with
  | none => rfl
  | some d =>
    simp only [countsAsConnected, connectedMember]
    by_cases h1 : d.conn_id_ = env.GATT_INVALID_CONN_ID <;>
      by_cases h2 : d.connection_state_ = DeviceConnectState.CONNECTED <;>
      simp [h1, h2]

/-- The members counted for a context are counted without a context as well. -/
theorem countsAsConnected_mono (env : Env) (check : Bool) (context_type : Nat)
    (m : Option LeAudioDevice) (h : countsAsConnected env check context_type m = true) :
    connectedMember env m = true := by
  cases check with
  | false => rwa [countsAsConnected_unchecked] at h
  | true =>
    rw [countsAsConnected_checked, Bool.and_eq_true] at h
    exact h.1

/-- C26: for a context other than the reserved RFU value, `NumOfConnected(context)`
is the number of members that are not expired, have a valid connection id, are
in the state `CONNECTED` and whose supported contexts intersect the context;
`NumOfConnected()`, the call with RFU, is the number of connected members;
`NumOfConnected(context) <= NumOfConnected() <= Size()`, and a group without
members yields 0. -/
theorem NumOfConnected_counts (env : Env) (g : LeAudioDeviceGroup) (context_type : Nat) :
    (context_type ≠ env.RFU →
      g.NumOfConnected env context_type =
        (((g.leAudioDevices_.filter
          (fun m => connectedMember env m && supportsContext context_type m)).length : Nat) :
          Int)) ∧
    g.NumOfConnected env env.RFU =
      (((g.leAudioDevices_.filter (connectedMember env)).length : Nat) : Int) ∧
    g.NumOfConnected env context_type ≤ g.NumOfConnected env env.RFU ∧
    g.NumOfConnected env env.RFU ≤ g.Size ∧
    (g.leAudioDevices_ = [] → g.NumOfConnected env context_type = 0) := by
  have hall : g.NumOfConnected env env.RFU =
      ((g.leAudioDevices_.countP (connectedMember env) : Nat) : Int) := by
    rw [NumOfConnected_eq_countP]
    have hd : decide (env.RFU ≠ env.RFU) = false := by simp
    rw [hd]
    congr 1
    exact List.countP_congr (fun m _ => by rw [countsAsConnected_unchecked])
  refine ⟨?_, ?_, ?_, ?_, ?_⟩
  · intro hne
    rw [NumOfConnected_eq_countP]
    have hd : decide (context_type ≠ env.RFU) = true := by simp [hne]
    rw [hd, ← List.countP_eq_length_filter]
    congr 1
    exact List.countP_congr (fun m _ => by rw [countsAsConnected_checked])
  · rw [hall, List.countP_eq_length_filter]
  · rw [hall, NumOfConnected_eq_countP]
    exact_mod_cast List.countP_mono_left
      (fun m _ h => countsAsConnected_mono env _ context_type m h)
  · rw [hall]
    unfold LeAudioDeviceGroup.Size
    exact_mod_cast List.countP_le_length _
  · intro hnil
    rw [NumOfConnected_eq_countP, hnil]
    rfl

/-- C26, `NumOfConnected_counts` at a group of a connected member that supports
the context of bit 2, an expired reference, a connected member that supports no
context and a member without a valid connection id: one member is counted for
the context 4, none for the context 8, two without a context. -/
theorem NumOfConnected_counts_witness :
    mixedGroup.NumOfConnected exampleEnv 4 = 1 ∧
      mixedGroup.NumOfConnected exampleEnv 8 = 0 ∧
      mixedGroup.NumOfConnected exampleEnv exampleEnv.RFU = 2 ∧
      mixedGroup.Size = 4 :=
  ⟨((NumOfConnected_counts exampleEnv mixedGroup 4).1 (by decide)).trans (by decide),
   by decide, by decide, by decide⟩

/-- C27: in a group of three references whose second is expired,
`GetFirstDevice` returns the first member and `GetNextDevice` of the first
member returns null, although the third reference is a live member that
follows it: the iteration visits the first member only. -/
theorem GetNextDevice_stops_at_expired :
    gapGroup.GetFirstDeviceIndex = some 0 ∧
      gapGroup.GetNextDevice 0 = none ∧
      gapGroup.leAudioDevices_[2]? = some (some secondEarbud) ∧
      visitedMembers gapGroup = [0] ∧
      liveMembers gapGroup = [earbudDevice, secondEarbud] := by
  decide

/-- C28: in a group of an earbud with one sink ASE and an expired reference,
`GetAseCount` dereferences the expired reference and has no result, where the
sum over the members that are not expired is 1. -/
theorem GetAseCount_dereferences_expired :
    expiredTailGroup.GetAseCount Direction.kLeAudioDirectionSink = none ∧
      ((liveMembers expiredTailGroup).map
        (fun d => d.GetAseCount Direction.kLeAudioDirectionSink)).sum = 1 := by
  decide

/-- The loop over copies of the ASEs in `RemoveNode` leaves the ASEs of the
device as they are. -/
theorem removeNodeAseLoop_eq (l : List ase) : removeNodeAseLoop l = l := by
  induction l with
  | nil => rfl
  | cons a rest ih => simp only [removeNodeAseLoop, ih]

/-- C25: `RemoveNode` of the only member of a group, an earbud whose ASE is
active and holds the connection handle 7: the group is left without members
and the device gets the unknown group id, but its ASE is still active and
still holds the handle 7. -/
theorem RemoveNode_keeps_ases :
    streamingGroup.RemoveNode exampleEnv 0 =
        some ({ streamingGroup with leAudioDevices_ := [] },
              { streamingEarbud with group_id_ := exampleEnv.kGroupUnknown }) ∧
      (streamingEarbud.ases_.map (fun a => (a.active, a.cis_conn_hdl))) = [(true, 7)] := by
  decide

/-! # The registry of groups -/

/-- The function `FindById` is null exactly for the ids that no group of the
registry has. -/
theorem FindById_eq_none_iff (r : LeAudioDeviceGroups) (group_id : Int) :
    r.FindById group_id = none ↔ group_id ∉ r.GetGroupsIds := by
  unfold LeAudioDeviceGroups.FindById LeAudioDeviceGroups.GetGroupsIds
  constructor
  · intro h hmem
    obtain ⟨group, hin, hid⟩ := List.mem_map.mp hmem
    obtain ⟨n, hn⟩ := List.mem_iff_getElem?.mp hin
    have := findIfFrom_none h n (Nat.zero_le n) group hn
    simp [hid] at this
  · intro h
    apply findIfFrom_eq_none
    intro j _ b hb
    have hin : b ∈ r.groups_ := List.getElem?_mem hb
    by_contra hp
    apply h
    simp only [Bool.not_eq_false, decide_eq_true_eq] at hp
    exact List.mem_map.mpr ⟨b, hin, hp⟩

/-- The ids after `Add`: the id is appended when no group has it. -/
theorem Add_GetGroupsIds (r : LeAudioDeviceGroups) (group_id : Int) :
    (r.Add group_id).2.GetGroupsIds =
      if group_id ∈ r.GetGroupsIds then r.GetGroupsIds else r.GetGroupsIds ++ [group_id] := by
  unfold LeAudioDeviceGroups.Add
  cases h : r.FindById group_id with
  | none =>
    have hnot := (FindById_eq_none_iff r group_id).mp h
    simp only [if_neg hnot]
    simp [LeAudioDeviceGroups.GetGroupsIds, LeAudioDeviceGroup.create]
  | some i =>
    have hin : group_id ∈ r.GetGroupsIds := by
      by_contra hnot
      rw [(FindById_eq_none_iff r group_id).mpr hnot] at h
      cases h
    simp only [if_pos hin]

/-- The function `Add` keeps the ids of the registry distinct. -/
theorem Add_nodup (r : LeAudioDeviceGroups) (group_id : Int) (h : r.GetGroupsIds.Nodup) :
    (r.Add group_id).2.GetGroupsIds.Nodup := by
  rw [Add_GetGroupsIds]
  split
  · exact h
  · rename_i hnot
    refine List.Nodup.append h (List.nodup_singleton _) ?_
    intro a ha hb
    rw [List.mem_singleton] at hb
    exact hnot (hb ▸ ha)

/-- The function `Remove` keeps the ids of the registry distinct. -/
theorem Remove_nodup (r : LeAudioDeviceGroups) (group_id : Int) (h : r.GetGroupsIds.Nodup) :
    (r.Remove group_id).GetGroupsIds.Nodup := by
  unfold LeAudioDeviceGroups.Remove
  split
  · exact h
  · rename_i iter _
    have hsub : List.Sublist ((r.groups_.eraseIdx iter).map (fun group => group.group_id_))
        (r.groups_.map (fun group => group.group_id_)) :=
      List.Sublist.map _ (List.eraseIdx_sublist _ _)
    exact List.Nodup.sublist hsub h

/-- Every sequence of calls keeps the ids of the registry distinct. -/
theorem applyRegistryCalls_nodup (calls : List RegistryCall) (r : LeAudioDeviceGroups)
    (h : r.GetGroupsIds.Nodup) : (applyRegistryCalls r calls).GetGroupsIds.Nodup := by
  induction calls generalizing r with
  | nil => exact h
  | cons call rest ih =>
    apply ih
    cases call with
    | Add group_id => exact Add_nodup r group_id h
    | Remove group_id => exact Remove_nodup r group_id h

/-- The function `FindById` returns the group appended by `Add`. -/
theorem FindById_appended (r : LeAudioDeviceGroups) (group_id : Int)
    (h : r.FindById group_id = none) :
    LeAudioDeviceGroups.FindById
        { r with groups_ := r.groups_ ++ [LeAudioDeviceGroup.create group_id] } group_id =
      some r.groups_.length := by
  unfold LeAudioDeviceGroups.FindById at h ⊢
  refine findIfFrom_eq_some (a := LeAudioDeviceGroup.create group_id) (Nat.zero_le _)
    (List.getElem?_concat_length _ _) (by simp [LeAudioDeviceGroup.create]) ?_
  intro j hj hlt b hb
  rw [List.getElem?_append_left hlt] at hb
  exact findIfFrom_none h j hj b hb

/-- C29: in the registry reached from the empty one by any sequence of `Add`
and `Remove` calls no two groups share an id; `Add(id)` returns null and leaves
the registry unchanged when a group with the id exists, and otherwise appends
exactly one group, which has the id and is the group that `FindById(id)`
returns afterwards. -/
theorem LeAudioDeviceGroups_ids_unique (calls : List RegistryCall) (group_id : Int) :
    (applyRegistryCalls {} calls).GetGroupsIds.Nodup ∧
    ((applyRegistryCalls {} calls).FindById group_id ≠ none →
      (applyRegistryCalls {} calls).Add group_id = (none, applyRegistryCalls {} calls)) ∧
    ((applyRegistryCalls {} calls).FindById group_id = none →
      ∃ group : LeAudioDeviceGroup, group.group_id_ = group_id ∧
        ((applyRegistryCalls {} calls).Add group_id).2.groups_ =
          (applyRegistryCalls {} calls).groups_ ++ [group] ∧
        ((applyRegistryCalls {} calls).Add group_id).1 =
          some (applyRegistryCalls {} calls).groups_.length ∧
        ((applyRegistryCalls {} calls).Add group_id).2.FindById group_id =
          ((applyRegistryCalls {} calls).Add group_id).1 ∧
        ((applyRegistryCalls {} calls).Add group_id).2.groups_[
          (applyRegistryCalls {} calls).groups_.length]? = some group) := by
  have hnodup := applyRegistryCalls_nodup calls {} List.nodup_nil
  generalize applyRegistryCalls {} calls = r at *
  refine ⟨hnodup, ?_, ?_⟩
  · intro h
    unfold LeAudioDeviceGroups.Add
    cases hf : r.FindById group_id with
    | none => exact absurd hf h
    | some i => rfl
  · intro h
    refine ⟨LeAudioDeviceGroup.create group_id, rfl, ?_, ?_, ?_, ?_⟩
    · simp only [LeAudioDeviceGroups.Add, h]
    · simp only [LeAudioDeviceGroups.Add, h]
    · simp only [LeAudioDeviceGroups.Add, h]
      exact FindById_appended r group_id h
    · simp only [LeAudioDeviceGroups.Add, h]
      exact List.getElem?_concat_length _ _

/-- C29, `LeAudioDeviceGroups_ids_unique` after the calls `Add(1)`, `Add(2)`,
`Add(1)`, `Remove(1)`, `Add(3)`: the registry holds the groups 2 and 3, and
`Add(2)` returns null and changes nothing. -/
theorem LeAudioDeviceGroups_ids_unique_witness :
    (applyRegistryCalls {}
        [RegistryCall.Add 1, RegistryCall.Add 2, RegistryCall.Add 1, RegistryCall.Remove 1,
         RegistryCall.Add 3]).GetGroupsIds = [2, 3] ∧
      (applyRegistryCalls {}
        [RegistryCall.Add 1, RegistryCall.Add 2, RegistryCall.Add 1, RegistryCall.Remove 1,
         RegistryCall.Add 3]).Add 2 =
        (none, applyRegistryCalls {}
          [RegistryCall.Add 1, RegistryCall.Add 2, RegistryCall.Add 1, RegistryCall.Remove 1,
           RegistryCall.Add 3]) :=
  ⟨by decide,
   (LeAudioDeviceGroups_ids_unique
      [RegistryCall.Add 1, RegistryCall.Add 2, RegistryCall.Add 1, RegistryCall.Remove 1,
       RegistryCall.Add 3] 2).2.1 (by decide)⟩

/-! # The sleep clock accuracy of the group -/

/-- The loop of `GetSCA` over live members: 0 as soon as a reading is 0xFF or
0, and otherwise the smallest of the value so far and the readings. -/
theorem getScaLoop_spec (env : Env) (l : List (Option LeAudioDevice)) (sca : Nat)
    (hlive : l.all Option.isSome = true) :
    ((∃ v ∈ (l.filterMap id).map (fun d => env.BTM_GetPeerSCA d.address_),
        v = 0xFF ∨ v = 0) → getScaLoop env l sca = some 0) ∧
    ((∀ v ∈ (l.filterMap id).map (fun d => env.BTM_GetPeerSCA d.address_),
        v ≠ 0xFF ∧ v ≠ 0) →
      getScaLoop env l sca =
        some (((l.filterMap id).map (fun d => env.BTM_GetPeerSCA d.address_)).foldl min sca)) := by
  induction l generalizing sca with
  | nil =>
    refine ⟨?_, ?_⟩
    · rintro ⟨v, hv, -⟩
      simp at hv
    · intro _
      rfl
  | cons m rest ih =>
    cases m with
    | none => simp at hlive
    | some d =>
      have hrest : rest.all Option.isSome = true := by
        simp only [List.all_cons, Bool.and_eq_true] at hlive
        exact hlive.2
      simp only [List.filterMap_cons_some (f := id) (a := some d) (b := d) rfl, List.map_cons,
        List.mem_cons, List.foldl_cons, getScaLoop]
      by_cases hbad : env.BTM_GetPeerSCA d.address_ = 0xFF ∨ env.BTM_GetPeerSCA d.address_ = 0
      · rw [if_pos hbad]
        refine ⟨fun _ => rfl, ?_⟩
        intro hall
        have := hall (env.BTM_GetPeerSCA d.address_) (Or.inl rfl)
        rcases hbad with h | h
        · exact absurd h this.1
        · exact absurd h this.2
      · rw [if_neg hbad]
        have hmin : (if env.BTM_GetPeerSCA d.address_ < sca then env.BTM_GetPeerSCA d.address_
            else sca) = min sca (env.BTM_GetPeerSCA d.address_) := by
          split <;> omega
        rw [hmin]
        refine ⟨?_, ?_⟩
        · rintro ⟨v, hv, hv2⟩
          rcases hv with hv | hv
          · exact absurd (hv ▸ hv2) hbad
          · exact (ih _ hrest).1 ⟨v, hv, hv2⟩
        · intro hall
          exact (ih _ hrest).2 (fun v hv => hall v (Or.inr hv))

/-- C22, as amended: in a group without expired references, `GetSCA` returns 0
if the reading of any member is the invalid value 0xFF or is 0, and otherwise
the smallest value among `kIsoSca0To20Ppm` and the readings of all members. -/
theorem GetSCA_rule (env : Env) (g : LeAudioDeviceGroup)
    (hlive : g.leAudioDevices_.all Option.isSome = true) :
    ((∃ v ∈ scaReadings env g, v = 0xFF ∨ v = 0) → g.GetSCA env = some 0) ∧
    ((∀ v ∈ scaReadings env g, v ≠ 0xFF ∧ v ≠ 0) →
      g.GetSCA env = some ((scaReadings env g).foldl min env.kIsoSca0To20Ppm)) :=
  getScaLoop_spec env g.leAudioDevices_ env.kIsoSca0To20Ppm hlive

/-- C22, `GetSCA_rule` at a group of two members with the readings 5 and 3:
the value returned is 3. -/
theorem GetSCA_rule_witness :
    scaGroup.leAudioDevices_.all Option.isSome = true ∧
      scaReadings exampleEnv scaGroup = [5, 3] ∧
      scaGroup.GetSCA exampleEnv = some 3 :=
  ⟨by decide, by decide,
   ((GetSCA_rule exampleEnv scaGroup (by decide)).2 (by decide)).trans (by decide)⟩

/-- C22, counterexample to the claim as stated: the readings of the two members
are 0 and 3, none is the invalid value 0xFF and the smallest reading other
than 0 is 3, but `GetSCA` returns 0. -/
theorem GetSCA_zero_reading :
    scaReadings exampleEnv zeroScaGroup = [0, 3] ∧
      (∀ v ∈ scaReadings exampleEnv zeroScaGroup, v ≠ 0xFF) ∧
      ((scaReadings exampleEnv zeroScaGroup).filter (fun v => decide (v ≠ 0))).min? = some 3 ∧
      zeroScaGroup.GetSCA exampleEnv ≠ some 3 ∧
      zeroScaGroup.GetSCA exampleEnv = some 0 := by
  decide

/-! # The freshness of the configuration cache -/

/-- A lookup in the cache finds nothing exactly for the keys that the cache
does not hold. -/
theorem cacheAt_eq_none_iff (cache : List (Nat × Bool × Option AudioSetConfigurationPtr))
    (k : Nat) : cacheAt cache k = none ↔ k ∉ cache.map (fun e => e.1) := by
  unfold cacheAt
  rw [Option.map_eq_none', List.find?_eq_none]
  constructor
  · intro h hmem
    obtain ⟨e, he, hk⟩ := List.mem_map.mp hmem
    exact h e he (by simp [hk])
  · intro h e he hk
    apply h
    simp only [decide_eq_true_eq] at hk
    exact List.mem_map.mpr ⟨e, he, hk⟩

/-- Erasing a key keeps the keys distinct and removes the key. -/
theorem cacheErase_keys (cache : List (Nat × Bool × Option AudioSetConfigurationPtr))
    (k : Nat) (h : (cache.map (fun e => e.1)).Nodup) :
    ((cacheErase cache k).map (fun e => e.1)).Nodup := by
  unfold cacheErase
  exact List.Nodup.sublist (List.Sublist.map _ (List.filter_sublist _)) h

/-- Inserting an entry keeps the keys distinct. -/
theorem cacheInsert_keys (cache : List (Nat × Bool × Option AudioSetConfigurationPtr))
    (e : Nat × Bool × Option AudioSetConfigurationPtr)
    (h : (cache.map (fun e => e.1)).Nodup) :
    ((cacheInsert cache e).map (fun e => e.1)).Nodup := by
  unfold cacheInsert
  cases hat : cacheAt cache e.1 with
  | some x => exact h
  | none =>
    have hnot := (cacheAt_eq_none_iff cache e.1).mp hat
    simp only [List.map_append, List.map_cons, List.map_nil]
    refine List.Nodup.append h (List.nodup_singleton _) ?_
    intro a ha hb
    rw [List.mem_singleton] at hb
    exact hnot (hb ▸ ha)

/-- Marking an entry valid keeps the keys as they are. -/
theorem cacheMarkValid_keys (cache : List (Nat × Bool × Option AudioSetConfigurationPtr))
    (k : Nat) :
    (cacheMarkValid cache k).map (fun e => e.1) = cache.map (fun e => e.1) := by
  unfold cacheMarkValid
  rw [List.map_map]
  apply List.map_congr_left
  intro e _
  simp only [Function.comp]
  split <;> rfl

/-- The function `UpdateAudioSetConfigurationCache` keeps the keys of the cache
distinct. -/
theorem UpdateAudioSetConfigurationCache_keys (env : Env) (g : LeAudioDeviceGroup)
    (ctx_type : Nat) (h : cacheKeysUnique g) :
    cacheKeysUnique (g.UpdateAudioSetConfigurationCache env ctx_type).2 := by
  have hreplaced : ∀ new_conf : Option AudioSetConfigurationPtr,
      ((match new_conf with
        | some p =>
          cacheInsert (cacheErase g.context_to_configuration_cache_map ctx_type)
            (ctx_type, true, some p)
        | none => cacheErase g.context_to_configuration_cache_map ctx_type).map
          (fun (e : Nat × Bool × Option AudioSetConfigurationPtr) => e.1)).Nodup := by
    intro new_conf
    cases new_conf with
    | none => exact cacheErase_keys _ _ h
    | some p => exact cacheInsert_keys _ _ (cacheErase_keys _ _ h)
  unfold cacheKeysUnique LeAudioDeviceGroup.UpdateAudioSetConfigurationCache
  dsimp only
  split
  · split
    · dsimp only
      rw [cacheMarkValid_keys]
      exact h
    · split
      · exact hreplaced _
      · exact h
  · exact hreplaced _

/-- The function `GetConfiguration` keeps the keys of the cache distinct. -/
theorem GetConfiguration_keys (env : Env) (g : LeAudioDeviceGroup) (context_type : Nat)
    (h : cacheKeysUnique g) : cacheKeysUnique (g.GetConfiguration env context_type).2 := by
  unfold LeAudioDeviceGroup.GetConfiguration
  split
  · exact h
  · dsimp only
    split
    · exact UpdateAudioSetConfigurationCache_keys env g context_type h
    · exact h

/-- Every call on a group keeps the keys of the cache distinct. -/
theorem applyGroupCall_keys (env : Env) (g : LeAudioDeviceGroup) (call : GroupCall)
    (h : cacheKeysUnique g) : cacheKeysUnique (applyGroupCall env g call) := by
  cases call with
  | Later call =>
    cases call with
    | GetConfiguration context_type => exact GetConfiguration_keys env g context_type h
    | Configure context_type metadata_context_types ccid_lists =>
      simp only [applyGroupCall, applyLaterCall]
      cases hc : g.Configure env context_type metadata_context_types ccid_lists with
      | none => exact h
      | some r =>
        have := Configure_cache env g context_type metadata_context_types ccid_lists r hc
        unfold cacheKeysUnique
        dsimp only
        rw [this]
        exact GetConfiguration_keys env g context_type h
    | Change change =>
      unfold cacheKeysUnique
      simp only [applyGroupCall, applyLaterCall]
      rw [applyChange_cache]
      exact h
  | UpdateAudioSetConfigurationCache ctx_type =>
    exact UpdateAudioSetConfigurationCache_keys env g ctx_type h
  | InvalidateCachedConfigurations => exact List.nodup_nil

/-- Every sequence of calls on a group keeps the keys of the cache distinct. -/
theorem applyGroupCalls_keys (env : Env) (calls : List GroupCall) (g : LeAudioDeviceGroup)
    (h : cacheKeysUnique g) : cacheKeysUnique (applyGroupCalls env g calls) := by
  induction calls generalizing g with
  | nil => exact h
  | cons call rest ih => exact ih _ (applyGroupCall_keys env g call h)

/-- The result of `GetConfiguration` for a context other than `UNINITIALIZED`:
the cached configuration of the group afterwards, which is the group after the
refresh when the entry needed one and the group as it was otherwise. -/
theorem GetConfiguration_unfold (env : Env) (g : LeAudioDeviceGroup) (context_type : Nat)
    (hctx : context_type ≠ env.UNINITIALIZED) :
    g.GetConfiguration env context_type =
      (if needsRefresh g context_type then
        ((g.UpdateAudioSetConfigurationCache env context_type).2.GetCachedConfiguration
            context_type,
          (g.UpdateAudioSetConfigurationCache env context_type).2)
       else (g.GetCachedConfiguration context_type, g)) := by
  unfold LeAudioDeviceGroup.GetConfiguration needsRefresh
  rw [if_neg hctx]
  cases hat : cacheAt g.context_to_configuration_cache_map context_type with
  | none => simp
  | some e =>
    obtain ⟨is_valid, conf⟩ := e
    dsimp only
    cases hr : (!is_valid || conf.isNone) <;> simp

/-- C30: any sequence of calls on a group whose cache holds at most one entry
per context type leaves a cache that holds at most one entry per context type.
`GetConfiguration` of `UNINITIALIZED` returns null and leaves the group as it
is. For any other context, when the entry of the context is missing, marked
invalid or null, the group after `GetConfiguration` is the group after
`UpdateAudioSetConfigurationCache`; and after the call the entry is absent and
null was returned, or the entry is marked valid and its configuration was
returned. -/
theorem GetConfiguration_fresh (env : Env) (g : LeAudioDeviceGroup) (calls : List GroupCall)
    (context_type : Nat) (hunique : cacheKeysUnique g) :
    cacheKeysUnique (applyGroupCalls env g calls) ∧
    (context_type = env.UNINITIALIZED → g.GetConfiguration env context_type = (none, g)) ∧
    (context_type ≠ env.UNINITIALIZED →
      (needsRefresh g context_type = true →
        (g.GetConfiguration env context_type).2 =
          (g.UpdateAudioSetConfigurationCache env context_type).2) ∧
      ((cacheAt (g.GetConfiguration env context_type).2.context_to_configuration_cache_map
            context_type = none ∧
          (g.GetConfiguration env context_type).1 = none) ∨
        ∃ conf, cacheAt (g.GetConfiguration env context_type).2.context_to_configuration_cache_map
            context_type = some (true, conf) ∧
          (g.GetConfiguration env context_type).1 = conf)) := by
  refine ⟨applyGroupCalls_keys env calls g hunique, ?_, ?_⟩
  · intro hctx
    unfold LeAudioDeviceGroup.GetConfiguration
    rw [if_pos hctx]
  · intro hctx
    rw [GetConfiguration_unfold env g context_type hctx]
    refine ⟨fun hr => by rw [if_pos hr], ?_⟩
    by_cases hr : needsRefresh g context_type = true
    · rw [if_pos hr]
      dsimp only
      rcases UpdateAudioSetConfigurationCache_self env g context_type with hnone | ⟨conf, hc⟩
      · left
        refine ⟨hnone, ?_⟩
        unfold LeAudioDeviceGroup.GetCachedConfiguration
        rw [hnone]
      · right
        refine ⟨conf, hc, ?_⟩
        unfold LeAudioDeviceGroup.GetCachedConfiguration
        rw [hc]
    · rw [if_neg hr]
      dsimp only
      unfold needsRefresh at hr
      cases hat : cacheAt g.context_to_configuration_cache_map context_type with
      | none => simp [hat] at hr
      | some e =>
        obtain ⟨is_valid, conf⟩ := e
        rw [hat] at hr
        simp only [Bool.or_eq_true, Bool.not_eq_true', not_or, Bool.not_eq_false] at hr
        right
        refine ⟨conf, by rw [hr.1], ?_⟩
        unfold LeAudioDeviceGroup.GetCachedConfiguration
        rw [hat]

/-- C30, `GetConfiguration_fresh` at a group whose entry for the context 4 is
marked invalid: the lookup refreshes the entry, which is marked valid
afterwards, and returns its configuration. -/
theorem GetConfiguration_fresh_witness :
    cacheKeysUnique staleGroup ∧ needsRefresh staleGroup 4 = true ∧
      (staleGroup.GetConfiguration offeringEnv 4).2 =
        (staleGroup.UpdateAudioSetConfigurationCache offeringEnv 4).2 ∧
      (staleGroup.GetConfiguration offeringEnv 4).1 = some ⟨104, sinkMonoConf⟩ ∧
      (staleGroup.GetConfiguration offeringEnv 4).2.context_to_configuration_cache_map =
        [(4, true, some ⟨104, sinkMonoConf⟩)] :=
  ⟨by decide, by decide,
   ((GetConfiguration_fresh offeringEnv staleGroup [] 4 (by decide)).2.2 (by decide)).1
     (by decide),
   by decide, by decide⟩

/-! # The maximum transport latency of a direction -/

/-- The inner loop of `find_max_transport_latency` returns, and runs its body
over the active ASEs of the direction from the index `s` on. -/
theorem maxTransportLatencyAseLoop_eq (d : LeAudioDevice) (direction : Direction) :
    ∀ (fuel s mtl : Nat), d.ases_.length ≤ s + fuel →
      maxTransportLatencyAseLoop d fuel
          (findIfFrom (fun a => a.active && decide (a.direction = direction)) d.ases_ s) mtl =
        some (((d.ases_.drop s).filter
          (fun a => a.active && decide (a.direction = direction))).foldl
            (fun m a => maxTransportLatencyStep a m) mtl) := by
  intro fuel
  induction fuel with
  | zero =>
    intro s mtl hlen
    cases hfind : findIfFrom (fun a => a.active && decide (a.direction = direction))
        d.ases_ s with
    | none =>
      rw [filter_drop_of_findIfFrom_none _ _ _ hfind]
      rfl
    | some j =>
      obtain ⟨hsj, hj, -, -⟩ := findIfFrom_some hfind
      omega
  | succ fuel ih =>
    intro s mtl hlen
    cases hfind : findIfFrom (fun a => a.active && decide (a.direction = direction))
        d.ases_ s with
    | none =>
      rw [filter_drop_of_findIfFrom_none _ _ _ hfind]
      rfl
    | some j =>
      obtain ⟨hsj, hj, ⟨a, ha, hp⟩, -⟩ := findIfFrom_some hfind
      have haj : d.ases_[j] = a := by
        rw [List.getElem?_eq_getElem hj] at ha
        simpa using ha
      have hdir : a.direction = direction := by
        simp only [Bool.and_eq_true, decide_eq_true_eq] at hp
        exact hp.2
      rw [filter_drop_of_findIfFrom_some _ _ _ _ hfind, List.drop_eq_getElem_cons hj, haj,
        List.filter_cons_of_pos
          (p := fun (a : ase) => a.active && decide (a.direction = direction)) hp,
        List.foldl_cons]
      unfold maxTransportLatencyAseLoop
      rw [ha]
      dsimp only
      unfold LeAudioDevice.GetNextActiveAseWithSameDirection
      rw [ha]
      dsimp only
      rw [hdir]
      exact ih (j + 1) _ (by omega)

/-- The outer loop of `find_max_transport_latency` returns, and runs the body
over the active ASEs of the direction of the members from the index `s` on. -/
theorem maxTransportLatencyDeviceLoop_eq (g : LeAudioDeviceGroup) (direction : Direction) :
    ∀ (fuel s mtl : Nat), g.leAudioDevices_.length ≤ s + fuel →
      maxTransportLatencyDeviceLoop g direction fuel
          (findIfFrom isActiveMember g.leAudioDevices_ s) mtl =
        some (((g.leAudioDevices_.drop s).flatMap (activeAsesOfMember direction)).foldl
          (fun m a => maxTransportLatencyStep a m) mtl) := by
  intro fuel
  induction fuel with
  | zero =>
    intro s mtl hlen
    cases hfind : findIfFrom isActiveMember g.leAudioDevices_ s with
    | none =>
      rw [flatMap_drop_of_findIfFrom_none _ isActiveMember
        (activeAsesOfMember_of_inactive direction) _ _ hfind]
      rfl
    | some k =>
      obtain ⟨hsk, hk, -, -⟩ := findIfFrom_some hfind
      omega
  | succ fuel ih =>
    intro s mtl hlen
    cases hfind : findIfFrom isActiveMember g.leAudioDevices_ s with
    | none =>
      rw [flatMap_drop_of_findIfFrom_none _ isActiveMember
        (activeAsesOfMember_of_inactive direction) _ _ hfind]
      rfl
    | some k =>
      obtain ⟨hsk, hk, ⟨m, hm, hact⟩, -⟩ := findIfFrom_some hfind
      cases m with
      | none => simp [isActiveMember] at hact
      | some dev =>
        have hmk : g.leAudioDevices_[k] = some dev := by
          rw [List.getElem?_eq_getElem hk] at hm
          simpa using hm
        have hinner := maxTransportLatencyAseLoop_eq dev direction dev.ases_.length 0 mtl
          (by omega)
        rw [List.drop_zero] at hinner
        rw [flatMap_drop_of_findIfFrom_some _ isActiveMember
          (activeAsesOfMember_of_inactive direction) _ _ _ hfind,
          List.drop_eq_getElem_cons hk, hmk, List.flatMap_cons, List.foldl_append]
        unfold maxTransportLatencyDeviceLoop
        rw [hm]
        dsimp only
        unfold LeAudioDevice.GetFirstActiveAseByDirection
        rw [hinner]
        dsimp only
        unfold LeAudioDeviceGroup.GetNextActiveDevice
        exact ih (k + 1) _ (by omega)

/-- The body of the loop keeps the smallest value other than 0 seen so far. -/
theorem maxTransportLatencyStep_eq (a : ase) (m : Nat) :
    maxTransportLatencyStep a m =
      if a.qos_config.max_transport_latency = 0 then m
      else if m = 0 then a.qos_config.max_transport_latency
      else min m a.qos_config.max_transport_latency := by
  unfold maxTransportLatencyStep
  split_ifs <;> omega

/-- The body of the loop run from a value other than 0 over a list of ASEs
gives the minimum of that value and the values of the list other than 0. -/
theorem maxTransportLatencyFold_pos (l : List ase) (m : Nat) (hm : m ≠ 0) :
    l.foldl (fun m a => maxTransportLatencyStep a m) m =
      ((l.map (fun a => a.qos_config.max_transport_latency)).filter
        (fun v => decide (v ≠ 0))).foldl min m := by
  induction l generalizing m with
  | nil => rfl
  | cons a rest ih =>
    rw [List.foldl_cons, List.map_cons, maxTransportLatencyStep_eq]
    by_cases hz : a.qos_config.max_transport_latency = 0
    · rw [if_pos hz, List.filter_cons_of_neg (by simp [hz])]
      exact ih m hm
    · rw [if_neg hz, if_neg hm, List.filter_cons_of_pos (by simp [hz]), List.foldl_cons]
      exact ih _ (by omega)

/-- The body of the loop run from 0 over a list of ASEs gives the smallest
value of the list other than 0, and 0 when there is none. -/
theorem maxTransportLatencyFold_zero (l : List ase) :
    l.foldl (fun m a => maxTransportLatencyStep a m) 0 =
      smallestNonZero (l.map (fun a => a.qos_config.max_transport_latency)) := by
  unfold smallestNonZero
  induction l with
  | nil => rfl
  | cons a rest ih =>
    rw [List.foldl_cons, List.map_cons, maxTransportLatencyStep_eq]
    by_cases hz : a.qos_config.max_transport_latency = 0
    · rw [if_pos hz, List.filter_cons_of_neg (by simp [hz])]
      exact ih
    · rw [if_neg hz, if_pos rfl, List.filter_cons_of_pos (by simp [hz]), List.min?_cons',
        Option.getD_some]
      exact maxTransportLatencyFold_pos rest _ hz

/-- C21: with `kMaxTransportLatencyMin` not above `kMaxTransportLatencyMax`,
`find_max_transport_latency` returns, for every group and direction, the
smallest `max_transport_latency` other than 0 among the active ASEs of the
direction (0 when there is none), clamped into the range from
`kMaxTransportLatencyMin` to `kMaxTransportLatencyMax`; the result lies in
that range, and `GetMaxTransportLatencyMtos` and `GetMaxTransportLatencyStom`
are the calls for the sink and for the source direction. -/
theorem find_max_transport_latency_rule (env : Env) (g : LeAudioDeviceGroup)
    (direction : Direction) (hrange : env.kMaxTransportLatencyMin ≤ env.kMaxTransportLatencyMax) :
    find_max_transport_latency env g direction =
        some (clampInto env.kMaxTransportLatencyMin env.kMaxTransportLatencyMax
          (smallestNonZero (transportLatencies direction g))) ∧
      env.kMaxTransportLatencyMin ≤
        clampInto env.kMaxTransportLatencyMin env.kMaxTransportLatencyMax
          (smallestNonZero (transportLatencies direction g)) ∧
      clampInto env.kMaxTransportLatencyMin env.kMaxTransportLatencyMax
          (smallestNonZero (transportLatencies direction g)) ≤ env.kMaxTransportLatencyMax ∧
      g.GetMaxTransportLatencyMtos env =
        find_max_transport_latency env g Direction.kLeAudioDirectionSink ∧
      g.GetMaxTransportLatencyStom env =
        find_max_transport_latency env g Direction.kLeAudioDirectionSource := by
  refine ⟨?_, ?_, ?_, rfl, rfl⟩
  · have hloop := maxTransportLatencyDeviceLoop_eq g direction g.leAudioDevices_.length 0 0
      (by omega)
    rw [List.drop_zero, maxTransportLatencyFold_zero] at hloop
    unfold find_max_transport_latency LeAudioDeviceGroup.GetFirstActiveDevice
    rw [hloop]
    unfold transportLatencies activeAsesOf clampInto
    dsimp only
    split_ifs <;> congr 1 <;> omega
  · unfold clampInto
    omega
  · unfold clampInto
    omega

/-- C21, `find_max_transport_latency_rule` at a group whose active sink ASEs
have the latencies 0, 20 and 10 and whose active source ASE has the latency 8,
with the range from 5 to 4000: 10 for the sink direction. -/
theorem find_max_transport_latency_rule_witness :
    transportLatencies Direction.kLeAudioDirectionSink latencyGroup = [0, 20, 10] ∧
      find_max_transport_latency exampleEnv latencyGroup Direction.kLeAudioDirectionSink =
        some 10 :=
  ⟨by decide,
   (find_max_transport_latency_rule exampleEnv latencyGroup Direction.kLeAudioDirectionSink
      (by decide)).1.trans (by decide)⟩

/-! # The PHY bitmask of a direction -/

/-- For an ASE of the direction, the body of the loop of `GetPhyBitmask` is the
intersection with the PHY bitmask of the device and with the preference of the
ASE. -/
theorem phyBitmaskStep_eq (env : Env) (direction : Direction) (d : LeAudioDevice) (a : ase)
    (phy : Nat) (hdir : a.direction = direction) :
    phyBitmaskStep env direction d a phy = intersectPhy env phy (d, a) := by
  unfold phyBitmaskStep intersectPhy
  rw [if_pos hdir.symm]
  dsimp only
  by_cases h1 : a.qos_preferences.preferred_phy = 0
  · simp [h1]
  · by_cases h2 : phy &&& env.GetPhyBitmaskOfDevice d &&& a.qos_preferences.preferred_phy = 0
    · simp [h1, h2]
    · simp [h1, h2]

/-- The inner loop of `GetPhyBitmask` returns, and runs its body over the
active ASEs of the direction from the index `i` on. -/
theorem phyBitmaskAseLoop_eq (env : Env) (direction : Direction) (d : LeAudioDevice) :
    ∀ (fuel i phy : Nat) (a : ase),
      d.ases_[i]? = some a → (a.active && decide (a.direction = direction)) = true →
      d.ases_.length ≤ i + fuel →
      phyBitmaskAseLoop env direction d fuel i phy =
        some ((((d.ases_.drop i).filter
          (fun a => a.active && decide (a.direction = direction))).map
            (fun a => (d, a))).foldl (intersectPhy env) phy) := by
  intro fuel
  induction fuel with
  | zero =>
    intro i phy a ha _ hlen
    have := lt_of_getElem_some ha
    omega
  | succ fuel ih =>
    intro i phy a ha hp hlen
    have hi := lt_of_getElem_some ha
    have hai : d.ases_[i] = a := by
      rw [List.getElem?_eq_getElem hi] at ha
      simpa using ha
    have hdir : a.direction = direction := by
      simp only [Bool.and_eq_true, decide_eq_true_eq] at hp
      exact hp.2
    unfold phyBitmaskAseLoop
    rw [ha, List.drop_eq_getElem_cons hi, hai,
      List.filter_cons_of_pos
        (p := fun (a : ase) => a.active && decide (a.direction = direction)) hp,
      List.map_cons, List.foldl_cons]
    dsimp only
    rw [phyBitmaskStep_eq env direction d a phy hdir]
    unfold LeAudioDevice.GetNextActiveAseWithSameDirection
    rw [ha]
    dsimp only
    rw [hdir]
    cases hnext : findIfFrom (fun a => a.active && decide (a.direction = direction))
        d.ases_ (i + 1) with
    | none =>
      rw [filter_drop_of_findIfFrom_none _ _ _ hnext]
      rfl
    | some j =>
      obtain ⟨hij, -, ⟨b, hb, hpb⟩, -⟩ := findIfFrom_some hnext
      rw [filter_drop_of_findIfFrom_some _ _ _ _ hnext]
      exact ih j _ b hb hpb (by omega)

/-- A member that is not active has no active ASE. -/
theorem activeAsePairsOfMember_of_inactive (direction : Direction) (m : Option LeAudioDevice)
    (h : isActiveMember m = false) : activeAsePairsOfMember direction m = [] := by
  cases m with
  | none => rfl
  | some d =>
    have := activeAsesOfMember_of_inactive direction (some d) h
    unfold activeAsesOfMember at this
    unfold activeAsePairsOfMember
    dsimp only at this ⊢
    rw [this]
    rfl

/-- A list in which no member has an active ASE of the direction has no gap
that skips one. -/
theorem gapSkipsNothing_of_all (direction : Direction) :
    ∀ l : List (Option LeAudioDevice),
      l.all (fun m1 => (activeAsesOfMember direction m1).isEmpty) = true →
      gapSkipsNothing direction l = true := by
  intro l
  induction l with
  | nil => intro _; rfl
  | cons m rest ih =>
    intro h
    rw [List.all_cons, Bool.and_eq_true] at h
    unfold gapSkipsNothing
    split
    · exact h.2
    · exact ih h.2

theorem gapSkipsNothing_tail (direction : Direction) (m : Option LeAudioDevice)
    (rest : List (Option LeAudioDevice))
    (h : gapSkipsNothing direction (m :: rest) = true) :
    gapSkipsNothing direction rest = true := by
  unfold gapSkipsNothing at h
  split at h
  · exact gapSkipsNothing_of_all direction rest h
  · exact h

theorem gapSkipsNothing_drop (direction : Direction) :
    ∀ (n : Nat) (l : List (Option LeAudioDevice)), gapSkipsNothing direction l = true →
      gapSkipsNothing direction (l.drop n) = true := by
  intro n
  induction n with
  | zero => intro l h; exact h
  | succ n ih =>
    intro l h
    cases l with
    | nil => exact h
    | cons m rest =>
      rw [List.drop_succ_cons]
      exact ih rest (gapSkipsNothing_tail direction m rest h)

/-- When the `return` at a member without an active ASE of the direction skips
nothing, the outer loop of `GetPhyBitmask` returns, and runs the body over the
active ASEs of the direction of the members from the index `k` on. -/
theorem phyBitmaskDeviceLoop_eq (env : Env) (g : LeAudioDeviceGroup) (direction : Direction) :
    ∀ (fuel k phy : Nat) (m : Option LeAudioDevice),
      g.leAudioDevices_[k]? = some m → isActiveMember m = true →
      gapSkipsNothing direction (g.leAudioDevices_.drop k) = true →
      g.leAudioDevices_.length ≤ k + fuel →
      phyBitmaskDeviceLoop env g direction fuel k phy =
        some (((g.leAudioDevices_.drop k).flatMap (activeAsePairsOfMember direction)).foldl
          (intersectPhy env) phy) := by
  intro fuel
  induction fuel with
  | zero =>
    intro k phy m hm _ _ hlen
    have := lt_of_getElem_some hm
    omega
  | succ fuel ih =>
    intro k phy m hm hact hgap hlen
    have hk := lt_of_getElem_some hm
    cases m with
    | none => simp [isActiveMember] at hact
    | some d =>
      have hmk : g.leAudioDevices_[k] = some d := by
        rw [List.getElem?_eq_getElem hk] at hm
        simpa using hm
      have hgap1 : gapSkipsNothing direction (g.leAudioDevices_.drop (k + 1)) = true := by
        have := gapSkipsNothing_drop direction 1 _ hgap
        rw [List.drop_drop] at this
        exact this
      unfold phyBitmaskDeviceLoop
      rw [hm]
      rw [List.drop_eq_getElem_cons hk, hmk] at hgap ⊢
      rw [List.flatMap_cons, List.foldl_append]
      dsimp only
      unfold LeAudioDevice.GetFirstActiveAseByDirection
      cases hfirst : findIfFrom (fun a => a.active && decide (a.direction = direction))
          d.ases_ 0 with
      | none =>
        have hnone : activeAsesOfMember direction (some d) = [] := by
          have := filter_drop_of_findIfFrom_none _ _ _ hfirst
          rw [List.drop_zero] at this
          exact this
        have hpairs : activeAsePairsOfMember direction (some d) = [] := by
          unfold activeAsePairsOfMember
          unfold activeAsesOfMember at hnone
          dsimp only at hnone ⊢
          rw [hnone]
          rfl
        unfold gapSkipsNothing at hgap
        rw [hact, hnone] at hgap
        simp only [List.isEmpty_nil, Bool.and_self, if_true] at hgap
        have hrest : (g.leAudioDevices_.drop (k + 1)).flatMap
            (activeAsePairsOfMember direction) = [] := by
          rw [List.flatMap_eq_nil_iff]
          intro m1 hm1
          rw [List.all_eq_true] at hgap
          have hm1e := hgap m1 hm1
          cases m1 with
          | none => rfl
          | some d1 =>
            unfold activeAsesOfMember at hm1e
            unfold activeAsePairsOfMember
            dsimp only at hm1e ⊢
            rw [List.isEmpty_iff] at hm1e
            rw [hm1e]
            rfl
        dsimp only
        rw [hpairs, hrest]
        rfl
      | some i =>
        obtain ⟨-, -, ⟨a, ha, hp⟩, -⟩ := findIfFrom_some hfirst
        have hall : activeAsePairsOfMember direction (some d) =
            ((d.ases_.drop i).filter
              (fun a => a.active && decide (a.direction = direction))).map
                (fun a => (d, a)) := by
          have := filter_drop_of_findIfFrom_some _ _ _ _ hfirst
          rw [List.drop_zero] at this
          unfold activeAsePairsOfMember
          dsimp only
          rw [this]
        dsimp only
        rw [phyBitmaskAseLoop_eq env direction d d.ases_.length i phy a ha hp (by omega), hall]
        dsimp only
        unfold LeAudioDeviceGroup.GetNextActiveDevice
        cases hn : findIfFrom isActiveMember g.leAudioDevices_ (k + 1) with
        | none =>
          rw [flatMap_drop_of_findIfFrom_none _ isActiveMember
            (activeAsePairsOfMember_of_inactive direction) _ _ hn]
          rfl
        | some k1 =>
          obtain ⟨hkk, -, ⟨m1, hm1, hact1⟩, -⟩ := findIfFrom_some hn
          rw [flatMap_drop_of_findIfFrom_some _ isActiveMember
            (activeAsePairsOfMember_of_inactive direction) _ _ _ hn]
          have hgapk1 : gapSkipsNothing direction (g.leAudioDevices_.drop k1) = true := by
            have := gapSkipsNothing_drop direction (k1 - (k + 1)) _ hgap1
            rw [List.drop_drop] at this
            have e : k + 1 + (k1 - (k + 1)) = k1 := by omega
            rw [e] at this
            exact this
          exact ih k1 _ m1 hm1 hact1 hgapk1 (by omega)

/-- C23, as amended: for every group with an active device in which no active
member without an active ASE of the direction comes before a member with one,
`GetPhyBitmask(direction)` returns the locally supported PHY mask (1M, plus 2M
when the controller supports it) intersected, for each active ASE of the
direction in the order of the members and of their ASEs, with the PHY bitmask
of the device of the ASE and then with the preferred PHY bitmask of the ASE,
unless that is 0 (no preference) or has nothing in common with the mask reached
so far. -/
theorem GetPhyBitmask_rule (env : Env) (g : LeAudioDeviceGroup) (direction : Direction)
    (hactive : g.GetFirstActiveDevice ≠ none)
    (hgap : earlyReturnSkipsNothing direction g = true) :
    g.GetPhyBitmask env direction =
      some ((activeAsePairsOf direction g).foldl (intersectPhy env) (localPhyMask env)) := by
  unfold LeAudioDeviceGroup.GetPhyBitmask
  cases hfirst : g.GetFirstActiveDevice with
  | none => exact absurd hfirst hactive
  | some k =>
    obtain ⟨-, -, ⟨m, hm, hact⟩, -⟩ := findIfFrom_some hfirst
    have hskip := flatMap_drop_of_findIfFrom_some (activeAsePairsOfMember direction)
      isActiveMember (activeAsePairsOfMember_of_inactive direction) _ _ _ hfirst
    rw [List.drop_zero] at hskip
    dsimp only
    rw [phyBitmaskDeviceLoop_eq env g direction g.leAudioDevices_.length k _ m hm hact
      (gapSkipsNothing_drop direction k _ hgap) (by omega)]
    unfold activeAsePairsOf localPhyMask
    rw [hskip]

/-- C23, `GetPhyBitmask_rule` at a group of one device whose active sink ASEs
prefer 2M, state no preference and prefer 1M, with the local mask of 1M and 2M:
the mask returned for the sink direction is 2M, the preference of the last ASE
having nothing in common with it; for the source direction, of which the
device has no ASE, the local mask is returned. -/
theorem GetPhyBitmask_rule_witness :
    (phyGroup.GetFirstActiveDevice ≠ none ∧
      earlyReturnSkipsNothing Direction.kLeAudioDirectionSink phyGroup = true ∧
      phyGroup.GetPhyBitmask exampleEnv Direction.kLeAudioDirectionSink = some 2) ∧
    (earlyReturnSkipsNothing Direction.kLeAudioDirectionSource phyGroup = true ∧
      phyGroup.GetPhyBitmask exampleEnv Direction.kLeAudioDirectionSource = some 3) :=
  ⟨⟨by decide, by decide,
    (GetPhyBitmask_rule exampleEnv phyGroup Direction.kLeAudioDirectionSink (by decide)
      (by decide)).trans (by decide)⟩,
   ⟨by decide,
    (GetPhyBitmask_rule exampleEnv phyGroup Direction.kLeAudioDirectionSource (by decide)
      (by decide)).trans (by decide)⟩⟩

/-- C23, counterexample to the claim as stated: with the local mask of 1M and
2M, which is 3, the preferred PHY bitmasks 2, 0 and 1 of the active sink ASEs
of the first group intersect with it to 0, but the mask returned is 2; the
only active sink ASE of the second group has the preferred PHY bitmask 0, so
the intersection is 0, but the mask returned is 3; and in the third group the
first active member has no sink ASE and the second an active sink ASE that
prefers 1M, so the intersection is 1, but the function returns at the first
member with the mask 3. -/
theorem GetPhyBitmask_not_intersection :
    localPhyMask exampleEnv = 3 ∧
      (activeAsesOf Direction.kLeAudioDirectionSink phyGroup).map
        (fun a => a.qos_preferences.preferred_phy) = [2, 0, 1] ∧
      ((activeAsesOf Direction.kLeAudioDirectionSink phyGroup).map
        (fun a => a.qos_preferences.preferred_phy)).foldl (fun m v => m &&& v)
          (localPhyMask exampleEnv) = 0 ∧
      phyGroup.GetPhyBitmask exampleEnv Direction.kLeAudioDirectionSink = some 2 ∧
      ((activeAsesOf Direction.kLeAudioDirectionSink noPreferenceGroup).map
        (fun a => a.qos_preferences.preferred_phy)).foldl (fun m v => m &&& v)
          (localPhyMask exampleEnv) = 0 ∧
      noPreferenceGroup.GetPhyBitmask exampleEnv Direction.kLeAudioDirectionSink = some 3 ∧
      (activeAsesOf Direction.kLeAudioDirectionSink micFirstGroup).map
        (fun a => a.qos_preferences.preferred_phy) = [1] ∧
      ((activeAsesOf Direction.kLeAudioDirectionSink micFirstGroup).map
        (fun a => a.qos_preferences.preferred_phy)).foldl (fun m v => m &&& v)
          (localPhyMask exampleEnv) = 1 ∧
      earlyReturnSkipsNothing Direction.kLeAudioDirectionSink micFirstGroup = false ∧
      micFirstGroup.GetPhyBitmask exampleEnv Direction.kLeAudioDirectionSink = some 3 := by
  decide

/-! # The removal of a CIS from the stream -/

/-- For a handle other than 0 on which the device has no ASE of the direction,
the call of `std::remove_if` keeps every pair and every counter. -/
theorem removeCisLoop_none (d : LeAudioDevice) (dir : Direction) (h : Nat) (hh : h ≠ 0)
    (hnone : (d.GetAsesByCisConnHdl h).get dir = none) :
    ∀ (pairs : List (Nat × Nat)) (params : stream_parameters),
      removeCisLoop d dir pairs h params = (h, params, pairs) := by
  intro pairs
  induction pairs with
  | nil => intro params; rfl
  | cons pair rest ih =>
    intro params
    unfold removeCisLoop
    simp only [if_neg hh, hnone]
    rw [ih params]

/-- For a handle other than 0 on which the device has the ASE `a` of the
direction, the call of `std::remove_if` keeps the pairs of the other handles,
and counts a device and the channels of `a` less for each pair removed. -/
theorem removeCisLoop_some (d : LeAudioDevice) (dir : Direction) (h : Nat) (hh : h ≠ 0)
    (a : ase) (hsome : (d.GetAsesByCisConnHdl h).get dir = some a) :
    ∀ (pairs : List (Nat × Nat)) (params : stream_parameters),
      params.num_of_channels < 256 →
      removeCisLoop d dir pairs h params =
        (h,
         { num_of_devices :=
             params.num_of_devices -
               ((pairs.filter (fun pair => decide (pair.1 = h))).length : Int)
           num_of_channels :=
             (((params.num_of_channels : Int) -
               ((pairs.filter (fun pair => decide (pair.1 = h))).length : Int) *
                 (a.channel_count_per_iso_stream : Int)) % 256).toNat
           audio_channel_allocation :=
             (pairs.filter (fun pair => decide (pair.1 = h))).foldl
               (fun allocation pair => allocation &&& (0xFFFFFFFF ^^^ pair.2))
               params.audio_channel_allocation
           stream_locations := params.stream_locations },
         pairs.filter (fun pair => decide (pair.1 ≠ h))) := by
  intro pairs
  induction pairs with
  | nil =>
    intro params hlt
    unfold removeCisLoop
    simp only [List.filter_nil, List.length_nil, List.foldl_nil, Nat.cast_zero, zero_mul,
      sub_zero]
    have : ((params.num_of_channels : Int) % 256).toNat = params.num_of_channels := by omega
    rw [this]
  | cons pair rest ih =>
    intro params hlt
    unfold removeCisLoop
    simp only [if_neg hh, hsome]
    by_cases hp : h = pair.1
    · have hpos : (fun (pair : Nat × Nat) => decide (pair.1 = h)) pair = true := by simp [hp]
      have hneg : ¬ ((fun (pair : Nat × Nat) => decide (pair.1 ≠ h)) pair = true) := by
        simp [hp]
      rw [if_pos hp,
        List.filter_cons_of_pos (p := fun (pair : Nat × Nat) => decide (pair.1 = h)) hpos,
        List.filter_cons_of_neg (p := fun (pair : Nat × Nat) => decide (pair.1 ≠ h)) hneg,
        ih _ (Nat.mod_lt _ (by decide))]
      simp only [List.length_cons, List.foldl_cons, Nat.cast_add, Nat.cast_one]
      refine Prod.ext rfl (Prod.ext ?_ rfl)
      dsimp only
      congr 1
      · omega
      · have hmul : (((rest.filter (fun pair => decide (pair.1 = h))).length : Int) + 1) *
            (a.channel_count_per_iso_stream : Int) =
            ((rest.filter (fun pair => decide (pair.1 = h))).length : Int) *
              (a.channel_count_per_iso_stream : Int) + (a.channel_count_per_iso_stream : Int) := by
          ring
        rw [hmul]
        generalize ((rest.filter (fun pair => decide (pair.1 = h))).length : Int) *
          (a.channel_count_per_iso_stream : Int) = x
        push_cast
        omega
    · have hneg : ¬ ((fun (pair : Nat × Nat) => decide (pair.1 = h)) pair = true) := by
        simp only [decide_eq_true_eq]
        exact fun e => hp e.symm
      have hpos : (fun (pair : Nat × Nat) => decide (pair.1 ≠ h)) pair = true := by
        simp only [decide_eq_true_eq]
        exact fun e => hp e.symm
      rw [if_neg hp,
        List.filter_cons_of_neg (p := fun (pair : Nat × Nat) => decide (pair.1 = h)) hneg,
        List.filter_cons_of_pos (p := fun (pair : Nat × Nat) => decide (pair.1 ≠ h)) hpos,
        ih params hlt]

/-- For a handle other than 0, one round of the loop over the directions
leaves the handle as it is and the parameters of the direction without the
stream locations of the handle. -/
theorem removeCisFromDirection_eq (d : LeAudioDevice) (dir : Direction) (h : Nat) (hh : h ≠ 0)
    (params : stream_parameters) (hlt : params.num_of_channels < 256) :
    removeCisFromDirection d dir h params =
      (h, withoutCis ((d.GetAsesByCisConnHdl h).get dir) h params) := by
  unfold removeCisFromDirection
  cases hget : (d.GetAsesByCisConnHdl h).get dir with
  | none =>
    rw [removeCisLoop_none d dir h hh hget]
    rfl
  | some a =>
    rw [removeCisLoop_some d dir h hh a hget _ _ hlt]
    rfl

/-- C24, as amended: for a CIS handle `h` other than 0 that is part of the
current stream, and channel counts that are `uint8_t` values,
`RemoveCisFromStreamIfNeeded(device, h)` removes, per direction, exactly the
stream locations with the handle `h` when the device has an ASE of that
direction on `h`, counts a device less and the channels of that ASE less
(modulo 256) for each entry removed, leaves every other entry as it is, then
clears the parameters of a direction whose channel count is 0, and unassigns
the CISes of the device. -/
theorem RemoveCisFromStreamIfNeeded_rule (g : LeAudioDeviceGroup) (d : LeAudioDevice)
    (h : Nat) (hh : h ≠ 0) (hpart : g.IsCisPartOfCurrentStream h = true)
    (hsink : g.stream_conf_stream_params.sink.num_of_channels < 256)
    (hsource : g.stream_conf_stream_params.source.num_of_channels < 256) :
    g.RemoveCisFromStreamIfNeeded d h =
      { g with
        stream_conf_stream_params :=
          ⟨clearedWhenSilent
             (withoutCis (d.GetAsesByCisConnHdl h).sink h g.stream_conf_stream_params.sink),
           clearedWhenSilent
             (withoutCis (d.GetAsesByCisConnHdl h).source h
               g.stream_conf_stream_params.source)⟩
        cig := UnassignCis g.cig d } := by
  unfold LeAudioDeviceGroup.RemoveCisFromStreamIfNeeded
  rw [hpart]
  simp only [Bool.not_true, Bool.false_eq_true, if_false]
  rw [removeCisFromDirection_eq d _ h hh _ hsink]
  dsimp only
  rw [removeCisFromDirection_eq d _ h hh _ hsource]
  rfl

/-- C24, `RemoveCisFromStreamIfNeeded_rule` at a group that streams to the sink
locations of the handles 5 and 9 with three channels, for the device whose
sink ASE with two channels is on the handle 5: the entry of the handle 5 goes,
a device and one channel are left. -/
theorem RemoveCisFromStreamIfNeeded_rule_witness :
    twoHandlesGroup.IsCisPartOfCurrentStream 5 = true ∧
      (twoHandlesGroup.RemoveCisFromStreamIfNeeded handleFiveDevice 5).stream_conf_stream_params =
        ⟨{ num_of_devices := 1, num_of_channels := 1, audio_channel_allocation := 2
           stream_locations := [(9, 2)] }, {}⟩ :=
  ⟨by decide,
   (congrArg (fun g1 : LeAudioDeviceGroup => g1.stream_conf_stream_params)
      (RemoveCisFromStreamIfNeeded_rule twoHandlesGroup handleFiveDevice 5 (by decide)
        (by decide) (by decide) (by decide))).trans (by decide)⟩

/-- C24, counterexample to the claim as stated: the handle 0 is part of the
current stream, whose sink locations are on the handles 5 and 0, and the
device has no ASE on the handle 0; the call for the handle 0 removes the entry
of the handle 5 and counts a device and two channels less. -/
theorem RemoveCisFromStreamIfNeeded_zero_handle :
    zeroHandleGroup.IsCisPartOfCurrentStream 0 = true ∧
      (handleFiveDevice.GetAsesByCisConnHdl 0).sink = none ∧
      zeroHandleGroup.stream_conf_stream_params.sink.stream_locations = [(5, 1), (0, 2)] ∧
      (zeroHandleGroup.RemoveCisFromStreamIfNeeded handleFiveDevice 0).stream_conf_stream_params.sink =
        { num_of_devices := 1, num_of_channels := 1, audio_channel_allocation := 2
          stream_locations := [(0, 2)] } := by
  decide

/-! # A handle outside the stream, and the transport latency of the group -/

/-- C37: for a CIS handle that no sink and no source stream location of the
current stream holds, `IsCisPartOfCurrentStream` is false and
`RemoveCisFromStreamIfNeeded(device, handle)` leaves the whole group as it is:
the stream counters, the stream locations and the CIS table, in which the
slots bound to the device stay bound. -/
theorem RemoveCisFromStreamIfNeeded_absent (g : LeAudioDeviceGroup) (d : LeAudioDevice)
    (h : Nat)
    (hsink : ∀ pair ∈ g.stream_conf_stream_params.sink.stream_locations, pair.1 ≠ h)
    (hsource : ∀ pair ∈ g.stream_conf_stream_params.source.stream_locations, pair.1 ≠ h) :
    g.IsCisPartOfCurrentStream h = false ∧ g.RemoveCisFromStreamIfNeeded d h = g := by
  have hpart : g.IsCisPartOfCurrentStream h = false := by
    unfold LeAudioDeviceGroup.IsCisPartOfCurrentStream
    have h1 : g.stream_conf_stream_params.sink.stream_locations.find?
        (fun pair => decide (h = pair.1)) = none := by
      rw [List.find?_eq_none]
      intro pair hp hd
      exact hsink pair hp (of_decide_eq_true hd).symm
    have h2 : g.stream_conf_stream_params.source.stream_locations.find?
        (fun pair => decide (h = pair.1)) = none := by
      rw [List.find?_eq_none]
      intro pair hp hd
      exact hsource pair hp (of_decide_eq_true hd).symm
    simp only [h1, h2]
    rfl
  refine ⟨hpart, ?_⟩
  unfold LeAudioDeviceGroup.RemoveCisFromStreamIfNeeded
  rw [hpart]
  rfl

/-- C37, `RemoveCisFromStreamIfNeeded_absent` at a group that streams on the
handles 5 and 9 and whose table has a slot bound to the device: the call for
the handle 7 changes nothing. -/
theorem RemoveCisFromStreamIfNeeded_absent_witness :
    { twoHandlesGroup with cig := earbudTableBound }.IsCisPartOfCurrentStream 7 = false ∧
      { twoHandlesGroup with cig := earbudTableBound }.RemoveCisFromStreamIfNeeded
        handleFiveDevice 7 = { twoHandlesGroup with cig := earbudTableBound } :=
  RemoveCisFromStreamIfNeeded_absent { twoHandlesGroup with cig := earbudTableBound }
    handleFiveDevice 7 (by decide) (by decide)

/-- A value that is not 0 stays as it is under the write of
`SetTransportLatency`. -/
theorem writeTransportLatency_set (stored v : Nat) (h : stored ≠ 0) :
    writeTransportLatency stored v = stored := by
  unfold writeTransportLatency
  split_ifs <;> first | rfl | (exfalso; omega)

/-- The value 0 is replaced by the new value. -/
theorem writeTransportLatency_unset (v : Nat) : writeTransportLatency 0 v = v := by
  unfold writeTransportLatency
  split_ifs <;> first | rfl | omega

/-- A call of `SetTransportLatency` keeps a stored latency that is not 0. -/
theorem SetTransportLatency_keeps (env : Env) (g : LeAudioDeviceGroup) (direction v : Nat) :
    (g.transport_latency_mtos_us_ ≠ 0 →
      (g.SetTransportLatency env direction v).transport_latency_mtos_us_ =
        g.transport_latency_mtos_us_) ∧
    (g.transport_latency_stom_us_ ≠ 0 →
      (g.SetTransportLatency env direction v).transport_latency_stom_us_ =
        g.transport_latency_stom_us_) := by
  unfold LeAudioDeviceGroup.SetTransportLatency
  refine ⟨fun h => ?_, fun h => ?_⟩
  · split_ifs
    · exact writeTransportLatency_set _ _ h
    · rfl
    · rfl
  · split_ifs
    · rfl
    · exact writeTransportLatency_set _ _ h
    · rfl

/-- C39: `SetTransportLatency(direction, v)` stores `v` for the direction when
the stored value of the direction is 0, and leaves a stored value other than 0
as it is, also after any sequence of calls; a call for the sink direction
leaves the value of the source direction as it is, and a call for another
direction that of the sink direction; a call with a direction that is neither
sink nor source leaves the group as it is, and `GetTransportLatencyUs` returns 0
for such a direction; no call changes anything but the two latencies. -/
theorem SetTransportLatency_write_once (env : Env) (g : LeAudioDeviceGroup)
    (direction v : Nat) (calls : List (Nat × Nat)) :
    (direction = env.kLeAudioDirectionSink →
      (g.SetTransportLatency env direction v).transport_latency_mtos_us_ =
          (if g.transport_latency_mtos_us_ = 0 then v else g.transport_latency_mtos_us_) ∧
        (g.SetTransportLatency env direction v).transport_latency_stom_us_ =
          g.transport_latency_stom_us_) ∧
    (direction ≠ env.kLeAudioDirectionSink → direction = env.kLeAudioDirectionSource →
      (g.SetTransportLatency env direction v).transport_latency_stom_us_ =
          (if g.transport_latency_stom_us_ = 0 then v else g.transport_latency_stom_us_) ∧
        (g.SetTransportLatency env direction v).transport_latency_mtos_us_ =
          g.transport_latency_mtos_us_) ∧
    (direction ≠ env.kLeAudioDirectionSink → direction ≠ env.kLeAudioDirectionSource →
      g.SetTransportLatency env direction v = g ∧
        (g.SetTransportLatency env direction v).GetTransportLatencyUs env direction = 0) ∧
    (g.transport_latency_mtos_us_ ≠ 0 →
      (applySetTransportLatency env g calls).transport_latency_mtos_us_ =
        g.transport_latency_mtos_us_) ∧
    (g.transport_latency_stom_us_ ≠ 0 →
      (applySetTransportLatency env g calls).transport_latency_stom_us_ =
        g.transport_latency_stom_us_) ∧
    g.SetTransportLatency env direction v =
      { g with
        transport_latency_mtos_us_ :=
          (g.SetTransportLatency env direction v).transport_latency_mtos_us_
        transport_latency_stom_us_ :=
          (g.SetTransportLatency env direction v).transport_latency_stom_us_ } := by
  have hseq : ∀ (calls : List (Nat × Nat)) (g : LeAudioDeviceGroup),
      (g.transport_latency_mtos_us_ ≠ 0 →
        (applySetTransportLatency env g calls).transport_latency_mtos_us_ =
          g.transport_latency_mtos_us_) ∧
      (g.transport_latency_stom_us_ ≠ 0 →
        (applySetTransportLatency env g calls).transport_latency_stom_us_ =
          g.transport_latency_stom_us_) := by
    intro calls
    induction calls with
    | nil => intro g; exact ⟨fun _ => rfl, fun _ => rfl⟩
    | cons call rest ih =>
      intro g
      have hk := SetTransportLatency_keeps env g call.1 call.2
      have hr := ih (g.SetTransportLatency env call.1 call.2)
      refine ⟨fun h => ?_, fun h => ?_⟩
      · have e := hk.1 h
        exact (hr.1 (by rw [e]; exact h)).trans e
      · have e := hk.2 h
        exact (hr.2 (by rw [e]; exact h)).trans e
  refine ⟨?_, ?_, ?_, (hseq calls g).1, (hseq calls g).2, ?_⟩
  · intro hd
    unfold LeAudioDeviceGroup.SetTransportLatency
    rw [if_pos hd]
    refine ⟨?_, rfl⟩
    dsimp only
    split
    · rename_i h0
      rw [h0]
      exact writeTransportLatency_unset v
    · rename_i h0
      exact writeTransportLatency_set _ _ h0
  · intro hs hd
    unfold LeAudioDeviceGroup.SetTransportLatency
    rw [if_neg hs, if_pos hd]
    refine ⟨?_, rfl⟩
    dsimp only
    split
    · rename_i h0
      rw [h0]
      exact writeTransportLatency_unset v
    · rename_i h0
      exact writeTransportLatency_set _ _ h0
  · intro hs hd
    unfold LeAudioDeviceGroup.SetTransportLatency LeAudioDeviceGroup.GetTransportLatencyUs
    simp only [if_neg hs, if_neg hd]
    exact ⟨trivial, trivial⟩
  · unfold LeAudioDeviceGroup.SetTransportLatency
    split_ifs <;> rfl

/-- C39, `SetTransportLatency_write_once` at a group without latencies, with
sink the direction 1: the first call stores 10000 for the sink direction and
the second call, with 20000, changes nothing; a call for the direction 7
changes nothing. -/
theorem SetTransportLatency_write_once_witness :
    (({} : LeAudioDeviceGroup).SetTransportLatency exampleEnv 1 10000).transport_latency_mtos_us_ =
        10000 ∧
      (applySetTransportLatency exampleEnv {} [(1, 10000), (1, 20000), (2, 30000), (7, 5)]) =
        { transport_latency_mtos_us_ := 10000, transport_latency_stom_us_ := 30000 } ∧
      ({} : LeAudioDeviceGroup).SetTransportLatency exampleEnv 7 5 = {} :=
  ⟨((SetTransportLatency_write_once exampleEnv {} 1 10000 []).1 (by decide)).1.trans
      (by decide),
   by decide, by decide⟩

/-! # The quota of ASEs per device and the check of the strategy -/

/-- The quotient rounded up, from the quotient and the remainder. -/
theorem ceilDiv_eq (n d : Nat) (hd : 0 < d) :
    ceilDiv n d = n / d + (if n % d = 0 then 0 else 1) := by
  unfold ceilDiv
  have hsplit : n + d - 1 = (n % d + d - 1) + d * (n / d) := by
    have := Nat.div_add_mod n d
    omega
  rw [hsplit, Nat.add_mul_div_left _ _ hd]
  have hr : n % d < d := Nat.mod_lt n hd
  split
  · rename_i h0
    rw [h0, Nat.div_eq_of_lt (by omega)]
    omega
  · have h1 : (n % d + d - 1) / d = 1 := by
      have e : n % d + d - 1 = (n % d - 1) + d * 1 := by omega
      rw [e, Nat.add_mul_div_left _ _ hd, Nat.div_eq_of_lt (by omega)]
    rw [h1]
    omega

/-- The quotient plus the remainder is at most the dividend. -/
theorem div_add_mod_le (n d : Nat) (hd : 0 < d) : n / d + n % d ≤ n := by
  have h1 := Nat.div_add_mod n d
  have h2 : n / d ≤ d * (n / d) := Nat.le_mul_of_pos_left _ hd
  omega

/-- C33, as amended: in `IsAudioSetConfigurationSupported`, for a direction
with `ase_count > 0` and `device_count > 0`, the quota handed to the loop over
the devices is `ase_count / device_count + ase_count % device_count`, stored in
a `uint8_t`; for `ase_count <= 255` it is at least `ceil(ase_count /
device_count)`, and it equals that value when the remainder is 0 or 1. -/
theorem maxRequiredAsePerDev_rule (env : Env) (g : LeAudioDeviceGroup)
    (audio_set_conf : AudioSetConfiguration) (topology_info : TopologyInfo)
    (required_snk_strategy : LeAudioConfigurationStrategy) (direction : Direction)
    (htopology : audio_set_conf.topology_info = some topology_info)
    (hase : 0 < (audio_set_conf.confs.get direction).length)
    (hdevice : 0 < topology_info.device_count.get direction) :
    supportedForDirection env g audio_set_conf required_snk_strategy direction =
        (if direction = Direction.kLeAudioDirectionSink ∧
            topology_info.strategy.get direction ≠ required_snk_strategy then some false
         else
          match supportedDevicesLoop env g (topology_info.strategy.get direction) direction
              (audio_set_conf.confs.get direction)
              (maxRequiredAsePerDev (audio_set_conf.confs.get direction).length
                (topology_info.device_count.get direction))
              g.leAudioDevices_.length g.GetFirstDeviceIndex
              (topology_info.device_count.get direction) 0 with
          | none => none
          | some none => some false
          | some (some required_device_cnt1) =>
            if required_device_cnt1 > 0 then some false else some true) ∧
      maxRequiredAsePerDev (audio_set_conf.confs.get direction).length
          (topology_info.device_count.get direction) =
        ((audio_set_conf.confs.get direction).length /
            topology_info.device_count.get direction +
          (audio_set_conf.confs.get direction).length %
            topology_info.device_count.get direction) % 256 ∧
      ((audio_set_conf.confs.get direction).length ≤ 255 →
        ceilDiv (audio_set_conf.confs.get direction).length
            (topology_info.device_count.get direction) ≤
          maxRequiredAsePerDev (audio_set_conf.confs.get direction).length
            (topology_info.device_count.get direction)) ∧
      ((audio_set_conf.confs.get direction).length ≤ 255 →
        (audio_set_conf.confs.get direction).length %
          topology_info.device_count.get direction ≤ 1 →
        maxRequiredAsePerDev (audio_set_conf.confs.get direction).length
            (topology_info.device_count.get direction) =
          ceilDiv (audio_set_conf.confs.get direction).length
            (topology_info.device_count.get direction)) := by
  generalize hn : (audio_set_conf.confs.get direction).length = n at *
  generalize hdc : topology_info.device_count.get direction = d at *
  have hle := div_add_mod_le n d hdevice
  have hceil := ceilDiv_eq n d hdevice
  refine ⟨?_, rfl, ?_, ?_⟩
  · unfold supportedForDirection
    simp only [htopology, hn, hdc]
    have h1 : ¬ n = 0 := by omega
    have h2 : ¬ d = 0 := by omega
    exact (if_neg h1).trans ((if_neg h2).trans rfl)
  · intro h255
    have hlt : n / d + n % d < 256 := by omega
    unfold maxRequiredAsePerDev
    rw [hceil, Nat.mod_eq_of_lt hlt]
    split <;> omega
  · intro h255 hrem
    have hlt : n / d + n % d < 256 := by omega
    unfold maxRequiredAsePerDev
    rw [hceil, Nat.mod_eq_of_lt hlt]
    split <;> omega

/-- C33, `maxRequiredAsePerDev_rule` at an entry with two sink requirements for
two devices: the quota is 1, which is `ceil(2 / 2)`. -/
theorem maxRequiredAsePerDev_rule_witness :
    maxRequiredAsePerDev (twoSinksConf.confs.get Direction.kLeAudioDirectionSink).length 2 =
        ceilDiv (twoSinksConf.confs.get Direction.kLeAudioDirectionSink).length 2 ∧
      ceilDiv (twoSinksConf.confs.get Direction.kLeAudioDirectionSink).length 2 = 1 :=
  ⟨(maxRequiredAsePerDev_rule exampleEnv oneSinkGroup twoSinksConf
      { device_count := ⟨2, 0⟩
        strategy := ⟨LeAudioConfigurationStrategy.MONO_ONE_CIS_PER_DEVICE,
                     LeAudioConfigurationStrategy.MONO_ONE_CIS_PER_DEVICE⟩ }
      LeAudioConfigurationStrategy.MONO_ONE_CIS_PER_DEVICE Direction.kLeAudioDirectionSink rfl
      (by decide) (by decide)).2.2.2 (by decide) (by decide),
   by decide⟩

/-- C33, counterexample to the claim as stated: for five ASEs and three
devices the quota is 1 + 2 = 3, where `ceil(5 / 3)` is 2. -/
theorem maxRequiredAsePerDev_not_ceil :
    maxRequiredAsePerDev 5 3 = 3 ∧ ceilDiv 5 3 = 2 := by
  decide

/-- The mask `1 << k` meets a bitmap exactly when the bit `k` of the bitmap is
set. -/
theorem shiftLeft_and_ne_zero (m k : Nat) : (1 <<< k) &&& m ≠ 0 ↔ m.testBit k = true := by
  rw [Nat.one_shiftLeft]
  constructor
  · intro h
    by_contra hb
    apply h
    apply Nat.eq_of_testBit_eq
    intro i
    rw [Nat.testBit_and, Nat.testBit_two_pow, Nat.zero_testBit]
    by_cases hik : k = i
    · subst hik
      simp [hb]
    · simp [hik]
  · intro hb h
    have := congrArg (fun x => x.testBit k) h
    simp [Nat.testBit_and, Nat.testBit_two_pow_self, hb] at this

/-- C34, as amended: for a requested channel count `n` with `1 <= n <= 32` when
the strategy is `STEREO_ONE_CIS_PER_DEVICE`, `CheckIfStrategySupported`,
evaluated on the audio-location bitmap of the device for the direction, is
true exactly when: for `MONO_ONE_CIS_PER_DEVICE`, a location bit is set; for
`STEREO_TWO_CISES_PER_DEVICE`, a left and a right bit are set; for
`STEREO_ONE_CIS_PER_DEVICE`, both are set and the bit `n - 1` of the supported
channel counts of the device is set; it is false for any other strategy. -/
theorem CheckIfStrategySupported_rule (env : Env) (strategy : LeAudioConfigurationStrategy)
    (conf : AseConfiguration) (direction : Direction) (device : LeAudioDevice)
    (hcount : strategy = LeAudioConfigurationStrategy.STEREO_ONE_CIS_PER_DEVICE →
      1 ≤ conf.channel_count_per_iso_stream ∧ conf.channel_count_per_iso_stream ≤ 32) :
    CheckIfStrategySupported env strategy conf direction device =
      some (strategySupported env strategy conf direction device) := by
  have hloc : (if direction = Direction.kLeAudioDirectionSink then device.snk_audio_locations_
      else device.src_audio_locations_) = audioLocationsOf direction device := by
    cases direction <;> rfl
  unfold CheckIfStrategySupported strategySupported
  simp only [hloc]
  cases strategy with
  | MONO_ONE_CIS_PER_DEVICE => rfl
  | STEREO_TWO_CISES_PER_DEVICE =>
    by_cases h1 : audioLocationsOf direction device &&& env.kLeAudioLocationAnyLeft = 0 <;>
      by_cases h2 : audioLocationsOf direction device &&& env.kLeAudioLocationAnyRight = 0 <;>
      simp [h1, h2]
  | STEREO_ONE_CIS_PER_DEVICE =>
    obtain ⟨hlo, hhi⟩ := hcount rfl
    by_cases h1 : audioLocationsOf direction device &&& env.kLeAudioLocationAnyLeft = 0
    · simp [h1]
    · by_cases h2 : audioLocationsOf direction device &&& env.kLeAudioLocationAnyRight = 0
      · simp [h2]
      · have hn : ¬ (conf.channel_count_per_iso_stream = 0 ∨
            conf.channel_count_per_iso_stream > 32) := by omega
        simp only [h1, h2, or_self, if_false, hn, ne_eq, not_false_eq_true, decide_True,
          Bool.true_and, Option.some.injEq]
        by_cases hb : (device.GetSupportedAudioChannelCounts direction).testBit
            (conf.channel_count_per_iso_stream - 1) = true
        · rw [hb, decide_eq_true_eq]
          exact (shiftLeft_and_ne_zero _ _).mpr hb
        · have hb2 : (device.GetSupportedAudioChannelCounts direction).testBit
              (conf.channel_count_per_iso_stream - 1) = false := by simpa using hb
          rw [hb2, decide_eq_false_iff_not]
          exact fun h => hb ((shiftLeft_and_ne_zero _ _).mp h)
  | RFU => rfl

/-- C34, `CheckIfStrategySupported_rule` at a device with a left and a right
sink location that supports one channel per stream: the stereo strategy with
one CIS passes for one channel and fails for two. -/
theorem CheckIfStrategySupported_rule_witness :
    CheckIfStrategySupported exampleEnv LeAudioConfigurationStrategy.STEREO_ONE_CIS_PER_DEVICE
        { channel_count_per_iso_stream := 1 } Direction.kLeAudioDirectionSink stereoDevice =
        some true ∧
      CheckIfStrategySupported exampleEnv LeAudioConfigurationStrategy.STEREO_ONE_CIS_PER_DEVICE
        { channel_count_per_iso_stream := 2 } Direction.kLeAudioDirectionSink stereoDevice =
        some false :=
  ⟨(CheckIfStrategySupported_rule exampleEnv
      LeAudioConfigurationStrategy.STEREO_ONE_CIS_PER_DEVICE { channel_count_per_iso_stream := 1 }
      Direction.kLeAudioDirectionSink stereoDevice (fun _ => by decide)).trans (by decide),
   by decide⟩

/-- C34, counterexample to the claim as stated: for the requested channel
count 33, which is at least 1, and a device with a left and a right sink
location, the bit 32 of the supported channel counts is not set, but the check
shifts an `int` by 32 and has no defined result. -/
theorem CheckIfStrategySupported_wide_count :
    (stereoDevice.GetSupportedAudioChannelCounts Direction.kLeAudioDirectionSink).testBit
        (33 - 1) = false ∧
      strategySupported exampleEnv LeAudioConfigurationStrategy.STEREO_ONE_CIS_PER_DEVICE
        { channel_count_per_iso_stream := 33 } Direction.kLeAudioDirectionSink stereoDevice =
        false ∧
      CheckIfStrategySupported exampleEnv LeAudioConfigurationStrategy.STEREO_ONE_CIS_PER_DEVICE
        { channel_count_per_iso_stream := 33 } Direction.kLeAudioDirectionSink stereoDevice =
        none := by
  decide

/-- C35: for an entry with two sink requirements declared for two devices, the
quota is 1; in a group of an earbud with one sink ASE and a microphone without
a sink ASE and without a sink location, the loop over the requirements counts
the sink ASE of the earbud twice, so that the microphone, which fails the check
of the strategy, starts with nothing left to find and passes: the entry is
accepted although one member only has a sink ASE. -/
theorem IsAudioSetConfigurationSupported_overcounts :
    maxRequiredAsePerDev (twoSinksConf.confs.get Direction.kLeAudioDirectionSink).length 2 = 1 ∧
      matchRequirements exampleEnv oneSinkGroup
        LeAudioConfigurationStrategy.MONO_ONE_CIS_PER_DEVICE Direction.kLeAudioDirectionSink
        leftEarbud twoSinksConf.confs.sink 0 1 = some (2, -1) ∧
      plainMic.GetAseCount Direction.kLeAudioDirectionSink = 0 ∧
      CheckIfStrategySupported exampleEnv LeAudioConfigurationStrategy.MONO_ONE_CIS_PER_DEVICE
        { codec := 1 } Direction.kLeAudioDirectionSink plainMic = some false ∧
      supportedForDirection exampleEnv oneSinkGroup twoSinksConf
        LeAudioConfigurationStrategy.MONO_ONE_CIS_PER_DEVICE Direction.kLeAudioDirectionSink =
        some true ∧
      oneSinkGroup.IsAudioSetConfigurationSupported exampleEnv twoSinksConf 4
        LeAudioConfigurationStrategy.MONO_ONE_CIS_PER_DEVICE = some true := by
  decide

/-! # The loop of `AssignCisConnHandlesToAses(leAudioDevice)` ends -/

/-- A count does not grow when the elements that satisfy the predicate in the
second list satisfy it in the first list at the same position. -/
theorem countP_le_of_pointwise {α : Type} (p : α → Bool) :
    ∀ (l1 l2 : List α), l2.length = l1.length →
      (∀ (n : Nat) (x y : α), l1[n]? = some x → l2[n]? = some y → p y = true → p x = true) →
      l2.countP p ≤ l1.countP p := by
  intro l1
  induction l1 with
  | nil =>
    intro l2 hlen _
    have : l2 = [] := List.eq_nil_of_length_eq_zero hlen
    rw [this]
  | cons x rest ih =>
    intro l2 hlen h
    cases l2 with
    | nil => simp at hlen
    | cons y rest2 =>
      have hrest := ih rest2 (by simpa using hlen)
        (fun n a b ha hb => h (n + 1) a b (by simpa using ha) (by simpa using hb))
      have h0 := h 0 x y (List.getElem?_cons_zero) (List.getElem?_cons_zero)
      rw [List.countP_cons, List.countP_cons]
      by_cases hy : p y = true
      · rw [if_pos hy, if_pos (h0 hy)]
        omega
      · rw [if_neg hy]
        omega

/-- A count falls when, besides, an element that satisfies the predicate in
the first list does not in the second. -/
theorem countP_lt_of_pointwise {α : Type} (p : α → Bool) :
    ∀ (l1 l2 : List α), l2.length = l1.length →
      (∀ (n : Nat) (x y : α), l1[n]? = some x → l2[n]? = some y → p y = true → p x = true) →
      ∀ (i : Nat) (x y : α), l1[i]? = some x → l2[i]? = some y → p x = true → p y = false →
      l2.countP p < l1.countP p := by
  intro l1
  induction l1 with
  | nil =>
    intro l2 _ _ i x y hx
    simp at hx
  | cons a rest ih =>
    intro l2 hlen h i x y hx hy hpx hpy
    cases l2 with
    | nil => simp at hlen
    | cons b rest2 =>
      have hlen2 : rest2.length = rest.length := by simpa using hlen
      have hpoint : ∀ (n : Nat) (u v : α), rest[n]? = some u → rest2[n]? = some v →
          p v = true → p u = true :=
        fun n u v hu hv => h (n + 1) u v (by simpa using hu) (by simpa using hv)
      rw [List.countP_cons, List.countP_cons]
      cases i with
      | zero =>
        simp only [List.getElem?_cons_zero, Option.some.injEq] at hx hy
        subst hx
        subst hy
        have hle := countP_le_of_pointwise p rest rest2 hlen2 hpoint
        rw [if_pos hpx, if_neg (by simp [hpy])]
        omega
      | succ j =>
        have hlt := ih rest2 hlen2 hpoint j x y (by simpa using hx) (by simpa using hy) hpx hpy
        have h0 := h 0 a b (List.getElem?_cons_zero) (List.getElem?_cons_zero)
        by_cases hb : p b = true
        · rw [if_pos hb, if_pos (h0 hb)]
          omega
        · rw [if_neg hb]
          omega

/-- A device in which no two ASEs share direction and CIS id. -/
theorem pairUnique_of_noSharedCisId (d : LeAudioDevice) (h : noSharedCisId d) :
    pairUnique d := by
  intro i j a b ha hb _ hcis hdir
  have hi := lt_of_getElem_some ha
  have hj := lt_of_getElem_some hb
  have hai : d.ases_[i] = a := by
    rw [List.getElem?_eq_getElem hi] at ha
    simpa using ha
  have hbj : d.ases_[j] = b := by
    rw [List.getElem?_eq_getElem hj] at hb
    simpa using hb
  have hp := List.pairwise_iff_getElem.mp h
  by_contra hne
  rcases Nat.lt_or_gt_of_ne hne with hlt | hgt
  · have := hp j i hj hi hlt
    rw [hai, hbj] at this
    exact this ⟨hcis, hdir⟩
  · have := hp i j hi hj hgt
    rw [hai, hbj] at this
    exact this ⟨hcis.symm, hdir.symm⟩

/-- The CIS ids of the active ASEs index the table. -/
theorem activeInTable_of_activeIdsInTable (d : LeAudioDevice) (size : Nat)
    (h : activeIdsInTable d size) : activeInTable d size :=
  fun _ a ha hact => h a (List.getElem?_mem ha) hact

/-- One pass of the loop for the ASE found: the ASE gets the CIS state
`ASSIGNED`, and fewer active ASEs are left with CIS and data-path state
`IDLE`. -/
theorem assignCisConnHandlesToAsesBody_decreases {cises : List cis} {d : LeAudioDevice}
    {i : Nat} (hu : pairUnique d) (hin : activeInTable d cises.length)
    (hfirst : d.GetFirstActiveAseByCisAndDataPathState CisState.IDLE DataPathState.IDLE =
      some i) :
    ∃ d1 y, assignCisConnHandlesToAsesBody cises d i = some d1 ∧ d1.ases_[i]? = some y ∧
      y.cis_state = CisState.ASSIGNED ∧ idleCount d1 < idleCount d ∧ pairUnique d1 ∧
      activeInTable d1 cises.length := by
  obtain ⟨_, hi, ⟨a, ha, hp⟩, _⟩ := findIfFrom_some hfirst
  have hact : a.active = true := by
    simp only [Bool.and_eq_true, decide_eq_true_eq] at hp
    exact hp.1.1
  obtain ⟨d1, hbody, hg, y, hy, hd1i⟩ := assignCisConnHandlesToAsesBody_spec ha hact hu hin
  refine ⟨d1, y, hbody, hd1i, ?_, ?_, pairUnique_handlesGiven hg hu,
    activeInTable_handlesGiven hg hin⟩
  · unfold assignedAse at hy
    cases hc : cises[a.cis_id]? with
    | none => simp [hc] at hy
    | some c =>
      simp only [hc, Option.map_some', Option.some.injEq] at hy
      rw [← hy]
  · unfold idleCount
    refine countP_lt_of_pointwise idleActive d.ases_ d1.ases_ hg.2.1 ?_ i a y ha hd1i hp
      (assignedAse_idem hy).2.2.2.1
    intro n x z hx hz hidle
    obtain ⟨x0, hx0, _, _, _, heq⟩ := handlesGiven_get hg hz
    rw [hx] at hx0
    simp only [Option.some.injEq] at hx0
    subst hx0
    rw [← heq hidle]
    exact hidle

/-- The loop returns with as much fuel as there are active ASEs with CIS and
data-path state `IDLE`, and leaves none. -/
theorem assignCisConnHandlesToAsesLoop_ends (cises : List cis) :
    ∀ (fuel : Nat) (d : LeAudioDevice), pairUnique d → activeInTable d cises.length →
      idleCount d ≤ fuel →
      ∃ d2, assignCisConnHandlesToAsesLoop cises fuel d = some d2 ∧ idleCount d2 = 0 := by
  intro fuel
  induction fuel with
  | zero =>
    intro d _ _ hfuel
    unfold assignCisConnHandlesToAsesLoop
    cases hfirst : d.GetFirstActiveAseByCisAndDataPathState CisState.IDLE DataPathState.IDLE with
    | none => exact ⟨d, rfl, by omega⟩
    | some i =>
      obtain ⟨_, _, ⟨a, ha, hp⟩, _⟩ := findIfFrom_some hfirst
      have hpos : 0 < idleCount d :=
        List.countP_pos_iff.mpr ⟨a, List.getElem?_mem ha, hp⟩
      omega
  | succ k ih =>
    intro d hu hin hfuel
    unfold assignCisConnHandlesToAsesLoop
    cases hfirst : d.GetFirstActiveAseByCisAndDataPathState CisState.IDLE DataPathState.IDLE with
    | none =>
      refine ⟨d, rfl, ?_⟩
      unfold idleCount
      rw [List.countP_eq_zero]
      intro a ha
      obtain ⟨n, hn⟩ := List.mem_iff_getElem?.mp ha
      have := findIfFrom_none hfirst n (Nat.zero_le _) a hn
      rw [idleActive]
      simp [this]
    | some i =>
      obtain ⟨d1, y, hbody, _, _, hlt, hu1, hin1⟩ :=
        @assignCisConnHandlesToAsesBody_decreases cises _ _ hu hin hfirst
      dsimp only
      rw [hbody]
      dsimp only
      exact ih d1 hu1 hin1 (by omega)

/-- More fuel does not change the result of the loop. -/
theorem assignCisConnHandlesToAsesLoop_mono (cises : List cis) :
    ∀ (fuel extra : Nat) (d d2 : LeAudioDevice),
      assignCisConnHandlesToAsesLoop cises fuel d = some d2 →
      assignCisConnHandlesToAsesLoop cises (fuel + extra) d = some d2 := by
  intro fuel
  induction fuel with
  | zero =>
    intro extra d d2 h
    unfold assignCisConnHandlesToAsesLoop at h ⊢
    cases hfirst : d.GetFirstActiveAseByCisAndDataPathState CisState.IDLE DataPathState.IDLE with
    | none =>
      rw [hfirst] at h
      exact h
    | some i =>
      rw [hfirst] at h
      simp at h
  | succ k ih =>
    intro extra d d2 h
    have hk : k + 1 + extra = (k + extra) + 1 := by omega
    rw [hk]
    unfold assignCisConnHandlesToAsesLoop at h ⊢
    cases hfirst : d.GetFirstActiveAseByCisAndDataPathState CisState.IDLE DataPathState.IDLE with
    | none =>
      rw [hfirst] at h
      exact h
    | some i =>
      rw [hfirst] at h
      dsimp only at h ⊢
      cases hbody : assignCisConnHandlesToAsesBody cises d i with
      | none =>
        rw [hbody] at h
        simp at h
      | some d1 =>
        rw [hbody] at h
        dsimp only at h ⊢
        exact ih extra d1 d2 h

/-- C38: when the CIS id held by every active ASE of the device indexes a slot
of the table and no two ASEs of the device share direction and CIS id, each
pass of the loop of `AssignCisConnHandlesToAses(device)` gives the ASE it found
the CIS state `ASSIGNED`, leaves fewer active ASEs with CIS and data-path state
`IDLE` and keeps the two assumptions; and the loop ends after at most as many
passes as there are such ASEs at the start, with the result of the call, in
which no such ASE is left. -/
theorem AssignCisConnHandlesToAsesOfDevice_terminates (cig : CigConfiguration)
    (d : LeAudioDevice) (hin : activeIdsInTable d cig.cises.length)
    (hu : noSharedCisId d) :
    (∀ i : Nat,
      d.GetFirstActiveAseByCisAndDataPathState CisState.IDLE DataPathState.IDLE = some i →
      ∃ d1 y, assignCisConnHandlesToAsesBody cig.cises d i = some d1 ∧
        d1.ases_[i]? = some y ∧ y.cis_state = CisState.ASSIGNED ∧
        idleCount d1 < idleCount d ∧ pairUnique d1 ∧ activeInTable d1 cig.cises.length) ∧
    ∃ d2, assignCisConnHandlesToAsesLoop cig.cises (idleCount d) d = some d2 ∧
      AssignCisConnHandlesToAsesOfDevice cig d = some d2 ∧ idleCount d2 = 0 := by
  have hu1 := pairUnique_of_noSharedCisId d hu
  have hin1 := activeInTable_of_activeIdsInTable d _ hin
  refine ⟨fun i hfirst => assignCisConnHandlesToAsesBody_decreases hu1 hin1 hfirst, ?_⟩
  obtain ⟨d2, hloop, hdone⟩ :=
    assignCisConnHandlesToAsesLoop_ends cig.cises (idleCount d) d hu1 hin1 (le_refl _)
  refine ⟨d2, hloop, ?_, hdone⟩
  have hle : idleCount d ≤ d.ases_.length := List.countP_le_length _
  have := assignCisConnHandlesToAsesLoop_mono cig.cises (idleCount d)
    (d.ases_.length - idleCount d) d d2 hloop
  unfold AssignCisConnHandlesToAsesOfDevice
  rw [← this]
  congr 1
  omega

/-- C38, `AssignCisConnHandlesToAsesOfDevice_terminates` at a device with three
active ASEs with CIS and data-path state `IDLE`, two of which share the CIS id
0 in different directions: the loop ends with fuel for three passes. -/
theorem AssignCisConnHandlesToAsesOfDevice_terminates_witness :
    idleCount threeStreamsDevice = 3 ∧
      ∃ d2, assignCisConnHandlesToAsesLoop twoSlotsTable.cises 3 threeStreamsDevice = some d2 ∧
        AssignCisConnHandlesToAsesOfDevice twoSlotsTable threeStreamsDevice = some d2 ∧
        idleCount d2 = 0 :=
  ⟨by decide,
   (AssignCisConnHandlesToAsesOfDevice_terminates twoSlotsTable threeStreamsDevice
      (by decide) (by decide)).2⟩

/-! # The fallback of `AssignCisIds` to a unidirectional and to a bidirectional slot -/

/-- When the lowest index of a free slot of the type is below 255,
`GetFirstFreeCisId` returns it, and it returns the invalid id when no slot of
the type is free. -/
theorem GetFirstFreeCisId_lowest (cises : List cis) (cis_type : CisType)
    (hfits : lowestFreeSlotFits cises cis_type = true) :
    (∀ k, lowestFreeSlot cises cis_type = some k →
      GetFirstFreeCisId cises cis_type = k ∧ k < cises.length ∧ k ≠ kInvalidCisId) ∧
    (lowestFreeSlot cises cis_type = none →
      GetFirstFreeCisId cises cis_type = kInvalidCisId) := by
  unfold lowestFreeSlotFits at hfits
  unfold lowestFreeSlot GetFirstFreeCisId RawAddress.IsEmpty at *
  refine ⟨?_, ?_⟩
  · intro k hk
    have hlt := (findIfFrom_some hk).2.1
    rw [hk] at hfits ⊢
    simp only [decide_eq_true_eq] at hfits
    dsimp only
    refine ⟨Nat.mod_eq_of_lt (by omega), hlt, ?_⟩
    unfold kInvalidCisId
    omega
  · intro hnone
    rw [hnone]

/-- Without a usable mate, the search for `matching_bidir_ase` ends with a null
pointer. -/
theorem matchingBidirAseLoop_none (d : LeAudioDevice) (i : Nat) (direction : Direction)
    (hmate : noUsableMate d i direction = true) :
    ∀ (fuel : Nat) (start : Option Nat),
      (∀ m, start = some m → i < m ∧ d.ases_.length - m ≤ fuel ∧
        ∃ x, d.ases_[m]? = some x ∧ x.active = true ∧ x.direction ≠ direction) →
      matchingBidirAseLoop d kInvalidCisId fuel start = some none := by
  have hheld : ∀ (m : Nat) (x : ase), i < m → d.ases_[m]? = some x → x.active = true →
      x.direction ≠ direction → x.cis_id ≠ kInvalidCisId := by
    intro m x him hx hact hdir hinv
    unfold noUsableMate at hmate
    rw [List.all_eq_true] at hmate
    have hmem : x ∈ d.ases_.drop (i + 1) := by
      apply List.getElem?_mem (n := m - (i + 1))
      rw [List.getElem?_drop]
      have : i + 1 + (m - (i + 1)) = m := by omega
      rw [this]
      exact hx
    have := hmate x hmem
    simp [hact, hdir, hinv] at this
  intro fuel
  induction fuel with
  | zero =>
    intro start hstart
    cases start with
    | none => rfl
    | some m =>
      obtain ⟨_, hfuel, x, hx, _, _⟩ := hstart m rfl
      have := lt_of_getElem_some hx
      omega
  | succ fuel ih =>
    intro start hstart
    cases start with
    | none => rfl
    | some m =>
      obtain ⟨him, hfuel, x, hx, hact, hdir⟩ := hstart m rfl
      have hval := hheld m x him hx hact hdir
      unfold matchingBidirAseLoop
      rw [hx]
      dsimp only
      rw [if_pos ⟨hval, hval⟩]
      apply ih
      intro m1 hm1
      unfold LeAudioDevice.GetNextActiveAseWithSameDirection at hm1
      rw [hx] at hm1
      dsimp only at hm1
      obtain ⟨hlo, hhi, ⟨y, hy, hp⟩, _⟩ := findIfFrom_some hm1
      simp only [Bool.and_eq_true, decide_eq_true_eq] at hp
      refine ⟨by omega, by omega, y, hy, hp.1, ?_⟩
      rw [hp.2]
      exact hdir

/-- The first candidate of the search for `matching_bidir_ase` is an active ASE
of the other direction after the ASE. -/
theorem GetNextActiveAseWithDifferentDirection_some {d : LeAudioDevice} {i m : Nat} {a : ase}
    (ha : d.ases_[i]? = some a)
    (h : d.GetNextActiveAseWithDifferentDirection i = some m) :
    i < m ∧ m < d.ases_.length ∧
      ∃ x, d.ases_[m]? = some x ∧ x.active = true ∧ x.direction ≠ a.direction := by
  unfold LeAudioDevice.GetNextActiveAseWithDifferentDirection at h
  rw [ha] at h
  dsimp only at h
  obtain ⟨hlo, hhi, ⟨x, hx, hp⟩, _⟩ := findIfFrom_some h
  simp only [Bool.and_eq_true, decide_eq_true_eq] at hp
  exact ⟨by omega, hhi, x, hx, hp.1, hp.2⟩

/-- C32, as amended: on a table whose lowest-index free slot of the
unidirectional type of the ASE and whose lowest-index free bidirectional slot,
where there is one, have an index below 255 (a valid 8-bit CIS id), the pass of
the loop of `AssignCisIds` for an ASE without a CIS id and without a usable
active ASE of the other direction gives the ASE the lowest-index free slot of
the unidirectional type of its direction (sink for a sink ASE, source for a
source ASE), or, if none is free, the lowest-index free bidirectional slot, and
binds the chosen slot to the address of the device; if neither is free the
pass fails and changes nothing. -/
theorem assignCisIdBody_fallback (d : LeAudioDevice) (cises : List cis) (i : Nat) (a : ase)
    (huni : lowestFreeSlotFits cises (uniType a.direction) = true)
    (hbi : lowestFreeSlotFits cises CisType.CIS_TYPE_BIDIRECTIONAL = true)
    (ha : d.ases_[i]? = some a)
    (hinv : a.cis_id = kInvalidCisId) (hmate : noUsableMate d i a.direction = true) :
    assignCisIdBody d cises i =
      match lowestFreeSlot cises (uniType a.direction) with
      | some k => some (true, d.setAseCisId i k, bindCis cises k d.address_)
      | none =>
        match lowestFreeSlot cises CisType.CIS_TYPE_BIDIRECTIONAL with
        | some k => some (true, d.setAseCisId i k, bindCis cises k d.address_)
        | none => some (false, d, cises) := by
  have hloop : matchingBidirAseLoop d kInvalidCisId d.ases_.length
      (d.GetNextActiveAseWithDifferentDirection i) = some none := by
    apply matchingBidirAseLoop_none d i a.direction hmate
    intro m hm
    obtain ⟨him, hlt, x, hx, hact, hdir⟩ := GetNextActiveAseWithDifferentDirection_some ha hm
    exact ⟨him, by omega, x, hx, hact, hdir⟩
  have hexisting : existingCisId a cises = some (some kInvalidCisId) := by
    unfold existingCisId
    rw [if_neg (by simp [hinv])]
  have hblock : (if a.direction = Direction.kLeAudioDirectionSink then
        assignUnidirectional d cises i kInvalidCisId CisType.CIS_TYPE_UNIDIRECTIONAL_SINK
      else
        assignUnidirectional d cises i kInvalidCisId CisType.CIS_TYPE_UNIDIRECTIONAL_SOURCE) =
      assignUnidirectional d cises i kInvalidCisId (uniType a.direction) := by
    cases a.direction <;> rfl
  unfold assignCisIdBody
  rw [ha]
  dsimp only
  rw [hexisting]
  dsimp only
  rw [hloop]
  dsimp only
  rw [hblock]
  unfold assignUnidirectional
  obtain ⟨huni1, huni2⟩ := GetFirstFreeCisId_lowest cises (uniType a.direction) huni
  obtain ⟨hbi1, hbi2⟩ := GetFirstFreeCisId_lowest cises CisType.CIS_TYPE_BIDIRECTIONAL hbi
  cases hu : lowestFreeSlot cises (uniType a.direction) with
  | some k =>
    obtain ⟨e, hk, hkv⟩ := huni1 k hu
    simp only [if_true, e, if_neg hkv, setCisAddr, if_pos hk]
    rfl
  | none =>
    have e := huni2 hu
    simp only [if_true, e]
    cases hb : lowestFreeSlot cises CisType.CIS_TYPE_BIDIRECTIONAL with
    | some k =>
      obtain ⟨e2, hk, hkv⟩ := hbi1 k hb
      simp only [e2, if_neg hkv, setCisAddr, if_pos hk]
      rfl
    | none =>
      have e2 := hbi2 hb
      simp only [e2, if_true]

/-- C32, `assignCisIdBody_fallback` at an earbud with one active sink ASE
without a CIS id on a table of a source slot, a bound sink slot and two free
sink slots: the ASE gets the slot 2. -/
theorem assignCisIdBody_fallback_witness :
    assignCisIdBody earbudDevice
        [freeCis 0 CisType.CIS_TYPE_UNIDIRECTIONAL_SOURCE,
         { freeCis 1 CisType.CIS_TYPE_UNIDIRECTIONAL_SINK with addr := ⟨9⟩ },
         freeCis 2 CisType.CIS_TYPE_UNIDIRECTIONAL_SINK,
         freeCis 3 CisType.CIS_TYPE_UNIDIRECTIONAL_SINK] 0 =
      some (true, earbudDevice.setAseCisId 0 2,
        [freeCis 0 CisType.CIS_TYPE_UNIDIRECTIONAL_SOURCE,
         { freeCis 1 CisType.CIS_TYPE_UNIDIRECTIONAL_SINK with addr := ⟨9⟩ },
         { freeCis 2 CisType.CIS_TYPE_UNIDIRECTIONAL_SINK with addr := ⟨6⟩ },
         freeCis 3 CisType.CIS_TYPE_UNIDIRECTIONAL_SINK]) :=
  (assignCisIdBody_fallback earbudDevice
    [freeCis 0 CisType.CIS_TYPE_UNIDIRECTIONAL_SOURCE,
     { freeCis 1 CisType.CIS_TYPE_UNIDIRECTIONAL_SINK with addr := ⟨9⟩ },
     freeCis 2 CisType.CIS_TYPE_UNIDIRECTIONAL_SINK,
     freeCis 3 CisType.CIS_TYPE_UNIDIRECTIONAL_SINK] 0 { id := 1, active := true }
    (by decide) (by decide) (by decide) (by decide) (by decide)).trans (by decide)

set_option maxRecDepth 100000 in
/-- C32, counterexample to the claim as stated: on a table of 256 slots whose
only free slot is a sink slot at the index 255, an earbud with one active sink
ASE without a CIS id and without a mate gets no slot: the pass fails and
`AssignCisIds` returns false. -/
theorem AssignCisIds_sink_slot_at_255 :
    lowestFreeSlot (fullTable CisType.CIS_TYPE_UNIDIRECTIONAL_SINK).cises
        CisType.CIS_TYPE_UNIDIRECTIONAL_SINK = some 255 ∧
      noUsableMate earbudDevice 0 Direction.kLeAudioDirectionSink = true ∧
      assignCisIdBody earbudDevice (fullTable CisType.CIS_TYPE_UNIDIRECTIONAL_SINK).cises 0 =
        some (false, earbudDevice, (fullTable CisType.CIS_TYPE_UNIDIRECTIONAL_SINK).cises) ∧
      AssignCisIds (fullTable CisType.CIS_TYPE_UNIDIRECTIONAL_SINK) earbudDevice =
        some (false, earbudDevice, fullTable CisType.CIS_TYPE_UNIDIRECTIONAL_SINK) := by
  decide

/-! # `AssignCisIds` on a device without CIS ids takes free slots only -/

/-- On a table of at most 256 slots, a valid id returned by `GetFirstFreeCisId`
indexes a free slot. -/
theorem GetFirstFreeCisId_free {cises : List cis} {cis_type : CisType}
    (hlen : cises.length ≤ 256)
    (h : GetFirstFreeCisId cises cis_type ≠ kInvalidCisId) :
    ∃ c, cises[GetFirstFreeCisId cises cis_type]? = some c ∧ c.addr = RawAddress.kEmpty := by
  unfold GetFirstFreeCisId at h ⊢
  split
  · next id hid =>
    obtain ⟨-, hlt, ⟨c, hc, hp⟩, -⟩ := findIfFrom_some hid
    have hmod : id % 256 = id := Nat.mod_eq_of_lt (by omega)
    rw [hmod]
    refine ⟨c, hc, ?_⟩
    simp only [RawAddress.IsEmpty, Bool.and_eq_true, decide_eq_true_eq] at hp
    exact hp.1
  · next hnone =>
    rw [hnone] at h
    exact absurd rfl h

/-- The ASE found by the search for `matching_bidir_ase` has the other
direction. -/
theorem matchingBidirAseLoop_mate {d : LeAudioDevice} {cis_id : Nat} (direction : Direction) :
    ∀ (fuel : Nat) (start : Option Nat) (m : Nat),
      (∀ m0, start = some m0 → ∃ x, d.ases_[m0]? = some x ∧ x.direction ≠ direction) →
      matchingBidirAseLoop d cis_id fuel start = some (some m) →
      ∃ x, d.ases_[m]? = some x ∧ x.direction ≠ direction := by
  intro fuel
  induction fuel with
  | zero =>
    intro start m _ h
    cases start <;> simp [matchingBidirAseLoop] at h
  | succ n ih =>
    intro start m hstart h
    cases start with
    | none => simp [matchingBidirAseLoop] at h
    | some m0 =>
      obtain ⟨x, hx, hdir⟩ := hstart m0 rfl
      rw [matchingBidirAseLoop, hx] at h
      dsimp only at h
      split at h
      · apply ih _ m _ h
        intro m1 hm1
        unfold LeAudioDevice.GetNextActiveAseWithSameDirection at hm1
        rw [hx] at hm1
        dsimp only at hm1
        obtain ⟨-, -, ⟨y, hy, hp⟩, -⟩ := findIfFrom_some hm1
        simp only [Bool.and_eq_true, decide_eq_true_eq] at hp
        exact ⟨y, hy, by rw [hp.2]; exact hdir⟩
      · simp only [Option.some.injEq] at h
        subst h
        exact ⟨x, hx, hdir⟩

/-- A pass of the body that goes on, for an ASE without a CIS id on a table of
at most 256 slots: a free slot `k` is bound to the device and given to the ASE
and to an ASE `m`, which is the ASE itself or one of the other direction. -/
theorem assignCisIdBody_fresh {d d1 : LeAudioDevice} {cises cises1 : List cis} {i : Nat}
    {a : ase} (hlen : cises.length ≤ 256) (ha : d.ases_[i]? = some a)
    (hinv : a.cis_id = kInvalidCisId)
    (h : assignCisIdBody d cises i = some (true, d1, cises1)) :
    ∃ k c m x, k ≠ kInvalidCisId ∧ cises[k]? = some c ∧ c.addr = RawAddress.kEmpty ∧
      cises1 = bindCis cises k d.address_ ∧ d.ases_[m]? = some x ∧
      (m = i ∨ x.direction ≠ a.direction) ∧
      d1 = (d.setAseCisId i k).setAseCisId m k := by
  have hexisting : existingCisId a cises = some (some kInvalidCisId) := by
    unfold existingCisId
    rw [if_neg (by simp [hinv])]
  have huni : (if a.direction = Direction.kLeAudioDirectionSink then
        assignUnidirectional d cises i kInvalidCisId CisType.CIS_TYPE_UNIDIRECTIONAL_SINK
      else
        assignUnidirectional d cises i kInvalidCisId CisType.CIS_TYPE_UNIDIRECTIONAL_SOURCE) =
      assignUnidirectional d cises i kInvalidCisId (uniType a.direction) := by
    cases a.direction <;> rfl
  have hunidir : assignUnidirectional d cises i kInvalidCisId (uniType a.direction) =
      some (true, d1, cises1) →
      ∃ k c m x, k ≠ kInvalidCisId ∧ cises[k]? = some c ∧ c.addr = RawAddress.kEmpty ∧
        cises1 = bindCis cises k d.address_ ∧ d.ases_[m]? = some x ∧
        (m = i ∨ x.direction ≠ a.direction) ∧
        d1 = (d.setAseCisId i k).setAseCisId m k := by
    intro hu
    rcases assignUnidirectional_cases hu with
      ⟨cid, -, hcid, -, hc1, hd1, horig⟩ | ⟨hr, -⟩
    · have hfree : ∃ c, cises[cid]? = some c ∧ c.addr = RawAddress.kEmpty := by
        rcases horig with heq | ⟨-, heq | ⟨-, heq⟩⟩
        · exact absurd heq hcid
        · rw [heq] at hcid ⊢
          exact GetFirstFreeCisId_free hlen hcid
        · rw [heq] at hcid ⊢
          exact GetFirstFreeCisId_free hlen hcid
      obtain ⟨c, hc, hcfree⟩ := hfree
      refine ⟨cid, c, i, a, hcid, hc, hcfree, hc1, ha, Or.inl rfl, ?_⟩
      rw [setAseCisId_idem]
      exact hd1
    · exact absurd hr (by simp)
  unfold assignCisIdBody at h
  rw [ha] at h
  dsimp only at h
  rw [hexisting] at h
  dsimp only at h
  cases hloop : matchingBidirAseLoop d kInvalidCisId d.ases_.length
      (d.GetNextActiveAseWithDifferentDirection i) with
  | none =>
    rw [hloop] at h
    exact absurd h (by simp)
  | some o =>
    rw [hloop] at h
    cases o with
    | none =>
      dsimp only at h
      rw [huni] at h
      exact hunidir h
    | some m =>
      dsimp only at h
      rw [if_pos rfl] at h
      obtain ⟨x, hx, hdir⟩ := matchingBidirAseLoop_mate a.direction _ _ m (by
        intro m0 hm0
        unfold LeAudioDevice.GetNextActiveAseWithDifferentDirection at hm0
        rw [ha] at hm0
        dsimp only at hm0
        obtain ⟨-, -, ⟨y, hy, hp⟩, -⟩ := findIfFrom_some hm0
        simp only [Bool.and_eq_true, decide_eq_true_eq] at hp
        exact ⟨y, hy, hp.2⟩) hloop
      by_cases hb : GetFirstFreeCisId cises CisType.CIS_TYPE_BIDIRECTIONAL = kInvalidCisId
      · rw [if_neg (by simp [hb]), hb, huni] at h
        exact hunidir h
      · rw [if_pos hb] at h
        obtain ⟨c, hc, hcfree⟩ := GetFirstFreeCisId_free hlen hb
        split at h
        · exact absurd h (by simp)
        · next cises2 hset =>
          simp only [Option.some.injEq, Prod.mk.injEq, true_and] at h
          obtain ⟨rfl, rfl⟩ := h
          exact ⟨_, c, m, x, hb, hc, hcfree, (setCisAddr_eq hset).2, hx, Or.inr hdir, rfl⟩

/-- The ASE at `n` after the two writes of a pass: the ASE before with the CIS
id `k` if `n` is one of the two indexes, the ASE before otherwise. -/
theorem setAseCisId_pair_get {d : LeAudioDevice} {i m k n : Nat} {b : ase}
    (hb : ((d.setAseCisId i k).setAseCisId m k).ases_[n]? = some b) :
    ∃ b0, d.ases_[n]? = some b0 ∧ b.direction = b0.direction ∧
      (((n = i ∨ n = m) ∧ b.cis_id = k) ∨ (n ≠ i ∧ n ≠ m ∧ b = b0)) := by
  rw [setAseCisId_get, setAseCisId_get] at hb
  cases h0 : d.ases_[n]? with
  | none => rw [h0] at hb; exact absurd hb (by simp)
  | some b0 =>
    rw [h0] at hb
    simp only [Option.map_some', Option.some.injEq] at hb
    refine ⟨b0, rfl, ?_⟩
    by_cases hm : m = n
    · rw [if_pos hm] at hb
      subst hb
      refine ⟨?_, Or.inl ⟨Or.inr hm.symm, rfl⟩⟩
      by_cases hi : i = n
      · rw [if_pos hi]
      · rw [if_neg hi]
    · rw [if_neg hm] at hb
      by_cases hi : i = n
      · rw [if_pos hi] at hb
        subst hb
        exact ⟨rfl, Or.inl ⟨Or.inl hi.symm, rfl⟩⟩
      · rw [if_neg hi] at hb
        subst hb
        exact ⟨rfl, Or.inr ⟨fun e => hi e.symm, fun e => hm e.symm, rfl⟩⟩

/-! # The state of the allocation is kept by every pass -/

/-- A pass that binds the free slot `k` and gives it to the ASE at `i` and to
the ASE at `m`, which is the same ASE or one of the other direction, keeps the
state of the allocation. -/
theorem allocatedFrom_step {cises0 cises : List cis} {addr : RawAddress} {d : LeAudioDevice}
    {i m k : Nat} {a x : ase} {c : cis} (haddr : addr ≠ RawAddress.kEmpty)
    (hI : allocatedFrom cises0 addr d cises) (ha : d.ases_[i]? = some a)
    (hx : d.ases_[m]? = some x) (hmate : m = i ∨ x.direction ≠ a.direction)
    (hk : k ≠ kInvalidCisId) (hc : cises[k]? = some c) (hfree : c.addr = RawAddress.kEmpty) :
    allocatedFrom cises0 addr ((d.setAseCisId i k).setAseCisId m k) (bindCis cises k addr) := by
  obtain ⟨h1, h2, h3, h4, h5⟩ := hI
  have hklt := lt_of_getElem_some hc
  -- the slot `k` was free at the start, and is as it was
  have hk0 : cises0[k]? = some c := by
    have hlt0 : k < cises0.length := by omega
    obtain ⟨c2, hc2, hkb⟩ := h3 k cises0[k] (List.getElem?_eq_getElem hlt0)
    rw [hc] at hc2
    simp only [Option.some.injEq] at hc2
    subst hc2
    rcases hkb with heq | ⟨-, heq⟩
    · rw [List.getElem?_eq_getElem hlt0, heq]
    · rw [heq] at hfree
      exact absurd hfree haddr
  -- no ASE holds the id `k`
  have hheld : ∀ (n : Nat) (b : ase), d.ases_[n]? = some b → b.cis_id ≠ kInvalidCisId →
      b.cis_id ≠ k := by
    intro n b hb hbv hbk
    obtain ⟨c1, -, -, hc1⟩ := h4 n b hb hbv
    rw [hbk, hc] at hc1
    simp only [Option.some.injEq] at hc1
    rw [hc1] at hfree
    exact haddr hfree
  refine ⟨?_, h2, ?_, ?_, ?_⟩
  · rw [bindCis_length]
    exact h1
  · intro j c0 hj
    obtain ⟨c2, hc2, hkb⟩ := h3 j c0 hj
    rw [bindCis_get, hc2]
    by_cases hkj : k = j
    · subst hkj
      rw [hk0] at hj
      rw [hc] at hc2
      simp only [Option.some.injEq] at hj hc2
      subst hj
      subst hc2
      exact ⟨_, by simp, Or.inr ⟨hfree, rfl⟩⟩
    · exact ⟨c2, by simp [hkj], hkb⟩
  · intro n b hb hbv
    obtain ⟨b0, hb0, -, hcase⟩ := setAseCisId_pair_get hb
    rcases hcase with ⟨-, hbk⟩ | ⟨-, -, hbb⟩
    · rw [hbk]
      refine ⟨c, hk0, hfree, ?_⟩
      rw [bindCis_get, hc]
      simp
    · subst hbb
      obtain ⟨c1, hc10, hc1free, hc1⟩ := h4 n b hb0 hbv
      refine ⟨c1, hc10, hc1free, ?_⟩
      have hne := hheld n b hb0 hbv
      rw [bindCis_get, hc1]
      simp [fun e : k = b.cis_id => hne e.symm]
  · intro n n1 b b1 hne hb hb1 hbv heq
    obtain ⟨b0, hb0, hdir0, hcase⟩ := setAseCisId_pair_get hb
    obtain ⟨b10, hb10, hdir1, hcase1⟩ := setAseCisId_pair_get hb1
    rw [hdir0, hdir1]
    rcases hcase with ⟨hn, hbk⟩ | ⟨-, -, hbb⟩
    · rcases hcase1 with ⟨hn1, -⟩ | ⟨-, -, hbb1⟩
      · have hmi : m ≠ i := by
          intro e
          subst e
          rcases hn with rfl | rfl <;> rcases hn1 with rfl | rfl <;> exact hne rfl
        have hdir : x.direction ≠ a.direction := by
          rcases hmate with e | e
          · exact absurd e hmi
          · exact e
        rcases hn with rfl | rfl <;> rcases hn1 with rfl | rfl
        · exact absurd rfl hne
        · rw [ha] at hb0
          rw [hx] at hb10
          simp only [Option.some.injEq] at hb0 hb10
          subst hb0
          subst hb10
          exact fun e => hdir e.symm
        · rw [hx] at hb0
          rw [ha] at hb10
          simp only [Option.some.injEq] at hb0 hb10
          subst hb0
          subst hb10
          exact hdir
        · exact absurd rfl hne
      · subst hbb1
        exfalso
        have hv1 : b1.cis_id ≠ kInvalidCisId := by
          rw [← heq, hbk]
          exact hk
        exact hheld n1 b1 hb10 hv1 (by rw [← heq, hbk])
    · subst hbb
      rcases hcase1 with ⟨-, hbk1⟩ | ⟨-, -, hbb1⟩
      · exfalso
        exact hheld n b hb0 hbv (by rw [heq, hbk1])
      · subst hbb1
        exact h5 n n1 b b1 hne hb0 hb10 hbv heq

/-- C36, as amended: for a table of at most 256 slots and a device with a
non-empty address none of whose ASEs holds a CIS id, `AssignCisIds` returns,
and when it returns true: every CIS id held by an ASE indexes a slot that was
free before the call and is bound to the device after it; every slot of the
table is as it was before the call or was free and is bound to the device, so
that no slot bound to another device is taken; every active ASE holds a CIS id;
and no two active ASEs of the same direction hold the same CIS id. -/
theorem AssignCisIds_conflict_free (cig : CigConfiguration) (d : LeAudioDevice)
    (hlen : cig.cises.length ≤ 256) (haddr : d.address_ ≠ RawAddress.kEmpty)
    (hfresh : noCisIdHeld d) :
    ∃ r d2 cig2, AssignCisIds cig d = some (r, d2, cig2) ∧
      (r = true →
        (∀ (n : Nat) (b : ase), d2.ases_[n]? = some b → b.cis_id ≠ kInvalidCisId →
          ∃ c, cig.cises[b.cis_id]? = some c ∧ c.addr = RawAddress.kEmpty ∧
            cig2.cises[b.cis_id]? = some { c with addr := d.address_ }) ∧
        (∀ (j : Nat) (c : cis), cig.cises[j]? = some c →
          ∃ c2, cig2.cises[j]? = some c2 ∧ keptOrBound d.address_ c c2) ∧
        (∀ (n : Nat) (b : ase), d2.ases_[n]? = some b → b.active = true →
          b.cis_id ≠ kInvalidCisId) ∧
        (∀ (n n1 : Nat) (b b1 : ase), n ≠ n1 → d2.ases_[n]? = some b →
          d2.ases_[n1]? = some b1 → b.active = true → b1.active = true →
          b.direction = b1.direction → b.cis_id ≠ b1.cis_id)) := by
  have hstart : allocatedFrom cig.cises d.address_ d cig.cises := by
    refine ⟨rfl, rfl, fun j c hj => ⟨c, hj, Or.inl rfl⟩, ?_, ?_⟩
    · intro n b hb hbv
      exact absurd (hfresh b (List.getElem?_mem hb)) hbv
    · intro n n1 b b1 _ hb _ hbv
      exact absurd (hfresh b (List.getElem?_mem hb)) hbv
  obtain ⟨r, d2, cig2, hres, -, -, hI2, ht, -⟩ :=
    AssignCisIds_spec (allocatedFrom cig.cises d.address_)
      (fun n d1 _ => ∃ b, d1.ases_[n]? = some b ∧ b.cis_id ≠ kInvalidCisId)
      (fun _ _ _ => True)
      (by
        intro d1 cises i a hI ha
        apply assignCisIdBody_total d1 cises i a ha
        intro hv
        obtain ⟨c, -, -, hc⟩ := hI.2.2.2.1 i a ha hv
        exact lt_of_getElem_some hc)
      (by
        intro d1 cises i a d3 cises3 hI ha _
        refine ⟨?_, fun _ => trivial⟩
        intro hb
        by_cases hinv : a.cis_id = kInvalidCisId
        · have hlen1 : cises.length ≤ 256 := by
            rw [hI.1]
            exact hlen
          obtain ⟨k, c, m, x, hk, hc, hcfree, rfl, hx, hmate, rfl⟩ :=
            assignCisIdBody_fresh hlen1 ha hinv hb
          rw [hI.2.1]
          refine ⟨allocatedFrom_step haddr hI ha hx hmate hk hc hcfree, ?_, ?_⟩
          · have hget : ((d1.setAseCisId i k).setAseCisId m k).ases_[i]? ≠ none := by
              rw [setAseCisId_get, setAseCisId_get, ha]
              simp
            cases hnew : ((d1.setAseCisId i k).setAseCisId m k).ases_[i]? with
            | none => exact absurd hnew hget
            | some b =>
              obtain ⟨b0, -, -, hcase⟩ := setAseCisId_pair_get hnew
              rcases hcase with ⟨-, hbk⟩ | ⟨hne, -⟩
              · exact ⟨b, hnew, by rw [hbk]; exact hk⟩
              · exact absurd rfl hne
          · intro n _ hG
            obtain ⟨b, hbn, hbv⟩ := hG
            have hget : ((d1.setAseCisId i k).setAseCisId m k).ases_[n]? ≠ none := by
              rw [setAseCisId_get, setAseCisId_get, hbn]
              simp
            cases hnew : ((d1.setAseCisId i k).setAseCisId m k).ases_[n]? with
            | none => exact absurd hnew hget
            | some b1 =>
              obtain ⟨b0, hb0, -, hcase⟩ := setAseCisId_pair_get hnew
              rcases hcase with ⟨-, hbk⟩ | ⟨-, -, hbb⟩
              · exact ⟨b1, rfl, by rw [hbk]; exact hk⟩
              · rw [hbn] at hb0
                simp only [Option.some.injEq] at hb0
                exact ⟨b1, rfl, by rw [hbb, ← hb0]; exact hbv⟩
        · obtain ⟨c, -, -, hc⟩ := hI.2.2.2.1 i a ha hinv
          obtain ⟨a1, ha1, hcases⟩ := assignCisIdBody_cases hb
          rw [ha] at ha1
          simp only [Option.some.injEq] at ha1
          subst ha1
          rcases hcases with ⟨-, rfl, rfl, -⟩ | ⟨cid, -, -, -, -, -, horig⟩ | ⟨hr, -⟩
          · exact ⟨hI, ⟨a, ha, hinv⟩, fun _ _ hG => hG⟩
          · rcases horig with ⟨rfl, c1, hc1, hc1free⟩ | ⟨hcontra, -⟩
            · rw [hc] at hc1
              simp only [Option.some.injEq] at hc1
              rw [← hc1] at hc1free
              exact absurd hc1free haddr
            · exact absurd hcontra hinv
          · exact absurd hr (by simp))
      cig d hstart
  refine ⟨r, d2, cig2, hres, fun hr => ?_⟩
  obtain ⟨-, -, h3, h4, h5⟩ := hI2
  have hvalid : ∀ (n : Nat) (b : ase), d2.ases_[n]? = some b → b.active = true →
      b.cis_id ≠ kInvalidCisId := by
    intro n b hb hact
    obtain ⟨b1, hb1, hbv⟩ := ht hr n b hb hact
    rw [hb] at hb1
    simp only [Option.some.injEq] at hb1
    rw [hb1]
    exact hbv
  refine ⟨h4, h3, hvalid, ?_⟩
  intro n n1 b b1 hne hb hb1 hact _ hdir heq
  exact h5 n n1 b b1 hne hb hb1 (hvalid n b hb hact) heq hdir

/-- C36, `AssignCisIds_conflict_free` at a headset with two active sink ASEs
and an active source ASE, none with a CIS id, on a table of a free sink slot, a
sink slot bound to another device, a free bidirectional slot and a free source
slot. -/
theorem AssignCisIds_conflict_free_witness :
    (mixedTable.cises.length ≤ 256 ∧ freshHeadset.address_ ≠ RawAddress.kEmpty ∧
      noCisIdHeld freshHeadset) ∧
    ∃ r d2 cig2, AssignCisIds mixedTable freshHeadset = some (r, d2, cig2) ∧
      (r = true →
        (∀ (n : Nat) (b : ase), d2.ases_[n]? = some b → b.cis_id ≠ kInvalidCisId →
          ∃ c, mixedTable.cises[b.cis_id]? = some c ∧ c.addr = RawAddress.kEmpty ∧
            cig2.cises[b.cis_id]? = some { c with addr := freshHeadset.address_ }) ∧
        (∀ (j : Nat) (c : cis), mixedTable.cises[j]? = some c →
          ∃ c2, cig2.cises[j]? = some c2 ∧ keptOrBound freshHeadset.address_ c c2) ∧
        (∀ (n : Nat) (b : ase), d2.ases_[n]? = some b → b.active = true →
          b.cis_id ≠ kInvalidCisId) ∧
        (∀ (n n1 : Nat) (b b1 : ase), n ≠ n1 → d2.ases_[n]? = some b →
          d2.ases_[n1]? = some b1 → b.active = true → b1.active = true →
          b.direction = b1.direction → b.cis_id ≠ b1.cis_id)) :=
  ⟨⟨by decide, by decide, by decide⟩,
   AssignCisIds_conflict_free mixedTable freshHeadset (by decide) (by decide) (by decide)⟩

set_option maxRecDepth 100000 in
/-- C36, counterexample to the claim as stated: on a table of 257 slots whose
slots 0 to 255 are bound to the device at address 9 and whose slot 256 is a
free sink slot, `AssignCisIds` for an earbud at address 6 with one active sink
ASE without a CIS id returns true, gives the ASE the CIS id 0 and binds the
slot 0, which was bound to the other device, to the earbud. -/
theorem AssignCisIds_takes_bound_slot :
    earbudDevice.address_ ≠ RawAddress.kEmpty ∧ noCisIdHeld earbudDevice ∧
      (wrappedTable.cises[0]?).map (fun c => c.addr) = some ⟨9⟩ ∧
      (AssignCisIds wrappedTable earbudDevice).map
        (fun r => (r.1, r.2.1.ases_.map (fun a => a.cis_id),
          (r.2.2.cises[0]?).map (fun c => c.addr))) = some (true, [0], some ⟨6⟩) := by
  decide

/-! # The tokens of the maximum power property -/

theorem contains_dash (c : Char) : ['-'].contains c = (c == '-') := by
  cases h : c == '-' <;> simp [List.contains, List.elem, h]

theorem is_byte_valid_eq (c : Char) : is_byte_valid c = isHexDigit c := by
  unfold is_byte_valid isHexDigit hexDigitValue
  split_ifs with h1 h2 h3 <;> simp_all

theorem hexDigitValue_lt {c : Char} {v : Nat} (h : hexDigitValue c = some v) : v < 16 := by
  have h0 : '0'.val.toNat = 48 := by decide
  have h9 : '9'.val.toNat = 57 := by decide
  have ha : 'a'.val.toNat = 97 := by decide
  have hf : 'f'.val.toNat = 102 := by decide
  have hA : 'A'.val.toNat = 65 := by decide
  have hF : 'F'.val.toNat = 70 := by decide
  unfold hexDigitValue at h
  split_ifs at h with h1 h2 h3
  · simp only [Option.some.injEq, Char.toNat] at h
    have := h1.2
    rw [Char.le_def, UInt32.le_def] at this
    have : c.val.toNat ≤ 57 := by rw [← h9]; exact this
    omega
  · simp only [Option.some.injEq, Char.toNat] at h
    have h4 := h2.1
    have h5 := h2.2
    rw [Char.le_def, UInt32.le_def] at h4 h5
    have : c.val.toNat ≤ 102 := by rw [← hf]; exact h5
    have : 97 ≤ c.val.toNat := by rw [← ha]; exact h4
    omega
  · simp only [Option.some.injEq, Char.toNat] at h
    have h4 := h3.1
    have h5 := h3.2
    rw [Char.le_def, UInt32.le_def] at h4 h5
    have : c.val.toNat ≤ 70 := by rw [← hF]; exact h5
    have : 65 ≤ c.val.toNat := by rw [← hA]; exact h4
    omega

theorem isHexDigit_ne_dash {c : Char} (h : isHexDigit c = true) : c ≠ '-' := by
  intro e
  subst e
  exact absurd h (by decide)

theorem isHexMark_ne_dash {c : Char} (h : isHexMark c = true) : c ≠ '-' := by
  intro e
  subst e
  exact absurd h (by decide)

theorem isHexMark_cases {c : Char} (h : isHexMark c = true) : c = 'x' ∨ c = 'X' := by
  simpa [isHexMark] using h

theorem dropWhile_head {α : Type} (p : α → Bool) :
    ∀ (l : List α) (c : α) (r : List α), l.dropWhile p = c :: r → p c = false := by
  intro l
  induction l with
  | nil => intro c r h; exact absurd h (by simp)
  | cons a l ih =>
    intro c r h
    rw [List.dropWhile_cons] at h
    split at h
    · exact ih c r h
    · next hp =>
      simp only [List.cons.injEq] at h
      rw [← h.1]
      simpa using hp

/-- A token returned by `strtok_r` for the delimiter `-` stands in the string
after the characters skipped, and is followed by a `-` and the rest, or ends
the string. -/
theorem strtok_r_shape {s t rest : List Char} (h : strtok_r s ['-'] = (some t, rest)) :
    ∃ skipped : List Char,
      s = skipped ++ t ++ '-' :: rest ∨ (s = skipped ++ t ∧ rest = []) := by
  unfold strtok_r at h
  dsimp only at h
  split at h
  · exact absurd (congrArg Prod.fst h) (by simp)
  · simp only [Prod.mk.injEq, Option.some.injEq] at h
    obtain ⟨ht, hrest⟩ := h
    refine ⟨s.takeWhile (fun c => ['-'].contains c), ?_⟩
    have hs := List.takeWhile_append_dropWhile (fun c => ['-'].contains c) s
    have hs1 := List.takeWhile_append_dropWhile (fun c => !(['-'].contains c))
      (s.dropWhile (fun c => ['-'].contains c))
    rw [ht] at hs1
    cases hd : (s.dropWhile (fun c => ['-'].contains c)).dropWhile
        (fun c => !(['-'].contains c)) with
    | nil =>
      rw [hd] at hs1 hrest
      right
      refine ⟨?_, by simpa using hrest.symm⟩
      rw [List.append_nil] at hs1
      rw [hs1]
      exact hs.symm
    | cons c r =>
      have hc := dropWhile_head _ _ c r hd
      rw [contains_dash] at hc
      have hc1 : c = '-' := by simpa using hc
      subst hc1
      rw [hd] at hs1 hrest
      left
      simp only [List.drop_succ_cons, List.drop_zero] at hrest
      rw [List.append_assoc, ← hrest, hs1]
      exact hs.symm

/-- The rule of `strtok_r` for the delimiter `-` on a string that starts with a
token. -/
theorem strtok_r_token (t rest : List Char) (hne : t ≠ []) (hdash : ∀ c ∈ t, c ≠ '-') :
    strtok_r (t ++ '-' :: rest) ['-'] = (some t, rest) ∧ strtok_r t ['-'] = (some t, []) := by
  have hdrop : ∀ l : List Char, (t ++ l).dropWhile (fun c => ['-'].contains c) = t ++ l := by
    intro l
    cases t with
    | nil => exact absurd rfl hne
    | cons a t1 =>
      have : a ≠ '-' := hdash a (List.mem_cons_self _ _)
      simp [List.dropWhile_cons, contains_dash, this]
  have htake : ∀ (u : List Char), (∀ c ∈ u, c ≠ '-') →
      (u ++ '-' :: rest).takeWhile (fun c => !(['-'].contains c)) = u ∧
      (u ++ '-' :: rest).dropWhile (fun c => !(['-'].contains c)) = '-' :: rest ∧
      u.takeWhile (fun c => !(['-'].contains c)) = u ∧
      u.dropWhile (fun c => !(['-'].contains c)) = [] := by
    intro u
    induction u with
    | nil =>
      intro _
      have hp : (!(['-'].contains '-')) = false := by decide
      refine ⟨?_, ?_, rfl, rfl⟩ <;>
        simp only [List.nil_append, List.takeWhile_cons, List.dropWhile_cons, hp,
          Bool.false_eq_true, if_false]
    | cons a u ih =>
      intro hu
      have ha : a ≠ '-' := hu a (List.mem_cons_self _ _)
      have hpa : (!(['-'].contains a)) = true := by
        rw [contains_dash]
        simp [ha]
      obtain ⟨h1, h2, h3, h4⟩ := ih (fun c hc => hu c (List.mem_cons_of_mem _ hc))
      refine ⟨?_, ?_, ?_, ?_⟩ <;>
        simp only [List.cons_append, List.takeWhile_cons, List.dropWhile_cons, hpa, if_true,
          h1, h2, h3, h4]
  obtain ⟨h1, h2, h3, h4⟩ := htake t hdash
  have hne1 : t ++ '-' :: rest ≠ [] := by simp
  constructor
  · unfold strtok_r
    dsimp only
    rw [hdrop, if_neg hne1, h1, h2]
    rfl
  · have hd := hdrop []
    rw [List.append_nil] at hd
    unfold strtok_r
    dsimp only
    rw [hd, if_neg hne, h3, h4]
    rfl

/-- A token in order is `0`, an `x` or `X` and two hexadecimal digits. -/
theorem tokenInOrder_shape {token : Option (List Char)} (h : tokenInOrder token = true) :
    ∃ x a b, token = some ['0', x, a, b] ∧ isHexMark x = true ∧ isHexDigit a = true ∧
      isHexDigit b = true := by
  cases token with
  | none => exact absurd h (by simp [tokenInOrder])
  | some t =>
    rcases t with _ | ⟨c0, _ | ⟨c1, _ | ⟨c2, _ | ⟨c3, _ | ⟨c4, r⟩⟩⟩⟩⟩
    all_goals first | (simp [tokenInOrder] at h; done) | skip
    simp only [tokenInOrder, List.length_cons, List.length_nil, List.getElem?_cons_zero,
      List.getElem?_cons_succ, Option.any_some, Bool.and_eq_true, Bool.or_eq_true,
      beq_iff_eq, Option.some.injEq, is_byte_valid_eq] at h
    obtain ⟨-, ⟨h0, hx⟩, ha, hb⟩ := h
    subst h0
    refine ⟨c1, c2, c3, rfl, ?_, ha, hb⟩
    simpa [isHexMark] using hx

theorem tokenInOrder_of_shape {x a b : Char} (hx : isHexMark x = true)
    (ha : isHexDigit a = true) (hb : isHexDigit b = true) :
    tokenInOrder (some ['0', x, a, b]) = true := by
  rcases isHexMark_cases hx with rfl | rfl <;>
    simp [tokenInOrder, is_byte_valid_eq, ha, hb]

/-- The value `strtoul` reads from a token in order is the byte of its two
digits. -/
theorem strtoul16_token {x a b : Char} (hx : isHexMark x = true)
    (ha : isHexDigit a = true) (hb : isHexDigit b = true) :
    strtoul16 ['0', x, a, b] % 256 = hexByte a b := by
  unfold isHexDigit at ha hb
  obtain ⟨va, hva⟩ := Option.isSome_iff_exists.mp ha
  obtain ⟨vb, hvb⟩ := Option.isSome_iff_exists.mp hb
  have h1 := hexDigitValue_lt hva
  have h2 := hexDigitValue_lt hvb
  have hval : strtoul16 ['0', x, a, b] = min (16 * (16 * 0 + va) + vb) (2 ^ 64 - 1) := by
    rcases isHexMark_cases hx with rfl | rfl
    · simp [strtoul16, List.takeWhile_cons, hva, hvb]
    · simp [strtoul16, List.takeWhile_cons, hva, hvb]
  rw [hval]
  unfold hexByte
  rw [hva, hvb]
  simp only [Option.getD_some]
  have : min (16 * (16 * 0 + va) + vb) (2 ^ 64 - 1) = 16 * va + vb := by
    rw [Nat.min_def]
    split <;> omega
  rw [this]
  omega

/-! # `decode_max_power_values` accepts the strings of the form `0xHH-0xHH-0xHH` -/

/-- A round of the loop that leaves the status true has read a token in
order. -/
theorem decodeTokensLoop_true {rounds i : Nat} {reset : List Char} {values : List Nat}
    (h : (decodeTokensLoop (rounds + 1) i reset values).1 = true) :
    ∃ x a b r skipped, isHexMark x = true ∧ isHexDigit a = true ∧ isHexDigit b = true ∧
      (reset = skipped ++ ['0', x, a, b] ++ '-' :: r ∨
        (reset = skipped ++ ['0', x, a, b] ∧ r = [])) ∧
      (decodeTokensLoop rounds (i + 1) r (values.set i (hexByte a b))).1 = true := by
  rw [decodeTokensLoop] at h
  split at h
  · next hok =>
    obtain ⟨x, a, b, ht, hx, ha, hb⟩ := tokenInOrder_shape hok
    have e : strtok_r reset ['-'] = (some ['0', x, a, b], (strtok_r reset ['-']).2) :=
      Prod.ext ht rfl
    obtain ⟨skipped, hshape⟩ := strtok_r_shape e
    rw [ht, Option.getD_some, strtoul16_token hx ha hb] at h
    exact ⟨x, a, b, _, skipped, hx, ha, hb, hshape, h⟩
  · exact absurd h (by simp)

/-- A round of the loop on a string that starts with a token in order and a
`-`. -/
theorem decodeTokensLoop_token (rounds i : Nat) (rest : List Char) (values : List Nat)
    {x a b : Char} (hx : isHexMark x = true) (ha : isHexDigit a = true)
    (hb : isHexDigit b = true) :
    decodeTokensLoop (rounds + 1) i (['0', x, a, b] ++ '-' :: rest) values =
        decodeTokensLoop rounds (i + 1) rest (values.set i (hexByte a b)) ∧
      decodeTokensLoop (rounds + 1) i ['0', x, a, b] values =
        decodeTokensLoop rounds (i + 1) [] (values.set i (hexByte a b)) := by
  have hdash : ∀ c ∈ ['0', x, a, b], c ≠ '-' := by
    intro c hc
    simp only [List.mem_cons, List.mem_singleton, List.not_mem_nil, or_false] at hc
    rcases hc with rfl | rfl | rfl | rfl
    · decide
    · exact isHexMark_ne_dash hx
    · exact isHexDigit_ne_dash ha
    · exact isHexDigit_ne_dash hb
  obtain ⟨h1, h2⟩ := strtok_r_token ['0', x, a, b] rest (by simp) hdash
  constructor
  · rw [decodeTokensLoop]
    rw [h1]
    dsimp only
    rw [tokenInOrder_of_shape hx ha hb, if_pos rfl, Option.getD_some,
      strtoul16_token hx ha hb]
  · rw [decodeTokensLoop]
    rw [h2]
    dsimp only
    rw [tokenInOrder_of_shape hx ha hb, if_pos rfl, Option.getD_some,
      strtoul16_token hx ha hb]

/-- A string in the format is `0`, a mark, two digits, three times, with a `-`
in between. -/
theorem maxPowerFormat_shape {s : List Char} (h : maxPowerFormat s = true) :
    ∃ x1 a1 b1 x2 a2 b2 x3 a3 b3,
      s = ['0', x1, a1, b1, '-', '0', x2, a2, b2, '-', '0', x3, a3, b3] ∧
      (isHexMark x1 = true ∧ isHexDigit a1 = true ∧ isHexDigit b1 = true) ∧
      (isHexMark x2 = true ∧ isHexDigit a2 = true ∧ isHexDigit b2 = true) ∧
      (isHexMark x3 = true ∧ isHexDigit a3 = true ∧ isHexDigit b3 = true) := by
  unfold maxPowerFormat at h
  split at h
  · next z1 x1 a1 b1 d1 z2 x2 a2 b2 d2 z3 x3 a3 b3 =>
    simp only [Bool.and_eq_true, beq_iff_eq] at h
    obtain ⟨⟨⟨⟨⟨⟨⟨⟨⟨⟨⟨⟨⟨rfl, h1⟩, h2⟩, h3⟩, rfl⟩, rfl⟩, h4⟩, h5⟩, h6⟩, rfl⟩, rfl⟩, h7⟩, h8⟩, h9⟩ := h
    exact ⟨x1, a1, b1, x2, a2, b2, x3, a3, b3, rfl, ⟨h1, h2, h3⟩, ⟨h4, h5, h6⟩, ⟨h7, h8, h9⟩⟩
  · exact absurd h (by simp)

/-- On a string in the format, `decode_max_power_values` returns true and
stores the three bytes. -/
theorem decode_max_power_values_accepts {s : List Char} (values : List Nat)
    (h : maxPowerFormat s = true) :
    decode_max_power_values s values =
      (true, (((values.set 0 ((maxPowerBytes s).getD 0 0)).set 1
        ((maxPowerBytes s).getD 1 0)).set 2 ((maxPowerBytes s).getD 2 0))) := by
  obtain ⟨x1, a1, b1, x2, a2, b2, x3, a3, b3, rfl, ⟨hx1, ha1, hb1⟩, ⟨hx2, ha2, hb2⟩,
    ⟨hx3, ha3, hb3⟩⟩ := maxPowerFormat_shape h
  have hfalse : ['0', x1, a1, b1, '-', '0', x2, a2, b2, '-', '0', x3, a3, b3] ≠
      ['f', 'a', 'l', 's', 'e'] := by
    intro e
    exact absurd (congrArg List.length e) (by simp)
  have hguard : (!(['0', x1, a1, b1, '-', '0', x2, a2, b2, '-', '0', x3, a3, b3].contains '-') ||
      (!(['0', x1, a1, b1, '-', '0', x2, a2, b2, '-', '0', x3, a3, b3].contains 'x') &&
        !(['0', x1, a1, b1, '-', '0', x2, a2, b2, '-', '0', x3, a3, b3].contains 'X')) ||
      ['0', x1, a1, b1, '-', '0', x2, a2, b2, '-', '0', x3, a3, b3].length != 14) = false := by
    rcases isHexMark_cases hx1 with rfl | rfl <;> simp
  unfold decode_max_power_values
  rw [if_neg hfalse, hguard]
  simp only [Bool.false_eq_true, if_false]
  have e : ['0', x1, a1, b1, '-', '0', x2, a2, b2, '-', '0', x3, a3, b3] =
      ['0', x1, a1, b1] ++ '-' :: (['0', x2, a2, b2] ++ '-' :: ['0', x3, a3, b3]) := rfl
  rw [e, (decodeTokensLoop_token 2 0 (['0', x2, a2, b2] ++ '-' :: ['0', x3, a3, b3]) values
      hx1 ha1 hb1).1,
    (decodeTokensLoop_token 1 1 ['0', x3, a3, b3] (values.set 0 (hexByte a1 b1))
      hx2 ha2 hb2).1,
    (decodeTokensLoop_token 0 2 [] ((values.set 0 (hexByte a1 b1)).set 1 (hexByte a2 b2))
      hx3 ha3 hb3).2]
  rfl

/-- When `decode_max_power_values` returns true the string is in the format. -/
theorem decode_max_power_values_format {s : List Char} {values : List Nat}
    (h : (decode_max_power_values s values).1 = true) : maxPowerFormat s = true := by
  unfold decode_max_power_values at h
  split at h
  · exact absurd h (by simp)
  · split at h
    · exact absurd h (by simp)
    · next hguard =>
      have hlen : s.length = 14 := by
        by_contra hne
        apply hguard
        simp [hne]
      obtain ⟨x1, a1, b1, r1, k1, hx1, ha1, hb1, hs1, h1⟩ := decodeTokensLoop_true h
      obtain ⟨x2, a2, b2, r2, k2, hx2, ha2, hb2, hs2, h2⟩ := decodeTokensLoop_true h1
      obtain ⟨x3, a3, b3, r3, k3, hx3, ha3, hb3, hs3, -⟩ := decodeTokensLoop_true h2
      have l1 : s.length = k1.length + 4 + (r1.length + 1) ∨
          (s.length = k1.length + 4 ∧ r1.length = 0) := by
        rcases hs1 with e | ⟨e, e0⟩
        · left
          have := congrArg List.length e
          simp only [List.length_append, List.length_cons, List.length_nil] at this
          omega
        · right
          have := congrArg List.length e
          simp only [List.length_append, List.length_cons, List.length_nil] at this
          rw [e0]
          exact ⟨by omega, rfl⟩
      have l2 : r1.length = k2.length + 4 + (r2.length + 1) ∨
          (r1.length = k2.length + 4 ∧ r2.length = 0) := by
        rcases hs2 with e | ⟨e, e0⟩
        · left
          have := congrArg List.length e
          simp only [List.length_append, List.length_cons, List.length_nil] at this
          omega
        · right
          have := congrArg List.length e
          simp only [List.length_append, List.length_cons, List.length_nil] at this
          rw [e0]
          exact ⟨by omega, rfl⟩
      have l3 : r2.length = k3.length + 4 + (r3.length + 1) ∨
          (r2.length = k3.length + 4 ∧ r3.length = 0) := by
        rcases hs3 with e | ⟨e, e0⟩
        · left
          have := congrArg List.length e
          simp only [List.length_append, List.length_cons, List.length_nil] at this
          omega
        · right
          have := congrArg List.length e
          simp only [List.length_append, List.length_cons, List.length_nil] at this
          rw [e0]
          exact ⟨by omega, rfl⟩
      have hk1 : k1 = [] := List.length_eq_zero.mp (by omega)
      have hk2 : k2 = [] := List.length_eq_zero.mp (by omega)
      have hk3 : k3 = [] := List.length_eq_zero.mp (by omega)
      have e3 : r2 = ['0', x3, a3, b3] := by
        rcases hs3 with e | ⟨e, -⟩
        · exfalso
          have := congrArg List.length e
          simp at this
          omega
        · rw [e, hk3]; rfl
      have e2 : r1 = ['0', x2, a2, b2] ++ '-' :: r2 := by
        rcases hs2 with e | ⟨e, e0⟩
        · rw [e, hk2]; rfl
        · rw [e3] at e0
          exact absurd e0 (by simp)
      have e1 : s = ['0', x1, a1, b1] ++ '-' :: r1 := by
        rcases hs1 with e | ⟨e, e0⟩
        · rw [e, hk1]; rfl
        · rw [e2] at e0
          exact absurd e0 (by simp)
      rw [e1, e2, e3]
      simp [maxPowerFormat, hx1, ha1, hb1, hx2, ha2, hb2, hx3, ha3, hb3]

/-- C40: `decode_max_power_values(s)` returns true if and only if `s` has
exactly 14 characters of the form `0xHH-0xHH-0xHH`, each `x` being `x` or `X`
and each `H` a hexadecimal digit; when it returns true the array of the three
power values holds the three bytes `HH` in order (BR, EDR, BLE); and the string
`false` is rejected. -/
theorem decode_max_power_values_rule (s : List Char) (values : List Nat)
    (hvalues : values.length = 3) :
    ((decode_max_power_values s values).1 = true ↔ maxPowerFormat s = true) ∧
      ((decode_max_power_values s values).1 = true →
        (decode_max_power_values s values).2 = maxPowerBytes s) ∧
      (decode_max_power_values "false".toList values).1 = false := by
  have hbytes : maxPowerFormat s = true →
      (decode_max_power_values s values).2 = maxPowerBytes s := by
    intro h
    rw [decode_max_power_values_accepts values h]
    obtain ⟨x1, a1, b1, x2, a2, b2, x3, a3, b3, rfl, -⟩ := maxPowerFormat_shape h
    rcases values with _ | ⟨p, _ | ⟨q, _ | ⟨r, _ | ⟨t, u⟩⟩⟩⟩
    all_goals first | (simp at hvalues; done) | skip
    rfl
  refine ⟨⟨decode_max_power_values_format, ?_⟩, ?_, ?_⟩
  · intro h
    rw [decode_max_power_values_accepts values h]
  · intro h
    exact hbytes (decode_max_power_values_format h)
  · rfl

/-- C40, `decode_max_power_values_rule` at the string `0x1f-0XA0-0x7b` and the
array of three zeros: the status is true and the array holds 31, 160 and 123. -/
theorem decode_max_power_values_rule_witness :
    decode_max_power_values "0x1f-0XA0-0x7b".toList [0, 0, 0] = (true, [31, 160, 123]) ∧
      (decode_max_power_values "0x1f-0XA0-0x7".toList [0, 0, 0]).1 = false :=
  have h := decode_max_power_values_rule "0x1f-0XA0-0x7b".toList [0, 0, 0] (by decide)
  ⟨Prod.ext (h.1.2 (by decide)) ((h.2.1 (h.1.2 (by decide))).trans (by decide)), by decide⟩

/-! # The trimming of advertising data -/

/-- The parse of a byte sequence does not depend on the fuel once there is
enough of it. -/
theorem entriesLoop_fuel : ∀ (fuel1 fuel2 : Nat) (l : List Nat),
    l.length ≤ fuel1 → l.length ≤ fuel2 → entriesLoop fuel1 l = entriesLoop fuel2 l := by
  intro fuel1
  induction fuel1 with
  | zero =>
    intro fuel2 l h1 _
    have hl : l = [] := List.length_eq_zero.mp (by omega)
    subst hl
    cases fuel2 <;> rfl
  | succ n ih =>
    intro fuel2 l h1 h2
    cases l with
    | nil => cases fuel2 <;> rfl
    | cons a rest =>
      cases fuel2 with
      | zero => simp at h2
      | succ m =>
        simp only [List.length_cons] at h1 h2
        simp only [entriesLoop]
        rw [ih m (rest.drop a) (by rw [List.length_drop]; omega)
          (by rw [List.length_drop]; omega)]

/-- The entries of the parse, one after the other, are the byte sequence. -/
theorem entriesLoop_covers : ∀ (fuel : Nat) (l : List Nat), l.length ≤ fuel →
    (entriesLoop fuel l).flatMap entryBytes = l := by
  intro fuel
  induction fuel with
  | zero =>
    intro l h
    have hl : l = [] := List.length_eq_zero.mp (by omega)
    subst hl
    rfl
  | succ n ih =>
    intro l h
    cases l with
    | nil => rfl
    | cons a rest =>
      simp only [List.length_cons] at h
      simp only [entriesLoop, List.flatMap_cons, entryBytes, List.cons_append]
      rw [ih (rest.drop a) (by rw [List.length_drop]; omega), List.take_append_drop]

/-- The loop of `TrimAdvertisingData` appends the significant entries of the
bytes from the offset on. -/
theorem trimLoop_eq (data : List Nat) : ∀ (fuel offset : Nat) (acc : List Nat),
    trimLoop data fuel offset acc =
      acc ++ ((entriesLoop fuel (data.drop offset)).filter significantEntry).flatMap
        entryBytes := by
  intro fuel
  induction fuel with
  | zero =>
    intro offset acc
    simp [trimLoop, entriesLoop]
  | succ n ih =>
    intro offset acc
    rw [trimLoop]
    by_cases hlt : offset < data.length
    · rw [if_pos hlt, List.drop_eq_getElem_cons hlt]
      have hget : data.getD offset 0 = data[offset] := by
        rw [List.getD_eq_getElem?_getD, List.getElem?_eq_getElem hlt]
        rfl
      simp only [entriesLoop, hget]
      rw [ih, List.drop_drop]
      have hoff : offset + 1 + data[offset] = offset + data[offset] + 1 := by omega
      rw [hoff]
      have hlen : ((data.drop (offset + 1)).take data[offset]).length =
          min data[offset] (data.length - (offset + 1)) := by
        rw [List.length_take, List.length_drop]
      by_cases hsig : data[offset] ≠ 0 ∧ data[offset] < data.length - offset
      · have hs : significantEntry
            (data[offset], (data.drop (offset + 1)).take data[offset]) = true := by
          simp only [significantEntry, Bool.and_eq_true, decide_eq_true_eq]
          exact ⟨hsig.1, by rw [hlen]; omega⟩
        rw [if_pos hsig, List.filter_cons_of_pos hs, List.flatMap_cons, List.append_assoc]
        rfl
      · have hs : ¬ significantEntry
            (data[offset], (data.drop (offset + 1)).take data[offset]) = true := by
          simp only [significantEntry, Bool.and_eq_true, decide_eq_true_eq]
          intro h
          apply hsig
          refine ⟨h.1, ?_⟩
          have := h.2
          rw [hlen] at this
          omega
        rw [if_neg hsig, List.filter_cons_of_neg hs]
    · rw [if_neg hlt, List.drop_eq_nil_of_le (by omega)]
      simp [entriesLoop]

/-- C31: for every byte sequence, read as a list of length-prefixed entries
(which, one after the other, are the sequence), `TrimAdvertisingData` returns,
in order, exactly the entries that are not empty and fit entirely inside the
input, so that the entries of length zero, trailing zero padding included, and
an entry whose declared length overflows the remaining data are left out; the
loop has ended by then, more fuel giving the same result. -/
theorem TrimAdvertisingData_rule (data : List Nat) :
    TrimAdvertisingData data =
        ((lengthPrefixedEntries data).filter significantEntry).flatMap entryBytes ∧
      (lengthPrefixedEntries data).flatMap entryBytes = data ∧
      ∀ fuel, data.length ≤ fuel → trimLoop data fuel 0 [] = TrimAdvertisingData data := by
  refine ⟨?_, entriesLoop_covers _ _ (Nat.le_refl _), ?_⟩
  · unfold TrimAdvertisingData lengthPrefixedEntries
    rw [trimLoop_eq, List.drop_zero, List.nil_append]
  · intro fuel hfuel
    unfold TrimAdvertisingData
    rw [trimLoop_eq, trimLoop_eq, List.drop_zero,
      entriesLoop_fuel fuel data.length data hfuel (Nat.le_refl _)]

/-- C31, `TrimAdvertisingData_rule` at the bytes 1, 2, 0, 0, 3, 4, 5, 6: the
entries are (1; 2), two empty entries and (3; 4, 5, 6), the result is the bytes
1, 2, 3, 4, 5, 6, also with fuel for 20 entries. -/
theorem TrimAdvertisingData_rule_witness :
    lengthPrefixedEntries [1, 2, 0, 0, 3, 4, 5, 6] =
        [(1, [2]), (0, []), (0, []), (3, [4, 5, 6])] ∧
      TrimAdvertisingData [1, 2, 0, 0, 3, 4, 5, 6] = [1, 2, 3, 4, 5, 6] ∧
      trimLoop [1, 2, 0, 0, 3, 4, 5, 6] 20 0 [] = [1, 2, 3, 4, 5, 6] :=
  ⟨by decide,
   (TrimAdvertisingData_rule [1, 2, 0, 0, 3, 4, 5, 6]).1.trans (by decide),
   ((TrimAdvertisingData_rule [1, 2, 0, 0, 3, 4, 5, 6]).2.2 20 (by decide)).trans
     (by decide)⟩

/-- The three assertions of the test `trim_advertising_data`: empty entries
are filtered out, trailing zeros are removed, and an overflowing entry is
removed. -/
theorem TrimAdvertisingData_test :
    TrimAdvertisingData [0x1, 0x2, 0x0, 0x0, 0x3, 0x4, 0x5, 0x6] =
        [0x1, 0x2, 0x3, 0x4, 0x5, 0x6] ∧
      TrimAdvertisingData [0x1, 0x2, 0x3, 0x4, 0x5, 0x6, 0x0, 0x0] =
        [0x1, 0x2, 0x3, 0x4, 0x5, 0x6] ∧
      TrimAdvertisingData [0x1, 0x2, 0x3, 0x4, 0x5] = [0x1, 0x2] := by
  decide

/-! # The connection handles reach the ASEs -/

/-- C9 (as amended): for a group with at least one active device in which the
CIS id of every active ASE indexes the table and no other ASE of a device
shares direction and CIS id with an active one, and a handle vector as long as
the table, `AssignCisConnHandles(handles)` followed by
`AssignCisConnHandlesToAses()` returns, and every active ASE whose CIS state and
data-path state were `IDLE` then has `cis_conn_hdl` equal to the `conn_handle`
of the slot its `cis_id` indexes (which is `handles[cis_id]`) and CIS state
`ASSIGNED`; so has every active ASE that shares its CIS id with such an ASE of
its device; every other ASE (an inactive one, or an active one that shares its
CIS id with no such ASE) is as it was; and an expired member stays expired. -/
theorem AssignCisConnHandles_reach_idle_ases (g : LeAudioDeviceGroup)
    (conn_handles : List Nat) (hlen : conn_handles.length = g.cig.cises.length)
    (hactive : ∃ (k : Nat) (d : LeAudioDevice),
      g.leAudioDevices_[k]? = some (some d) ∧ d.HaveActiveAse = true)
    (hwf : ∀ (k : Nat) (d : LeAudioDevice), g.leAudioDevices_[k]? = some (some d) →
      pairUnique d ∧ activeInTable d g.cig.cises.length) :
    ∃ cig2 g2, AssignCisConnHandles g.cig conn_handles = some cig2 ∧
      LeAudioDeviceGroup.AssignCisConnHandlesToAses { g with cig := cig2 } = some g2 ∧
      g2.cig = cig2 ∧
      (∀ k : Nat, g.leAudioDevices_[k]? = some none → g2.leAudioDevices_[k]? = some none) ∧
      ∀ (k : Nat) (d : LeAudioDevice), g.leAudioDevices_[k]? = some (some d) →
        ∃ d2, g2.leAudioDevices_[k]? = some (some d2) ∧
          ∀ (n : Nat) (a : ase), d.ases_[n]? = some a →
            (a.active = true → a.cis_state = CisState.IDLE →
              a.data_path_state = DataPathState.IDLE →
              ∃ c h, cig2.cises[a.cis_id]? = some c ∧ conn_handles[a.cis_id]? = some h ∧
                c.conn_handle = h ∧
                d2.ases_[n]? =
                  some { a with cis_conn_hdl := h, cis_state := CisState.ASSIGNED }) ∧
            (a.active = true → sharesCisIdWithIdle d a = true →
              ∃ c h, cig2.cises[a.cis_id]? = some c ∧ conn_handles[a.cis_id]? = some h ∧
                c.conn_handle = h ∧
                d2.ases_[n]? =
                  some { a with cis_conn_hdl := h, cis_state := CisState.ASSIGNED }) ∧
            (¬ (a.active = true ∧ sharesCisIdWithIdle d a = true) →
              d2.ases_[n]? = some a) := by
  obtain ⟨r, hr, hl, hslots⟩ :=
    assignCisConnHandlesLoop_some conn_handles g.cig.cises 0 (by omega)
  have hcig2 : AssignCisConnHandles g.cig conn_handles = some { cises := r } := by
    unfold AssignCisConnHandles
    rw [hr]
  obtain ⟨g2, hg2, hc2, _, hmem⟩ :=
    AssignCisConnHandlesToAses_spec { g with cig := { cises := r } } hactive
      (fun k d hk => by
        obtain ⟨hu, hin⟩ := hwf k d hk
        refine ⟨hu, ?_⟩
        show activeInTable d r.length
        rw [hl]; exact hin)
  refine ⟨{ cises := r }, g2, hcig2, hg2, hc2, ?_, ?_⟩
  · intro k hk
    obtain ⟨m, hm, hserved⟩ := hmem k none hk
    cases m with
    | none => exact hm
    | some d2 => exact absurd hserved (by simp [memberServed])
  intro k d hk
  obtain ⟨m, hm, hserved⟩ := hmem k (some d) hk
  cases m with
  | none => exact absurd hserved (by simp [memberServed])
  | some d2 =>
    refine ⟨d2, hm, ?_⟩
    obtain ⟨-, -, hexact⟩ := hserved
    intro n a ha
    have hrule := hexact n a ha
    -- an active ASE that shares its CIS id with an idle one
    have hgiven : a.active = true → sharesCisIdWithIdle d a = true →
        ∃ c h, r[a.cis_id]? = some c ∧ conn_handles[a.cis_id]? = some h ∧
          c.conn_handle = h ∧
          d2.ases_[n]? =
            some { a with cis_conn_hdl := h, cis_state := CisState.ASSIGNED } := by
      intro hact hshare
      have hlt : a.cis_id < g.cig.cises.length := (hwf k d hk).2 n a ha hact
      obtain ⟨h, hh, hslot⟩ := hslots a.cis_id _ (List.getElem?_eq_getElem hlt)
      rw [Nat.zero_add] at hh
      refine ⟨_, h, hslot, hh, rfl, ?_⟩
      rw [hrule]
      unfold servedAse
      rw [if_pos ⟨hact, hshare⟩]
      show assignedAse r a = _
      simp only [assignedAse, hslot, Option.map_some']
    refine ⟨?_, hgiven, ?_⟩
    · intro hact hcis hdp
      apply hgiven hact
      unfold sharesCisIdWithIdle
      rw [List.any_eq_true]
      exact ⟨a, List.getElem?_mem ha, by simp [idleActive, hact, hcis, hdp]⟩
    · intro hnot
      rw [hrule]
      unfold servedAse
      rw [if_neg hnot]

/-- C9, `AssignCisConnHandles_reach_idle_ases` at a group of one device with an
active sink ASE on the CIS id 0 with CIS and data-path state `IDLE`, an active
source ASE on the CIS id 0 and an active sink ASE on the CIS id 1 whose CISes
are connected, and an inactive ASE, with the handles 10 and 11: the two ASEs on
the CIS id 0 get the handle 10 and the CIS state `ASSIGNED`, the two others are
as they were. -/
theorem AssignCisConnHandles_reach_idle_ases_witness :
    ((AssignCisConnHandles twoSlotsTable [10, 11]).bind
      (fun cig2 =>
        (LeAudioDeviceGroup.AssignCisConnHandlesToAses
          { leAudioDevices_ := [some mixedStatesDevice], cig := cig2 }).map
          (fun g2 => g2.leAudioDevices_.map
            (fun m => m.map (fun d => d.ases_.map
              (fun a => (a.cis_conn_hdl, a.cis_state))))))) =
      some [some [(10, CisState.ASSIGNED), (10, CisState.ASSIGNED),
                  (50, CisState.CONNECTED), (0, CisState.IDLE)]] ∧
    ∃ cig2 g2, AssignCisConnHandles twoSlotsTable [10, 11] = some cig2 ∧
      LeAudioDeviceGroup.AssignCisConnHandlesToAses
        { leAudioDevices_ := [some mixedStatesDevice], cig := cig2 } = some g2 ∧
      g2.cig = cig2 ∧
      (∀ k : Nat, [some mixedStatesDevice][k]? = some none →
        g2.leAudioDevices_[k]? = some none) ∧
      ∀ (k : Nat) (d : LeAudioDevice), [some mixedStatesDevice][k]? = some (some d) →
        ∃ d2, g2.leAudioDevices_[k]? = some (some d2) ∧
          ∀ (n : Nat) (a : ase), d.ases_[n]? = some a →
            (a.active = true → a.cis_state = CisState.IDLE →
              a.data_path_state = DataPathState.IDLE →
              ∃ c h, cig2.cises[a.cis_id]? = some c ∧ [10, 11][a.cis_id]? = some h ∧
                c.conn_handle = h ∧
                d2.ases_[n]? =
                  some { a with cis_conn_hdl := h, cis_state := CisState.ASSIGNED }) ∧
            (a.active = true → sharesCisIdWithIdle d a = true →
              ∃ c h, cig2.cises[a.cis_id]? = some c ∧ [10, 11][a.cis_id]? = some h ∧
                c.conn_handle = h ∧
                d2.ases_[n]? =
                  some { a with cis_conn_hdl := h, cis_state := CisState.ASSIGNED }) ∧
            (¬ (a.active = true ∧ sharesCisIdWithIdle d a = true) →
              d2.ases_[n]? = some a) :=
  ⟨by decide,
   AssignCisConnHandles_reach_idle_ases
    { leAudioDevices_ := [some mixedStatesDevice], cig := twoSlotsTable } [10, 11] (by decide)
    ⟨0, mixedStatesDevice, rfl, by decide⟩
    (by
      intro k d hk
      have hk0 : k = 0 := by
        have := lt_of_getElem_some hk
        simp only [List.length_singleton] at this
        omega
      subst hk0
      simp only [List.getElem?_cons_zero, Option.some.injEq] at hk
      subst hk
      exact ⟨pairUnique_of_noSharedCisId mixedStatesDevice (by decide),
        activeInTable_of_activeIdsInTable mixedStatesDevice 2 (by decide)⟩)⟩

/-! # The round trip of `Configure` and `GetConfiguration` over later calls -/

/-- A valid entry with a configuration stays in the cache over every call that
is neither an invalidation nor a direct refresh of the entry. -/
theorem applyGroupCall_valid (env : Env) (g : LeAudioDeviceGroup) (call : GroupCall)
    (context_type : Nat) (conf : AudioSetConfigurationPtr)
    (h : cacheAt g.context_to_configuration_cache_map context_type = some (true, some conf))
    (hctx : context_type ≠ env.UNINITIALIZED) (hcall : keepsEntryOf context_type call = true) :
    cacheAt (applyGroupCall env g call).context_to_configuration_cache_map context_type =
      some (true, some conf) := by
  cases call with
  | Later call => exact applyLaterCall_valid env g call context_type conf h hctx
  | UpdateAudioSetConfigurationCache ctx_type =>
    simp only [keepsEntryOf, decide_eq_true_eq] at hcall
    simp only [applyGroupCall]
    rw [UpdateAudioSetConfigurationCache_other env g ctx_type context_type
      (fun e => hcall e.symm)]
    exact h
  | InvalidateCachedConfigurations => exact absurd hcall (by simp [keepsEntryOf])

theorem applyGroupCalls_valid (env : Env) (calls : List GroupCall) (context_type : Nat)
    (conf : AudioSetConfigurationPtr) (hctx : context_type ≠ env.UNINITIALIZED)
    (hcalls : ∀ call ∈ calls, keepsEntryOf context_type call = true) :
    ∀ g : LeAudioDeviceGroup,
      cacheAt g.context_to_configuration_cache_map context_type = some (true, some conf) →
      cacheAt (applyGroupCalls env g calls).context_to_configuration_cache_map context_type =
        some (true, some conf) := by
  induction calls with
  | nil => intro g h; exact h
  | cons c rest ih =>
    intro g h
    unfold applyGroupCalls
    rw [List.foldl_cons]
    exact ih (fun call hc => hcalls call (List.mem_cons_of_mem _ hc)) (applyGroupCall env g c)
      (applyGroupCall_valid env g c context_type conf h hctx
        (hcalls c (List.mem_cons_self _ _)))

/-- C16, as amended: the round trip of `Configure` and `GetConfiguration`. If
`Configure(C, ...)` returns `true`, then `stream_conf.conf` is the configuration
its `GetConfiguration(C)` selected, and after any sequence of later calls
(lookups and `Configure` calls for any context, `AddNode`, `RemoveNode`,
`ReloadAudioLocations`, `UpdateAudioSetConfigurationCache` for another context)
none of which is `InvalidateCachedConfigurations` or a direct
`UpdateAudioSetConfigurationCache(C)`, a `GetConfiguration(C)` returns that same
pointer and changes nothing. -/
theorem Configure_round_trip (env : Env) (g g1 : LeAudioDeviceGroup) (context_type : Nat)
    (metadata_context_types : BidirectionalPair Nat)
    (ccid_lists : BidirectionalPair (List Nat))
    (h : g.Configure env context_type metadata_context_types ccid_lists = some (true, g1)) :
    ∃ conf, (g.GetConfiguration env context_type).1 = some conf ∧
      g1.stream_conf_conf = some conf ∧
      ∀ calls : List GroupCall, (∀ call ∈ calls, keepsEntryOf context_type call = true) →
        (applyGroupCalls env g1 calls).GetConfiguration env context_type =
          (some conf, applyGroupCalls env g1 calls) := by
  have hcache := Configure_cache env g context_type metadata_context_types ccid_lists _ h
  unfold LeAudioDeviceGroup.Configure at h
  dsimp only at h hcache
  cases hget : (g.GetConfiguration env context_type).1 with
  | none =>
    rw [hget] at h
    simp at h
  | some conf =>
    rw [hget] at h
    dsimp only at h
    obtain ⟨hvalid, hctx⟩ := GetConfiguration_some env g context_type conf hget
    refine ⟨conf, rfl, ?_, ?_⟩
    · split at h
      · exact absurd h (by simp)
      · simp at h
      · simp only [Option.some.injEq, Prod.mk.injEq, true_and] at h
        rw [← h]
    · intro calls hcalls
      apply GetConfiguration_of_valid env _ context_type conf _ hctx
      apply applyGroupCalls_valid env calls context_type conf hctx hcalls g1
      rw [hcache]
      exact hvalid

/-- C16, `Configure_round_trip` at a group of one earbud and a codec manager
that offers a configuration with one sink requirement: the pointer stored is
the one looked up, and it is returned after a lookup for another context, a
new member, a reload of the locations and a direct refresh of the entry of
another context. -/
theorem Configure_round_trip_witness :
    ∃ g1, leftEarbudGroup.Configure offeringEnv 4 ⟨4, 4⟩ ⟨[], []⟩ = some (true, g1) ∧
      g1.stream_conf_conf = some ⟨104, sinkMonoConf⟩ ∧
      (applyGroupCalls offeringEnv g1
          [GroupCall.Later (LaterCall.GetConfiguration 2),
           GroupCall.Later (LaterCall.Change (GroupChange.AddNode micDevice)),
           GroupCall.Later (LaterCall.Change GroupChange.ReloadAudioLocations),
           GroupCall.UpdateAudioSetConfigurationCache 2]).GetConfiguration offeringEnv 4 =
        (some ⟨104, sinkMonoConf⟩,
          applyGroupCalls offeringEnv g1
            [GroupCall.Later (LaterCall.GetConfiguration 2),
             GroupCall.Later (LaterCall.Change (GroupChange.AddNode micDevice)),
             GroupCall.Later (LaterCall.Change GroupChange.ReloadAudioLocations),
             GroupCall.UpdateAudioSetConfigurationCache 2]) := by
  have hrun : ∃ g1, leftEarbudGroup.Configure offeringEnv 4 ⟨4, 4⟩ ⟨[], []⟩ =
      some (true, g1) := by
    cases hc : leftEarbudGroup.Configure offeringEnv 4 ⟨4, 4⟩ ⟨[], []⟩ with
    | none => exact absurd hc (by decide)
    | some r =>
      obtain ⟨b, g1⟩ := r
      have hb : ((leftEarbudGroup.Configure offeringEnv 4 ⟨4, 4⟩ ⟨[], []⟩).map Prod.fst) =
          some true := by decide
      rw [hc] at hb
      simp only [Option.map_some', Option.some.injEq] at hb
      subst hb
      exact ⟨g1, rfl⟩
  obtain ⟨g1, h1⟩ := hrun
  obtain ⟨conf, hconf, hstream, hlater⟩ := Configure_round_trip offeringEnv leftEarbudGroup g1 4
    ⟨4, 4⟩ ⟨[], []⟩ h1
  have hc : (leftEarbudGroup.GetConfiguration offeringEnv 4).1 =
      some ⟨104, sinkMonoConf⟩ := by decide
  rw [hc] at hconf
  simp only [Option.some.injEq] at hconf
  subst hconf
  exact ⟨g1, h1, hstream, hlater _ (by decide)⟩

/-- C16, counterexample to the claim as stated: with a codec manager that
selects anew at every call, `Configure(4, ...)` on a group of one earbud returns
true and stores the pointer at the address 101; after `AddNode` and a direct
`UpdateAudioSetConfigurationCache(4)`, with no
`InvalidateCachedConfigurations` in between, `GetConfiguration(4)` returns the
pointer at the address 102. -/
theorem Configure_round_trip_direct_update :
    (leftEarbudGroup.Configure renewingEnv 4 ⟨4, 4⟩ ⟨[], []⟩).map
        (fun r => (r.1, r.2.stream_conf_conf.map (fun p => p.address),
          ((applyGroupCalls renewingEnv r.2
            [GroupCall.Later (LaterCall.Change (GroupChange.AddNode micDevice)),
             GroupCall.UpdateAudioSetConfigurationCache 4]).GetConfiguration renewingEnv 4).1.map
            (fun p => p.address))) =
      some (true, some 101, some 102) := by
  decide

end LeAudio
